import Mathlib

/-! GraphBLAS: shallow embeddings of container allocation
(CUDA/GB_Matrix_allocate.c), the second phase of the element-wise addition
(Source/GB_add_phase2.c), the bitmap assignment methods
(Source/GB_bitmap_assign_M_accum.c, GB_bitmap_assign_fullM_accum.c,
GB_bitmap_assign_fullM_noaccum.c), the semiring code
(CUDA/GB_cuda_stringify_semiring.c), the reduction to a vector: its checks,
the orientation of `A`, the symbolic phase and the choice of the method
(Source/GB_reduce_to_vector.c), the export in CSC form
(Source/GxB_Matrix_export_CSC.c), the index-unary operators
(Source/GxB_IndexUnaryOp_new.c, GxB_IndexUnaryOp_ttype_name.c) and the hash
functions of the saxpy3 method (Source/GB_saxpy3.h).

A C struct becomes a Lean structure, `int64_t` values are integers with the
two's-complement wrap written out, `size_t` values are naturals reduced modulo
2^64, and a pointer to a buffer is an `Option`: `none` is NULL, `some blk` is a
block of memory with content `blk` (or its address, where only the identity of
the buffer matters).  What a function calls and the sources do not hold is a
parameter of its embedding.
-/

namespace GraphBLAS

/-! ## Machine arithmetic -/

/-- Result of an `int64_t` operation whose mathematical value is `x`
(two's complement, 64 bits). -/
def int64_wrap (x : Int) : Int :=
  (x + 9223372036854775808) % 18446744073709551616 - 9223372036854775808

/-- Conversion of an `int64_t` value to `size_t` (64 bits, unsigned). -/
def size_of_int64 (x : Int) : Nat :=
  (x % 18446744073709551616).toNat

/-- Product of two `size_t` values. -/
def size_mul (a b : Nat) : Nat :=
  (a * b) % 18446744073709551616

/-- The C constant `sizeof (int64_t)`. -/
def sizeof_int64 : Nat := 8

/-- The C constant `sizeof (bool)`. -/
def sizeof_bool : Nat := 1

/-! ## Constants of GraphBLAS.h and GB.h -/

/-- Modelled from the spec: the format code `GxB_HYPERSPARSE` of GraphBLAS.h,
a header that is not among the sources; the value is the upstream one, and only
that the four codes differ is used. -/
def GxB_HYPERSPARSE : Int := 1

/-- Modelled from the spec: the format code `GxB_SPARSE` of GraphBLAS.h,
a header that is not among the sources; the value is the upstream one, and only
that the four codes differ is used. -/
def GxB_SPARSE : Int := 2

/-- Modelled from the spec: the format code `GxB_BITMAP` of GraphBLAS.h,
a header that is not among the sources; the value is the upstream one, and only
that the four codes differ is used. -/
def GxB_BITMAP : Int := 4

/-- Modelled from the spec: the format code `GxB_FULL` of GraphBLAS.h,
a header that is not among the sources; the value is the upstream one, and only
that the four codes differ is used. -/
def GxB_FULL : Int := 8

/-- Modelled from the spec: the tag `GB_MAGIC` of a valid object (GB.h, a header
that is not among the sources). -/
def GB_MAGIC : Int := 32199698172899170

/-! ## Data model -/

/-- Content of a block of memory: the byte stored at each offset. -/
abbrev Block := Nat → Nat

/-- The type descriptor `GrB_Type`; `size` is `type->size`, a `size_t`. -/
structure GB_Type_opaque where
  size : Nat

/-- The list of pending tuples `GB_Pending`; only whether the pointer is NULL is
used here. -/
structure GB_Pending_struct where
  n : Int

/-- The struct `GB_Matrix_opaque`, with the fields that `GB_Matrix_allocate`
writes (`header_size`, a `sizeof` of the struct itself, is left out).  The two
`float` thresholds are kept as the decimal literals of the source. -/
structure GB_Matrix_opaque where
  magic : Int
  logger : Option Block
  logger_size : Nat
  type : GB_Type_opaque
  plen : Int
  vlen : Int
  vdim : Int
  nvec : Int
  nvec_nonempty : Int
  h : Option Block
  p : Option Block
  i : Option Block
  x : Option Block
  b : Option Block
  nzmax : Int
  nvals : Int
  p_size : Nat
  h_size : Nat
  b_size : Nat
  i_size : Nat
  x_size : Nat
  Pending : Option GB_Pending_struct
  nzombies : Nat
  hyper_switch : Rat
  bitmap_switch : Rat
  sparsity : Int
  p_shallow : Bool
  h_shallow : Bool
  b_shallow : Bool
  i_shallow : Bool
  x_shallow : Bool
  static_header : Bool
  is_csc : Bool
  jumbled : Bool
  iso : Bool

/-- Modelled from the spec: the allocate capability behind `rmm_malloc`
(pmr_malloc.h is not among the sources).  `header` is the outcome of the request
for the struct: NULL, or a struct whose fields hold unspecified values.
`block k size` is the outcome of the `k`-th request for a buffer, of `size`
bytes, in program order: NULL, or a block with unspecified content. -/
structure Heap where
  header : Option GB_Matrix_opaque
  block : Nat → Nat → Option Block

/-- Modelled from the spec: `rmm_malloc (size)` as the `k`-th buffer request made
of the heap (pmr_malloc.h is not among the sources); it returns NULL on
failure and does not initialise the block. -/
def rmm_malloc (heap : Heap) (k : Nat) (size : Nat) : Option Block :=
  heap.block k size

/-- The ways a call can end without returning. -/
inductive Fault where
  | null_dereference
  | assertion_failure
  deriving DecidableEq

/-! ## GB_Matrix_allocate -/

/-- The function `GB_Matrix_allocate` of CUDA/GB_Matrix_allocate.c, statement by
statement.  The header is the first allocation; it is written through without a
test, so a NULL header is a fault.  The buffer requests are numbered in program
order: `x` is request 0, then `b` (Bitmap), `p`, `i` (Sparse) or `p`, `h`, `i`
(Hypersparse). -/
def GB_Matrix_allocate (heap : Heap) (type : GB_Type_opaque) (nrows ncols : Int)
    (sparsity : Int) (is_csc iso : Bool) (anz nvec : Int) :
    Except Fault GB_Matrix_opaque :=
  match heap.header with
  | none => Except.error Fault.null_dereference
  | some A =>
    let A := { A with magic := GB_MAGIC, logger := none, logger_size := 0, type := type }
    let A := { A with is_csc := is_csc, iso := iso }
    let A := if is_csc then { A with vlen := nrows, vdim := ncols }
             else { A with vlen := ncols, vdim := nrows }
    let anz := if sparsity = GxB_FULL ∨ sparsity = GxB_BITMAP
               then int64_wrap (nrows * ncols) else anz
    let A := { A with p_size := 0, h_size := 0, b_size := 0, i_size := 0, x_size := 0 }
    let A := { A with p := none, h := none, b := none, i := none, x := none }
    let A := if iso then { A with x_size := type.size }
             else { A with x_size := size_mul (size_of_int64 anz) type.size }
    let A := { A with x := rmm_malloc heap 0 A.x_size }
    let A := { A with nzmax := anz, nvals := 0, nzombies := 0, jumbled := false,
                      Pending := none, nvec_nonempty := -1,
                      hyper_switch := 0.0625, bitmap_switch := 0.10,
                      sparsity := sparsity }
    let A :=
      if sparsity = GxB_FULL then
        let A := { A with plen := -1 }
        let A := { A with nvec := A.vdim }
        { A with nvec_nonempty := if A.vlen > 0 then A.vdim else 0 }
      else if sparsity = GxB_BITMAP then
        let A := { A with plen := -1 }
        let A := { A with nvec := A.vdim }
        let A := { A with nvec_nonempty := if A.vlen > 0 then A.vdim else 0 }
        let A := { A with b_size := size_mul (size_of_int64 anz) sizeof_bool }
        { A with b := rmm_malloc heap 1 A.b_size }
      else if sparsity = GxB_SPARSE then
        let A := { A with plen := A.vdim }
        let A := { A with nvec := A.plen }
        let A := { A with p_size := size_mul (size_of_int64 (int64_wrap (A.plen + 1))) sizeof_int64 }
        let A := { A with i_size := size_mul (size_of_int64 anz) sizeof_int64 }
        let A := { A with p := rmm_malloc heap 1 A.p_size }
        { A with i := rmm_malloc heap 2 A.i_size }
      else if sparsity = GxB_HYPERSPARSE then
        let A := { A with plen := nvec }
        let A := { A with nvec := nvec }
        let A := { A with p_size := size_mul (size_of_int64 (int64_wrap (A.plen + 1))) sizeof_int64 }
        let A := { A with h_size := size_mul (size_of_int64 A.plen) sizeof_int64 }
        let A := { A with i_size := size_mul (size_of_int64 anz) sizeof_int64 }
        let A := { A with p := rmm_malloc heap 1 A.p_size }
        let A := { A with h := rmm_malloc heap 2 A.h_size }
        { A with i := rmm_malloc heap 3 A.i_size }
      else A
    let A := { A with p_shallow := false, h_shallow := false, b_shallow := false,
                      i_shallow := false, x_shallow := false, static_header := false }
    Except.ok A

/-- The function `GB_Vector_allocate`: the assertion, then the call
`GB_Matrix_allocate (type, 1, length, sparsity, true, iso, anz, 1)`.  The
`assert` is taken as compiled in: a failed assertion ends the call. -/
def GB_Vector_allocate (heap : Heap) (type : GB_Type_opaque) (length : Int)
    (sparsity : Int) (iso : Bool) (anz : Int) : Except Fault GB_Matrix_opaque :=
  if sparsity = GxB_HYPERSPARSE then Except.error Fault.assertion_failure
  else GB_Matrix_allocate heap type 1 length sparsity true iso anz 1

/-- The function `GB_Scalar_allocate`: the assertion (taken as compiled in), then
the call `GB_Matrix_allocate (type, 1, 1, sparsity, true, false, 1, 1)`. -/
def GB_Scalar_allocate (heap : Heap) (type : GB_Type_opaque) (sparsity : Int) :
    Except Fault GB_Matrix_opaque :=
  if sparsity = GxB_HYPERSPARSE then Except.error Fault.assertion_failure
  else GB_Matrix_allocate heap type 1 1 sparsity true false 1 1

/-! ## Concrete heaps and types for the examples -/

/-- A header block as the allocator may return it: every field holds a leftover
value. -/
def stale_header : GB_Matrix_opaque :=
  { magic := 7, logger := some (fun _ => 255), logger_size := 7,
    type := { size := 7 }, plen := 7, vlen := 7, vdim := 7, nvec := 7,
    nvec_nonempty := 7, h := some (fun _ => 255), p := some (fun _ => 255),
    i := some (fun _ => 255), x := some (fun _ => 255), b := some (fun _ => 255),
    nzmax := 7, nvals := 7, p_size := 7, h_size := 7, b_size := 7, i_size := 7,
    x_size := 7, Pending := some { n := 7 }, nzombies := 7, hyper_switch := 7,
    bitmap_switch := 7, sparsity := 7, p_shallow := true, h_shallow := true,
    b_shallow := true, i_shallow := true, x_shallow := true,
    static_header := true, is_csc := true, jumbled := true, iso := true }

/-- A heap on which every request succeeds and every block still holds the
byte 255 of an earlier use. -/
def stale_heap : Heap :=
  { header := some stale_header, block := fun _ _ => some (fun _ => 255) }

/-- A heap on which the header and every buffer but the first (`x`) can be
allocated. -/
def heap_without_x : Heap :=
  { header := some stale_header,
    block := fun k _ => if k = 0 then none else some (fun _ => 255) }

/-- A heap that cannot even provide the header. -/
def exhausted_heap : Heap :=
  { header := none, block := fun _ _ => none }

/-- An 8-byte element type, such as `GrB_FP64`. -/
def fp64_type : GB_Type_opaque := { size := 8 }

/-! ## Zombies (GB.h) -/

/-- Modelled from the spec: the macro `GB_FLIP (i)` of GB.h, a header that is not
among the sources; upstream it is `(-(i)-2)`, computed on `int64_t`. -/
def GB_FLIP (i : Int) : Int := int64_wrap (-i - 2)

/-! ## GB_add_phase2 (Source/GB_add_phase2.c) -/

namespace Add

/-- Modelled from the spec: the status codes of GraphBLAS.h that matter here (the
header is not among the sources). -/
inductive GrB_Info where
  | GrB_SUCCESS
  | GrB_OUT_OF_MEMORY
  | GrB_PANIC
  deriving DecidableEq

/-- An array of bytes, `GB_void *`. -/
abbrev GB_void := List Nat

/-- A typecast function `GB_cast_function`: called as `cast (z, x, s)` in C, it is
given the bytes at `x` and the size `s` and yields the bytes written to `z`. -/
abbrev GB_cast_function := GB_void → Nat → GB_void

/-- The type descriptor as `GB_add_phase2` reads it: `type->code` and
`type->size`. -/
structure GB_Type_opaque where
  code : Int
  size : Nat

/-- The binary operator as `GB_add_phase2` reads it; `function` yields the bytes
of `z` from the bytes of `x` and `y`. -/
structure GB_BinaryOp_opaque where
  xtype : GB_Type_opaque
  ytype : GB_Type_opaque
  ztype : GB_Type_opaque
  function : GB_void → GB_void → GB_void

/-- The matrix struct with the fields that `GB_add_phase2` reads or writes.  The
arrays `p`, `h`, `i` hold `int64_t` items and `x` holds bytes; a NULL pointer
is `none`. -/
structure GB_Matrix_opaque where
  magic : Int
  type : GB_Type_opaque
  hyper_ratio : Rat
  plen : Int
  vlen : Int
  vdim : Int
  nvec : Int
  nvec_nonempty : Int
  h : Option (List Int)
  p : Option (List Int)
  i : Option (List Int)
  x : Option GB_void
  is_csc : Bool

/-- Modelled from the spec: what the macro `GB_CREATE` (GB.h, not among the
sources) leaves behind: `info` other than `GrB_SUCCESS` and `C` still NULL, or
`GrB_SUCCESS` and a new header `C`. -/
inductive GB_create_outcome where
  | failure (info : GrB_Info) (h : info ≠ GrB_Info.GrB_SUCCESS)
  | success (C : GB_Matrix_opaque)

/-- Modelled from the spec: the macro `GB_REALLOC_MEMORY (p, nitems_new,
nitems_old, size, ok)` of GB.h (not among the sources): the block is resized
to `nitems_new` items and keeps the items that fit. -/
def GB_REALLOC_MEMORY (p : List Int) (nitems_new _nitems_old : Nat) : List Int :=
  p.take nitems_new ++ List.replicate (nitems_new - p.length) 0

/-- Modelled from the spec: the function `GB_copy_user_user (z, x, s)` of GB.h (not
among the sources): a plain copy of `s` bytes. -/
def GB_copy_user_user : GB_cast_function :=
  fun x s => x.take s

/-- The state of the loop of lines 280-289: the arrays `Cp` and `Ch`, written in
place, and the counter `cnvec_new`. -/
structure PruneState where
  Cp : List Int
  Ch : List Int
  cnvec_new : Nat

/-- One iteration, for the index `k`, of the loop of lines 280-289. -/
def prune_step (s : PruneState) (k : Nat) : PruneState :=
  let cjnz := int64_wrap (s.Cp.getD (k + 1) 0 - s.Cp.getD k 0)
  if cjnz > 0 then
    let Cp := s.Cp.set s.cnvec_new (s.Cp.getD k 0)
    let Ch := s.Ch.set s.cnvec_new (s.Ch.getD k 0)
    { Cp := Cp, Ch := Ch, cnvec_new := s.cnvec_new + 1 }
  else s

/-- The pruning pass, lines 273-291: the loop over `k = 0 .. Cnvec-1`, then
`Cp [cnvec_new] = Cp [Cnvec]`.  `Cnvec` is a count, taken as a natural
number. -/
def prune_pass (Cp Ch : List Int) (Cnvec : Nat) : PruneState :=
  let s := (List.range Cnvec).foldl prune_step { Cp := Cp, Ch := Ch, cnvec_new := 0 }
  { s with Cp := s.Cp.set s.cnvec_new (s.Cp.getD Cnvec 0) }

/-- Lines 271-302, for a hypersparse `C` whose `C->p` and `C->h` are the arrays
`Cp` and `Ch`: the pruning pass, `C->nvec`, the two `GB_REALLOC_MEMORY` to
`cnvec_new` items, and `C->plen`. -/
def prune (C : GB_Matrix_opaque) (Cp Ch : List Int) (Cnvec max_Cnvec : Nat) :
    GB_Matrix_opaque :=
  let s := prune_pass Cp Ch Cnvec
  let C := { C with p := some s.Cp, h := some s.Ch }
  let C := { C with nvec := s.cnvec_new }
  let C := { C with p := some (GB_REALLOC_MEMORY s.Cp s.cnvec_new (max 2 (Cnvec + 1))) }
  let C := { C with h := some (GB_REALLOC_MEMORY s.Ch s.cnvec_new max_Cnvec) }
  { C with plen := s.cnvec_new }

/-- What a call of `GB_add_phase2` leaves behind: the returned `info`, the
content of `*Chandle`, whether `GB_FREE_MEMORY` was applied to `Cp` and to
`Ch`, and the operands. -/
structure Result where
  info : GrB_Info
  Chandle : Option GB_Matrix_opaque
  Cp_freed : Bool
  Ch_freed : Bool
  M : Option GB_Matrix_opaque
  A : GB_Matrix_opaque
  B : GB_Matrix_opaque

/-- The function `GB_add_phase2`.  `GB_create` stands for the macro `GB_CREATE`
and is given its arguments; `worker` stands for the switch factory or the
generic worker with GB_add_template.c, which fill `C->i` and `C->x` and leave
the rest of `C` and the operands as they are. -/
def GB_add_phase2 (ctype : GB_Type_opaque) (C_is_csc : Bool) (Cp : List Int)
    (Cnvec_nonempty : Int) (Cnvec max_Cnvec : Nat) (Ch : Option (List Int))
    (M : Option GB_Matrix_opaque) (A B : GB_Matrix_opaque)
    (GB_create : GB_Type_opaque → Int → Int → Bool → Bool → Rat → Nat → Int →
      GB_create_outcome)
    (worker : GB_Matrix_opaque → List Int × GB_void) : Result :=
  let cnz := Cp.getD Cnvec 0
  let Chandle : Option GB_Matrix_opaque := none
  let C_is_hyper := Ch.isSome
  match GB_create ctype A.vlen A.vdim C_is_csc C_is_hyper A.hyper_ratio Cnvec cnz with
  | GB_create_outcome.failure info _ =>
    { info := info, Chandle := Chandle, Cp_freed := true, Ch_freed := true,
      M := M, A := A, B := B }
  | GB_create_outcome.success C =>
    let C := { C with p := some Cp }
    let C := match Ch with
      | some ch => { C with h := some ch, nvec := Cnvec }
      | none => C
    let C := { C with nvec_nonempty := Cnvec_nonempty }
    let C := { C with magic := GB_MAGIC }
    let C := { C with i := some (worker C).1, x := some (worker C).2 }
    let C := match Ch with
      | some ch => if Cnvec_nonempty < Cnvec then prune C Cp ch Cnvec max_Cnvec else C
      | none => C
    { info := GrB_Info.GrB_SUCCESS, Chandle := some C, Cp_freed := false,
      Ch_freed := false, M := M, A := A, B := B }

/-- The generic worker's local variables, lines 189-192. -/
structure Worker where
  fadd : Option (GB_void → GB_void → GB_void)
  csize : Nat
  asize : Nat
  bsize : Nat
  xsize : Nat
  ysize : Nat
  zsize : Nat
  cast_A_to_X : GB_cast_function
  cast_B_to_Y : GB_cast_function
  cast_A_to_C : GB_cast_function
  cast_B_to_C : GB_cast_function
  cast_Z_to_C : GB_cast_function

/-- Lines 194-225: the set-up of the generic worker.  `GB_cast_factory` (GB.h, not
among the sources) is a parameter. -/
def generic_worker (op : Option GB_BinaryOp_opaque) (ctype : GB_Type_opaque)
    (A B : GB_Matrix_opaque) (GB_cast_factory : Int → Int → GB_cast_function) : Worker :=
  let ccode := ctype.code
  match op with
  | none =>
    let csize := ctype.size
    { fadd := none, csize := csize, asize := csize, bsize := csize, xsize := csize,
      ysize := csize, zsize := csize,
      cast_A_to_X := GB_copy_user_user, cast_B_to_Y := GB_copy_user_user,
      cast_A_to_C := GB_copy_user_user, cast_B_to_C := GB_copy_user_user,
      cast_Z_to_C := GB_copy_user_user }
  | some op =>
    { fadd := some op.function, csize := ctype.size, asize := A.type.size,
      bsize := B.type.size, xsize := op.xtype.size, ysize := op.ytype.size,
      zsize := op.ztype.size,
      cast_A_to_X := GB_cast_factory op.xtype.code A.type.code,
      cast_B_to_Y := GB_cast_factory op.ytype.code B.type.code,
      cast_A_to_C := GB_cast_factory ccode A.type.code,
      cast_B_to_C := GB_cast_factory ccode B.type.code,
      cast_Z_to_C := GB_cast_factory ccode op.ztype.code }

/-- The macro `GB_COPY_A_TO_C (cij, Ax, pA)`: the bytes of `cij`. -/
def GB_COPY_A_TO_C (w : Worker) (Ax : GB_void) (pA : Nat) : GB_void :=
  w.cast_A_to_C (Ax.drop (pA * w.asize)) w.asize

/-- The macro `GB_COPY_B_TO_C (cij, Bx, pB)`: the bytes of `cij`. -/
def GB_COPY_B_TO_C (w : Worker) (Bx : GB_void) (pB : Nat) : GB_void :=
  w.cast_B_to_C (Bx.drop (pB * w.bsize)) w.bsize

/-- The macro `GB_GETA (aij, Ax, pA)`: the bytes of `aij`. -/
def GB_GETA (w : Worker) (Ax : GB_void) (pA : Nat) : GB_void :=
  w.cast_A_to_X (Ax.drop (pA * w.asize)) w.asize

/-- The macro `GB_GETB (bij, Bx, pB)`: the bytes of `bij`. -/
def GB_GETB (w : Worker) (Bx : GB_void) (pB : Nat) : GB_void :=
  w.cast_B_to_Y (Bx.drop (pB * w.bsize)) w.bsize

/-- The macro `GB_BINOP (cij, aij, bij)`: the bytes of `cij`, or `none` when the
assertion `op != NULL` fails. -/
def GB_BINOP (w : Worker) (aij bij : GB_void) : Option GB_void :=
  match w.fadd with
  | none => none
  | some fadd =>
    let z := fadd aij bij
    some (w.cast_Z_to_C z w.csize)

/-- Modelled from the spec: phase 2 of GB_add_template.c (not among the sources)
for one vector of `C` and no mask, as the two-way merge-join of section 4.3:
the entries of `A(:,j)` and of `B(:,j)` are given as pairs of an index and a
position in `Ax` or `Bx`, in ascending order of the index.  An index only in
`A` is copied with `GB_COPY_A_TO_C`, one only in `B` with `GB_COPY_B_TO_C`, one
in both gets `GB_BINOP` of `GB_GETA` and `GB_GETB`. -/
def GB_add_template_vector (w : Worker) (Ax Bx : GB_void) :
    List (Int × Nat) → List (Int × Nat) → Option (List (Int × GB_void))
  | [], bs => some (bs.map fun e => (e.1, GB_COPY_B_TO_C w Bx e.2))
  | a :: as, [] => some ((a :: as).map fun e => (e.1, GB_COPY_A_TO_C w Ax e.2))
  | a :: as, b :: bs =>
    if a.1 < b.1 then
      (GB_add_template_vector w Ax Bx as (b :: bs)).map
        fun out => (a.1, GB_COPY_A_TO_C w Ax a.2) :: out
    else if b.1 < a.1 then
      (GB_add_template_vector w Ax Bx (a :: as) bs).map
        fun out => (b.1, GB_COPY_B_TO_C w Bx b.2) :: out
    else
      match GB_BINOP w (GB_GETA w Ax a.2) (GB_GETB w Bx b.2) with
      | none => none
      | some cij =>
        (GB_add_template_vector w Ax Bx as bs).map fun out => (a.1, cij) :: out
termination_by as bs => as.length + bs.length

/-! ### Concrete inputs for the examples -/

/-- A 4-byte type, such as `GrB_INT32`. -/
def int32_type : GB_Type_opaque := { code := 6, size := 4 }

/-- A header as `GB_CREATE` returns it: no arrays yet, `plen` and `nvec` as
asked. -/
def new_header (vlen vdim : Int) (plen : Nat) : GB_Matrix_opaque :=
  { magic := 0, type := int32_type, hyper_ratio := 0.0625, plen := plen, vlen := vlen,
    vdim := vdim, nvec := 0, nvec_nonempty := 0, h := none, p := none, i := none,
    x := none, is_csc := true }

/-- A `GB_CREATE` that succeeds. -/
def create_ok : GB_Type_opaque → Int → Int → Bool → Bool → Rat → Nat → Int →
    GB_create_outcome :=
  fun _ vlen vdim _ _ _ plen _ => GB_create_outcome.success (new_header vlen vdim plen)

/-- A `GB_CREATE` that runs out of memory. -/
def create_out_of_memory : GB_Type_opaque → Int → Int → Bool → Bool → Rat → Nat → Int →
    GB_create_outcome :=
  fun _ _ _ _ _ _ _ _ => GB_create_outcome.failure GrB_Info.GrB_OUT_OF_MEMORY (by decide)

/-- An operand of 10 by 10 with no entries. -/
def empty_operand : GB_Matrix_opaque :=
  { magic := GB_MAGIC, type := int32_type, hyper_ratio := 0.0625, plen := 0, vlen := 10,
    vdim := 10, nvec := 0, nvec_nonempty := 0, h := some [], p := some [0], i := some [],
    x := some [], is_csc := true }

/-- A 1-byte type, such as `GrB_UINT8`. -/
def uint8_type : GB_Type_opaque := { code := 2, size := 1 }

/-- The operator `GrB_PLUS_UINT8` on 1-byte values. -/
def plus_uint8 : GB_BinaryOp_opaque :=
  { xtype := uint8_type, ytype := uint8_type, ztype := uint8_type,
    function := fun x y => [(x.headD 0 + y.headD 0) % 256] }

/-- An operand of 10 by 10 of 1-byte values (only its type is read). -/
def uint8_operand : GB_Matrix_opaque :=
  { magic := GB_MAGIC, type := uint8_type, hyper_ratio := 0.0625, plen := 0, vlen := 10,
    vdim := 10, nvec := 0, nvec_nonempty := 0, h := some [], p := some [0], i := some [],
    x := some [], is_csc := true }

/-! ### Notions used to state the loop invariant -/

/-- The positions `j < k` of the vectors that are not empty, in ascending order. -/
def surviving (Cp : List Int) (k : Nat) : List Nat :=
  (List.range k).filter fun j => decide (Cp.getD j 0 < Cp.getD (j + 1) 0)

/-- The invariant of the loop of lines 280-289 after `k` iterations. -/
structure PruneInv (Cp Ch : List Int) (k : Nat) (s : PruneState) : Prop where
  count : s.cnvec_new = (surviving Cp k).length
  lenp : s.Cp.length = Cp.length
  lenh : s.Ch.length = Ch.length
  restp : ∀ i, s.cnvec_new ≤ i → s.Cp.getD i 0 = Cp.getD i 0
  resth : ∀ i, s.cnvec_new ≤ i → s.Ch.getD i 0 = Ch.getD i 0
  donep : ∀ i, i < s.cnvec_new → s.Cp.getD i 0 = Cp.getD ((surviving Cp k).getD i 0) 0
  doneh : ∀ i, i < s.cnvec_new → s.Ch.getD i 0 = Ch.getD ((surviving Cp k).getD i 0) 0

end Add

/-! ## Bitmap assignment (Source/GB_bitmap_assign_M_accum.c,
Source/GB_bitmap_assign_fullM_accum.c, Source/GB_bitmap_assign_fullM_noaccum.c) -/

namespace Bitmap

/-- Conversion of an integer value to `int8_t`. -/
def int8_wrap (x : Int) : Int := (x + 128) % 256 - 128

/-- Modelled from the spec: the code `GB_ASSIGN` of the kinds of assignment
(GB_bitmap_assign_methods.h is not among the sources); the value is the
upstream one, and only that the four codes differ is used. -/
def GB_ASSIGN : Int := 0

/-- Modelled from the spec: the code `GB_SUBASSIGN`; see `GB_ASSIGN`. -/
def GB_SUBASSIGN : Int := 1

/-- Modelled from the spec: the code `GB_ROW_ASSIGN`; see `GB_ASSIGN`. -/
def GB_ROW_ASSIGN : Int := 2

/-- Modelled from the spec: the code `GB_COL_ASSIGN`; see `GB_ASSIGN`. -/
def GB_COL_ASSIGN : Int := 3

/-- The bitmap matrix `C` as the assignment methods use it: the presence bytes
`C->b`, the values `C->x` (as values of the type of `C`) and `C->nvals`. -/
structure GB_Matrix_bitmap (V : Type) where
  b : Nat → Int
  x : Nat → V
  nvals : Int

/-- The local variables `Cb`, `Cx` and `cnvals` of the methods. -/
structure Work (V : Type) where
  Cb : Nat → Int
  Cx : Nat → V
  cnvals : Int

/-- Modelled from the spec: the macro `GB_GET_C` of GB_bitmap_assign_methods.h (not
among the sources): `Cb = C->b`, `Cx = C->x`, `cnvals = C->nvals`. -/
def GB_GET_C {V : Type} (C : GB_Matrix_bitmap V) : Work V :=
  { Cb := C.b, Cx := C.x, cnvals := C.nvals }

/-- The end of each method: `C->nvals = cnvals`, the arrays having been written in
place. -/
def finish {V : Type} (s : Work V) : GB_Matrix_bitmap V :=
  { b := s.Cb, x := s.Cx, nvals := s.cnvals }

/-- Modelled from the spec: the macro `GB_ASSIGN_SCALAR (pC)`, `Cx [pC] = scalar`
(GB_bitmap_assign_methods.h is not among the sources); `scalar` is the input
scalar as a value of the type of `C`. -/
def GB_ASSIGN_SCALAR {V : Type} (scalar : V) (s : Work V) (pC : Nat) : Work V :=
  { s with Cx := Function.update s.Cx pC scalar }

/-- Modelled from the spec: the macro `GB_ACCUM_SCALAR (pC)`, `Cx [pC] += scalar`
with the operator `accum`. -/
def GB_ACCUM_SCALAR {V : Type} (accum : V → V → V) (scalar : V) (s : Work V) (pC : Nat) :
    Work V :=
  { s with Cx := Function.update s.Cx pC (accum (s.Cx pC) scalar) }

/-- Modelled from the spec: the macro `GB_ASSIGN_AIJ (pC, pA)`, `Cx [pC] = Ax [pA]`. -/
def GB_ASSIGN_AIJ {V : Type} (Ax : Nat → V) (s : Work V) (pC pA : Nat) : Work V :=
  { s with Cx := Function.update s.Cx pC (Ax pA) }

/-- Modelled from the spec: the macro `GB_ACCUM_AIJ (pC, pA)`, `Cx [pC] += Ax [pA]`
with the operator `accum`. -/
def GB_ACCUM_AIJ {V : Type} (accum : V → V → V) (Ax : Nat → V) (s : Work V) (pC pA : Nat) :
    Work V :=
  { s with Cx := Function.update s.Cx pC (accum (s.Cx pC) (Ax pA)) }

/-- The variables a template has in scope when it runs a work macro: the
position `(iA, jA)` in `A` or in `IxJ`, the position `(iC, jC)` in `C`, and
the offsets `pC` into `Cb`, `Cx` and `pA` into `Ax`. -/
structure Visit where
  iA : Nat
  jA : Nat
  iC : Nat
  jC : Nat
  pC : Nat
  pA : Nat
  deriving DecidableEq

/-- Modelled from the spec: GB_bitmap_assign_M_template.c and
GB_bitmap_assign_M_sub_template.c (not among the sources), "for all entries
in the mask M": `GB_MASK_WORK (pC)` is run for the offset `pC` of each entry
of the mask whose value is true, in the order of `Mentries`. -/
def GB_bitmap_assign_M_template {V : Type} (GB_MASK_WORK : Work V → Nat → Work V)
    (Mentries : List Nat) (s : Work V) : Work V :=
  Mentries.foldl GB_MASK_WORK s

/-- Modelled from the spec: GB_bitmap_assign_IxJ_template.c (not among the sources),
"for all entries in IxJ": `GB_IXJ_WORK (pC)` is run at each visit of `IxJ`. -/
def GB_bitmap_assign_IxJ_template {V : Type} (GB_IXJ_WORK : Work V → Visit → Work V)
    (IxJ : List Visit) (s : Work V) : Work V :=
  IxJ.foldl GB_IXJ_WORK s

/-- Modelled from the spec: GB_bitmap_assign_A_template.c (not among the sources),
"for all entries aij in A": `GB_AIJ_WORK (pC, pA)` is run for each entry of
`A`. -/
def GB_bitmap_assign_A_template {V : Type} (GB_AIJ_WORK : Work V → Visit → Work V)
    (Aentries : List Visit) (s : Work V) : Work V :=
  Aentries.foldl GB_AIJ_WORK s

/-- Modelled from the spec: GB_bitmap_assign_C_template.c (not among the sources):
`GB_CIJ_WORK (mij, pC)` is run for each cell of the region of `C` that the
kind of assignment designates (`C(i,:)`, `C(:,j)`, `C(:,:)` or `C(I,J)`),
`mij` being the effective value of the mask there. -/
def GB_bitmap_assign_C_template {V : Type} (mask : Visit → Bool)
    (GB_CIJ_WORK : Work V → Bool → Nat → Work V) (Centries : List Visit) (s : Work V) :
    Work V :=
  Centries.foldl (fun s v => GB_CIJ_WORK s (mask v) v.pC) s

/-! ### GB_bitmap_assign_M_accum -/

/-- The macro `GB_MASK_WORK (pC)` of lines 92-108 (scalar subassignment). -/
def M_accum_MASK_WORK_scalar {V : Type} (keep : Int) (scalar : V) (accum : V → V → V)
    (s : Work V) (pC : Nat) : Work V :=
  let cb := s.Cb pC
  let s :=
    if cb = 0 then
      let s := GB_ASSIGN_SCALAR scalar s pC
      { s with cnvals := s.cnvals + 1 }
    else
      GB_ACCUM_SCALAR accum scalar s pC
  { s with Cb := Function.update s.Cb pC (int8_wrap keep) }

/-- The macro `GB_IXJ_WORK (pC)` of lines 115-133 (scalar subassignment with
`C_replace`). -/
def M_accum_IXJ_WORK_replace {V : Type} (s : Work V) (v : Visit) : Work V :=
  let cb := s.Cb v.pC
  if cb = 1 then
    let s := { s with Cb := Function.update s.Cb v.pC 0 }
    { s with cnvals := s.cnvals - 1 }
  else
    { s with Cb := Function.update s.Cb v.pC (if cb = 3 then 1 else 0) }

/-- The macro `GB_MASK_WORK (pC)` of line 146: `Cb [pC] += 2`. -/
def M_accum_MASK_WORK_scatter {V : Type} (s : Work V) (pC : Nat) : Work V :=
  { s with Cb := Function.update s.Cb pC (int8_wrap (s.Cb pC + 2)) }

/-- The macro `GB_IXJ_WORK (pC)` of lines 165-180 (scalar assignment). -/
def M_accum_IXJ_WORK {V : Type} (scalar : V) (accum : V → V → V) (s : Work V) (v : Visit) :
    Work V :=
  let cb := s.Cb v.pC
  if cb = 2 then
    let s := GB_ASSIGN_SCALAR scalar s v.pC
    let s := { s with Cb := Function.update s.Cb v.pC 3 }
    { s with cnvals := s.cnvals + 1 }
  else if cb = 3 then
    GB_ACCUM_SCALAR accum scalar s v.pC
  else s

/-- The macro `GB_AIJ_WORK (pC, pA)` of lines 202-217 (matrix assignment). -/
def M_accum_AIJ_WORK {V : Type} (Ax : Nat → V) (accum : V → V → V) (s : Work V) (v : Visit) :
    Work V :=
  let cb := s.Cb v.pC
  if cb = 2 then
    let s := GB_ASSIGN_AIJ Ax s v.pC v.pA
    let s := { s with Cb := Function.update s.Cb v.pC 3 }
    { s with cnvals := s.cnvals + 1 }
  else if cb = 3 then
    GB_ACCUM_AIJ accum Ax s v.pC v.pA
  else s

/-- The macro `GB_CIJ_WORK (mij, pC)` of lines 236-241 (`C_replace`). -/
def M_accum_CIJ_WORK {V : Type} (s : Work V) (_mij : Bool) (pC : Nat) : Work V :=
  let cb := s.Cb pC
  let s := { s with cnvals := s.cnvals - (if cb = 1 then 1 else 0) }
  { s with Cb := Function.update s.Cb pC (if cb = 3 then 1 else 0) }

/-- The macro `GB_MASK_WORK (pC)` of line 248: `Cb [pC] -= 2`. -/
def M_accum_MASK_WORK_clear {V : Type} (s : Work V) (pC : Nat) : Work V :=
  { s with Cb := Function.update s.Cb pC (int8_wrap (s.Cb pC - 2)) }

/-- The function `GB_bitmap_assign_M_accum`, lines 71-260.  `A` is `none` for a
NULL `A` (scalar source) and the values `Ax` otherwise.  The lists are what
the templates iterate over: `Mentries` the offsets in `C` of the entries of
the mask `M`, `IxJ` the cells of `IxJ`, `Aentries` the entries of `A`, and
`Centries` the cells of the region scanned for `C_replace`. -/
def GB_bitmap_assign_M_accum {V : Type} (C : GB_Matrix_bitmap V) (C_replace : Bool)
    (IxJ : List Visit) (Mentries : List Nat) (accum : V → V → V)
    (A : Option (Nat → V)) (Aentries : List Visit) (scalar : V) (assign_kind : Int)
    (Centries : List Visit) : GB_Matrix_bitmap V :=
  let s := GB_GET_C C
  let s :=
    if A.isNone ∧ assign_kind = GB_SUBASSIGN then
      let keep : Int := if C_replace then 3 else 1
      let s := GB_bitmap_assign_M_template (M_accum_MASK_WORK_scalar keep scalar accum)
        Mentries s
      if C_replace then GB_bitmap_assign_IxJ_template M_accum_IXJ_WORK_replace IxJ s
      else s
    else
      let s := GB_bitmap_assign_M_template M_accum_MASK_WORK_scatter Mentries s
      let s :=
        match A with
        | none => GB_bitmap_assign_IxJ_template (M_accum_IXJ_WORK scalar accum) IxJ s
        | some Ax => GB_bitmap_assign_A_template (M_accum_AIJ_WORK Ax accum) Aentries s
      if C_replace then
        GB_bitmap_assign_C_template (fun _ => false) M_accum_CIJ_WORK Centries s
      else
        GB_bitmap_assign_M_template M_accum_MASK_WORK_clear Mentries s
  finish s

/-! ### The mask of the fullM methods -/

/-- The macro `GBB (Mb, p)`: 1 when the bitmap is NULL (a full matrix), `Mb [p]`
otherwise. -/
def GBB (Mb : Option (Nat → Int)) (p : Nat) : Int :=
  match Mb with
  | none => 1
  | some b => b p

/-- The macro `GB_GET_MIJ (mij, pM)` of the fullM methods.  `GB_mcast (Mx, pM,
msize)` (GB.h, not among the sources) is the parameter `mcast`: the value of
the mask at `pM` as a boolean, true for a structural mask. -/
def GB_GET_MIJ (Mb : Option (Nat → Int)) (mcast : Nat → Bool) (Mask_comp : Bool)
    (pM : Nat) : Bool :=
  let mij := (GBB Mb pM != 0) && mcast pM
  if Mask_comp then !mij else mij

/-- The four definitions of the macro `GB_GET_pM`, by the kind of assignment: `jC`
for a row assignment, `iC` for a column assignment, `pC` for an assignment
and `iA + jA * nI` for a subassignment. -/
def GB_GET_pM (assign_kind : Int) (nI : Nat) (v : Visit) : Nat :=
  if assign_kind = GB_ROW_ASSIGN then v.jC
  else if assign_kind = GB_COL_ASSIGN then v.iC
  else if assign_kind = GB_ASSIGN then v.pC
  else v.iA + v.jA * nI

/-! ### GB_bitmap_assign_fullM_accum -/

/-- The macro `GB_IXJ_WORK (pC)` of lines 117-137. -/
def fullM_accum_IXJ_WORK {V : Type} (Mb : Option (Nat → Int)) (mcast : Nat → Bool)
    (Mask_comp : Bool) (pM_of : Visit → Nat) (scalar : V) (accum : V → V → V)
    (s : Work V) (v : Visit) : Work V :=
  let pM := pM_of v
  let mij := GB_GET_MIJ Mb mcast Mask_comp pM
  if mij then
    let cb := s.Cb v.pC
    if cb = 0 then
      let s := GB_ASSIGN_SCALAR scalar s v.pC
      let s := { s with Cb := Function.update s.Cb v.pC 1 }
      { s with cnvals := s.cnvals + 1 }
    else
      GB_ACCUM_SCALAR accum scalar s v.pC
  else s

/-- The macro `GB_AIJ_WORK (pC, pA)` of lines 177-197. -/
def fullM_accum_AIJ_WORK {V : Type} (Mb : Option (Nat → Int)) (mcast : Nat → Bool)
    (Mask_comp : Bool) (pM_of : Visit → Nat) (Ax : Nat → V) (accum : V → V → V)
    (s : Work V) (v : Visit) : Work V :=
  let pM := pM_of v
  let mij := GB_GET_MIJ Mb mcast Mask_comp pM
  if mij then
    let cb := s.Cb v.pC
    if cb = 0 then
      let s := GB_ASSIGN_AIJ Ax s v.pC v.pA
      let s := { s with Cb := Function.update s.Cb v.pC 1 }
      { s with cnvals := s.cnvals + 1 }
    else
      GB_ACCUM_AIJ accum Ax s v.pC v.pA
  else s

/-- The macro `GB_CIJ_WORK (mij, pC)` of lines 233-241. -/
def fullM_accum_CIJ_WORK {V : Type} (s : Work V) (mij : Bool) (pC : Nat) : Work V :=
  if !mij then
    let cb := s.Cb pC
    let s := { s with cnvals := s.cnvals - (if cb = 1 then 1 else 0) }
    { s with Cb := Function.update s.Cb pC 0 }
  else s

/-- The function `GB_bitmap_assign_fullM_accum`, lines 78-251.  The mask is given
by `Mb` (NULL for a full `M`), `mcast` and `Mask_comp`; the C template obtains
`mij` with `GB_GET_MIJ` at the `GB_GET_pM` of the kind of assignment. -/
def GB_bitmap_assign_fullM_accum {V : Type} (C : GB_Matrix_bitmap V) (C_replace : Bool)
    (nI : Nat) (IxJ : List Visit) (Mb : Option (Nat → Int)) (mcast : Nat → Bool)
    (Mask_comp : Bool) (accum : V → V → V) (A : Option (Nat → V))
    (Aentries : List Visit) (scalar : V) (assign_kind : Int) (Centries : List Visit) :
    GB_Matrix_bitmap V :=
  let s := GB_GET_C C
  let s :=
    match A with
    | none =>
      if assign_kind = GB_ASSIGN then
        GB_bitmap_assign_IxJ_template
          (fullM_accum_IXJ_WORK Mb mcast Mask_comp (fun v => v.pC) scalar accum) IxJ s
      else if assign_kind = GB_SUBASSIGN then
        GB_bitmap_assign_IxJ_template
          (fullM_accum_IXJ_WORK Mb mcast Mask_comp (fun v => v.iA + v.jA * nI) scalar accum)
          IxJ s
      else s
    | some Ax =>
      if assign_kind = GB_ROW_ASSIGN then
        GB_bitmap_assign_A_template
          (fullM_accum_AIJ_WORK Mb mcast Mask_comp (fun v => v.jC) Ax accum) Aentries s
      else if assign_kind = GB_COL_ASSIGN then
        GB_bitmap_assign_A_template
          (fullM_accum_AIJ_WORK Mb mcast Mask_comp (fun v => v.iC) Ax accum) Aentries s
      else if assign_kind = GB_ASSIGN then
        GB_bitmap_assign_A_template
          (fullM_accum_AIJ_WORK Mb mcast Mask_comp (fun v => v.pC) Ax accum) Aentries s
      else if assign_kind = GB_SUBASSIGN then
        GB_bitmap_assign_A_template
          (fullM_accum_AIJ_WORK Mb mcast Mask_comp (fun v => v.iA + v.jA * nI) Ax accum)
          Aentries s
      else s
  let s :=
    if C_replace then
      GB_bitmap_assign_C_template
        (fun v => GB_GET_MIJ Mb mcast Mask_comp (GB_GET_pM assign_kind nI v))
        fullM_accum_CIJ_WORK Centries s
    else s
  finish s

/-! ### GB_bitmap_assign_fullM_noaccum -/

/-- The macro `GB_CIJ_WORK (mij, pC)` of lines 90-95 (`C_replace` phase). -/
def fullM_noaccum_CIJ_WORK_replace {V : Type} (s : Work V) (_mij : Bool) (pC : Nat) :
    Work V :=
  let cb := s.Cb pC
  let s := { s with cnvals := s.cnvals - (if cb = 1 then 1 else 0) }
  { s with Cb := Function.update s.Cb pC 0 }

/-- The macro `GB_IXJ_WORK (pC)` of lines 120-132. -/
def fullM_noaccum_IXJ_WORK {V : Type} (Mb : Option (Nat → Int)) (mcast : Nat → Bool)
    (Mask_comp : Bool) (pM_of : Visit → Nat) (scalar : V) (s : Work V) (v : Visit) :
    Work V :=
  let pM := pM_of v
  let mij := GB_GET_MIJ Mb mcast Mask_comp pM
  if mij then
    let cb := s.Cb v.pC
    let s := { s with cnvals := s.cnvals + (if cb = 0 then 1 else 0) }
    let s := { s with Cb := Function.update s.Cb v.pC 1 }
    GB_ASSIGN_SCALAR scalar s v.pC
  else s

/-- The macro `GB_AIJ_WORK (pC, pA)` of lines 174-186. -/
def fullM_noaccum_AIJ_WORK {V : Type} (Mb : Option (Nat → Int)) (mcast : Nat → Bool)
    (Mask_comp : Bool) (pM_of : Visit → Nat) (keep : Int) (Ax : Nat → V)
    (s : Work V) (v : Visit) : Work V :=
  let pM := pM_of v
  let mij := GB_GET_MIJ Mb mcast Mask_comp pM
  if mij then
    let cb := s.Cb v.pC
    let s := { s with cnvals := s.cnvals + (if cb = 0 then 1 else 0) }
    let s := { s with Cb := Function.update s.Cb v.pC keep }
    GB_ASSIGN_AIJ Ax s v.pC v.pA
  else s

/-- The macro `GB_CIJ_WORK (mij, pC)` of lines 225-233. -/
def fullM_noaccum_CIJ_WORK {V : Type} (s : Work V) (mij : Bool) (pC : Nat) : Work V :=
  if mij then
    let cb := s.Cb pC
    let s := { s with cnvals := s.cnvals - (if cb = 1 then 1 else 0) }
    { s with Cb := Function.update s.Cb pC (if cb > 1 then 1 else 0) }
  else s

/-- The function `GB_bitmap_assign_fullM_noaccum`, lines 76-244. -/
def GB_bitmap_assign_fullM_noaccum {V : Type} (C : GB_Matrix_bitmap V) (C_replace : Bool)
    (nI : Nat) (IxJ : List Visit) (Mb : Option (Nat → Int)) (mcast : Nat → Bool)
    (Mask_comp : Bool) (A : Option (Nat → V)) (Aentries : List Visit) (scalar : V)
    (assign_kind : Int) (Centries : List Visit) : GB_Matrix_bitmap V :=
  let s := GB_GET_C C
  let mask : Visit → Bool :=
    fun v => GB_GET_MIJ Mb mcast Mask_comp (GB_GET_pM assign_kind nI v)
  let s :=
    if C_replace then
      GB_bitmap_assign_C_template mask fullM_noaccum_CIJ_WORK_replace Centries s
    else s
  let s :=
    match A with
    | none =>
      if assign_kind = GB_ASSIGN then
        GB_bitmap_assign_IxJ_template
          (fullM_noaccum_IXJ_WORK Mb mcast Mask_comp (fun v => v.pC) scalar) IxJ s
      else if assign_kind = GB_SUBASSIGN then
        GB_bitmap_assign_IxJ_template
          (fullM_noaccum_IXJ_WORK Mb mcast Mask_comp (fun v => v.iA + v.jA * nI) scalar)
          IxJ s
      else s
    | some Ax =>
      let keep : Int := if C_replace then 1 else 4
      let s :=
        if assign_kind = GB_ROW_ASSIGN then
          GB_bitmap_assign_A_template
            (fullM_noaccum_AIJ_WORK Mb mcast Mask_comp (fun v => v.jC) keep Ax) Aentries s
        else if assign_kind = GB_COL_ASSIGN then
          GB_bitmap_assign_A_template
            (fullM_noaccum_AIJ_WORK Mb mcast Mask_comp (fun v => v.iC) keep Ax) Aentries s
        else if assign_kind = GB_ASSIGN then
          GB_bitmap_assign_A_template
            (fullM_noaccum_AIJ_WORK Mb mcast Mask_comp (fun v => v.pC) keep Ax) Aentries s
        else if assign_kind = GB_SUBASSIGN then
          GB_bitmap_assign_A_template
            (fullM_noaccum_AIJ_WORK Mb mcast Mask_comp (fun v => v.iA + v.jA * nI) keep Ax)
            Aentries s
        else s
      if !C_replace then
        GB_bitmap_assign_C_template mask fullM_noaccum_CIJ_WORK Centries s
      else s
  finish s

/-! ### Notions used to state and prove the claims -/

/-- A step that reads and writes only the cell `pC` and the counter: `f` maps the
byte and the value of the cell to the new byte, the new value and the
increment of `cnvals`. -/
def cell_step {V : Type} (f : Int → V → Int × V × Int) (s : Work V) (pC : Nat) : Work V :=
  { Cb := Function.update s.Cb pC (f (s.Cb pC) (s.Cx pC)).1,
    Cx := Function.update s.Cx pC (f (s.Cb pC) (s.Cx pC)).2.1,
    cnvals := s.cnvals + (f (s.Cb pC) (s.Cx pC)).2.2 }

/-- The number of cells `p < n` whose byte satisfies `present`. -/
def count_cells (present : Int → Bool) (n : Nat) (Cb : Nat → Int) : Nat :=
  (List.range n).countP fun p => present (Cb p)

/-- The step of `M_accum_MASK_WORK_scalar` on a cell. -/
def f_scalar_keep {V : Type} (keep : Int) (scalar : V) (accum : V → V → V) :
    Int → V → Int × V × Int :=
  fun cb cx => if cb = 0 then (int8_wrap keep, scalar, 1) else (int8_wrap keep, accum cx scalar, 0)

/-- The step of `M_accum_IXJ_WORK_replace` on a cell. -/
def f_ixj_replace {V : Type} : Int → V → Int × V × Int :=
  fun cb cx => if cb = 1 then (0, cx, -1) else ((if cb = 3 then 1 else 0), cx, 0)

/-- The step of `M_accum_MASK_WORK_scatter` on a cell. -/
def f_scatter {V : Type} : Int → V → Int × V × Int :=
  fun cb cx => (int8_wrap (cb + 2), cx, 0)

/-- The step of `M_accum_IXJ_WORK` and of `M_accum_AIJ_WORK` on a cell, for the
source value `sv`. -/
def f_combine {V : Type} (sv : V) (accum : V → V → V) : Int → V → Int × V × Int :=
  fun cb cx =>
    if cb = 2 then (3, sv, 1) else if cb = 3 then (cb, accum cx sv, 0) else (cb, cx, 0)

/-- The step of `M_accum_CIJ_WORK` on a cell. -/
def f_cij_replace {V : Type} : Int → V → Int × V × Int :=
  fun cb cx => ((if cb = 3 then 1 else 0), cx, -(if cb = 1 then 1 else 0))

/-- The step of `M_accum_MASK_WORK_clear` on a cell. -/
def f_clear {V : Type} : Int → V → Int × V × Int :=
  fun cb cx => (int8_wrap (cb - 2), cx, 0)

/-- The step of `fullM_accum_IXJ_WORK` and of `fullM_accum_AIJ_WORK` on a cell,
for the mask value `mij` and the source value `sv`. -/
def f_fullM_accum {V : Type} (mij : Bool) (sv : V) (accum : V → V → V) :
    Int → V → Int × V × Int :=
  fun cb cx =>
    if mij then (if cb = 0 then (1, sv, 1) else (cb, accum cx sv, 0)) else (cb, cx, 0)

/-- The step of `fullM_accum_CIJ_WORK` on a cell. -/
def f_fullM_accum_cij {V : Type} (mij : Bool) : Int → V → Int × V × Int :=
  fun cb cx => if !mij then (0, cx, -(if cb = 1 then 1 else 0)) else (cb, cx, 0)

/-- The step of `fullM_noaccum_CIJ_WORK_replace` on a cell. -/
def f_fullM_noaccum_replace {V : Type} : Int → V → Int × V × Int :=
  fun cb cx => (0, cx, -(if cb = 1 then 1 else 0))

/-- The step of `fullM_noaccum_IXJ_WORK` (with `keep = 1`) and of
`fullM_noaccum_AIJ_WORK` on a cell. -/
def f_fullM_noaccum {V : Type} (mij : Bool) (keep : Int) (sv : V) :
    Int → V → Int × V × Int :=
  fun cb cx => if mij then (keep, sv, (if cb = 0 then 1 else 0)) else (cb, cx, 0)

/-- The step of `fullM_noaccum_CIJ_WORK` on a cell. -/
def f_fullM_noaccum_cij {V : Type} (mij : Bool) : Int → V → Int × V × Int :=
  fun cb cx =>
    if mij then ((if cb > 1 then 1 else 0), cx, -(if cb = 1 then 1 else 0)) else (cb, cx, 0)

/-- A cell counts as present when its byte is 1. -/
def present1 : Int → Bool := fun cb => decide (cb = 1)

/-- While the mask is scattered into `Cb`, a cell is present when its byte is 1
or 3. -/
def present13 : Int → Bool := fun cb => decide (cb = 1) || decide (cb = 3)

/-- While entries are marked with `keep = 4`, a cell is present when its byte is
1 or 4. -/
def present14 : Int → Bool := fun cb => decide (cb = 1) || decide (cb = 4)

/-- The cells that receive a source value in `GB_bitmap_assign_M_accum`: the cells
of `IxJ` for a scalar, the entries of `A` otherwise. -/
def M_accum_source {V : Type} (A : Option (Nat → V)) (IxJ Aentries : List Visit) :
    List Visit :=
  match A with
  | none => IxJ
  | some _ => Aentries

/-- The source value that `GB_bitmap_assign_M_accum` gives at a visit: the scalar,
or `Ax [pA]`. -/
def M_accum_source_value {V : Type} (A : Option (Nat → V)) (scalar : V) (v : Visit) : V :=
  match A with
  | none => scalar
  | some Ax => Ax v.pA

/-- Modelled from the spec: the cells that GB_bitmap_assign_IxJ_template.c (not
among the sources) visits when `I` and `J` are all rows and all columns of a
`vlen`-by-`vdim` matrix `C` held by column: every position once, with
`pC = iC + jC * vlen`. -/
def IxJ_all (vlen vdim : Nat) : List Visit :=
  (List.range (vlen * vdim)).map fun p =>
    { iA := p % vlen, jA := p / vlen, iC := p % vlen, jC := p / vlen, pC := p, pA := 0 }

/-- An empty bitmap matrix: all presence bytes 0, no entries; `x` is what the
value array holds. -/
def empty_bitmap {V : Type} (x : Nat → V) : GB_Matrix_bitmap V :=
  { b := fun _ => 0, x := x, nvals := 0 }

/-- Modelled from the spec: `GB_mcast` (GB.h, not among the sources) for a valued
mask whose values are `Mx`: the value at `pM` is nonzero. -/
def GB_mcast_valued (Mx : Nat → Int) (pM : Nat) : Bool := decide (Mx pM ≠ 0)

/-- Modelled from the spec: `GB_mcast` for a structural mask: every present entry
selects. -/
def GB_mcast_structural (_pM : Nat) : Bool := true

/-- The values `[[1,0],[0,1]]` of a 2-by-2 matrix held by column. -/
def identity_2x2 (p : Nat) : Int := if p = 0 ∨ p = 3 then 1 else 0

end Bitmap

/-! ## The semiring code (CUDA/GB_cuda_stringify_semiring.c) -/

namespace Semiring

/-- Conversion of an `int` to `uint64_t`. -/
def uint64_cast (x : Int) : Nat := (x % 18446744073709551616).toNat

/-- The macro `LSHIFT(x,k)` of line 199: `(((uint64_t) x) << k)`. -/
def LSHIFT (x : Int) (k : Nat) : Nat := (uint64_cast x <<< k) % 18446744073709551616

/-- The sixteen values that `GB_cuda_enumify_semiring` packs into the `scode`, as
the `int` variables of the source. -/
structure Fields where
  add_ecode : Int
  id_ecode : Int
  term_ecode : Int
  mult_ecode : Int
  flipxy : Int
  zcode : Int
  xcode : Int
  ycode : Int
  mask_ecode : Int
  ccode : Int
  acode : Int
  bcode : Int
  csparsity : Int
  msparsity : Int
  asparsity : Int
  bsparsity : Int
  deriving DecidableEq

/-- The expression of lines 201-227: the fields shifted to their positions and
combined with `|`. -/
def scode_of (f : Fields) : Nat :=
  LSHIFT f.add_ecode 55 |||
  LSHIFT f.id_ecode 50 |||
  LSHIFT f.term_ecode 45 |||
  LSHIFT f.mult_ecode 37 |||
  LSHIFT f.flipxy 36 |||
  LSHIFT f.zcode 32 |||
  LSHIFT f.xcode 28 |||
  LSHIFT f.ycode 24 |||
  LSHIFT f.mask_ecode 20 |||
  LSHIFT f.ccode 16 |||
  LSHIFT f.acode 12 |||
  LSHIFT f.bcode 8 |||
  LSHIFT f.csparsity 6 |||
  LSHIFT f.msparsity 4 |||
  LSHIFT f.asparsity 2 |||
  LSHIFT f.bsparsity 0

/-- The ranges that the comments of lines 204-227 give for the fields. -/
def in_range (f : Fields) : Prop :=
  (0 ≤ f.add_ecode ∧ f.add_ecode ≤ 22) ∧
  (0 ≤ f.id_ecode ∧ f.id_ecode ≤ 31) ∧
  (0 ≤ f.term_ecode ∧ f.term_ecode ≤ 31) ∧
  (0 ≤ f.mult_ecode ∧ f.mult_ecode ≤ 139) ∧
  (0 ≤ f.flipxy ∧ f.flipxy ≤ 1) ∧
  (0 ≤ f.zcode ∧ f.zcode ≤ 14) ∧
  (0 ≤ f.xcode ∧ f.xcode ≤ 14) ∧
  (0 ≤ f.ycode ∧ f.ycode ≤ 14) ∧
  (0 ≤ f.mask_ecode ∧ f.mask_ecode ≤ 13) ∧
  (0 ≤ f.ccode ∧ f.ccode ≤ 14) ∧
  (0 ≤ f.acode ∧ f.acode ≤ 14) ∧
  (0 ≤ f.bcode ∧ f.bcode ≤ 14) ∧
  (0 ≤ f.csparsity ∧ f.csparsity ≤ 3) ∧
  (0 ≤ f.msparsity ∧ f.msparsity ≤ 3) ∧
  (0 ≤ f.asparsity ∧ f.asparsity ≤ 3) ∧
  (0 ≤ f.bsparsity ∧ f.bsparsity ≤ 3)

instance (f : Fields) : Decidable (in_range f) := by
  unfold in_range
  infer_instance

/-- The struct `GB_Type_opaque`, with the field read here. -/
structure GB_Type_opaque where
  code : Int

/-- The struct `GB_BinaryOp_opaque`, with the fields read here. -/
structure GB_BinaryOp_opaque where
  xtype : GB_Type_opaque
  ytype : GB_Type_opaque
  ztype : GB_Type_opaque
  opcode : Int

/-- The struct `GB_Monoid_opaque`, with the field read here. -/
structure GB_Monoid_opaque where
  op : GB_BinaryOp_opaque

/-- The struct `GB_Semiring_opaque`, with the fields read here. -/
structure GB_Semiring_opaque where
  add : GB_Monoid_opaque
  multiply : GB_BinaryOp_opaque

/-- Modelled from the spec: what `GB_cuda_enumify_semiring` uses and GB.h and
GB_cuda_stringify.h (not among the sources) define: the codes it compares
with, the renaming and flipping of operators, and the enumerations of the
operator, identity, terminal value and mask.  The four sparsity codes are
used by lines 224-227 without a declaration in the function; they are taken
from here as well. -/
structure Enumify where
  GB_BOOL_code : Int
  GB_FIRST_opcode : Int
  GB_SECOND_opcode : Int
  GB_PAIR_opcode : Int
  GB_boolean_rename : Int → Int
  GB_binop_flip : Int → Int × Bool
  GB_cuda_enumify_binop : Int → Int → Bool → Int
  GB_cuda_enumify_identity : Int → Int → Int
  GB_cuda_enumify_terminal : Int → Int → Bool × Int
  GB_cuda_enumify_mask : Int → Bool → Bool → Int
  csparsity : Int
  msparsity : Int
  asparsity : Int
  bsparsity : Int

/-- The fields computed by `GB_cuda_enumify_semiring`, lines 78-193. -/
def GB_cuda_enumify_semiring_fields (env : Enumify) (semiring : GB_Semiring_opaque)
    (flipxy : Bool) (ctype atype btype : GB_Type_opaque) (mtype : Option GB_Type_opaque)
    (Mask_struct Mask_comp : Bool) : Fields :=
  let add := semiring.add
  let mult := semiring.multiply
  let addop := add.op
  let xtype := mult.xtype
  let ytype := mult.ytype
  let ztype := mult.ztype
  let mult_opcode := mult.opcode
  let add_opcode := addop.opcode
  let xcode := xtype.code
  let ycode := ytype.code
  let zcode := ztype.code
  let add_opcode := if zcode = env.GB_BOOL_code then env.GB_boolean_rename add_opcode
    else add_opcode
  let mult_opcode := if xcode = env.GB_BOOL_code then env.GB_boolean_rename mult_opcode
    else mult_opcode
  let flipped : Int × Bool :=
    if flipxy then
      let r := env.GB_binop_flip mult_opcode
      (r.1, if r.2 then false else flipxy)
    else (mult_opcode, flipxy)
  let mult_opcode := flipped.1
  let flipxy := flipped.2
  let op_is_first := decide (mult_opcode = env.GB_FIRST_opcode)
  let op_is_second := decide (mult_opcode = env.GB_SECOND_opcode)
  let op_is_pair := decide (mult_opcode = env.GB_PAIR_opcode)
  let A_is_pattern := op_is_second || op_is_pair
  let B_is_pattern := op_is_first || op_is_pair
  let mult_ecode := env.GB_cuda_enumify_binop mult_opcode xcode true
  let add_ecode := env.GB_cuda_enumify_binop add_opcode zcode false
  let id_ecode := env.GB_cuda_enumify_identity add_opcode zcode
  let term_ecode := (env.GB_cuda_enumify_terminal add_opcode zcode).2
  let acode := if A_is_pattern then 0 else atype.code
  let bcode := if B_is_pattern then 0 else btype.code
  let ccode := ctype.code
  let mtype_code :=
    match mtype with
    | none => 0
    | some t => t.code
  let mask_ecode := env.GB_cuda_enumify_mask mtype_code Mask_struct Mask_comp
  { add_ecode := add_ecode, id_ecode := id_ecode, term_ecode := term_ecode,
    mult_ecode := mult_ecode, flipxy := if flipxy then 1 else 0, zcode := zcode,
    xcode := xcode, ycode := ycode, mask_ecode := mask_ecode, ccode := ccode,
    acode := acode, bcode := bcode, csparsity := env.csparsity,
    msparsity := env.msparsity, asparsity := env.asparsity, bsparsity := env.bsparsity }

/-- The function `GB_cuda_enumify_semiring`, lines 52-230: the value written to
`*scode`. -/
def GB_cuda_enumify_semiring (env : Enumify) (semiring : GB_Semiring_opaque)
    (flipxy : Bool) (ctype atype btype : GB_Type_opaque) (mtype : Option GB_Type_opaque)
    (Mask_struct Mask_comp : Bool) : Nat :=
  scode_of (GB_cuda_enumify_semiring_fields env semiring flipxy ctype atype btype mtype
    Mask_struct Mask_comp)

/-- The macro `RSHIFT(x,k,b)` of line 248, `(x >> k) && ((((uint64_t) 1) << b) - 1)`:
the operator is the logical `&&`, whose value is 1 when both operands are
nonzero and 0 otherwise. -/
def RSHIFT (x : Nat) (k b : Nat) : Int :=
  if x >>> k ≠ 0 ∧ ((1 <<< b) % 18446744073709551616 + 18446744073709551616 - 1)
      % 18446744073709551616 ≠ 0 then 1 else 0

/-- The extraction of lines 251-275 of `GB_cuda_macrofy_semiring`: the local
variables of that function, under their names. -/
def GB_cuda_macrofy_semiring_extract (scode : Nat) : Fields :=
  { add_ecode := RSHIFT scode 55 5,
    id_ecode := RSHIFT scode 50 5,
    term_ecode := RSHIFT scode 45 5,
    mult_ecode := RSHIFT scode 37 8,
    flipxy := RSHIFT scode 36 1,
    zcode := RSHIFT scode 32 4,
    xcode := RSHIFT scode 28 4,
    ycode := RSHIFT scode 24 4,
    mask_ecode := RSHIFT scode 20 4,
    acode := RSHIFT scode 16 4,
    bcode := RSHIFT scode 12 4,
    ccode := RSHIFT scode 8 4,
    csparsity := RSHIFT scode 6 2,
    msparsity := RSHIFT scode 4 2,
    asparsity := RSHIFT scode 2 2,
    bsparsity := RSHIFT scode 0 2 }

/-- A tuple of fields in range: only `add_ecode` is not 0. -/
def fields_add2 : Fields :=
  { add_ecode := 2, id_ecode := 0, term_ecode := 0, mult_ecode := 0, flipxy := 0,
    zcode := 0, xcode := 0, ycode := 0, mask_ecode := 0, ccode := 0, acode := 0,
    bcode := 0, csparsity := 0, msparsity := 0, asparsity := 0, bsparsity := 0 }

/-- A tuple of fields in range with three different type codes for `C`, `A` and
`B`. -/
def fields_cab : Fields :=
  { add_ecode := 1, id_ecode := 1, term_ecode := 1, mult_ecode := 1, flipxy := 1,
    zcode := 1, xcode := 1, ycode := 1, mask_ecode := 1, ccode := 1, acode := 0,
    bcode := 0, csparsity := 1, msparsity := 1, asparsity := 1, bsparsity := 1 }

end Semiring

/-! ## Reduction to a vector (Source/GB_reduce_to_vector.c) -/

namespace Reduce

/-- The values of `GrB_Info` that the checks of `GB_reduce_to_vector` can return,
and those of the steps that follow. -/
inductive GrB_Info where
  | GrB_SUCCESS
  | GrB_UNINITIALIZED_OBJECT
  | GrB_INVALID_OBJECT
  | GrB_NULL_POINTER
  | GrB_INVALID_VALUE
  | GrB_DOMAIN_MISMATCH
  | GrB_DIMENSION_MISMATCH
  | GrB_OUT_OF_MEMORY
  | GrB_PANIC
  deriving DecidableEq

/-- A `GrB_Type` is a pointer to a type object; the code compares these
pointers, so a type is represented by its address. -/
abbrev GrB_Type := Nat

/-- Modelled from the spec: the value `GB_MAGIC2` of GB.h (not among the sources),
the `magic` of an object that is allocated but invalid. -/
def GB_MAGIC2 : Int := 32199697837354850

/-- The struct `GB_Matrix_opaque`, with the fields that lines 41-109 read, and the
arrays that hold the entries. -/
structure GB_Matrix_opaque where
  magic : Int
  type : GrB_Type
  vlen : Int
  vdim : Int
  is_csc : Bool
  p : List Int
  i : List Int
  x : List Int
  deriving DecidableEq

/-- The struct `GB_BinaryOp_opaque`, with the fields read here. -/
structure GB_BinaryOp_opaque where
  magic : Int
  xtype : GrB_Type
  ytype : GrB_Type
  ztype : GrB_Type
  deriving DecidableEq

/-- The struct `GB_Descriptor_opaque`; only `magic` is read by the function
itself. -/
structure GB_Descriptor_opaque where
  magic : Int
  out : Int
  mask : Int
  in0 : Int
  in1 : Int
  deriving DecidableEq

/-- Modelled from the spec: the test of the macros `GB_RETURN_IF_FAULTY` and
`GB_RETURN_IF_NULL_OR_FAULTY` of GB.h (not among the sources) on the `magic`
of an object: no error for `GB_MAGIC`, `GrB_INVALID_OBJECT` for `GB_MAGIC2`,
`GrB_UNINITIALIZED_OBJECT` otherwise. -/
def GB_FAULTY (magic : Int) : Option GrB_Info :=
  if magic = GB_MAGIC then none
  else if magic = GB_MAGIC2 then some GrB_Info.GrB_INVALID_OBJECT
  else some GrB_Info.GrB_UNINITIALIZED_OBJECT

/-- Modelled from the spec: the macro `GB_RETURN_IF_FAULTY (arg)`: a NULL argument
passes. -/
def GB_RETURN_IF_FAULTY (magic : Option Int) : Option GrB_Info :=
  match magic with
  | none => none
  | some m => GB_FAULTY m

/-- Modelled from the spec: the macro `GB_RETURN_IF_NULL_OR_FAULTY (arg)`:
`GrB_NULL_POINTER` for a NULL argument. -/
def GB_RETURN_IF_NULL_OR_FAULTY (magic : Option Int) : Option GrB_Info :=
  match magic with
  | none => some GrB_Info.GrB_NULL_POINTER
  | some m => GB_FAULTY m

/-- Modelled from the spec: the macro `GB_NROWS (A)` of GB.h (not among the
sources): `vlen` for a matrix held by column, `vdim` otherwise. -/
def GB_NROWS (A : GB_Matrix_opaque) : Int := if A.is_csc then A.vlen else A.vdim

/-- Modelled from the spec: the macro `GB_NCOLS (A)`: `vdim` for a matrix held by
column, `vlen` otherwise. -/
def GB_NCOLS (A : GB_Matrix_opaque) : Int := if A.is_csc then A.vdim else A.vlen

/-- The values that `GB_GET_DESCRIPTOR` sets at line 57. -/
structure Descriptor_values where
  C_replace : Bool
  Mask_comp : Bool
  A_transpose : Bool
  deriving DecidableEq

/-- The function `GB_reduce_to_vector`: the value returned and the matrix `C` on
return (`none` when `C` is NULL).  Lines 41-109 are translated; what they
call and GB.h defines is a parameter: `GB_Descriptor_get` (behind
`GB_GET_DESCRIPTOR`), `GB_compatible` and `GB_Type_compatible`.  The rest of
the function, from line 111 on, is the parameter `compute`, which receives
the arguments and returns the value of the function and the new `C`.  The
assertions (compiled only for debugging) are left out. -/
def GB_reduce_to_vector (C : Option GB_Matrix_opaque) (M : Option GB_Matrix_opaque)
    (accum : Option GB_BinaryOp_opaque) (reduce : GB_BinaryOp_opaque)
    (A : Option GB_Matrix_opaque) (desc : Option GB_Descriptor_opaque)
    (GB_Descriptor_get : Option GB_Descriptor_opaque → GrB_Info × Descriptor_values)
    (GB_compatible : GrB_Type → GB_Matrix_opaque → Option GB_Matrix_opaque →
      Option GB_BinaryOp_opaque → GrB_Type → GrB_Info)
    (GB_Type_compatible : GrB_Type → GrB_Type → Bool)
    (compute : GB_Matrix_opaque → Option GB_Matrix_opaque → Option GB_BinaryOp_opaque →
      GB_BinaryOp_opaque → GB_Matrix_opaque → Descriptor_values →
      GrB_Info × GB_Matrix_opaque) :
    GrB_Info × Option GB_Matrix_opaque :=
  match GB_RETURN_IF_NULL_OR_FAULTY (C.map fun c => c.magic) with
  | some info => (info, C)
  | none =>
  match GB_RETURN_IF_FAULTY (M.map fun m => m.magic) with
  | some info => (info, C)
  | none =>
  match GB_RETURN_IF_FAULTY (accum.map fun o => o.magic) with
  | some info => (info, C)
  | none =>
  match GB_RETURN_IF_NULL_OR_FAULTY (A.map fun a => a.magic) with
  | some info => (info, C)
  | none =>
  match GB_RETURN_IF_FAULTY (desc.map fun d => d.magic) with
  | some info => (info, C)
  | none =>
  match C, A with
  | some c, some a =>
    -- get the descriptor
    let d := GB_Descriptor_get desc
    if d.1 ≠ GrB_Info.GrB_SUCCESS then (d.1, C)
    else
      -- check domains and dimensions for C<M> = accum (C,T)
      let ttype := reduce.ztype
      let info := GB_compatible c.type c M accum ttype
      if info ≠ GrB_Info.GrB_SUCCESS then (info, C)
      -- check types of reduce
      else if reduce.xtype ≠ reduce.ztype ∨ reduce.ytype ≠ reduce.ztype then
        (GrB_Info.GrB_DOMAIN_MISMATCH, C)
      -- T = reduce (T,A) must be compatible
      else if !GB_Type_compatible a.type reduce.ztype then
        (GrB_Info.GrB_DOMAIN_MISMATCH, C)
      else
        -- check the dimensions
        let n := GB_NROWS c
        if d.2.A_transpose then
          if n ≠ GB_NCOLS a then (GrB_Info.GrB_DIMENSION_MISMATCH, C)
          else
            let r := compute c M accum reduce a d.2
            (r.1, some r.2)
        else
          if n ≠ GB_NROWS a then (GrB_Info.GrB_DIMENSION_MISMATCH, C)
          else
            let r := compute c M accum reduce a d.2
            (r.1, some r.2)
  | _, _ => (GrB_Info.GrB_NULL_POINTER, C)

/-- What the arguments must satisfy for the call to reach line 68: `C` and `A` are
valid objects, `M`, `accum` and `desc` are NULL or valid, the descriptor is
read without error and `GB_compatible` accepts `C`, `M`, `accum` and the type
of the result. -/
def reaches_domain_checks (C : Option GB_Matrix_opaque) (M : Option GB_Matrix_opaque)
    (accum : Option GB_BinaryOp_opaque) (reduce : GB_BinaryOp_opaque)
    (A : Option GB_Matrix_opaque) (desc : Option GB_Descriptor_opaque)
    (GB_Descriptor_get : Option GB_Descriptor_opaque → GrB_Info × Descriptor_values)
    (GB_compatible : GrB_Type → GB_Matrix_opaque → Option GB_Matrix_opaque →
      Option GB_BinaryOp_opaque → GrB_Type → GrB_Info) : Prop :=
  (∃ c, C = some c ∧ c.magic = GB_MAGIC
      ∧ GB_compatible c.type c M accum reduce.ztype = GrB_Info.GrB_SUCCESS)
    ∧ (∀ m, M = some m → m.magic = GB_MAGIC)
    ∧ (∀ o, accum = some o → o.magic = GB_MAGIC)
    ∧ (∃ a, A = some a ∧ a.magic = GB_MAGIC)
    ∧ (∀ d, desc = some d → d.magic = GB_MAGIC)
    ∧ (GB_Descriptor_get desc).1 = GrB_Info.GrB_SUCCESS

/-- A vector of length 3, as a matrix held by column. -/
def vector3 : GB_Matrix_opaque :=
  { magic := GB_MAGIC, type := 7, vlen := 3, vdim := 1, is_csc := true,
    p := [0, 1], i := [2], x := [5] }

/-- A 4-by-3 matrix held by column. -/
def matrix_4x3 : GB_Matrix_opaque :=
  { magic := GB_MAGIC, type := 7, vlen := 4, vdim := 3, is_csc := true,
    p := [0, 1, 1, 2], i := [0, 3], x := [1, 2] }

/-- An operator whose three types are the type 7. -/
def plus_7 : GB_BinaryOp_opaque := { magic := GB_MAGIC, xtype := 7, ytype := 7, ztype := 7 }

/-- An operator whose `x` type differs from its `z` type. -/
def mixed_op : GB_BinaryOp_opaque := { magic := GB_MAGIC, xtype := 8, ytype := 7, ztype := 7 }

/-- A stand-in for `GB_Descriptor_get`: the default descriptor, with the input
transposed or not. -/
def descriptor_default (A_transpose : Bool)
    (_desc : Option GB_Descriptor_opaque) : GrB_Info × Descriptor_values :=
  (GrB_Info.GrB_SUCCESS, { C_replace := false, Mask_comp := false, A_transpose := A_transpose })

/-- A stand-in for the rest of the function: it empties `C`. -/
def compute_clear (c : GB_Matrix_opaque) (_M : Option GB_Matrix_opaque)
    (_accum : Option GB_BinaryOp_opaque) (_reduce : GB_BinaryOp_opaque)
    (_a : GB_Matrix_opaque) (_d : Descriptor_values) : GrB_Info × GB_Matrix_opaque :=
  (GrB_Info.GrB_SUCCESS, { c with p := [0, 0], i := [], x := [] })

/-- Modelled from the spec: the check of the dimensions of the mask in
`GB_compatible` (not among the sources), which the comment of line 63
announces, "check domains and dimensions for C<M> = accum (C,T)": a mask
whose dimensions are not those of `C` is reported as
`GrB_DIMENSION_MISMATCH`.  The checks of the domains that `GB_compatible`
makes are left out of this stand-in. -/
def GB_compatible_dimensions (_ctype : GrB_Type) (c : GB_Matrix_opaque)
    (M : Option GB_Matrix_opaque) (_accum : Option GB_BinaryOp_opaque) (_ttype : GrB_Type) :
    GrB_Info :=
  match M with
  | none => GrB_Info.GrB_SUCCESS
  | some m =>
    if GB_NROWS m ≠ GB_NROWS c ∨ GB_NCOLS m ≠ GB_NCOLS c then GrB_Info.GrB_DIMENSION_MISMATCH
    else GrB_Info.GrB_SUCCESS

/-- A mask of length 4, as a matrix held by column. -/
def mask4 : GB_Matrix_opaque :=
  { magic := GB_MAGIC, type := 1, vlen := 4, vdim := 1, is_csc := true,
    p := [0, 1], i := [0], x := [1] }

end Reduce

/-! ## Export in CSC form (Source/GxB_Matrix_export_CSC.c) -/

namespace Export

/-- The values of `GrB_Info` that the export and what it calls can return. -/
inductive GrB_Info where
  | GrB_SUCCESS
  | GrB_UNINITIALIZED_OBJECT
  | GrB_INVALID_OBJECT
  | GrB_NULL_POINTER
  | GrB_INVALID_VALUE
  | GrB_OUT_OF_MEMORY
  | GrB_PANIC
  deriving DecidableEq

/-- A buffer is represented by its address: handing over a buffer without copying
it is handing over the same address. -/
abbrev Pointer := Nat

/-- Modelled from the spec: the value `GB_NEVER_HYPER` of GB.h (not among the
sources), the `hyper_switch` with which a matrix never becomes hypersparse. -/
def GB_NEVER_HYPER : Rat := -1

/-- The struct `GB_Matrix_opaque`, with the fields that the export reads or writes
and the dimensions; a NULL buffer is `none`. -/
structure GB_Matrix_opaque where
  magic : Int
  type : Nat
  vlen : Int
  vdim : Int
  nvec : Int
  nvec_nonempty : Int
  h : Option Pointer
  p : Option Pointer
  i : Option Pointer
  x : Option Pointer
  hyper_switch : Rat
  is_csc : Bool
  deriving DecidableEq

/-- What lines 39-106 have written through the output arguments `nonempty`,
`Ap`, `Ai` and `Ax`, the four that the text of the function writes: `none`
when the argument has not been written, `some v` when `v` has been stored
(`some none` for a NULL pointer stored in `*Ap`, `*Ai` or `*Ax`).  The
outputs `type`, `nrows`, `ncols` and `nvals` are written inside the macro
`GB_EXPORT_CHECK` (line 83 reads `*nvals` back), which is not among the
sources: they are not part of this record, and `*nvals` as the macro left it
is part of its result. -/
structure Outputs where
  nonempty : Option Int
  Ap : Option (Option Pointer)
  Ai : Option (Option Pointer)
  Ax : Option (Option Pointer)
  deriving DecidableEq

/-- The state on return: the value returned, the handle `*A` (`none` for NULL), the
outputs, and the header that has been given to `GB_Matrix_free`, with the
buffers it still held. -/
structure Result where
  info : GrB_Info
  A : Option GB_Matrix_opaque
  out : Outputs
  freed : Option GB_Matrix_opaque
  deriving DecidableEq

/-- None of `*nonempty`, `*Ap`, `*Ai`, `*Ax` written. -/
def no_outputs : Outputs := { nonempty := none, Ap := none, Ai := none, Ax := none }

/-- The function `GxB_Matrix_export_CSC`, lines 37-106.  `A` is `*A`; `Ap`, `Ai`,
`Ax` tell whether the output pointers are non-NULL.  What the function calls
and the sources do not hold is a parameter: the macro `GB_EXPORT_CHECK`
(GB_export.h), which either returns an error, leaving `*A` in some state, or
passes, with `*A` valid and `*nvals` set; `GB_transpose` (in place),
`GB_ENSURE_SPARSE` and `GB_convert_hyper_to_sparse`, which return a value of
`GrB_Info` and leave the matrix in some state; and `GB_nvec_nonempty`.  Each
`GB_OK (...)` returns the `info` of a failed call after `GB_FREE_ALL`, which
line 12 defines as empty.  `GB_Matrix_free (A)` frees the header and sets
`*A` to NULL. -/
def GxB_Matrix_export_CSC (A : Option GB_Matrix_opaque) (Ap Ai Ax : Bool)
    (GB_EXPORT_CHECK : Option GB_Matrix_opaque →
      Except (GrB_Info × Option GB_Matrix_opaque) ( GB_Matrix_opaque × Nat))
    (GB_transpose : GB_Matrix_opaque → GrB_Info × GB_Matrix_opaque)
    (GB_ENSURE_SPARSE : GB_Matrix_opaque → GrB_Info × GB_Matrix_opaque)
    (GB_convert_hyper_to_sparse : GB_Matrix_opaque → GrB_Info × GB_Matrix_opaque)
    (GB_nvec_nonempty : GB_Matrix_opaque → Int) : Result :=
  match GB_EXPORT_CHECK A with
  | Except.error e => { info := e.1, A := e.2, out := no_outputs, freed := none }
  | Except.ok (a, nvals) =>
    if !Ap then
      { info := GrB_Info.GrB_NULL_POINTER, A := some a, out := no_outputs, freed := none }
    else if !Ai then
      { info := GrB_Info.GrB_NULL_POINTER, A := some a, out := no_outputs, freed := none }
    else if !Ax then
      { info := GrB_Info.GrB_NULL_POINTER, A := some a, out := no_outputs, freed := none }
    else
      let a := { a with hyper_switch := GB_NEVER_HYPER }
      -- ensure the matrix is in CSC format
      let t := if !a.is_csc then GB_transpose a else (GrB_Info.GrB_SUCCESS, a)
      if t.1 ≠ GrB_Info.GrB_SUCCESS then
        { info := t.1, A := some t.2, out := no_outputs, freed := none }
      else
        let a := t.2
        -- ensure the matrix is sparse, not full
        let s := GB_ENSURE_SPARSE a
        if s.1 ≠ GrB_Info.GrB_SUCCESS then
          { info := s.1, A := some s.2, out := no_outputs, freed := none }
        else
          let a := s.2
          -- ensure the matrix is sparse, not hypersparse
          let c := if a.h ≠ none then GB_convert_hyper_to_sparse a
            else (GrB_Info.GrB_SUCCESS, a)
          if c.1 ≠ GrB_Info.GrB_SUCCESS then
            { info := c.1, A := some c.2, out := no_outputs, freed := none }
          else
            let a := c.2
            let a :=
              if a.nvec_nonempty < 0 then { a with nvec_nonempty := GB_nvec_nonempty a }
              else a
            let nonempty := a.nvec_nonempty
            -- export the content and remove it from A
            let out_Ap := a.p
            let a := { a with p := none }
            if nvals > 0 then
              let out_Ai := a.i
              let out_Ax := a.x
              let a := { a with i := none }
              let a := { a with x := none }
              { info := GrB_Info.GrB_SUCCESS
                A := none
                out :=
                  { nonempty := some nonempty
                    Ap := some out_Ap
                    Ai := some out_Ai
                    Ax := some out_Ax }
                freed := some a }
            else
              { info := GrB_Info.GrB_SUCCESS
                A := none
                out :=
                  { nonempty := some nonempty
                    Ap := some out_Ap
                    Ai := some none
                    Ax := some none }
                freed := some a }

/-- A sparse matrix held by row, with the default `hyper_switch` 0.0625. -/
def csr_matrix : GB_Matrix_opaque :=
  { magic := GB_MAGIC, type := 7, vlen := 4, vdim := 3, nvec := 3, nvec_nonempty := -1,
    h := none, p := some 1000, i := some 2000, x := some 3000, hyper_switch := 1 / 16,
    is_csc := false }

/-- A sparse matrix held by column, with the default `hyper_switch` 0.0625. -/
def csc_matrix : GB_Matrix_opaque := { csr_matrix with is_csc := true }

/-- A stand-in for `GB_EXPORT_CHECK` on a valid matrix without pending work: it
passes, with `*nvals` the number given. -/
def check_ok (nvals : Nat) (A : Option GB_Matrix_opaque) :
    Except (GrB_Info × Option GB_Matrix_opaque) ( GB_Matrix_opaque × Nat) :=
  match A with
  | none => Except.error (GrB_Info.GrB_NULL_POINTER, none)
  | some a => Except.ok (a, nvals)

/-- A conversion that runs out of memory and leaves the matrix as it is. -/
def out_of_memory (a : GB_Matrix_opaque) : GrB_Info × GB_Matrix_opaque :=
  (GrB_Info.GrB_OUT_OF_MEMORY, a)

/-- A conversion that has nothing to do. -/
def nothing_to_do (a : GB_Matrix_opaque) : GrB_Info × GB_Matrix_opaque :=
  (GrB_Info.GrB_SUCCESS, a)

end Export

/-! ## Index-unary operators (Source/GxB_IndexUnaryOp_new.c,
Source/GxB_IndexUnaryOp_ttype_name.c) -/

namespace IndexUnaryOp

/-- The values of `GrB_Info` that the two functions return. -/
inductive GrB_Info where
  | GrB_SUCCESS
  | GrB_UNINITIALIZED_OBJECT
  | GrB_INVALID_OBJECT
  | GrB_NULL_POINTER
  | GrB_OUT_OF_MEMORY
  deriving DecidableEq

/-- The ways a call can end without returning. -/
inductive Fault where
  | invalid_dereference
  deriving DecidableEq

/-- Modelled from the spec: the value `GB_MAGIC2` of GB.h (not among the sources),
the `magic` of an object that is allocated but invalid; only that it differs
from `GB_MAGIC` is used. -/
def GB_MAGIC2 : Int := 32199697837354850

/-- The struct `GB_Type_opaque`, with the fields read here; `name` is the array
`name [GxB_MAX_NAME_LEN]`. -/
structure GB_Type_opaque where
  magic : Int
  name : String
  deriving DecidableEq

/-- Modelled from the spec: the struct `GB_IndexUnaryOp_opaque` (GB.h is not among
the sources), with the fields that the two functions name: `GxB_IndexUnaryOp_new` writes `magic`,
`header_size`, `xtype`, `ttype`, `ztype`, `function`, `opcode`, `name` and
`defn`, and `GxB_IndexUnaryOp_ttype_name` reads `magic` and `ytype`.  A
pointer to a type is `none` when it is NULL or does not point to a type. -/
structure GB_IndexUnaryOp_opaque where
  magic : Int
  header_size : Nat
  ztype : Option GB_Type_opaque
  xtype : Option GB_Type_opaque
  ytype : Option GB_Type_opaque
  ttype : Option GB_Type_opaque
  function : Nat
  opcode : Int
  name : String
  defn : Option String
  deriving DecidableEq

/-- Modelled from the spec: the test of the macros `GB_RETURN_IF_FAULTY` and
`GB_RETURN_IF_NULL_OR_FAULTY` of GB.h (not among the sources) on the `magic`
of an object: no error for `GB_MAGIC`, `GrB_INVALID_OBJECT` for `GB_MAGIC2`,
`GrB_UNINITIALIZED_OBJECT` otherwise. -/
def GB_FAULTY (magic : Int) : Option GrB_Info :=
  if magic = GB_MAGIC then none
  else if magic = GB_MAGIC2 then some GrB_Info.GrB_INVALID_OBJECT
  else some GrB_Info.GrB_UNINITIALIZED_OBJECT

/-- Modelled from the spec: the macro `GB_RETURN_IF_NULL_OR_FAULTY` on a pointer to
a type: `GrB_NULL_POINTER` for NULL, then the test of `magic`. -/
def GB_NULL_OR_FAULTY_type (t : Option GB_Type_opaque) : Option GrB_Info :=
  match t with
  | none => some GrB_Info.GrB_NULL_POINTER
  | some t => GB_FAULTY t.magic

/-- The function `GxB_IndexUnaryOp_new`, lines 40-79: the value returned and the
value of `*op` on return (`none` for NULL, also when `op` itself is NULL).
`op` tells whether the handle is non-NULL, `function` is the function pointer
(NULL as `none`).  `GB_MALLOC` is modelled by its outcome `block`: NULL, or a
struct whose fields hold unspecified values, and by `header_size`.
`GB_op_name_and_defn` and `GB_USER_INDEXUNARY_opcode` (GB.h) are
parameters. -/
def GxB_IndexUnaryOp_new (op : Bool) (function : Option Nat)
    (ztype xtype ttype : Option GB_Type_opaque) (idxop_name idxop_defn : Option String)
    (block : Option GB_IndexUnaryOp_opaque) (header_size : Nat)
    (GB_op_name_and_defn : Option String → Option String → String × Option String)
    (GB_USER_INDEXUNARY_opcode : Int) : GrB_Info × Option GB_IndexUnaryOp_opaque :=
  if !op then (GrB_Info.GrB_NULL_POINTER, none)
  else
    match function with
    | none => (GrB_Info.GrB_NULL_POINTER, none)
    | some function =>
      match GB_NULL_OR_FAULTY_type ztype with
      | some info => (info, none)
      | none =>
        match GB_NULL_OR_FAULTY_type xtype with
        | some info => (info, none)
        | none =>
          match GB_NULL_OR_FAULTY_type ttype with
          | some info => (info, none)
          | none =>
            match block with
            | none => (GrB_Info.GrB_OUT_OF_MEMORY, none)
            | some o =>
              let o := { o with header_size := header_size }
              let o := { o with magic := GB_MAGIC }
              let o := { o with xtype := xtype }
              let o := { o with ttype := ttype }
              let o := { o with ztype := ztype }
              let o := { o with function := function }
              let o := { o with opcode := GB_USER_INDEXUNARY_opcode }
              let nd := GB_op_name_and_defn idxop_name idxop_defn
              let o := { o with name := nd.1, defn := nd.2 }
              (GrB_Info.GrB_SUCCESS, some o)

/-- The function `GxB_IndexUnaryOp_ttype_name`, lines 25-34: the value returned and
what has been copied to `type_name` (`none` when nothing is written).
`type_name` tells whether the buffer pointer is non-NULL.  The `memcpy` of
line 33 reads `op->ytype->name`. -/
def GxB_IndexUnaryOp_ttype_name (type_name : Bool) (op : Option GB_IndexUnaryOp_opaque) :
    Except Fault (GrB_Info × Option String) :=
  if !type_name then Except.ok (GrB_Info.GrB_NULL_POINTER, none)
  else
    match op with
    | none => Except.ok (GrB_Info.GrB_NULL_POINTER, none)
    | some o =>
      match GB_FAULTY o.magic with
      | some info => Except.ok (info, none)
      | none =>
        match o.ytype with
        | none => Except.error Fault.invalid_dereference
        | some t => Except.ok (GrB_Info.GrB_SUCCESS, some t.name)

/-- The type `GrB_INT32`. -/
def GrB_INT32 : GB_Type_opaque := { magic := GB_MAGIC, name := "int32_t" }

/-- The type `GrB_FP64`. -/
def GrB_FP64 : GB_Type_opaque := { magic := GB_MAGIC, name := "double" }

/-- The type `GrB_BOOL`. -/
def GrB_BOOL : GB_Type_opaque := { magic := GB_MAGIC, name := "bool" }

/-- A block as `GB_MALLOC` may return it: the bytes of the pointer fields are
not addresses of types. -/
def fresh_block : GB_IndexUnaryOp_opaque :=
  { magic := 0, header_size := 0, ztype := none, xtype := none, ytype := none,
    ttype := none, function := 0, opcode := 0, name := "", defn := none }

/-- A block as `GB_MALLOC` may return it when the memory was used before: the
bytes of the field `ytype` still hold the address of `GrB_FP64`. -/
def reused_block : GB_IndexUnaryOp_opaque :=
  { fresh_block with ytype := some GrB_FP64 }

/-- A stand-in for `GB_op_name_and_defn`: the name given, or a default name. -/
def name_and_defn (idxop_name idxop_defn : Option String) : String × Option String :=
  (idxop_name.getD "user_idxunop", idxop_defn)

end IndexUnaryOp

/-! ## The hash functions of the saxpy3 method (Source/GB_saxpy3.h) -/

namespace Saxpy3

/-- The macro `GB_HASH_FACTOR` of line 23. -/
def GB_HASH_FACTOR : Int := 107

/-- The 64 bits of an `int64_t` value, as a natural number (two's complement). -/
def int64_bits (x : Int) : Nat := (x % 18446744073709551616).toNat

/-- The operator `&` on two `int64_t` values: the bitwise and of their bits. -/
def int64_and (a b : Int) : Int := int64_wrap (Nat.land (int64_bits a) (int64_bits b))

/-- The macro `GB_HASH_FUNCTION(i)` of line 28, `((i * GB_HASH_FACTOR) & (hash_bits))`,
with the variable `hash_bits` that it reads as first argument. -/
def GB_HASH_FUNCTION (hash_bits : Int) (i : Int) : Int :=
  int64_and (int64_wrap (i * GB_HASH_FACTOR)) hash_bits

/-- The macro `GB_REHASH(hash,i)` of line 35, `hash = ((hash + 1) & (hash_bits))`: the
new value of `hash` (the macro does not use `i`). -/
def GB_REHASH (hash_bits : Int) (hash : Int) : Int :=
  int64_and (int64_wrap (hash + 1)) hash_bits

end Saxpy3

/-! ## Reduction to a vector: the steps after the checks
(Source/GB_reduce_to_vector.c, lines 111-258 and 400-456) -/

namespace Reduce

/-- Modelled from the spec: the macro `GB_UNFLIP (i)` of GB.h (not among the
sources), which the comment on zombies of CUDA/GB_Matrix_allocate.c describes:
the actual index of an entry, `GB_FLIP (i)` when `i` is negative and `i`
otherwise. -/
def GB_UNFLIP (i : Int) : Int := if i < 0 then GB_FLIP i else i

/-- Modelled from the spec: the macro `GB_IMIN (x, y)` of GB.h (not among the
sources). -/
def GB_IMIN (x y : Int) : Int := if x < y then x else y

/-- Modelled from the spec: the macro `GB_IMAX (x, y)` of GB.h (not among the
sources). -/
def GB_IMAX (x y : Int) : Int := if x > y then x else y

/-- Conversion of an integer value to `int`. -/
def int32_wrap (x : Int) : Int := (x + 2147483648) % 4294967296 - 2147483648

/-- What lines 111-157 have established when the function goes on to reduce: the
length `n` of `C` (line 89), `A_transpose` after line 131, and `M` and `A`
after `GB_WAIT`. -/
structure Oriented where
  n : Int
  A_transpose : Bool
  M : Option GB_Matrix_opaque
  A : GB_Matrix_opaque
  deriving DecidableEq

/-- Lines 111-132 of `GB_reduce_to_vector`, for arguments that have passed the
checks: an early return (value returned and `C` on return), or the state with
which the function goes on.  The macro `GB_RETURN_IF_QUICK_MASK` and the
function `GB_wait` behind the macro `GB_WAIT` (GB.h and other files not among
the sources) are parameters: the first gives the value to return and the new
`C` when it returns, the second a value of `GrB_Info` and the matrix as it
leaves it; `GB_WAIT` of a NULL matrix does nothing. -/
def GB_reduce_to_vector_orient (c : GB_Matrix_opaque) (M : Option GB_Matrix_opaque)
    (a : GB_Matrix_opaque) (d : Descriptor_values)
    (GB_RETURN_IF_QUICK_MASK : GB_Matrix_opaque → Bool → Option GB_Matrix_opaque → Bool →
      Option (GrB_Info × GB_Matrix_opaque))
    (GB_wait : GB_Matrix_opaque → GrB_Info × GB_Matrix_opaque) :
    Except (GrB_Info × GB_Matrix_opaque) Oriented :=
  let n := GB_NROWS c
  -- quick return if an empty mask is complemented
  match GB_RETURN_IF_QUICK_MASK c d.C_replace M d.Mask_comp with
  | some r => Except.error r
  | none =>
    -- GB_WAIT (M)
    let wM : GrB_Info × Option GB_Matrix_opaque :=
      match M with
      | none => (GrB_Info.GrB_SUCCESS, none)
      | some m => ((GB_wait m).1, some (GB_wait m).2)
    if wM.1 ≠ GrB_Info.GrB_SUCCESS then Except.error (wM.1, c)
    else
      -- GB_WAIT (A)
      let wA := GB_wait a
      if wA.1 ≠ GrB_Info.GrB_SUCCESS then Except.error (wA.1, c)
      else
        let a := wA.2
        -- the result vector T is in CSC format
        let A_transpose := if !a.is_csc then !d.A_transpose else d.A_transpose
        Except.ok { n := n, A_transpose := A_transpose, M := wM.2, A := a }

/-- The index `j` of line 236: `k` when `Ah` is NULL, `Ah [k]` otherwise. -/
def vector_id (Ah : Option (List Int)) (k : Nat) : Int :=
  match Ah with
  | none => (k : Int)
  | some h => h.getD k 0

/-- The variables that the loop of lines 233-250 writes: the array `Ti` and
`nzombies`. -/
structure Symbolic where
  Ti : List Int
  nzombies : Int
  deriving DecidableEq

/-- One iteration of the loop of lines 233-250. -/
def symbolic_step (Ah : Option (List Int)) (Ap : List Int) (s : Symbolic) (k : Nat) :
    Symbolic :=
  let j := vector_id Ah k
  let jnz := int64_wrap (Ap.getD (k + 1) 0 - Ap.getD k 0)
  if jnz = 0 then
    -- A(:,j) is empty: T(j) is a zombie
    { Ti := s.Ti.set k (GB_FLIP j), nzombies := int64_wrap (s.nzombies + 1) }
  else
    -- A(:,j) has at least one entry; T(j) is live
    { Ti := s.Ti.set k j, nzombies := s.nzombies }

/-- The loop of lines 228-251, for `anvec = A->nvec`, on the array `Ti = T->i`. -/
def symbolic_loop (Ah : Option (List Int)) (Ap : List Int) (anvec : Nat) (Ti : List Int) :
    Symbolic :=
  (List.range anvec).foldl (symbolic_step Ah Ap) { Ti := Ti, nzombies := 0 }

/-- What the symbolic phase leaves: `T->i`, `T->nzombies` and
`A->nvec_nonempty`. -/
structure Symbolic_result where
  Ti : List Int
  T_nzombies : Int
  A_nvec_nonempty : Int
  deriving DecidableEq

/-- The symbolic phase of `GB_reduce_to_vector`, lines 228-258, on `Ah = A->h`
(NULL as `none`), `Ap = A->p`, `anvec = A->nvec`, `A->nvec_nonempty` and the
array `T->i` that `GB_CREATE` has allocated. -/
def GB_reduce_to_vector_symbolic (Ah : Option (List Int)) (Ap : List Int) (anvec : Nat)
    (A_nvec_nonempty : Int) (Ti : List Int) : Symbolic_result :=
  let s := symbolic_loop Ah Ap anvec Ti
  let A_nvec_nonempty :=
    if A_nvec_nonempty < 0 then int64_wrap ((anvec : Int) - s.nzombies) else A_nvec_nonempty
  { Ti := s.Ti, T_nzombies := s.nzombies, A_nvec_nonempty := A_nvec_nonempty }

/-- The ways the selection of the method can end without returning. -/
inductive Fault where
  | division_by_zero
  deriving DecidableEq

/-- The methods of `GB_reduce_to_vector`: the reduction of each vector (lines
195-395), the qsort method (lines 404-438) and the bucket method with its
number of threads `nth` (lines 440-456). -/
inductive Method where
  | each_vector
  | qsort
  | bucket (nth : Int)
  deriving DecidableEq

/-- The selection of the method, lines 184-185, 195, 400 and 450-452, from
`anz = GB_NNZ (A)`, the length `n` of `C`, `A_transpose` after line 131 and
the number of threads that `GB_GET_NTHREADS` gives.  `GB_CHUNK` is 2 (line
180).  The divisions `anz / GB_CHUNK` of line 184 and `anz / n` of line 450
are divisions of `int64_t` values, which truncate. -/
def GB_reduce_to_vector_method (anz n : Int) (nthreads : Int) (A_transpose : Bool) :
    Except Fault Method :=
  let nthreads := int32_wrap (GB_IMIN (Int.tdiv anz 2) nthreads)
  let nthreads := GB_IMAX nthreads 1
  if A_transpose then Except.ok Method.each_vector
  else if int64_wrap (8 * anz) < n then Except.ok Method.qsort
  else if n = 0 then Except.error Fault.division_by_zero
  else
    let nth := int32_wrap (Int.tdiv anz n)
    let nth := GB_IMIN nth nthreads
    let nth := GB_IMAX nth 1
    Except.ok (Method.bucket nth)

/-- A vector of length 0, as a matrix held by column. -/
def vector0 : GB_Matrix_opaque :=
  { magic := GB_MAGIC, type := 7, vlen := 0, vdim := 1, is_csc := true,
    p := [0, 0], i := [], x := [] }

/-- A 0-by-3 matrix held by column, without entries. -/
def matrix_0x3 : GB_Matrix_opaque :=
  { magic := GB_MAGIC, type := 7, vlen := 0, vdim := 3, is_csc := true,
    p := [0, 0, 0, 0], i := [], x := [] }

/-- A 3-by-4 matrix held by row. -/
def matrix_3x4_by_row : GB_Matrix_opaque :=
  { magic := GB_MAGIC, type := 7, vlen := 4, vdim := 3, is_csc := false,
    p := [0, 1, 1, 2], i := [0, 3], x := [1, 2] }

/-- A stand-in for `GB_RETURN_IF_QUICK_MASK` when there is no mask: it does not
return. -/
def no_quick_mask (_c : GB_Matrix_opaque) (_C_replace : Bool) (_M : Option GB_Matrix_opaque)
    (_Mask_comp : Bool) : Option (GrB_Info × GB_Matrix_opaque) := none

/-- A stand-in for `GB_wait` on a matrix without pending work. -/
def wait_nothing (a : GB_Matrix_opaque) : GrB_Info × GB_Matrix_opaque :=
  (GrB_Info.GrB_SUCCESS, a)

end Reduce

/-! ## Arithmetic and closed forms -/

/-- Every format code is one of the four formats or none of them. -/
theorem sparsity_cases (sparsity : Int) :
    sparsity = GxB_FULL ∨ sparsity = GxB_BITMAP ∨ sparsity = GxB_SPARSE
      ∨ sparsity = GxB_HYPERSPARSE
      ∨ (sparsity ≠ GxB_FULL ∧ sparsity ≠ GxB_BITMAP ∧ sparsity ≠ GxB_SPARSE
          ∧ sparsity ≠ GxB_HYPERSPARSE) := by
  by_cases h1 : sparsity = GxB_FULL
  · exact Or.inl h1
  by_cases h2 : sparsity = GxB_BITMAP
  · exact Or.inr (Or.inl h2)
  by_cases h3 : sparsity = GxB_SPARSE
  · exact Or.inr (Or.inr (Or.inl h3))
  by_cases h4 : sparsity = GxB_HYPERSPARSE
  · exact Or.inr (Or.inr (Or.inr (Or.inl h4)))
  exact Or.inr (Or.inr (Or.inr (Or.inr ⟨h1, h2, h3, h4⟩)))

/-- Closed form of the container returned by `GB_Matrix_allocate` for the Full format. -/
theorem GB_Matrix_allocate_eq_full (heap : Heap) (A0 : GB_Matrix_opaque)
    (type : GB_Type_opaque) (nrows ncols : Int) (is_csc iso : Bool)
    (anz nvec : Int) (hdr : heap.header = some A0) :
    GB_Matrix_allocate heap type nrows ncols GxB_FULL is_csc iso anz nvec =
      Except.ok
        { A0 with
          magic := GB_MAGIC, logger := none, logger_size := 0, type := type,
          is_csc := is_csc, iso := iso,
          vlen := if is_csc then nrows else ncols,
          vdim := if is_csc then ncols else nrows,
          x_size := if iso then type.size
                    else size_mul (size_of_int64 (int64_wrap (nrows * ncols))) type.size,
          x := rmm_malloc heap 0 (if iso then type.size
                    else size_mul (size_of_int64 (int64_wrap (nrows * ncols))) type.size),
          nzmax := int64_wrap (nrows * ncols), nvals := 0, nzombies := 0,
          jumbled := false, Pending := none,
          hyper_switch := 0.0625, bitmap_switch := 0.10, sparsity := GxB_FULL,
          p_size := 0, h_size := 0, b_size := 0, i_size := 0,
          p := none, h := none, b := none, i := none,
          plen := -1, nvec := if is_csc then ncols else nrows,
          nvec_nonempty := if (if is_csc then nrows else ncols) > 0
                           then (if is_csc then ncols else nrows) else 0,
          p_shallow := false, h_shallow := false, b_shallow := false,
          i_shallow := false, x_shallow := false, static_header := false } := by
  unfold GB_Matrix_allocate
  rw [hdr]
  cases is_csc <;> cases iso <;> rfl

/-- Closed form of the container returned by `GB_Matrix_allocate` for the Bitmap format. -/
theorem GB_Matrix_allocate_eq_bitmap (heap : Heap) (A0 : GB_Matrix_opaque)
    (type : GB_Type_opaque) (nrows ncols : Int) (is_csc iso : Bool)
    (anz nvec : Int) (hdr : heap.header = some A0) :
    GB_Matrix_allocate heap type nrows ncols GxB_BITMAP is_csc iso anz nvec =
      Except.ok
        { A0 with
          magic := GB_MAGIC, logger := none, logger_size := 0, type := type,
          is_csc := is_csc, iso := iso,
          vlen := if is_csc then nrows else ncols,
          vdim := if is_csc then ncols else nrows,
          x_size := if iso then type.size
                    else size_mul (size_of_int64 (int64_wrap (nrows * ncols))) type.size,
          x := rmm_malloc heap 0 (if iso then type.size
                    else size_mul (size_of_int64 (int64_wrap (nrows * ncols))) type.size),
          nzmax := int64_wrap (nrows * ncols), nvals := 0, nzombies := 0,
          jumbled := false, Pending := none,
          hyper_switch := 0.0625, bitmap_switch := 0.10, sparsity := GxB_BITMAP,
          p_size := 0, h_size := 0, i_size := 0,
          b_size := size_mul (size_of_int64 (int64_wrap (nrows * ncols))) sizeof_bool,
          p := none, h := none, i := none,
          b := rmm_malloc heap 1 (size_mul (size_of_int64 (int64_wrap (nrows * ncols))) sizeof_bool),
          plen := -1, nvec := if is_csc then ncols else nrows,
          nvec_nonempty := if (if is_csc then nrows else ncols) > 0
                           then (if is_csc then ncols else nrows) else 0,
          p_shallow := false, h_shallow := false, b_shallow := false,
          i_shallow := false, x_shallow := false, static_header := false } := by
  unfold GB_Matrix_allocate
  rw [hdr]
  cases is_csc <;> cases iso <;> rfl

/-- Closed form of the container returned by `GB_Matrix_allocate` for the Sparse format. -/
theorem GB_Matrix_allocate_eq_sparse (heap : Heap) (A0 : GB_Matrix_opaque)
    (type : GB_Type_opaque) (nrows ncols : Int) (is_csc iso : Bool)
    (anz nvec : Int) (hdr : heap.header = some A0) :
    GB_Matrix_allocate heap type nrows ncols GxB_SPARSE is_csc iso anz nvec =
      Except.ok
        { A0 with
          magic := GB_MAGIC, logger := none, logger_size := 0, type := type,
          is_csc := is_csc, iso := iso,
          vlen := if is_csc then nrows else ncols,
          vdim := if is_csc then ncols else nrows,
          x_size := if iso then type.size
                    else size_mul (size_of_int64 (anz)) type.size,
          x := rmm_malloc heap 0 (if iso then type.size
                    else size_mul (size_of_int64 (anz)) type.size),
          nzmax := anz, nvals := 0, nzombies := 0,
          jumbled := false, Pending := none,
          hyper_switch := 0.0625, bitmap_switch := 0.10, sparsity := GxB_SPARSE,
          h_size := 0, b_size := 0, h := none, b := none,
          plen := if is_csc then ncols else nrows,
          nvec := if is_csc then ncols else nrows,
          nvec_nonempty := -1,
          p_size := size_mul (size_of_int64 (int64_wrap ((if is_csc then ncols else nrows) + 1))) sizeof_int64,
          i_size := size_mul (size_of_int64 anz) sizeof_int64,
          p := rmm_malloc heap 1
            (size_mul (size_of_int64 (int64_wrap ((if is_csc then ncols else nrows) + 1))) sizeof_int64),
          i := rmm_malloc heap 2 (size_mul (size_of_int64 anz) sizeof_int64),
          p_shallow := false, h_shallow := false, b_shallow := false,
          i_shallow := false, x_shallow := false, static_header := false } := by
  unfold GB_Matrix_allocate
  rw [hdr]
  cases is_csc <;> cases iso <;> rfl

/-- Closed form of the container returned by `GB_Matrix_allocate` for the Hypersparse format. -/
theorem GB_Matrix_allocate_eq_hypersparse (heap : Heap) (A0 : GB_Matrix_opaque)
    (type : GB_Type_opaque) (nrows ncols : Int) (is_csc iso : Bool)
    (anz nvec : Int) (hdr : heap.header = some A0) :
    GB_Matrix_allocate heap type nrows ncols GxB_HYPERSPARSE is_csc iso anz nvec =
      Except.ok
        { A0 with
          magic := GB_MAGIC, logger := none, logger_size := 0, type := type,
          is_csc := is_csc, iso := iso,
          vlen := if is_csc then nrows else ncols,
          vdim := if is_csc then ncols else nrows,
          x_size := if iso then type.size
                    else size_mul (size_of_int64 (anz)) type.size,
          x := rmm_malloc heap 0 (if iso then type.size
                    else size_mul (size_of_int64 (anz)) type.size),
          nzmax := anz, nvals := 0, nzombies := 0,
          jumbled := false, Pending := none,
          hyper_switch := 0.0625, bitmap_switch := 0.10, sparsity := GxB_HYPERSPARSE,
          b_size := 0, b := none,
          plen := nvec, nvec := nvec, nvec_nonempty := -1,
          p_size := size_mul (size_of_int64 (int64_wrap (nvec + 1))) sizeof_int64,
          h_size := size_mul (size_of_int64 nvec) sizeof_int64,
          i_size := size_mul (size_of_int64 anz) sizeof_int64,
          p := rmm_malloc heap 1 (size_mul (size_of_int64 (int64_wrap (nvec + 1))) sizeof_int64),
          h := rmm_malloc heap 2 (size_mul (size_of_int64 nvec) sizeof_int64),
          i := rmm_malloc heap 3 (size_mul (size_of_int64 anz) sizeof_int64),
          p_shallow := false, h_shallow := false, b_shallow := false,
          i_shallow := false, x_shallow := false, static_header := false } := by
  unfold GB_Matrix_allocate
  rw [hdr]
  cases is_csc <;> cases iso <;> rfl

/-- Closed form of the container returned by `GB_Matrix_allocate` for a format code that is none of the four formats: `plen` and `nvec` are not written. -/
theorem GB_Matrix_allocate_eq_other (heap : Heap) (A0 : GB_Matrix_opaque)
    (type : GB_Type_opaque) (nrows ncols sparsity : Int) (is_csc iso : Bool)
    (anz nvec : Int) (hdr : heap.header = some A0)
    (h1 : sparsity ≠ GxB_FULL) (h2 : sparsity ≠ GxB_BITMAP)
    (h3 : sparsity ≠ GxB_SPARSE) (h4 : sparsity ≠ GxB_HYPERSPARSE) :
    GB_Matrix_allocate heap type nrows ncols sparsity is_csc iso anz nvec =
      Except.ok
        { A0 with
          magic := GB_MAGIC, logger := none, logger_size := 0, type := type,
          is_csc := is_csc, iso := iso,
          vlen := if is_csc then nrows else ncols,
          vdim := if is_csc then ncols else nrows,
          x_size := if iso then type.size
                    else size_mul (size_of_int64 (anz)) type.size,
          x := rmm_malloc heap 0 (if iso then type.size
                    else size_mul (size_of_int64 (anz)) type.size),
          nzmax := anz, nvals := 0, nzombies := 0,
          jumbled := false, Pending := none,
          hyper_switch := 0.0625, bitmap_switch := 0.10, sparsity := sparsity,
          p_size := 0, h_size := 0, b_size := 0, i_size := 0,
          p := none, h := none, b := none, i := none, nvec_nonempty := -1,
          p_shallow := false, h_shallow := false, b_shallow := false,
          i_shallow := false, x_shallow := false, static_header := false } := by
  unfold GB_Matrix_allocate
  rw [hdr]
  cases is_csc <;> cases iso <;> simp only [h1, h2, h3, h4, or_self, if_false] <;> rfl

/-! ## The claims -/

/-- C1: for every type, nrows, ncols, format code, iso flag, anz and nvec, a call
of `GB_Matrix_allocate` whose header is allocated returns a container with
`vlen = nrows`, `vdim = ncols` when `is_csc` is true and `vlen = ncols`,
`vdim = nrows` when it is false; in both orientations
`vlen * vdim = nrows * ncols`. -/
theorem GB_Matrix_allocate_dimensions (heap : Heap) (A0 : GB_Matrix_opaque)
    (type : GB_Type_opaque) (nrows ncols sparsity : Int) (is_csc iso : Bool)
    (anz nvec : Int) (hdr : heap.header = some A0) :
    ∃ A, GB_Matrix_allocate heap type nrows ncols sparsity is_csc iso anz nvec = Except.ok A
      ∧ (is_csc = true → A.vlen = nrows ∧ A.vdim = ncols)
      ∧ (is_csc = false → A.vlen = ncols ∧ A.vdim = nrows)
      ∧ A.vlen * A.vdim = nrows * ncols := by
  rcases sparsity_cases sparsity with h | h | h | h | ⟨h1, h2, h3, h4⟩
  · subst h
    refine ⟨_, GB_Matrix_allocate_eq_full heap A0 type nrows ncols is_csc iso anz nvec hdr, ?_⟩
    cases is_csc <;> simp [mul_comm]
  · subst h
    refine ⟨_, GB_Matrix_allocate_eq_bitmap heap A0 type nrows ncols is_csc iso anz nvec hdr, ?_⟩
    cases is_csc <;> simp [mul_comm]
  · subst h
    refine ⟨_, GB_Matrix_allocate_eq_sparse heap A0 type nrows ncols is_csc iso anz nvec hdr, ?_⟩
    cases is_csc <;> simp [mul_comm]
  · subst h
    refine ⟨_, GB_Matrix_allocate_eq_hypersparse heap A0 type nrows ncols is_csc iso anz nvec hdr, ?_⟩
    cases is_csc <;> simp [mul_comm]
  · refine ⟨_, GB_Matrix_allocate_eq_other heap A0 type nrows ncols sparsity is_csc iso anz nvec
      hdr h1 h2 h3 h4, ?_⟩
    cases is_csc <;> simp [mul_comm]

/-- Witness of C1: a 3-by-4 row-major Sparse allocation has `vlen = 4` and
`vdim = 3`. -/
theorem GB_Matrix_allocate_dimensions_witness :
    stale_heap.header = some stale_header
      ∧ ∃ A, GB_Matrix_allocate stale_heap fp64_type 3 4 GxB_SPARSE false false 5 0 = Except.ok A
          ∧ A.vlen = 4 ∧ A.vdim = 3 ∧ A.vlen * A.vdim = 3 * 4 := by
  refine ⟨rfl, ?_⟩
  obtain ⟨A, hA, -, h2, h3⟩ :=
    GB_Matrix_allocate_dimensions stale_heap stale_header fp64_type 3 4 GxB_SPARSE false false 5 0 rfl
  exact ⟨A, hA, (h2 rfl).1, (h2 rfl).2, h3⟩

/-- C4 (evaluation at the failing input): a 2-by-2 column-major Hypersparse
allocation asked for with the estimate `nvec = 5` returns a container with
`nvec = plen = 5` and `vdim = 2`, so that `plen ≤ vdim` fails; its vector-id
buffer has `plen` entries (40 bytes) and its offsets buffer `plen + 1`
entries (48 bytes). -/
theorem GB_Matrix_allocate_hypersparse_plen_above_vdim :
    ∃ A, GB_Matrix_allocate stale_heap fp64_type 2 2 GxB_HYPERSPARSE true false 0 5 = Except.ok A
      ∧ A.nvec = 5 ∧ A.plen = 5 ∧ A.vdim = 2 ∧ ¬ (A.plen ≤ A.vdim)
      ∧ A.h_size = 40 ∧ A.p_size = 48 := by
  refine ⟨_, GB_Matrix_allocate_eq_hypersparse stale_heap stale_header fp64_type 2 2 true false
    0 5 rfl, rfl, rfl, rfl, ?_, ?_, ?_⟩
  · show ¬ ((5 : Int) ≤ 2)
    decide
  · show size_mul (size_of_int64 5) sizeof_int64 = 40
    decide
  · show size_mul (size_of_int64 (int64_wrap (5 + 1))) sizeof_int64 = 48
    decide

/-- C5: with non-negative dimensions, `GB_Matrix_allocate` sets `nvec_nonempty`
to `vdim` when `vlen > 0` and to 0 when `vlen = 0` for the Full and Bitmap
formats, leaves it at the sentinel -1 for Sparse and Hypersparse, and
whenever it is known (not -1) it satisfies `0 ≤ nvec_nonempty ≤ nvec`. -/
theorem GB_Matrix_allocate_nvec_nonempty (heap : Heap) (A0 : GB_Matrix_opaque)
    (type : GB_Type_opaque) (nrows ncols sparsity : Int) (is_csc iso : Bool)
    (anz nvec : Int) (hdr : heap.header = some A0)
    (hr : 0 ≤ nrows) (hc : 0 ≤ ncols) :
    ∃ A, GB_Matrix_allocate heap type nrows ncols sparsity is_csc iso anz nvec = Except.ok A
      ∧ (sparsity = GxB_FULL ∨ sparsity = GxB_BITMAP →
          (A.vlen > 0 → A.nvec_nonempty = A.vdim) ∧ (A.vlen = 0 → A.nvec_nonempty = 0))
      ∧ (sparsity = GxB_SPARSE ∨ sparsity = GxB_HYPERSPARSE → A.nvec_nonempty = -1)
      ∧ (A.nvec_nonempty ≠ -1 → 0 ≤ A.nvec_nonempty ∧ A.nvec_nonempty ≤ A.nvec) := by
  have key : ∀ vlen vdim : Int, 0 ≤ vdim →
      ((vlen > 0 → (if vlen > 0 then vdim else 0) = vdim)
        ∧ (vlen = 0 → (if vlen > 0 then vdim else 0) = 0))
      ∧ (0 ≤ (if vlen > 0 then vdim else 0) ∧ (if vlen > 0 then vdim else 0) ≤ vdim) := by
    intro vlen vdim hv
    by_cases h : vlen > 0
    · rw [if_pos h]
      exact ⟨⟨fun _ => rfl, fun h0 => by omega⟩, hv, le_refl _⟩
    · rw [if_neg h]
      exact ⟨⟨fun h0 => absurd h0 h, fun _ => rfl⟩, le_refl _, hv⟩
  have hvd : 0 ≤ (if is_csc then ncols else nrows) := by
    cases is_csc <;> simpa
  rcases sparsity_cases sparsity with h | h | h | h | ⟨h1, h2, h3, h4⟩
  · subst h
    refine ⟨_, GB_Matrix_allocate_eq_full heap A0 type nrows ncols is_csc iso anz nvec hdr, fun _ => (key _ _ hvd).1,
      fun hh => ?_, fun _ => (key _ _ hvd).2⟩
    rcases hh with hh | hh <;> exact absurd hh (by decide)
  · subst h
    refine ⟨_, GB_Matrix_allocate_eq_bitmap heap A0 type nrows ncols is_csc iso anz nvec hdr, fun _ => (key _ _ hvd).1,
      fun hh => ?_, fun _ => (key _ _ hvd).2⟩
    rcases hh with hh | hh <;> exact absurd hh (by decide)
  · subst h
    refine ⟨_, GB_Matrix_allocate_eq_sparse heap A0 type nrows ncols is_csc iso anz nvec hdr, fun hh => ?_,
      fun _ => rfl, fun hh => absurd rfl hh⟩
    rcases hh with hh | hh <;> exact absurd hh (by decide)
  · subst h
    refine ⟨_, GB_Matrix_allocate_eq_hypersparse heap A0 type nrows ncols is_csc iso anz nvec hdr, fun hh => ?_,
      fun _ => rfl, fun hh => absurd rfl hh⟩
    rcases hh with hh | hh <;> exact absurd hh (by decide)
  · refine ⟨_, GB_Matrix_allocate_eq_other heap A0 type nrows ncols sparsity is_csc iso anz nvec
      hdr h1 h2 h3 h4, fun hh => ?_, fun _ => rfl, fun hh => absurd rfl hh⟩
    rcases hh with hh | hh
    · exact absurd hh h1
    · exact absurd hh h2

/-- Witness of C5: a 3-by-4 column-major Full allocation has
`nvec_nonempty = vdim = nvec = 4`. -/
theorem GB_Matrix_allocate_nvec_nonempty_witness :
    stale_heap.header = some stale_header
      ∧ ∃ A, GB_Matrix_allocate stale_heap fp64_type 3 4 GxB_FULL true false 0 0 = Except.ok A
          ∧ (A.vlen > 0 → A.nvec_nonempty = A.vdim)
          ∧ (A.nvec_nonempty ≠ -1 → 0 ≤ A.nvec_nonempty ∧ A.nvec_nonempty ≤ A.nvec) := by
  refine ⟨rfl, ?_⟩
  obtain ⟨A, hA, h1, -, h3⟩ :=
    GB_Matrix_allocate_nvec_nonempty stale_heap stale_header fp64_type 3 4 GxB_FULL true false 0 0
      rfl (by decide) (by decide)
  exact ⟨A, hA, (h1 (Or.inl rfl)).1, h3⟩

/-- C6: every container returned by `GB_Matrix_allocate` has no pending work and
owns its buffers: `nzombies = 0`, `jumbled = false`, the pending log is NULL,
`nvals = 0`, and the five shallow flags are false. -/
theorem GB_Matrix_allocate_no_pending_work (heap : Heap) (A0 : GB_Matrix_opaque)
    (type : GB_Type_opaque) (nrows ncols sparsity : Int) (is_csc iso : Bool)
    (anz nvec : Int) (hdr : heap.header = some A0) :
    ∃ A, GB_Matrix_allocate heap type nrows ncols sparsity is_csc iso anz nvec = Except.ok A
      ∧ A.nzombies = 0 ∧ A.jumbled = false ∧ A.Pending = none ∧ A.nvals = 0
      ∧ A.p_shallow = false ∧ A.h_shallow = false ∧ A.b_shallow = false
      ∧ A.i_shallow = false ∧ A.x_shallow = false := by
  rcases sparsity_cases sparsity with h | h | h | h | ⟨h1, h2, h3, h4⟩
  · subst h
    exact ⟨_, GB_Matrix_allocate_eq_full heap A0 type nrows ncols is_csc iso anz nvec hdr, rfl, rfl, rfl, rfl, rfl, rfl, rfl, rfl, rfl⟩
  · subst h
    exact ⟨_, GB_Matrix_allocate_eq_bitmap heap A0 type nrows ncols is_csc iso anz nvec hdr, rfl, rfl, rfl, rfl, rfl, rfl, rfl, rfl, rfl⟩
  · subst h
    exact ⟨_, GB_Matrix_allocate_eq_sparse heap A0 type nrows ncols is_csc iso anz nvec hdr, rfl, rfl, rfl, rfl, rfl, rfl, rfl, rfl, rfl⟩
  · subst h
    exact ⟨_, GB_Matrix_allocate_eq_hypersparse heap A0 type nrows ncols is_csc iso anz nvec hdr, rfl, rfl, rfl, rfl, rfl, rfl, rfl, rfl, rfl⟩
  · exact ⟨_, GB_Matrix_allocate_eq_other heap A0 type nrows ncols sparsity is_csc iso anz nvec
      hdr h1 h2 h3 h4, rfl, rfl, rfl, rfl, rfl, rfl, rfl, rfl, rfl⟩

/-- Witness of C6: on a heap whose header block holds stale values (zombies,
jumbled, shallow flags set), the Hypersparse container returned has them all
cleared. -/
theorem GB_Matrix_allocate_no_pending_work_witness :
    stale_heap.header = some stale_header
      ∧ stale_header.nzombies = 7 ∧ stale_header.jumbled = true
      ∧ ∃ A, GB_Matrix_allocate stale_heap fp64_type 3 4 GxB_HYPERSPARSE true false 5 2 = Except.ok A
          ∧ A.nzombies = 0 ∧ A.jumbled = false ∧ A.Pending = none ∧ A.nvals = 0
          ∧ A.p_shallow = false ∧ A.h_shallow = false ∧ A.b_shallow = false
          ∧ A.i_shallow = false ∧ A.x_shallow = false :=
  ⟨rfl, rfl, rfl,
    GB_Matrix_allocate_no_pending_work stale_heap stale_header fp64_type 3 4 GxB_HYPERSPARSE
      true false 5 2 rfl⟩

/-- C7 (counterexample): on a heap whose blocks still hold the byte 255, a 1-by-1
Bitmap container is returned with `nvals = 0` although its presence byte is
255, and a 1-by-1 Sparse container is returned whose offsets buffer starts
with the byte 255, so that `offsets[0]` is not 0. -/
theorem GB_Matrix_allocate_buffers_not_zeroed :
    (∃ A, GB_Matrix_allocate stale_heap fp64_type 1 1 GxB_BITMAP true false 0 0 = Except.ok A
        ∧ A.nvals = 0 ∧ A.b_size = 1
        ∧ ¬ (∀ blk, A.b = some blk → ∀ k, k < A.b_size → blk k = 0))
      ∧ (∃ A, GB_Matrix_allocate stale_heap fp64_type 1 1 GxB_SPARSE true false 0 0 = Except.ok A
        ∧ A.p_size = 16
        ∧ ¬ (∀ blk, A.p = some blk → ∀ k, k < A.p_size → blk k = 0)) := by
  constructor
  · refine ⟨_, GB_Matrix_allocate_eq_bitmap stale_heap stale_header fp64_type 1 1 true false
      0 0 rfl, rfl, by decide, ?_⟩
    intro hall
    have h := hall (fun _ => 255) rfl 0 (by decide)
    exact absurd h (by decide)
  · refine ⟨_, GB_Matrix_allocate_eq_sparse stale_heap stale_header fp64_type 1 1 true false
      0 0 rfl, by decide, ?_⟩
    intro hall
    have h := hall (fun _ => 255) rfl 0 (by decide)
    exact absurd h (by decide)

/-- C7 (amended): a container returned by `GB_Matrix_allocate` has `nvals = 0`,
and no buffer is written: the value buffer, the Bitmap presence buffer and
the Sparse or Hypersparse offsets, vector-id and index buffers are exactly the
blocks the allocator delivered, with the content they had. -/
theorem GB_Matrix_allocate_buffers_as_delivered (heap : Heap) (A0 : GB_Matrix_opaque)
    (type : GB_Type_opaque) (nrows ncols sparsity : Int) (is_csc iso : Bool)
    (anz nvec : Int) (hdr : heap.header = some A0) :
    ∃ A, GB_Matrix_allocate heap type nrows ncols sparsity is_csc iso anz nvec = Except.ok A
      ∧ A.nvals = 0
      ∧ A.x = heap.block 0 A.x_size
      ∧ (sparsity = GxB_BITMAP → A.b = heap.block 1 A.b_size)
      ∧ (sparsity = GxB_SPARSE →
          A.p = heap.block 1 A.p_size ∧ A.i = heap.block 2 A.i_size)
      ∧ (sparsity = GxB_HYPERSPARSE →
          A.p = heap.block 1 A.p_size ∧ A.h = heap.block 2 A.h_size
            ∧ A.i = heap.block 3 A.i_size) := by
  rcases sparsity_cases sparsity with h | h | h | h | ⟨h1, h2, h3, h4⟩
  · subst h
    exact ⟨_, GB_Matrix_allocate_eq_full heap A0 type nrows ncols is_csc iso anz nvec hdr, rfl, rfl,
      fun hh => absurd hh (by decide), fun hh => absurd hh (by decide),
      fun hh => absurd hh (by decide)⟩
  · subst h
    exact ⟨_, GB_Matrix_allocate_eq_bitmap heap A0 type nrows ncols is_csc iso anz nvec hdr, rfl, rfl,
      fun _ => rfl, fun hh => absurd hh (by decide), fun hh => absurd hh (by decide)⟩
  · subst h
    exact ⟨_, GB_Matrix_allocate_eq_sparse heap A0 type nrows ncols is_csc iso anz nvec hdr, rfl, rfl,
      fun hh => absurd hh (by decide), fun _ => ⟨rfl, rfl⟩, fun hh => absurd hh (by decide)⟩
  · subst h
    exact ⟨_, GB_Matrix_allocate_eq_hypersparse heap A0 type nrows ncols is_csc iso anz nvec hdr, rfl, rfl,
      fun hh => absurd hh (by decide), fun hh => absurd hh (by decide),
      fun _ => ⟨rfl, rfl, rfl⟩⟩
  · exact ⟨_, GB_Matrix_allocate_eq_other heap A0 type nrows ncols sparsity is_csc iso anz nvec
      hdr h1 h2 h3 h4, rfl, rfl,
      fun hh => absurd hh h2, fun hh => absurd hh h3, fun hh => absurd hh h4⟩

/-- Witness of C7 (amended): the presence buffer of a 2-by-2 Bitmap container
allocated on the stale heap is the block the heap delivered. -/
theorem GB_Matrix_allocate_buffers_as_delivered_witness :
    stale_heap.header = some stale_header
      ∧ ∃ A, GB_Matrix_allocate stale_heap fp64_type 2 2 GxB_BITMAP true false 0 0 = Except.ok A
          ∧ A.nvals = 0 ∧ A.b = stale_heap.block 1 A.b_size := by
  refine ⟨rfl, ?_⟩
  obtain ⟨A, hA, h1, -, h2, -⟩ :=
    GB_Matrix_allocate_buffers_as_delivered stale_heap stale_header fp64_type 2 2 GxB_BITMAP
      true false 0 0 rfl
  exact ⟨A, hA, h1, h2 rfl⟩

/-- C8 (evaluation at the failing input): `GB_Vector_allocate` for a Sparse vector
of length 3 returns a column-major container with `vlen = 1`, `vdim = 3`,
`nvec = plen = 3` and an offsets buffer of 4 entries (32 bytes): it is 1-by-3,
not 3-by-1. -/
theorem GB_Vector_allocate_is_one_by_length :
    ∃ A, GB_Vector_allocate stale_heap fp64_type 3 GxB_SPARSE false 2 = Except.ok A
      ∧ A.is_csc = true ∧ A.vlen = 1 ∧ A.vdim = 3 ∧ A.nvec = 3 ∧ A.plen = 3
      ∧ A.p_size = 32 := by
  refine ⟨_, GB_Matrix_allocate_eq_sparse stale_heap stale_header fp64_type 1 3 true false
    2 1 rfl, rfl, rfl, rfl, rfl, rfl, ?_⟩
  decide

/-- C9: `GB_Matrix_allocate` does not fail with an out-of-memory error when an
allocation fails.  When the allocation of the value buffer fails, a 2-by-2
Sparse allocation returns a container all the same, with `x = NULL`, the
size `x_size = 24` recorded for it (against the comment of the field, "zero
if A->x is NULL") and the offsets and index buffers allocated; and when the
header itself cannot be allocated, the call ends in the write through the
NULL header of line 90, not in an error return. -/
theorem GB_Matrix_allocate_returns_partial_container :
    (∃ A, GB_Matrix_allocate heap_without_x fp64_type 2 2 GxB_SPARSE true false 3 0 = Except.ok A
        ∧ A.x = none ∧ A.x_size = 24 ∧ A.p ≠ none ∧ A.i ≠ none)
      ∧ GB_Matrix_allocate exhausted_heap fp64_type 2 2 GxB_SPARSE true false 3 0
          = Except.error Fault.null_dereference := by
  refine ⟨⟨_, GB_Matrix_allocate_eq_sparse heap_without_x stale_header fp64_type 2 2 true false
    3 0 rfl, rfl, by decide, ?_, ?_⟩, rfl⟩
  · exact fun hn => Option.noConfusion (show (some (fun _ => (255 : Nat)) : Option Block) = none from hn)
  · exact fun hn => Option.noConfusion (show (some (fun _ => (255 : Nat)) : Option Block) = none from hn)

/-- No result of `rmm_malloc` is tested and there is no error return: whenever the
header is allocated the function returns the container, whatever happened to
the buffer requests, and the pointer stored for each requested buffer is NULL
exactly when that request failed. -/
theorem GB_Matrix_allocate_never_reports_failure (heap : Heap) (A0 : GB_Matrix_opaque)
    (type : GB_Type_opaque) (nrows ncols sparsity : Int) (is_csc iso : Bool)
    (anz nvec : Int) (hdr : heap.header = some A0) :
    ∃ A, GB_Matrix_allocate heap type nrows ncols sparsity is_csc iso anz nvec = Except.ok A
      ∧ (A.x = none ↔ rmm_malloc heap 0 A.x_size = none)
      ∧ (sparsity = GxB_BITMAP → (A.b = none ↔ rmm_malloc heap 1 A.b_size = none))
      ∧ (sparsity = GxB_SPARSE →
          (A.p = none ↔ rmm_malloc heap 1 A.p_size = none)
            ∧ (A.i = none ↔ rmm_malloc heap 2 A.i_size = none))
      ∧ (sparsity = GxB_HYPERSPARSE →
          (A.p = none ↔ rmm_malloc heap 1 A.p_size = none)
            ∧ (A.h = none ↔ rmm_malloc heap 2 A.h_size = none)
            ∧ (A.i = none ↔ rmm_malloc heap 3 A.i_size = none)) := by
  rcases sparsity_cases sparsity with h | h | h | h | ⟨h1, h2, h3, h4⟩
  · subst h
    exact ⟨_, GB_Matrix_allocate_eq_full heap A0 type nrows ncols is_csc iso anz nvec hdr, Iff.rfl,
      fun hh => absurd hh (by decide), fun hh => absurd hh (by decide),
      fun hh => absurd hh (by decide)⟩
  · subst h
    exact ⟨_, GB_Matrix_allocate_eq_bitmap heap A0 type nrows ncols is_csc iso anz nvec hdr, Iff.rfl,
      fun _ => Iff.rfl, fun hh => absurd hh (by decide), fun hh => absurd hh (by decide)⟩
  · subst h
    exact ⟨_, GB_Matrix_allocate_eq_sparse heap A0 type nrows ncols is_csc iso anz nvec hdr, Iff.rfl,
      fun hh => absurd hh (by decide), fun _ => ⟨Iff.rfl, Iff.rfl⟩,
      fun hh => absurd hh (by decide)⟩
  · subst h
    exact ⟨_, GB_Matrix_allocate_eq_hypersparse heap A0 type nrows ncols is_csc iso anz nvec hdr, Iff.rfl,
      fun hh => absurd hh (by decide), fun hh => absurd hh (by decide),
      fun _ => ⟨Iff.rfl, Iff.rfl, Iff.rfl⟩⟩
  · exact ⟨_, GB_Matrix_allocate_eq_other heap A0 type nrows ncols sparsity is_csc iso anz nvec
      hdr h1 h2 h3 h4, Iff.rfl,
      fun hh => absurd hh h2, fun hh => absurd hh h3, fun hh => absurd hh h4⟩

/-- On the heap that cannot provide the value buffer, the Hypersparse container is
returned with `x = NULL`. -/
theorem GB_Matrix_allocate_never_reports_failure_witness :
    heap_without_x.header = some stale_header
      ∧ ∃ A, GB_Matrix_allocate heap_without_x fp64_type 2 2 GxB_HYPERSPARSE true false 3 1
            = Except.ok A
          ∧ A.x = none := by
  refine ⟨rfl, ?_⟩
  obtain ⟨A, hA, h1, -⟩ :=
    GB_Matrix_allocate_never_reports_failure heap_without_x stale_header fp64_type 2 2
      GxB_HYPERSPARSE true false 3 1 rfl
  exact ⟨A, hA, h1.mpr (by simp [rmm_malloc, heap_without_x])⟩

/-- C10: `GB_Matrix_allocate` returns a Hypersparse container whose `vdim` is 1.
Asked for a 5-by-1 column-major Hypersparse container, it returns one: its
format is Hypersparse, its vector-id buffer is allocated, and `vdim = 1`,
against the comment of the file on the hypersparse format ("if n <= 1 the
matrix is always stored as non-hypersparse", `n` being `A->vdim`). -/
theorem GB_Matrix_allocate_hypersparse_with_vdim_one :
    ∃ A, GB_Matrix_allocate stale_heap fp64_type 5 1 GxB_HYPERSPARSE true false 0 1 = Except.ok A
      ∧ A.sparsity = GxB_HYPERSPARSE ∧ A.vdim = 1 ∧ A.h ≠ none := by
  refine ⟨_, GB_Matrix_allocate_eq_hypersparse stale_heap stale_header fp64_type 5 1 true false
    0 1 rfl, rfl, rfl, ?_⟩
  exact fun hn => Option.noConfusion (show (some (fun _ => (255 : Nat)) : Option Block) = none from hn)

/-- The format of the container is the one asked for, whatever `vdim` is (1
included): the container is Hypersparse, with a vector-id buffer requested,
exactly when `GxB_HYPERSPARSE` is asked for.  Only the wrappers
`GB_Vector_allocate` and `GB_Scalar_allocate` exclude it, by their assertion
when it is compiled in: they then never return a Hypersparse container. -/
theorem GB_Matrix_allocate_format_as_requested (heap : Heap) (A0 : GB_Matrix_opaque)
    (type : GB_Type_opaque) (nrows ncols sparsity : Int) (is_csc iso : Bool)
    (anz nvec : Int) (hdr : heap.header = some A0) :
    (∃ A, GB_Matrix_allocate heap type nrows ncols sparsity is_csc iso anz nvec = Except.ok A
      ∧ A.sparsity = sparsity
      ∧ A.vdim = (if is_csc then ncols else nrows)
      ∧ (sparsity = GxB_HYPERSPARSE → A.h = rmm_malloc heap 2 A.h_size)
      ∧ (sparsity ≠ GxB_HYPERSPARSE → A.h = none ∧ A.h_size = 0))
    ∧ (∀ (length : Int) (V : GB_Matrix_opaque),
        GB_Vector_allocate heap type length sparsity iso anz = Except.ok V →
          V.sparsity ≠ GxB_HYPERSPARSE)
    ∧ (∀ S : GB_Matrix_opaque,
        GB_Scalar_allocate heap type sparsity = Except.ok S →
          S.sparsity ≠ GxB_HYPERSPARSE) := by
  have main : ∀ (nrows ncols : Int) (is_csc iso : Bool) (anz nvec : Int),
      ∃ A, GB_Matrix_allocate heap type nrows ncols sparsity is_csc iso anz nvec = Except.ok A
        ∧ A.sparsity = sparsity
        ∧ A.vdim = (if is_csc then ncols else nrows)
        ∧ (sparsity = GxB_HYPERSPARSE → A.h = rmm_malloc heap 2 A.h_size)
        ∧ (sparsity ≠ GxB_HYPERSPARSE → A.h = none ∧ A.h_size = 0) := by
    intro nrows ncols is_csc iso anz nvec
    rcases sparsity_cases sparsity with h | h | h | h | ⟨h1, h2, h3, h4⟩
    · subst h
      exact ⟨_, GB_Matrix_allocate_eq_full heap A0 type nrows ncols is_csc iso anz nvec hdr, rfl, rfl,
        fun hh => absurd hh (by decide), fun _ => ⟨rfl, rfl⟩⟩
    · subst h
      exact ⟨_, GB_Matrix_allocate_eq_bitmap heap A0 type nrows ncols is_csc iso anz nvec hdr, rfl, rfl,
        fun hh => absurd hh (by decide), fun _ => ⟨rfl, rfl⟩⟩
    · subst h
      exact ⟨_, GB_Matrix_allocate_eq_sparse heap A0 type nrows ncols is_csc iso anz nvec hdr, rfl, rfl,
        fun hh => absurd hh (by decide), fun _ => ⟨rfl, rfl⟩⟩
    · subst h
      exact ⟨_, GB_Matrix_allocate_eq_hypersparse heap A0 type nrows ncols is_csc iso anz nvec hdr, rfl, rfl,
        fun _ => rfl, fun hh => absurd rfl hh⟩
    · exact ⟨_, GB_Matrix_allocate_eq_other heap A0 type nrows ncols sparsity is_csc iso anz nvec
      hdr h1 h2 h3 h4, rfl, rfl,
        fun hh => absurd hh h4, fun _ => ⟨rfl, rfl⟩⟩
  refine ⟨main nrows ncols is_csc iso anz nvec, ?_, ?_⟩
  · intro length V hV hs
    unfold GB_Vector_allocate at hV
    have hs2 : sparsity = GxB_HYPERSPARSE := by
      by_cases hq : sparsity = GxB_HYPERSPARSE
      · exact hq
      · rw [if_neg hq] at hV
        obtain ⟨A2, hA2, hA3, -⟩ := main 1 length true iso anz 1
        rw [hA2] at hV
        cases hV
        rw [← hA3]
        exact hs
    rw [if_pos hs2] at hV
    cases hV
  · intro S hS hs
    unfold GB_Scalar_allocate at hS
    have hs2 : sparsity = GxB_HYPERSPARSE := by
      by_cases hq : sparsity = GxB_HYPERSPARSE
      · exact hq
      · rw [if_neg hq] at hS
        obtain ⟨A2, hA2, hA3, -⟩ := main 1 1 true false 1 1
        rw [hA2] at hS
        cases hS
        rw [← hA3]
        exact hs
    rw [if_pos hs2] at hS
    cases hS

/-- The 5-by-1 Hypersparse request is honoured by `GB_Matrix_allocate`, while
`GB_Vector_allocate` stops at its assertion. -/
theorem GB_Matrix_allocate_format_as_requested_witness :
    stale_heap.header = some stale_header
      ∧ (∃ A, GB_Matrix_allocate stale_heap fp64_type 5 1 GxB_HYPERSPARSE true false 0 1
            = Except.ok A
          ∧ A.sparsity = GxB_HYPERSPARSE ∧ A.vdim = 1)
      ∧ GB_Vector_allocate stale_heap fp64_type 5 GxB_HYPERSPARSE false 0
          = Except.error Fault.assertion_failure := by
  refine ⟨rfl, ?_, rfl⟩
  obtain ⟨⟨A, hA, h1, h2, -⟩, -⟩ :=
    GB_Matrix_allocate_format_as_requested stale_heap stale_header fp64_type 5 1
      GxB_HYPERSPARSE true false 0 1 rfl
  exact ⟨A, hA, h1, by simpa using h2⟩

/-- C11: `GB_FLIP` is its own inverse on every `int64_t` value `x`, and for an
index `x ≥ 0` (below the largest `int64_t`, as every index is) the flipped
index is `-x-2`, which is negative. -/
theorem GB_FLIP_involution (x : Int) (h0 : -9223372036854775808 ≤ x)
    (h1 : x < 9223372036854775808) :
    GB_FLIP (GB_FLIP x) = x
      ∧ (0 ≤ x → x < 9223372036854775807 → GB_FLIP x = -x - 2 ∧ GB_FLIP x < 0) := by
  unfold GB_FLIP int64_wrap
  constructor
  · omega
  · intro hx hx2
    constructor <;> omega

/-- Witness of C11: the index 5 is flipped to -7 and back. -/
theorem GB_FLIP_involution_witness :
    GB_FLIP (GB_FLIP 5) = 5 ∧ GB_FLIP 5 = -7 ∧ GB_FLIP 5 < 0 := by
  obtain ⟨h1, h2⟩ := GB_FLIP_involution 5 (by decide) (by decide)
  obtain ⟨h3, h4⟩ := h2 (by decide) (by decide)
  exact ⟨h1, by rw [h3]; rfl, h4⟩

/-! ## GB_add_phase2: the pruning pass -/

namespace Add

/-- Reading an array after one of its items was written. -/
theorem getD_set (l : List Int) (i j : Nat) (v : Int) :
    (l.set i v).getD j 0 = if i = j ∧ i < l.length then v else l.getD j 0 := by
  simp only [List.getD_eq_getElem?_getD, List.getElem?_set]
  by_cases h : i = j
  · subst h
    by_cases h2 : i < l.length
    · simp [h2]
    · simp [h2]
      rw [List.getElem?_eq_none (by omega)]
      rfl
  · simp [h]

theorem surviving_succ (Cp : List Int) (k : Nat) :
    surviving Cp (k + 1) = surviving Cp k ++
      (if Cp.getD k 0 < Cp.getD (k + 1) 0 then [k] else []) := by
  unfold surviving
  rw [List.range_succ, List.filter_append]
  by_cases h : Cp.getD k 0 < Cp.getD (k + 1) 0
  · rw [if_pos h, List.filter_cons_of_pos (by simpa using h), List.filter_nil]
  · rw [if_neg h, List.filter_cons_of_neg (by simpa using h), List.filter_nil]

theorem surviving_length_le (Cp : List Int) (k : Nat) : (surviving Cp k).length ≤ k := by
  unfold surviving
  calc ((List.range k).filter _).length ≤ (List.range k).length := List.length_filter_le _ _
    _ = k := List.length_range k

/-- The test `cjnz > 0` of line 283 is the comparison of the two offsets when
both are offsets, that is non-negative `int64_t` values. -/
theorem cjnz_pos_iff (a b : Int) (ha : 0 ≤ a) (ha2 : a < 9223372036854775808)
    (hb : 0 ≤ b) (hb2 : b < 9223372036854775808) :
    int64_wrap (b - a) > 0 ↔ a < b := by
  unfold int64_wrap
  omega

theorem prune_loop_inv (Cp Ch : List Int) (Cnvec : Nat)
    (hlenp : Cnvec + 1 ≤ Cp.length) (hlenh : Cnvec ≤ Ch.length)
    (hrange : ∀ j, j ≤ Cnvec → 0 ≤ Cp.getD j 0 ∧ Cp.getD j 0 < 9223372036854775808) :
    ∀ k, k ≤ Cnvec →
      PruneInv Cp Ch k
        ((List.range k).foldl prune_step { Cp := Cp, Ch := Ch, cnvec_new := 0 }) := by
  intro k
  induction k with
  | zero =>
    intro _
    exact ⟨rfl, rfl, rfl, fun _ _ => rfl, fun _ _ => rfl,
      fun i hi => absurd hi (Nat.not_lt_zero i), fun i hi => absurd hi (Nat.not_lt_zero i)⟩
  | succ k ih =>
    intro hk
    have inv := ih (by omega)
    rw [List.range_succ, List.foldl_append]
    simp only [List.foldl_cons, List.foldl_nil]
    generalize (List.range k).foldl prune_step { Cp := Cp, Ch := Ch, cnvec_new := 0 } = s
      at inv
    have hn : s.cnvec_new ≤ k := by
      rw [inv.count]
      exact surviving_length_le Cp k
    have hpk : s.Cp.getD k 0 = Cp.getD k 0 := inv.restp k hn
    have hpk1 : s.Cp.getD (k + 1) 0 = Cp.getD (k + 1) 0 := inv.restp (k + 1) (by omega)
    have hhk : s.Ch.getD k 0 = Ch.getD k 0 := inv.resth k hn
    have hiff := cjnz_pos_iff (Cp.getD k 0) (Cp.getD (k + 1) 0)
      (hrange k (by omega)).1 (hrange k (by omega)).2
      (hrange (k + 1) hk).1 (hrange (k + 1) hk).2
    have hs := surviving_succ Cp k
    unfold prune_step
    rw [hpk, hpk1]
    by_cases hc : Cp.getD k 0 < Cp.getD (k + 1) 0
    · rw [if_pos hc] at hs
      simp only [if_pos (hiff.mpr hc)]
      have hlen : (surviving Cp k ++ [k]).length = s.cnvec_new + 1 := by
        rw [List.length_append, ← inv.count]
        rfl
      refine ⟨?_, ?_, ?_, ?_, ?_, ?_, ?_⟩ <;> try rw [hs]
      · exact hlen.symm
      · simp [inv.lenp]
      · simp [inv.lenh]
      · intro i (hi : s.cnvec_new + 1 ≤ i)
        show (s.Cp.set s.cnvec_new (Cp.getD k 0)).getD i 0 = _
        rw [getD_set, if_neg (by omega)]
        exact inv.restp i (by omega)
      · intro i (hi : s.cnvec_new + 1 ≤ i)
        show (s.Ch.set s.cnvec_new (s.Ch.getD k 0)).getD i 0 = _
        rw [getD_set, if_neg (by omega)]
        exact inv.resth i (by omega)
      · intro i (hi : i < s.cnvec_new + 1)
        show (s.Cp.set s.cnvec_new (Cp.getD k 0)).getD i 0 = _
        rw [getD_set]
        by_cases hin : s.cnvec_new = i
        · rw [if_pos ⟨hin, by rw [inv.lenp]; omega⟩]
          rw [List.getD_append_right _ _ _ _ (by rw [← inv.count]; omega)]
          rw [← inv.count, ← hin]
          simp
        · have hlt : i < s.cnvec_new := by omega
          rw [if_neg (fun h => hin h.1)]
          rw [List.getD_append _ _ _ _ (by rw [← inv.count]; exact hlt)]
          exact inv.donep i hlt
      · intro i (hi : i < s.cnvec_new + 1)
        show (s.Ch.set s.cnvec_new (s.Ch.getD k 0)).getD i 0 = _
        rw [getD_set, hhk]
        by_cases hin : s.cnvec_new = i
        · rw [if_pos ⟨hin, by rw [inv.lenh]; omega⟩]
          rw [List.getD_append_right _ _ _ _ (by rw [← inv.count]; omega)]
          rw [← inv.count, ← hin]
          simp
        · have hlt : i < s.cnvec_new := by omega
          rw [if_neg (fun h => hin h.1)]
          rw [List.getD_append _ _ _ _ (by rw [← inv.count]; exact hlt)]
          exact inv.doneh i hlt
    · rw [if_neg hc, List.append_nil] at hs
      simp only [if_neg (fun h => hc (hiff.mp h))]
      exact ⟨by rw [hs]; exact inv.count, inv.lenp, inv.lenh, inv.restp, inv.resth,
        by rw [hs]; exact inv.donep, by rw [hs]; exact inv.doneh⟩


/-- The state after the pruning pass, lines 273-291, in terms of the arrays
before it. -/
theorem prune_pass_spec (Cp Ch : List Int) (Cnvec : Nat)
    (hlenp : Cnvec + 1 ≤ Cp.length) (hlenh : Cnvec ≤ Ch.length)
    (hrange : ∀ j, j ≤ Cnvec → 0 ≤ Cp.getD j 0 ∧ Cp.getD j 0 < 9223372036854775808) :
    (prune_pass Cp Ch Cnvec).cnvec_new = (surviving Cp Cnvec).length
      ∧ (prune_pass Cp Ch Cnvec).Ch.length = Ch.length
      ∧ (prune_pass Cp Ch Cnvec).Cp.length = Cp.length
      ∧ (∀ i, i < (surviving Cp Cnvec).length →
          (prune_pass Cp Ch Cnvec).Ch.getD i 0 = Ch.getD ((surviving Cp Cnvec).getD i 0) 0)
      ∧ (∀ i, i < (surviving Cp Cnvec).length →
          (prune_pass Cp Ch Cnvec).Cp.getD i 0 = Cp.getD ((surviving Cp Cnvec).getD i 0) 0)
      ∧ (prune_pass Cp Ch Cnvec).Cp.getD (surviving Cp Cnvec).length 0 = Cp.getD Cnvec 0 := by
  have inv := prune_loop_inv Cp Ch Cnvec hlenp hlenh hrange Cnvec (le_refl _)
  unfold prune_pass
  generalize (List.range Cnvec).foldl prune_step { Cp := Cp, Ch := Ch, cnvec_new := 0 } = s
    at inv
  have hn : s.cnvec_new ≤ Cnvec := by
    rw [inv.count]
    exact surviving_length_le Cp Cnvec
  have hC : s.Cp.getD Cnvec 0 = Cp.getD Cnvec 0 := inv.restp Cnvec hn
  refine ⟨inv.count, inv.lenh, ?_, ?_, ?_, ?_⟩
  · show (s.Cp.set s.cnvec_new (s.Cp.getD Cnvec 0)).length = Cp.length
    rw [List.length_set]
    exact inv.lenp
  · intro i hi
    exact inv.doneh i (by rw [inv.count]; exact hi)
  · intro i hi
    show (s.Cp.set s.cnvec_new (s.Cp.getD Cnvec 0)).getD i 0 = _
    rw [getD_set, if_neg (by rw [inv.count]; omega)]
    exact inv.donep i (by rw [inv.count]; exact hi)
  · show (s.Cp.set s.cnvec_new (s.Cp.getD Cnvec 0)).getD (surviving Cp Cnvec).length 0 = _
    rw [getD_set, if_pos ⟨inv.count, by rw [inv.lenp]; omega⟩]
    exact hC

/-- Shrinking an array with `GB_REALLOC_MEMORY` keeps its first items. -/
theorem GB_REALLOC_MEMORY_shrink (p : List Int) (n old : Nat) (h : n ≤ p.length) :
    GB_REALLOC_MEMORY p n old = p.take n := by
  unfold GB_REALLOC_MEMORY
  rw [Nat.sub_eq_zero_of_le h]
  simp

/-- The vector-id array after the pruning pass and its reallocation: the ids of
the surviving vectors. -/
theorem pruned_h_eq (Cp Ch : List Int) (Cnvec old : Nat)
    (hlenp : Cnvec + 1 ≤ Cp.length) (hlenh : Cnvec ≤ Ch.length)
    (hrange : ∀ j, j ≤ Cnvec → 0 ≤ Cp.getD j 0 ∧ Cp.getD j 0 < 9223372036854775808) :
    GB_REALLOC_MEMORY (prune_pass Cp Ch Cnvec).Ch (prune_pass Cp Ch Cnvec).cnvec_new old
      = (surviving Cp Cnvec).map fun k => Ch.getD k 0 := by
  obtain ⟨hc, hl, -, hh, -, -⟩ := prune_pass_spec Cp Ch Cnvec hlenp hlenh hrange
  have hle : (surviving Cp Cnvec).length ≤ Cnvec := surviving_length_le Cp Cnvec
  rw [GB_REALLOC_MEMORY_shrink _ _ _ (by rw [hc, hl]; omega), hc]
  apply List.ext_getElem
  · rw [List.length_take, List.length_map, hl]
    omega
  · intro i h1 h2
    rw [List.length_map] at h2
    have := hh i h2
    rw [List.getElem_take, List.getElem_map]
    rw [List.getD_eq_getElem _ _ (by rw [hl]; omega), List.getD_eq_getElem _ _ h2] at this
    exact this

/-- The result of `GB_add_phase2` when the header is created and `C` is
hypersparse with `Cnvec_nonempty < Cnvec`: the pruned container. -/
theorem GB_add_phase2_eq_pruned (ctype : GB_Type_opaque) (C_is_csc : Bool) (Cp : List Int)
    (Cnvec_nonempty : Int) (Cnvec max_Cnvec : Nat) (ch : List Int)
    (M : Option GB_Matrix_opaque) (A B : GB_Matrix_opaque)
    (GB_create : GB_Type_opaque → Int → Int → Bool → Bool → Rat → Nat → Int →
      GB_create_outcome)
    (worker : GB_Matrix_opaque → List Int × GB_void) (C0 : GB_Matrix_opaque)
    (hcreate : GB_create ctype A.vlen A.vdim C_is_csc true A.hyper_ratio Cnvec
      (Cp.getD Cnvec 0) = GB_create_outcome.success C0)
    (hprune : Cnvec_nonempty < Cnvec) :
    ∃ C1 : GB_Matrix_opaque,
      GB_add_phase2 ctype C_is_csc Cp Cnvec_nonempty Cnvec max_Cnvec (some ch) M A B
          GB_create worker
        = { info := GrB_Info.GrB_SUCCESS,
            Chandle := some (prune C1 Cp ch Cnvec max_Cnvec),
            Cp_freed := false, Ch_freed := false, M := M, A := A, B := B } := by
  unfold GB_add_phase2
  simp only [Option.isSome_some, hcreate, if_pos hprune]
  exact ⟨_, rfl⟩


/-- With non-decreasing offsets, the entries of a surviving vector end where the
next surviving vector starts, or at `Cp [k]` for the last one below `k`. -/
theorem surviving_next (Cp : List Int) (Cnvec : Nat)
    (hmono : ∀ j, j < Cnvec → Cp.getD j 0 ≤ Cp.getD (j + 1) 0) :
    ∀ k, k ≤ Cnvec → ∀ i, i < (surviving Cp k).length →
      Cp.getD ((surviving Cp k).getD i 0 + 1) 0 =
        if i + 1 < (surviving Cp k).length then Cp.getD ((surviving Cp k).getD (i + 1) 0) 0
        else Cp.getD k 0 := by
  intro k
  induction k with
  | zero =>
    intro _ i hi
    exact absurd hi (Nat.not_lt_zero i)
  | succ k ih =>
    intro hk i hi
    have ih2 := ih (by omega)
    have hs := surviving_succ Cp k
    by_cases hc : Cp.getD k 0 < Cp.getD (k + 1) 0
    · rw [if_pos hc] at hs
      rw [hs] at hi ⊢
      rw [List.length_append, List.length_singleton] at hi ⊢
      by_cases hil : i < (surviving Cp k).length
      · rw [List.getD_append _ _ _ _ hil, if_pos (by omega), ih2 i hil]
        by_cases hi1 : i + 1 < (surviving Cp k).length
        · rw [if_pos hi1, List.getD_append _ _ _ _ hi1]
        · rw [if_neg hi1, List.getD_append_right _ _ _ _ (by omega)]
          have : i + 1 - (surviving Cp k).length = 0 := by omega
          rw [this]
          rfl
      · have hieq : i = (surviving Cp k).length := by omega
        rw [if_neg (by omega), List.getD_append_right _ _ _ _ (by omega)]
        have : i - (surviving Cp k).length = 0 := by omega
        rw [this]
        rfl
    · rw [if_neg hc, List.append_nil] at hs
      rw [hs] at hi ⊢
      have heq : Cp.getD (k + 1) 0 = Cp.getD k 0 := by
        have := hmono k (by omega)
        omega
      rw [ih2 i hi, heq]

/-- C12: when the header is created, `C` is hypersparse, `Cnvec_nonempty < Cnvec`
and the offsets `Cp [0..Cnvec]` are valid (non-negative `int64_t` values in an
array of at least `Cnvec+1` items, `Ch` having at least `Cnvec` items), the
container returned by `GB_add_phase2` has `nvec` equal to the number of
`k < Cnvec` with `Cp [k+1] > Cp [k]`, and `C->h` is exactly the subsequence of
the original `Ch` at those `k`, in the original order; if `Cnvec_nonempty` is
that count then `nvec = Cnvec_nonempty`. -/
theorem GB_add_phase2_prune_nvec_h (ctype : GB_Type_opaque) (C_is_csc : Bool)
    (Cp : List Int) (Cnvec_nonempty : Int) (Cnvec max_Cnvec : Nat) (ch : List Int)
    (M : Option GB_Matrix_opaque) (A B : GB_Matrix_opaque)
    (GB_create : GB_Type_opaque → Int → Int → Bool → Bool → Rat → Nat → Int →
      GB_create_outcome)
    (worker : GB_Matrix_opaque → List Int × GB_void) (C0 : GB_Matrix_opaque)
    (hcreate : GB_create ctype A.vlen A.vdim C_is_csc true A.hyper_ratio Cnvec
      (Cp.getD Cnvec 0) = GB_create_outcome.success C0)
    (hprune : Cnvec_nonempty < Cnvec)
    (hlenp : Cnvec + 1 ≤ Cp.length) (hlenh : Cnvec ≤ ch.length)
    (hrange : ∀ j, j ≤ Cnvec → 0 ≤ Cp.getD j 0 ∧ Cp.getD j 0 < 9223372036854775808) :
    ∃ C, (GB_add_phase2 ctype C_is_csc Cp Cnvec_nonempty Cnvec max_Cnvec (some ch) M A B
          GB_create worker).Chandle = some C
      ∧ (GB_add_phase2 ctype C_is_csc Cp Cnvec_nonempty Cnvec max_Cnvec (some ch) M A B
          GB_create worker).info = GrB_Info.GrB_SUCCESS
      ∧ C.nvec = (((List.range Cnvec).filter
          fun k => decide (Cp.getD k 0 < Cp.getD (k + 1) 0)).length : Nat)
      ∧ C.h = some (((List.range Cnvec).filter
          fun k => decide (Cp.getD k 0 < Cp.getD (k + 1) 0)).map fun k => ch.getD k 0)
      ∧ (Cnvec_nonempty = (((List.range Cnvec).filter
          fun k => decide (Cp.getD k 0 < Cp.getD (k + 1) 0)).length : Nat) →
            C.nvec = Cnvec_nonempty) := by
  obtain ⟨C1, hC1⟩ := GB_add_phase2_eq_pruned ctype C_is_csc Cp Cnvec_nonempty Cnvec max_Cnvec
    ch M A B GB_create worker C0 hcreate hprune
  obtain ⟨hc, -⟩ := prune_pass_spec Cp ch Cnvec hlenp hlenh hrange
  have hh := pruned_h_eq Cp ch Cnvec max_Cnvec hlenp hlenh hrange
  have hnvec : (prune C1 Cp ch Cnvec max_Cnvec).nvec
      = ((surviving Cp Cnvec).length : Nat) := by
    show (((prune_pass Cp ch Cnvec).cnvec_new : Nat) : Int) = _
    rw [hc]
  rw [hC1]
  refine ⟨_, rfl, rfl, hnvec, ?_, fun h => ?_⟩
  · show some (GB_REALLOC_MEMORY (prune_pass Cp ch Cnvec).Ch (prune_pass Cp ch Cnvec).cnvec_new
      max_Cnvec) = _
    rw [hh]
    rfl
  · rw [hnvec, h]
    rfl

/-- C13: on valid, non-decreasing offsets the in-place pruning pass loses no
entries: the `i`-th surviving vector, at position `k` before the pass, keeps
its range, `Cp [i]` being the old `Cp [k]` and `Cp [i+1]` the old `Cp [k+1]`, and
`Cp [cnvec_new]` is the old `Cp [Cnvec]`. -/
theorem prune_pass_keeps_entry_ranges (Cp Ch : List Int) (Cnvec : Nat)
    (hlenp : Cnvec + 1 ≤ Cp.length) (hlenh : Cnvec ≤ Ch.length)
    (hrange : ∀ j, j ≤ Cnvec → 0 ≤ Cp.getD j 0 ∧ Cp.getD j 0 < 9223372036854775808)
    (hmono : ∀ j, j < Cnvec → Cp.getD j 0 ≤ Cp.getD (j + 1) 0) :
    (prune_pass Cp Ch Cnvec).cnvec_new
        = ((List.range Cnvec).filter
            fun k => decide (Cp.getD k 0 < Cp.getD (k + 1) 0)).length
      ∧ (∀ i, i < (prune_pass Cp Ch Cnvec).cnvec_new →
          (prune_pass Cp Ch Cnvec).Cp.getD i 0
              = Cp.getD (((List.range Cnvec).filter
                  fun k => decide (Cp.getD k 0 < Cp.getD (k + 1) 0)).getD i 0) 0
            ∧ (prune_pass Cp Ch Cnvec).Cp.getD (i + 1) 0
              = Cp.getD (((List.range Cnvec).filter
                  fun k => decide (Cp.getD k 0 < Cp.getD (k + 1) 0)).getD i 0 + 1) 0)
      ∧ (prune_pass Cp Ch Cnvec).Cp.getD (prune_pass Cp Ch Cnvec).cnvec_new 0
          = Cp.getD Cnvec 0 := by
  obtain ⟨hc, -, -, -, hp, hlast⟩ := prune_pass_spec Cp Ch Cnvec hlenp hlenh hrange
  have hnext := surviving_next Cp Cnvec hmono Cnvec (le_refl _)
  change (prune_pass Cp Ch Cnvec).cnvec_new = (surviving Cp Cnvec).length
    ∧ (∀ i, i < (prune_pass Cp Ch Cnvec).cnvec_new →
        (prune_pass Cp Ch Cnvec).Cp.getD i 0 = Cp.getD ((surviving Cp Cnvec).getD i 0) 0
          ∧ (prune_pass Cp Ch Cnvec).Cp.getD (i + 1) 0
            = Cp.getD ((surviving Cp Cnvec).getD i 0 + 1) 0)
    ∧ (prune_pass Cp Ch Cnvec).Cp.getD (prune_pass Cp Ch Cnvec).cnvec_new 0
        = Cp.getD Cnvec 0
  rw [hc]
  refine ⟨rfl, fun i hi => ⟨hp i hi, ?_⟩, hlast⟩
  rw [hnext i hi]
  by_cases h : i + 1 < (surviving Cp Cnvec).length
  · rw [if_pos h]
    exact hp (i + 1) h
  · rw [if_neg h]
    have : i + 1 = (surviving Cp Cnvec).length := by omega
    rw [this]
    exact hlast

/-- Witness of C12: of three vectors with offsets 0, 1, 1, 3 and ids 3, 5, 7 the
second is empty; the result has `nvec = 2` and `h = [3, 7]`. -/
theorem GB_add_phase2_prune_nvec_h_witness :
    ∃ C, (GB_add_phase2 int32_type true [0, 1, 1, 3] 2 3 3 (some [3, 5, 7]) none
          empty_operand empty_operand create_ok (fun _ => ([0, 1, 2], []))).Chandle = some C
      ∧ C.nvec = 2 ∧ C.h = some [3, 7] := by
  obtain ⟨C, h1, -, h2, h3, -⟩ :=
    GB_add_phase2_prune_nvec_h int32_type true [0, 1, 1, 3] 2 3 3 [3, 5, 7] none
      empty_operand empty_operand create_ok (fun _ => ([0, 1, 2], []))
      (new_header 10 10 3) rfl (by decide) (by decide) (by decide) (by decide)
  exact ⟨C, h1, h2, h3⟩

/-- Witness of C13: with offsets 0, 1, 1, 3 the two surviving vectors keep their
ranges 0..1 and 1..3, and the total 3 is kept. -/
theorem prune_pass_keeps_entry_ranges_witness :
    (prune_pass [0, 1, 1, 3] [3, 5, 7] 3).cnvec_new = 2
      ∧ (prune_pass [0, 1, 1, 3] [3, 5, 7] 3).Cp.getD 0 0 = 0
      ∧ (prune_pass [0, 1, 1, 3] [3, 5, 7] 3).Cp.getD 1 0 = 1
      ∧ (prune_pass [0, 1, 1, 3] [3, 5, 7] 3).Cp.getD 2 0 = 3 := by
  obtain ⟨h1, h2, h3⟩ :=
    prune_pass_keeps_entry_ranges [0, 1, 1, 3] [3, 5, 7] 3 (by decide) (by decide)
      (by decide) (by decide)
  have hn : (prune_pass [0, 1, 1, 3] [3, 5, 7] 3).cnvec_new = 2 := h1
  rw [hn] at h2 h3
  exact ⟨hn, (h2 0 (by decide)).1, (h2 1 (by decide)).1, h3⟩

/-- C14 (evaluation at the failing input): of two vectors with offsets 0, 1, 1 and
ids 3, 5 one survives; the returned container has `nvec = plen = 1`, a
vector-id array of 1 item, and an offsets array reallocated to 1 item, `[0]`,
not to `plen + 1 = 2` items: the offset `Cp [1] = 1` written by line 291 is
outside of it. -/
theorem GB_add_phase2_prune_cuts_last_offset :
    ∃ C, (GB_add_phase2 int32_type true [0, 1, 1] 1 2 2 (some [3, 5]) none
          empty_operand empty_operand create_ok (fun _ => ([0], [7, 0, 0, 0]))).Chandle = some C
      ∧ (prune_pass [0, 1, 1] [3, 5] 2).Cp = [0, 1, 1]
      ∧ C.nvec = 1 ∧ C.plen = 1 ∧ C.h = some [3] ∧ C.p = some [0] := by
  refine ⟨_, rfl, ?_, ?_, ?_, ?_, ?_⟩ <;> decide

/-- C15: if `GB_CREATE` fails in `GB_add_phase2`, the function returns that `info`,
`*Chandle` is NULL, `GB_FREE_MEMORY` has been applied to `Cp` and to `Ch`, and
`M`, `A` and `B` are as they were. -/
theorem GB_add_phase2_create_failure (ctype : GB_Type_opaque) (C_is_csc : Bool)
    (Cp : List Int) (Cnvec_nonempty : Int) (Cnvec max_Cnvec : Nat) (Ch : Option (List Int))
    (M : Option GB_Matrix_opaque) (A B : GB_Matrix_opaque)
    (GB_create : GB_Type_opaque → Int → Int → Bool → Bool → Rat → Nat → Int →
      GB_create_outcome)
    (worker : GB_Matrix_opaque → List Int × GB_void)
    (info : GrB_Info) (hne : info ≠ GrB_Info.GrB_SUCCESS)
    (hcreate : GB_create ctype A.vlen A.vdim C_is_csc Ch.isSome A.hyper_ratio Cnvec
      (Cp.getD Cnvec 0) = GB_create_outcome.failure info hne) :
    (GB_add_phase2 ctype C_is_csc Cp Cnvec_nonempty Cnvec max_Cnvec Ch M A B
        GB_create worker)
      = { info := info, Chandle := none, Cp_freed := true, Ch_freed := true,
          M := M, A := A, B := B } := by
  unfold GB_add_phase2
  simp only [hcreate]

/-- Witness of C15: with a `GB_CREATE` that runs out of memory the call returns
`GrB_OUT_OF_MEMORY` and no container. -/
theorem GB_add_phase2_create_failure_witness :
    (GB_add_phase2 int32_type true [0, 1, 1] 1 2 2 (some [3, 5]) none
        empty_operand empty_operand create_out_of_memory (fun _ => ([0], []))).info
        = GrB_Info.GrB_OUT_OF_MEMORY
      ∧ (GB_add_phase2 int32_type true [0, 1, 1] 1 2 2 (some [3, 5]) none
        empty_operand empty_operand create_out_of_memory (fun _ => ([0], []))).Chandle
        = none := by
  have h := GB_add_phase2_create_failure int32_type true [0, 1, 1] 1 2 2 (some [3, 5]) none
    empty_operand empty_operand create_out_of_memory (fun _ => ([0], []))
    GrB_Info.GrB_OUT_OF_MEMORY (by decide) rfl
  rw [h]
  exact ⟨rfl, rfl⟩


/-- The indices of copied entries are the indices of the entries. -/
theorem map_fst_map_copy (g : Nat → GB_void) (l : List (Int × Nat)) :
    (l.map fun e => (e.1, g e.2)).map Prod.fst = l.map Prod.fst := by
  rw [List.map_map]
  rfl

/-- The merge of GB_add_template.c for one vector, when an operator is present:
the result exists, its indices are the union of the indices of the two
inputs, in strictly ascending order, and each entry is computed as the
macros of the generic worker prescribe. -/
theorem GB_add_template_vector_union (w : Worker) (Ax Bx : GB_void)
    (fadd : GB_void → GB_void → GB_void) (hf : w.fadd = some fadd)
    (as bs : List (Int × Nat)) :
    (as.map Prod.fst).Pairwise (· < ·) → (bs.map Prod.fst).Pairwise (· < ·) →
    ∃ out, GB_add_template_vector w Ax Bx as bs = some out
      ∧ (∀ i, i ∈ out.map Prod.fst ↔ i ∈ as.map Prod.fst ∨ i ∈ bs.map Prod.fst)
      ∧ (out.map Prod.fst).Pairwise (· < ·)
      ∧ (∀ i pA pB, (i, pA) ∈ as → (i, pB) ∈ bs →
          (i, w.cast_Z_to_C (fadd (GB_GETA w Ax pA) (GB_GETB w Bx pB)) w.csize) ∈ out)
      ∧ (∀ i pA, (i, pA) ∈ as → i ∉ bs.map Prod.fst → (i, GB_COPY_A_TO_C w Ax pA) ∈ out)
      ∧ (∀ i pB, (i, pB) ∈ bs → i ∉ as.map Prod.fst → (i, GB_COPY_B_TO_C w Bx pB) ∈ out) := by
  refine GB_add_template_vector.induct w Ax Bx
    (fun as bs => (as.map Prod.fst).Pairwise (· < ·) → (bs.map Prod.fst).Pairwise (· < ·) →
      ∃ out, GB_add_template_vector w Ax Bx as bs = some out
        ∧ (∀ i, i ∈ out.map Prod.fst ↔ i ∈ as.map Prod.fst ∨ i ∈ bs.map Prod.fst)
        ∧ (out.map Prod.fst).Pairwise (· < ·)
        ∧ (∀ i pA pB, (i, pA) ∈ as → (i, pB) ∈ bs →
            (i, w.cast_Z_to_C (fadd (GB_GETA w Ax pA) (GB_GETB w Bx pB)) w.csize) ∈ out)
        ∧ (∀ i pA, (i, pA) ∈ as → i ∉ bs.map Prod.fst → (i, GB_COPY_A_TO_C w Ax pA) ∈ out)
        ∧ (∀ i pB, (i, pB) ∈ bs → i ∉ as.map Prod.fst → (i, GB_COPY_B_TO_C w Bx pB) ∈ out))
    ?_ ?_ ?_ ?_ ?_ ?_ as bs
  · -- A(:,j) is exhausted
    intro bs _ hB
    refine ⟨_, by rw [GB_add_template_vector], ?_, ?_, ?_, ?_, ?_⟩
    · intro i
      rw [map_fst_map_copy]
      simp
    · rw [map_fst_map_copy]
      exact hB
    · intro i pA pB hA
      exact absurd hA (List.not_mem_nil _)
    · intro i pA hA
      exact absurd hA (List.not_mem_nil _)
    · intro i pB hB2 _
      exact List.mem_map.mpr ⟨(i, pB), hB2, rfl⟩
  · -- B(:,j) is exhausted
    intro a as hA _
    refine ⟨_, by rw [GB_add_template_vector], ?_, ?_, ?_, ?_, ?_⟩
    · intro i
      rw [map_fst_map_copy]
      simp
    · rw [map_fst_map_copy]
      exact hA
    · intro i pA pB _ hB
      exact absurd hB (List.not_mem_nil _)
    · intro i pA hA2 _
      exact List.mem_map.mpr ⟨(i, pA), hA2, rfl⟩
    · intro i pB hB
      exact absurd hB (List.not_mem_nil _)
  · -- the next index is in A only
    intro a as b bs hlt ih hA hB
    rw [List.map_cons, List.pairwise_cons] at hA
    obtain ⟨out, hout, hidx, hsort, hboth, honlyA, honlyB⟩ := ih hA.2 hB
    have hBge : ∀ i, i ∈ (b :: bs).map Prod.fst → a.1 < i := by
      intro i hi
      rw [List.map_cons, List.mem_cons] at hi
      rw [List.map_cons, List.pairwise_cons] at hB
      rcases hi with h | h
      · rw [h]
        exact hlt
      · exact lt_trans hlt (hB.1 i h)
    refine ⟨(a.1, GB_COPY_A_TO_C w Ax a.2) :: out, ?_, ?_, ?_, ?_, ?_, ?_⟩
    · rw [GB_add_template_vector, if_pos hlt, hout]
      rfl
    · intro i
      simp only [List.map_cons, List.mem_cons, hidx i]
      tauto
    · rw [List.map_cons, List.pairwise_cons]
      refine ⟨fun i hi => ?_, hsort⟩
      rcases (hidx i).mp hi with h | h
      · exact hA.1 i h
      · exact hBge i h
    · intro i pA pB hiA hiB
      rcases List.mem_cons.mp hiA with h | h
      · have h1 := hBge i (List.mem_map_of_mem Prod.fst hiB)
        rw [← h] at h1
        exact absurd h1 (lt_irrefl _)
      · exact List.mem_cons_of_mem _ (hboth i pA pB h hiB)
    · intro i pA hiA hnB
      rcases List.mem_cons.mp hiA with h | h
      · rw [← h]
        exact List.mem_cons_self _ _
      · exact List.mem_cons_of_mem _ (honlyA i pA h hnB)
    · intro i pB hiB hnA
      refine List.mem_cons_of_mem _ (honlyB i pB hiB fun h => hnA ?_)
      rw [List.map_cons]
      exact List.mem_cons_of_mem _ h
  · -- the next index is in B only
    intro a as b bs _ hlt ih hA hB
    rw [List.map_cons, List.pairwise_cons] at hB
    obtain ⟨out, hout, hidx, hsort, hboth, honlyA, honlyB⟩ := ih hA hB.2
    have hAge : ∀ i, i ∈ (a :: as).map Prod.fst → b.1 < i := by
      intro i hi
      rw [List.map_cons, List.mem_cons] at hi
      rw [List.map_cons, List.pairwise_cons] at hA
      rcases hi with h | h
      · rw [h]
        exact hlt
      · exact lt_trans hlt (hA.1 i h)
    refine ⟨(b.1, GB_COPY_B_TO_C w Bx b.2) :: out, ?_, ?_, ?_, ?_, ?_, ?_⟩
    · rw [GB_add_template_vector, if_neg (not_lt_of_lt hlt), if_pos hlt, hout]
      rfl
    · intro i
      simp only [List.map_cons, List.mem_cons, hidx i]
      tauto
    · rw [List.map_cons, List.pairwise_cons]
      refine ⟨fun i hi => ?_, hsort⟩
      rcases (hidx i).mp hi with h | h
      · exact hAge i h
      · exact hB.1 i h
    · intro i pA pB hiA hiB
      rcases List.mem_cons.mp hiB with h | h
      · have h1 := hAge i (List.mem_map_of_mem Prod.fst hiA)
        rw [← h] at h1
        exact absurd h1 (lt_irrefl _)
      · exact List.mem_cons_of_mem _ (hboth i pA pB hiA h)
    · intro i pA hiA hnB
      refine List.mem_cons_of_mem _ (honlyA i pA hiA fun h => hnB ?_)
      rw [List.map_cons]
      exact List.mem_cons_of_mem _ h
    · intro i pB hiB hnA
      rcases List.mem_cons.mp hiB with h | h
      · rw [← h]
        exact List.mem_cons_self _ _
      · exact List.mem_cons_of_mem _ (honlyB i pB h hnA)
  · -- the next index is in both, no operator: excluded
    intro a as b bs _ _ hnone _ _
    unfold GB_BINOP at hnone
    rw [hf] at hnone
    exact absurd hnone (by simp)
  · -- the next index is in both
    intro a as b bs hn1 hn2 cij hcij ih hA hB
    have heq : a.1 = b.1 := le_antisymm (not_lt.mp hn2) (not_lt.mp hn1)
    rw [List.map_cons, List.pairwise_cons] at hA hB
    obtain ⟨out, hout, hidx, hsort, hboth, honlyA, honlyB⟩ := ih hA.2 hB.2
    have hcij2 : cij = w.cast_Z_to_C (fadd (GB_GETA w Ax a.2) (GB_GETB w Bx b.2)) w.csize := by
      unfold GB_BINOP at hcij
      rw [hf] at hcij
      exact (Option.some.inj hcij).symm
    refine ⟨(a.1, cij) :: out, ?_, ?_, ?_, ?_, ?_, ?_⟩
    · rw [GB_add_template_vector, if_neg hn1, if_neg hn2, hcij, hout]
      rfl
    · intro i
      simp only [List.map_cons, List.mem_cons, hidx i, ← heq]
      tauto
    · rw [List.map_cons, List.pairwise_cons]
      refine ⟨fun i hi => ?_, hsort⟩
      rcases (hidx i).mp hi with h | h
      · exact hA.1 i h
      · rw [heq]
        exact hB.1 i h
    · intro i pA pB hiA hiB
      rcases List.mem_cons.mp hiA with h | h
      · rcases List.mem_cons.mp hiB with h2 | h2
        · rw [hcij2, ← h, ← h2]
          exact List.mem_cons_self _ _
        · have h3 := hB.1 i (List.mem_map_of_mem Prod.fst h2)
          rw [← heq, ← h] at h3
          exact absurd h3 (lt_irrefl _)
      · rcases List.mem_cons.mp hiB with h2 | h2
        · have h3 := hA.1 i (List.mem_map_of_mem Prod.fst h)
          rw [heq, ← h2] at h3
          exact absurd h3 (lt_irrefl _)
        · exact List.mem_cons_of_mem _ (hboth i pA pB h h2)
    · intro i pA hiA hnB
      rw [List.map_cons, List.mem_cons, not_or] at hnB
      rcases List.mem_cons.mp hiA with h | h
      · exact absurd (by rw [← heq, ← h]) hnB.1
      · exact List.mem_cons_of_mem _ (honlyA i pA h hnB.2)
    · intro i pB hiB hnA
      rw [List.map_cons, List.mem_cons, not_or] at hnA
      rcases List.mem_cons.mp hiB with h | h
      · exact absurd (by rw [heq, ← h]) hnA.1
      · exact List.mem_cons_of_mem _ (honlyB i pB h hnA.2)


/-- The merge of GB_add_template.c for one vector whose two inputs share no
index: the result exists and its entries are exactly the copies, by
`GB_COPY_A_TO_C` and `GB_COPY_B_TO_C`, of the entries of the inputs. -/
theorem GB_add_template_vector_disjoint (w : Worker) (Ax Bx : GB_void)
    (as bs : List (Int × Nat)) :
    (∀ i, i ∈ as.map Prod.fst → i ∉ bs.map Prod.fst) →
    ∃ out, GB_add_template_vector w Ax Bx as bs = some out
      ∧ ∀ e, e ∈ out ↔
          (∃ pA, (e.1, pA) ∈ as ∧ e.2 = GB_COPY_A_TO_C w Ax pA)
            ∨ (∃ pB, (e.1, pB) ∈ bs ∧ e.2 = GB_COPY_B_TO_C w Bx pB) := by
  refine GB_add_template_vector.induct w Ax Bx
    (fun as bs => (∀ i, i ∈ as.map Prod.fst → i ∉ bs.map Prod.fst) →
      ∃ out, GB_add_template_vector w Ax Bx as bs = some out
        ∧ ∀ e, e ∈ out ↔
            (∃ pA, (e.1, pA) ∈ as ∧ e.2 = GB_COPY_A_TO_C w Ax pA)
              ∨ (∃ pB, (e.1, pB) ∈ bs ∧ e.2 = GB_COPY_B_TO_C w Bx pB))
    ?_ ?_ ?_ ?_ ?_ ?_ as bs
  · intro bs _
    refine ⟨_, by rw [GB_add_template_vector], fun e => ?_⟩
    rw [List.mem_map]
    constructor
    · rintro ⟨x, hx, rfl⟩
      exact Or.inr ⟨x.2, hx, rfl⟩
    · rintro (⟨pA, h, -⟩ | ⟨pB, h, h2⟩)
      · exact absurd h (List.not_mem_nil _)
      · exact ⟨(e.1, pB), h, Prod.ext rfl h2.symm⟩
  · intro a as _
    refine ⟨_, by rw [GB_add_template_vector], fun e => ?_⟩
    rw [List.mem_map]
    constructor
    · rintro ⟨x, hx, rfl⟩
      exact Or.inl ⟨x.2, hx, rfl⟩
    · rintro (⟨pA, h, h2⟩ | ⟨pB, h, -⟩)
      · exact ⟨(e.1, pA), h, Prod.ext rfl h2.symm⟩
      · exact absurd h (List.not_mem_nil _)
  · intro a as b bs hlt ih hdisj
    obtain ⟨out, hout, hmem⟩ := ih fun i hi =>
      hdisj i (by rw [List.map_cons]; exact List.mem_cons_of_mem _ hi)
    refine ⟨(a.1, GB_COPY_A_TO_C w Ax a.2) :: out, ?_, fun e => ?_⟩
    · rw [GB_add_template_vector, if_pos hlt, hout]
      rfl
    · rw [List.mem_cons, hmem e]
      constructor
      · rintro (h | ⟨pA, h, h2⟩ | h)
        · exact Or.inl ⟨a.2, by rw [h]; exact List.mem_cons_self _ _, by rw [h]⟩
        · exact Or.inl ⟨pA, List.mem_cons_of_mem _ h, h2⟩
        · exact Or.inr h
      · rintro (⟨pA, h, h2⟩ | h)
        · rcases List.mem_cons.mp h with h3 | h3
          · refine Or.inl (Prod.ext ?_ ?_)
            · rw [← h3]
            · rw [h2, ← h3]
          · exact Or.inr (Or.inl ⟨pA, h3, h2⟩)
        · exact Or.inr (Or.inr h)
  · intro a as b bs hn1 hlt ih hdisj
    obtain ⟨out, hout, hmem⟩ := ih fun i hi hb =>
      hdisj i hi (by rw [List.map_cons]; exact List.mem_cons_of_mem _ hb)
    refine ⟨(b.1, GB_COPY_B_TO_C w Bx b.2) :: out, ?_, fun e => ?_⟩
    · rw [GB_add_template_vector, if_neg hn1, if_pos hlt, hout]
      rfl
    · rw [List.mem_cons, hmem e]
      constructor
      · rintro (h | h | ⟨pB, h, h2⟩)
        · exact Or.inr ⟨b.2, by rw [h]; exact List.mem_cons_self _ _, by rw [h]⟩
        · exact Or.inl h
        · exact Or.inr ⟨pB, List.mem_cons_of_mem _ h, h2⟩
      · rintro (h | ⟨pB, h, h2⟩)
        · exact Or.inr (Or.inl h)
        · rcases List.mem_cons.mp h with h3 | h3
          · refine Or.inl (Prod.ext ?_ ?_)
            · rw [← h3]
            · rw [h2, ← h3]
          · exact Or.inr (Or.inr ⟨pB, h3, h2⟩)
  · intro a as b bs hn1 hn2 _ hdisj
    have heq : a.1 = b.1 := le_antisymm (not_lt.mp hn2) (not_lt.mp hn1)
    refine absurd ?_ (hdisj a.1 (by rw [List.map_cons]; exact List.mem_cons_self _ _))
    rw [List.map_cons, heq]
    exact List.mem_cons_self _ _
  · intro a as b bs hn1 hn2 _ _ _ hdisj
    have heq : a.1 = b.1 := le_antisymm (not_lt.mp hn2) (not_lt.mp hn1)
    refine absurd ?_ (hdisj a.1 (by rw [List.map_cons]; exact List.mem_cons_self _ _))
    rw [List.map_cons, heq]
    exact List.mem_cons_self _ _

/-- C16: when `op` is NULL the generic worker of `GB_add_phase2` has no operator,
every element size (a, b, x, y, z) is the size of the output type, every
cast is `GB_copy_user_user`, the plain copy, and on two vectors that share no
index the merge yields exactly the entries of `A` and of `B`, each with the
`csize` bytes of the entry it came from. -/
theorem generic_worker_without_op (ctype : GB_Type_opaque) (A B : GB_Matrix_opaque)
    (GB_cast_factory : Int → Int → GB_cast_function) (Ax Bx : GB_void)
    (as bs : List (Int × Nat))
    (hdisj : ∀ i, i ∈ as.map Prod.fst → i ∉ bs.map Prod.fst) :
    (generic_worker none ctype A B GB_cast_factory).fadd = none
      ∧ (generic_worker none ctype A B GB_cast_factory).csize = ctype.size
      ∧ (generic_worker none ctype A B GB_cast_factory).asize = ctype.size
      ∧ (generic_worker none ctype A B GB_cast_factory).bsize = ctype.size
      ∧ (generic_worker none ctype A B GB_cast_factory).xsize = ctype.size
      ∧ (generic_worker none ctype A B GB_cast_factory).ysize = ctype.size
      ∧ (generic_worker none ctype A B GB_cast_factory).zsize = ctype.size
      ∧ (generic_worker none ctype A B GB_cast_factory).cast_A_to_X = GB_copy_user_user
      ∧ (generic_worker none ctype A B GB_cast_factory).cast_B_to_Y = GB_copy_user_user
      ∧ (generic_worker none ctype A B GB_cast_factory).cast_A_to_C = GB_copy_user_user
      ∧ (generic_worker none ctype A B GB_cast_factory).cast_B_to_C = GB_copy_user_user
      ∧ (generic_worker none ctype A B GB_cast_factory).cast_Z_to_C = GB_copy_user_user
      ∧ ∃ out, GB_add_template_vector (generic_worker none ctype A B GB_cast_factory)
            Ax Bx as bs = some out
          ∧ ∀ e, e ∈ out ↔
              (∃ pA, (e.1, pA) ∈ as ∧ e.2 = (Ax.drop (pA * ctype.size)).take ctype.size)
                ∨ (∃ pB, (e.1, pB) ∈ bs
                    ∧ e.2 = (Bx.drop (pB * ctype.size)).take ctype.size) :=
  ⟨rfl, rfl, rfl, rfl, rfl, rfl, rfl, rfl, rfl, rfl, rfl, rfl,
    GB_add_template_vector_disjoint (generic_worker none ctype A B GB_cast_factory)
      Ax Bx as bs hdisj⟩

/-- Witness of C16: merging the 4-byte entries at indices 0 and 3 of `A` with the
entry at index 1 of `B` keeps the bytes of each. -/
theorem generic_worker_without_op_witness :
    ∃ out, GB_add_template_vector
          (generic_worker none int32_type empty_operand empty_operand
            (fun _ _ => GB_copy_user_user))
          [1, 2, 3, 4, 5, 6, 7, 8] [9, 9, 9, 9] [(0, 0), (3, 1)] [(1, 0)] = some out
      ∧ (0, [1, 2, 3, 4]) ∈ out ∧ (1, [9, 9, 9, 9]) ∈ out ∧ (3, [5, 6, 7, 8]) ∈ out := by
  obtain ⟨-, -, -, -, -, -, -, -, -, -, -, -, out, hout, hmem⟩ :=
    generic_worker_without_op int32_type empty_operand empty_operand
      (fun _ _ => GB_copy_user_user) [1, 2, 3, 4, 5, 6, 7, 8] [9, 9, 9, 9]
      [(0, 0), (3, 1)] [(1, 0)] (by decide)
  exact ⟨out, hout, (hmem _).mpr (Or.inl ⟨0, by decide, rfl⟩),
    (hmem _).mpr (Or.inr ⟨0, by decide, rfl⟩), (hmem _).mpr (Or.inl ⟨1, by decide, rfl⟩)⟩

/-- C17: for one vector of the union computed by the generic worker of
`GB_add_phase2` with an operator `op` and no mask, the indices of the two
inputs being strictly ascending: the result exists, its indices are those
of `A` or of `B`, strictly ascending; an index in both has the value
`cast_Z_to_C (op (cast_A_to_X (a), cast_B_to_Y (b)))`, an index only in `A` the
value `cast_A_to_C (a)`, and an index only in `B` the value `cast_B_to_C (b)`. -/
theorem generic_worker_union (op : GB_BinaryOp_opaque) (ctype : GB_Type_opaque)
    (A B : GB_Matrix_opaque) (GB_cast_factory : Int → Int → GB_cast_function)
    (Ax Bx : GB_void) (as bs : List (Int × Nat))
    (hA : (as.map Prod.fst).Pairwise (· < ·)) (hB : (bs.map Prod.fst).Pairwise (· < ·)) :
    ∃ out, GB_add_template_vector (generic_worker (some op) ctype A B GB_cast_factory)
          Ax Bx as bs = some out
      ∧ (∀ i, i ∈ out.map Prod.fst ↔ i ∈ as.map Prod.fst ∨ i ∈ bs.map Prod.fst)
      ∧ (out.map Prod.fst).Pairwise (· < ·)
      ∧ (∀ i pA pB, (i, pA) ∈ as → (i, pB) ∈ bs →
          (i, GB_cast_factory ctype.code op.ztype.code
                (op.function
                  (GB_cast_factory op.xtype.code A.type.code
                    (Ax.drop (pA * A.type.size)) A.type.size)
                  (GB_cast_factory op.ytype.code B.type.code
                    (Bx.drop (pB * B.type.size)) B.type.size))
                ctype.size) ∈ out)
      ∧ (∀ i pA, (i, pA) ∈ as → i ∉ bs.map Prod.fst →
          (i, GB_cast_factory ctype.code A.type.code
                (Ax.drop (pA * A.type.size)) A.type.size) ∈ out)
      ∧ (∀ i pB, (i, pB) ∈ bs → i ∉ as.map Prod.fst →
          (i, GB_cast_factory ctype.code B.type.code
                (Bx.drop (pB * B.type.size)) B.type.size) ∈ out) :=
  GB_add_template_vector_union (generic_worker (some op) ctype A B GB_cast_factory) Ax Bx
    op.function rfl as bs hA hB

/-- Witness of C17: the 1-byte vectors `A = {0: 10, 2: 20}` and `B = {2: 1, 5: 2}`
under `GrB_PLUS_UINT8` give `{0: 10, 2: 21, 5: 2}`. -/
theorem generic_worker_union_witness :
    ∃ out, GB_add_template_vector
          (generic_worker (some plus_uint8) uint8_type uint8_operand uint8_operand
            (fun _ _ => GB_copy_user_user))
          [10, 20] [1, 2] [(0, 0), (2, 1)] [(2, 0), (5, 1)] = some out
      ∧ (0, [10]) ∈ out ∧ (2, [21]) ∈ out ∧ (5, [2]) ∈ out := by
  obtain ⟨out, hout, -, -, hboth, honlyA, honlyB⟩ :=
    generic_worker_union plus_uint8 uint8_type uint8_operand uint8_operand
      (fun _ _ => GB_copy_user_user) [10, 20] [1, 2] [(0, 0), (2, 1)] [(2, 0), (5, 1)]
      (by decide) (by decide)
  exact ⟨out, hout, honlyA 0 0 (by decide) (by decide),
    hboth 2 1 0 (by decide) (by decide), honlyB 5 1 (by decide) (by decide)⟩

end Add

/-! ## Bitmap assignment: the passes and the claims -/

namespace Bitmap

/-! ## Bitmap assignment: passes over cells -/


/-- The value 1 or 0 of a C comparison. -/
theorem ind_cases (b : Bool) : (if b then (1 : Int) else 0) = 1 ∨ (if b then (1 : Int) else 0) = 0 := by
  cases b
  · exact Or.inr rfl
  · exact Or.inl rfl

/-- A write outside the counted cells does not change the count. -/
theorem count_cells_update_ge (present : Int → Bool) (n : Nat) (Cb : Nat → Int) (p : Nat)
    (hp : n ≤ p) (v : Int) :
    count_cells present n (Function.update Cb p v) = count_cells present n Cb := by
  unfold count_cells
  apply List.countP_congr
  intro q hq
  rw [List.mem_range] at hq
  rw [Function.update_noteq (by omega)]

/-- A write to one of the counted cells changes the count by the difference of
the two bytes' contributions. -/
theorem count_cells_update (present : Int → Bool) (n : Nat) (Cb : Nat → Int) (p : Nat)
    (hp : p < n) (v : Int) :
    (count_cells present n (Function.update Cb p v) : Int)
      = count_cells present n Cb - (if present (Cb p) then 1 else 0)
          + (if present v then 1 else 0) := by
  induction n with
  | zero => exact absurd hp (Nat.not_lt_zero p)
  | succ n ih =>
    have hsplit : ∀ f : Nat → Int, count_cells present (n + 1) f
        = count_cells present n f + (if present (f n) then 1 else 0) := by
      intro f
      unfold count_cells
      rw [List.range_succ, List.countP_append]
      simp [List.countP_cons]
    rw [hsplit, hsplit]
    by_cases hpn : p = n
    · subst hpn
      rw [count_cells_update_ge present p Cb p (le_refl _) v, Function.update_same]
      push_cast
      split_ifs <;> simp
    · rw [Function.update_noteq (Ne.symm hpn)]
      have := ih (by omega)
      push_cast
      rw [this]
      ring

/-- Two ways of counting agree when they agree on every byte that occurs. -/
theorem count_cells_congr (present present2 : Int → Bool) (n : Nat) (Cb : Nat → Int)
    (h : ∀ p, present (Cb p) = present2 (Cb p)) :
    count_cells present n Cb = count_cells present2 n Cb := by
  unfold count_cells
  apply List.countP_congr
  intro q _
  rw [h q]

/-- Frame: a pass leaves the cells it does not visit as they are. -/
theorem foldl_cell_frame {V α : Type} (key : α → Nat) (f : α → Int → V → Int × V × Int)
    (cells : List α) (s : Work V) (p : Nat) (hp : p ∉ cells.map key) :
    (cells.foldl (fun s a => cell_step (f a) s (key a)) s).Cb p = s.Cb p
      ∧ (cells.foldl (fun s a => cell_step (f a) s (key a)) s).Cx p = s.Cx p := by
  induction cells generalizing s with
  | nil => exact ⟨rfl, rfl⟩
  | cons a cells ih =>
    rw [List.map_cons, List.mem_cons, not_or] at hp
    rw [List.foldl_cons]
    obtain ⟨h1, h2⟩ := ih (cell_step (f a) s (key a)) hp.2
    rw [h1, h2]
    exact ⟨Function.update_noteq hp.1 _ _, Function.update_noteq hp.1 _ _⟩

/-- A pass that visits distinct cells leaves in each visited cell what its step
computes from the cell as it was before the pass. -/
theorem foldl_cell_exact {V α : Type} (key : α → Nat) (f : α → Int → V → Int × V × Int)
    (cells : List α) (s : Work V) (hnd : (cells.map key).Nodup) (a : α) (ha : a ∈ cells) :
    (cells.foldl (fun s a => cell_step (f a) s (key a)) s).Cb (key a)
        = (f a (s.Cb (key a)) (s.Cx (key a))).1
      ∧ (cells.foldl (fun s a => cell_step (f a) s (key a)) s).Cx (key a)
        = (f a (s.Cb (key a)) (s.Cx (key a))).2.1 := by
  induction cells generalizing s with
  | nil => exact absurd ha (List.not_mem_nil _)
  | cons b cells ih =>
    rw [List.map_cons, List.nodup_cons] at hnd
    rw [List.foldl_cons]
    rcases List.mem_cons.mp ha with h | h
    · subst h
      obtain ⟨h1, h2⟩ := foldl_cell_frame key f cells (cell_step (f a) s (key a)) (key a) hnd.1
      rw [h1, h2]
      exact ⟨Function.update_same _ _ _, Function.update_same _ _ _⟩
    · have hne : key a ≠ key b := fun he => hnd.1 (he ▸ List.mem_map_of_mem key h)
      obtain ⟨h1, h2⟩ := ih (cell_step (f b) s (key b)) hnd.2 h
      rw [h1, h2]
      have e1 : (cell_step (f b) s (key b)).Cb (key a) = s.Cb (key a) :=
        Function.update_noteq hne _ _
      have e2 : (cell_step (f b) s (key b)).Cx (key a) = s.Cx (key a) :=
        Function.update_noteq hne _ _
      rw [e1, e2]
      exact ⟨rfl, rfl⟩

/-- A pass whose steps keep a property `Q` of the bytes, and count consistently
with `present` on bytes that have it, keeps `Q` everywhere and keeps the
difference between `cnvals` and the number of present cells. -/
theorem foldl_cell_invariant {V α : Type} (key : α → Nat) (f : α → Int → V → Int × V × Int)
    (Q : Nat → Int → Prop) (present : Int → Bool) (n : Nat)
    (cells : List α) (s : Work V)
    (hstep : ∀ a, a ∈ cells → ∀ cb cx, Q (key a) cb →
      Q (key a) (f a cb cx).1
        ∧ (f a cb cx).2.2 = (if present (f a cb cx).1 then 1 else 0)
            - (if present cb then 1 else 0))
    (hlt : ∀ a, a ∈ cells → key a < n)
    (hQ : ∀ p, Q p (s.Cb p)) :
    (∀ p, Q p ((cells.foldl (fun s a => cell_step (f a) s (key a)) s).Cb p))
      ∧ (cells.foldl (fun s a => cell_step (f a) s (key a)) s).cnvals
          - count_cells present n (cells.foldl (fun s a => cell_step (f a) s (key a)) s).Cb
        = s.cnvals - count_cells present n s.Cb := by
  induction cells generalizing s with
  | nil => exact ⟨hQ, rfl⟩
  | cons a cells ih =>
    rw [List.foldl_cons]
    obtain ⟨hq, hd⟩ := hstep a (List.mem_cons_self _ _) (s.Cb (key a)) (s.Cx (key a)) (hQ _)
    have hQ2 : ∀ p, Q p ((cell_step (f a) s (key a)).Cb p) := by
      intro p
      show Q p (Function.update s.Cb (key a) _ p)
      by_cases hp : p = key a
      · subst hp
        rw [Function.update_same]
        exact hq
      · rw [Function.update_noteq hp]
        exact hQ p
    obtain ⟨r1, r2⟩ := ih (cell_step (f a) s (key a))
      (fun b hb => hstep b (List.mem_cons_of_mem _ hb))
      (fun b hb => hlt b (List.mem_cons_of_mem _ hb)) hQ2
    refine ⟨r1, ?_⟩
    rw [r2]
    show s.cnvals + (f a (s.Cb (key a)) (s.Cx (key a))).2.2
        - (count_cells present n (Function.update s.Cb (key a) _) : Int) = _
    rw [count_cells_update present n s.Cb (key a) (hlt a (List.mem_cons_self _ _)), hd]
    ring

/-- A pass over distinct cells whose steps count consistently with `present` on
the bytes as they were before the pass keeps the difference between `cnvals`
and the number of present cells. -/
theorem foldl_cell_count_nodup {V α : Type} (key : α → Nat)
    (f : α → Int → V → Int × V × Int) (present : Int → Bool) (n : Nat)
    (cells : List α) (s : Work V) (hnd : (cells.map key).Nodup)
    (hstep : ∀ a, a ∈ cells →
      (f a (s.Cb (key a)) (s.Cx (key a))).2.2
        = (if present (f a (s.Cb (key a)) (s.Cx (key a))).1 then 1 else 0)
            - (if present (s.Cb (key a)) then 1 else 0))
    (hlt : ∀ a, a ∈ cells → key a < n) :
    (cells.foldl (fun s a => cell_step (f a) s (key a)) s).cnvals
        - count_cells present n (cells.foldl (fun s a => cell_step (f a) s (key a)) s).Cb
      = s.cnvals - count_cells present n s.Cb := by
  induction cells generalizing s with
  | nil => rfl
  | cons a cells ih =>
    rw [List.map_cons, List.nodup_cons] at hnd
    rw [List.foldl_cons]
    have hd := hstep a (List.mem_cons_self _ _)
    have hrest : ∀ b, b ∈ cells →
        (f b ((cell_step (f a) s (key a)).Cb (key b)) ((cell_step (f a) s (key a)).Cx (key b))).2.2
          = (if present (f b ((cell_step (f a) s (key a)).Cb (key b))
                ((cell_step (f a) s (key a)).Cx (key b))).1 then 1 else 0)
            - (if present ((cell_step (f a) s (key a)).Cb (key b)) then 1 else 0) := by
      intro b hb
      have hne : key b ≠ key a := fun he => hnd.1 (he ▸ List.mem_map_of_mem key hb)
      have e1 : (cell_step (f a) s (key a)).Cb (key b) = s.Cb (key b) :=
        Function.update_noteq hne _ _
      have e2 : (cell_step (f a) s (key a)).Cx (key b) = s.Cx (key b) :=
        Function.update_noteq hne _ _
      rw [e1, e2]
      exact hstep b (List.mem_cons_of_mem _ hb)
    rw [ih (cell_step (f a) s (key a)) hnd.2 hrest
      (fun b hb => hlt b (List.mem_cons_of_mem _ hb))]
    show s.cnvals + (f a (s.Cb (key a)) (s.Cx (key a))).2.2
        - (count_cells present n (Function.update s.Cb (key a) _) : Int) = _
    rw [count_cells_update present n s.Cb (key a) (hlt a (List.mem_cons_self _ _)), hd]
    ring

/-- A pass whose active steps send every byte of `D` into `D2`, all steps keeping
`D` and `D2`, leaves a byte of `D2` in every cell that an active step visits or
that held a byte of `D2` before. -/
theorem foldl_cell_absorb {V α : Type} (key : α → Nat) (f : α → Int → V → Int × V × Int)
    (D D2 : Int → Prop) (act : α → Prop) (cells : List α) (s : Work V)
    (hact : ∀ a, a ∈ cells → act a → ∀ cb cx, D cb → D2 (f a cb cx).1)
    (hD2 : ∀ a, a ∈ cells → ∀ cb cx, D2 cb → D2 (f a cb cx).1)
    (hDD : ∀ a, a ∈ cells → ∀ cb cx, D cb → D (f a cb cx).1)
    (hD : ∀ p, D (s.Cb p)) (p : Nat)
    (hp : (∃ a, a ∈ cells ∧ act a ∧ key a = p) ∨ D2 (s.Cb p)) :
    D2 ((cells.foldl (fun s a => cell_step (f a) s (key a)) s).Cb p) := by
  induction cells generalizing s with
  | nil =>
    rcases hp with ⟨a, ha, -⟩ | h
    · exact absurd ha (List.not_mem_nil _)
    · exact h
  | cons b cells ih =>
    rw [List.foldl_cons]
    have hD' : ∀ q, D ((cell_step (f b) s (key b)).Cb q) := by
      intro q
      show D (Function.update s.Cb (key b) _ q)
      by_cases hq : q = key b
      · subst hq
        rw [Function.update_same]
        exact hDD b (List.mem_cons_self _ _) _ _ (hD _)
      · rw [Function.update_noteq hq]
        exact hD q
    apply ih (cell_step (f b) s (key b))
      (fun a ha => hact a (List.mem_cons_of_mem _ ha))
      (fun a ha => hD2 a (List.mem_cons_of_mem _ ha))
      (fun a ha => hDD a (List.mem_cons_of_mem _ ha)) hD'
    by_cases hpb : p = key b
    · subst hpb
      rcases hp with ⟨a, ha, hact_a, hk⟩ | h
      · rcases List.mem_cons.mp ha with hab | hin
        · right
          show D2 (Function.update s.Cb (key b) _ (key b))
          rw [Function.update_same]
          exact hact b (List.mem_cons_self _ _) (hab ▸ hact_a) _ _ (hD _)
        · exact Or.inl ⟨a, hin, hact_a, hk⟩
      · right
        show D2 (Function.update s.Cb (key b) _ (key b))
        rw [Function.update_same]
        exact hD2 b (List.mem_cons_self _ _) _ _ h
    · rcases hp with ⟨a, ha, hact_a, hk⟩ | h
      · rcases List.mem_cons.mp ha with hab | hin
        · exact absurd (by rw [← hab]; exact hk.symm) hpb
        · exact Or.inl ⟨a, hin, hact_a, hk⟩
      · right
        show D2 (Function.update s.Cb (key b) _ p)
        rw [Function.update_noteq hpb]
        exact h

/-- A step that changes nothing. -/
theorem cell_step_id {V : Type} (f : Int → V → Int × V × Int) (s : Work V) (pC : Nat)
    (h : f (s.Cb pC) (s.Cx pC) = (s.Cb pC, s.Cx pC, 0)) : cell_step f s pC = s := by
  unfold cell_step
  rw [h]
  simp

theorem M_accum_MASK_WORK_scalar_eq {V : Type} (keep : Int) (scalar : V) (accum : V → V → V)
    (s : Work V) (pC : Nat) :
    M_accum_MASK_WORK_scalar keep scalar accum s pC
      = cell_step (f_scalar_keep keep scalar accum) s pC := by
  unfold M_accum_MASK_WORK_scalar cell_step f_scalar_keep GB_ASSIGN_SCALAR GB_ACCUM_SCALAR
  by_cases h : s.Cb pC = 0 <;> simp [h]

theorem M_accum_IXJ_WORK_replace_eq {V : Type} (s : Work V) (v : Visit) :
    M_accum_IXJ_WORK_replace s v = cell_step f_ixj_replace s v.pC := by
  unfold M_accum_IXJ_WORK_replace cell_step f_ixj_replace
  by_cases h : s.Cb v.pC = 1
  · simp [h]
    rfl
  · simp [h]

theorem M_accum_MASK_WORK_scatter_eq {V : Type} (s : Work V) (pC : Nat) :
    M_accum_MASK_WORK_scatter s pC = cell_step f_scatter s pC := by
  unfold M_accum_MASK_WORK_scatter cell_step f_scatter
  simp

theorem M_accum_IXJ_WORK_eq {V : Type} (scalar : V) (accum : V → V → V) (s : Work V)
    (v : Visit) :
    M_accum_IXJ_WORK scalar accum s v = cell_step (f_combine scalar accum) s v.pC := by
  unfold M_accum_IXJ_WORK cell_step f_combine GB_ASSIGN_SCALAR GB_ACCUM_SCALAR
  by_cases h2 : s.Cb v.pC = 2
  · simp [h2]
  · by_cases h3 : s.Cb v.pC = 3
    · simp [h3]
    · simp [h2, h3]

theorem M_accum_AIJ_WORK_eq {V : Type} (Ax : Nat → V) (accum : V → V → V) (s : Work V)
    (v : Visit) :
    M_accum_AIJ_WORK Ax accum s v = cell_step (f_combine (Ax v.pA) accum) s v.pC := by
  unfold M_accum_AIJ_WORK cell_step f_combine GB_ASSIGN_AIJ GB_ACCUM_AIJ
  by_cases h2 : s.Cb v.pC = 2
  · simp [h2]
  · by_cases h3 : s.Cb v.pC = 3
    · simp [h3]
    · simp [h2, h3]

theorem M_accum_CIJ_WORK_eq {V : Type} (s : Work V) (mij : Bool) (pC : Nat) :
    M_accum_CIJ_WORK s mij pC = cell_step f_cij_replace s pC := by
  unfold M_accum_CIJ_WORK cell_step f_cij_replace
  simp
  rfl

theorem M_accum_MASK_WORK_clear_eq {V : Type} (s : Work V) (pC : Nat) :
    M_accum_MASK_WORK_clear s pC = cell_step f_clear s pC := by
  unfold M_accum_MASK_WORK_clear cell_step f_clear
  simp

theorem fullM_accum_IXJ_WORK_eq {V : Type} (Mb : Option (Nat → Int)) (mcast : Nat → Bool)
    (Mask_comp : Bool) (pM_of : Visit → Nat) (scalar : V) (accum : V → V → V)
    (s : Work V) (v : Visit) :
    fullM_accum_IXJ_WORK Mb mcast Mask_comp pM_of scalar accum s v
      = cell_step (f_fullM_accum (GB_GET_MIJ Mb mcast Mask_comp (pM_of v)) scalar accum)
          s v.pC := by
  unfold fullM_accum_IXJ_WORK cell_step f_fullM_accum GB_ASSIGN_SCALAR GB_ACCUM_SCALAR
  by_cases hm : GB_GET_MIJ Mb mcast Mask_comp (pM_of v) = true
  · by_cases h : s.Cb v.pC = 0 <;> simp [hm, h]
  · simp [hm]

theorem fullM_accum_AIJ_WORK_eq {V : Type} (Mb : Option (Nat → Int)) (mcast : Nat → Bool)
    (Mask_comp : Bool) (pM_of : Visit → Nat) (Ax : Nat → V) (accum : V → V → V)
    (s : Work V) (v : Visit) :
    fullM_accum_AIJ_WORK Mb mcast Mask_comp pM_of Ax accum s v
      = cell_step (f_fullM_accum (GB_GET_MIJ Mb mcast Mask_comp (pM_of v)) (Ax v.pA) accum)
          s v.pC := by
  unfold fullM_accum_AIJ_WORK cell_step f_fullM_accum GB_ASSIGN_AIJ GB_ACCUM_AIJ
  by_cases hm : GB_GET_MIJ Mb mcast Mask_comp (pM_of v) = true
  · by_cases h : s.Cb v.pC = 0 <;> simp [hm, h]
  · simp [hm]

theorem fullM_accum_CIJ_WORK_eq {V : Type} (s : Work V) (mij : Bool) (pC : Nat) :
    fullM_accum_CIJ_WORK s mij pC = cell_step (f_fullM_accum_cij mij) s pC := by
  unfold fullM_accum_CIJ_WORK cell_step f_fullM_accum_cij
  cases mij
  · simp
    rfl
  · simp

theorem fullM_noaccum_CIJ_WORK_replace_eq {V : Type} (s : Work V) (mij : Bool) (pC : Nat) :
    fullM_noaccum_CIJ_WORK_replace s mij pC = cell_step f_fullM_noaccum_replace s pC := by
  unfold fullM_noaccum_CIJ_WORK_replace cell_step f_fullM_noaccum_replace
  simp
  rfl

theorem fullM_noaccum_IXJ_WORK_eq {V : Type} (Mb : Option (Nat → Int)) (mcast : Nat → Bool)
    (Mask_comp : Bool) (pM_of : Visit → Nat) (scalar : V) (s : Work V) (v : Visit) :
    fullM_noaccum_IXJ_WORK Mb mcast Mask_comp pM_of scalar s v
      = cell_step (f_fullM_noaccum (GB_GET_MIJ Mb mcast Mask_comp (pM_of v)) 1 scalar)
          s v.pC := by
  unfold fullM_noaccum_IXJ_WORK cell_step f_fullM_noaccum GB_ASSIGN_SCALAR
  by_cases hm : GB_GET_MIJ Mb mcast Mask_comp (pM_of v) = true
  · simp [hm]
  · simp [hm]

theorem fullM_noaccum_AIJ_WORK_eq {V : Type} (Mb : Option (Nat → Int)) (mcast : Nat → Bool)
    (Mask_comp : Bool) (pM_of : Visit → Nat) (keep : Int) (Ax : Nat → V) (s : Work V)
    (v : Visit) :
    fullM_noaccum_AIJ_WORK Mb mcast Mask_comp pM_of keep Ax s v
      = cell_step (f_fullM_noaccum (GB_GET_MIJ Mb mcast Mask_comp (pM_of v)) keep (Ax v.pA))
          s v.pC := by
  unfold fullM_noaccum_AIJ_WORK cell_step f_fullM_noaccum GB_ASSIGN_AIJ
  by_cases hm : GB_GET_MIJ Mb mcast Mask_comp (pM_of v) = true
  · simp [hm]
  · simp [hm]

theorem fullM_noaccum_CIJ_WORK_eq {V : Type} (s : Work V) (mij : Bool) (pC : Nat) :
    fullM_noaccum_CIJ_WORK s mij pC = cell_step (f_fullM_noaccum_cij mij) s pC := by
  unfold fullM_noaccum_CIJ_WORK cell_step f_fullM_noaccum_cij
  cases mij
  · simp
  · simp
    rfl

theorem pass_frame {V α : Type} (key : α → Nat) (f : α → Int → V → Int × V × Int)
    (W : Work V → α → Work V) (hW : ∀ s a, W s a = cell_step (f a) s (key a))
    (cells : List α) (s : Work V) (p : Nat) (hp : p ∉ cells.map key) :
    (cells.foldl W s).Cb p = s.Cb p ∧ (cells.foldl W s).Cx p = s.Cx p := by
  have hWeq : W = fun s a => cell_step (f a) s (key a) :=
    funext fun s => funext fun a => hW s a
  subst hWeq
  exact foldl_cell_frame key f cells s p hp

theorem pass_exact {V α : Type} (key : α → Nat) (f : α → Int → V → Int × V × Int)
    (W : Work V → α → Work V) (hW : ∀ s a, W s a = cell_step (f a) s (key a))
    (cells : List α) (s : Work V) (hnd : (cells.map key).Nodup) (a : α) (ha : a ∈ cells) :
    (cells.foldl W s).Cb (key a) = (f a (s.Cb (key a)) (s.Cx (key a))).1
      ∧ (cells.foldl W s).Cx (key a) = (f a (s.Cb (key a)) (s.Cx (key a))).2.1 := by
  have hWeq : W = fun s a => cell_step (f a) s (key a) :=
    funext fun s => funext fun a => hW s a
  subst hWeq
  exact foldl_cell_exact key f cells s hnd a ha

theorem pass_invariant {V α : Type} (key : α → Nat) (f : α → Int → V → Int × V × Int)
    (W : Work V → α → Work V) (hW : ∀ s a, W s a = cell_step (f a) s (key a))
    (Q : Nat → Int → Prop) (present : Int → Bool) (n : Nat)
    (cells : List α) (s : Work V)
    (hstep : ∀ a, a ∈ cells → ∀ cb cx, Q (key a) cb →
      Q (key a) (f a cb cx).1
        ∧ (f a cb cx).2.2 = (if present (f a cb cx).1 then 1 else 0)
            - (if present cb then 1 else 0))
    (hlt : ∀ a, a ∈ cells → key a < n)
    (hQ : ∀ p, Q p (s.Cb p)) :
    (∀ p, Q p ((cells.foldl W s).Cb p))
      ∧ (cells.foldl W s).cnvals - count_cells present n (cells.foldl W s).Cb
        = s.cnvals - count_cells present n s.Cb := by
  have hWeq : W = fun s a => cell_step (f a) s (key a) :=
    funext fun s => funext fun a => hW s a
  subst hWeq
  exact foldl_cell_invariant key f Q present n cells s hstep hlt hQ

theorem pass_count_nodup {V α : Type} (key : α → Nat) (f : α → Int → V → Int × V × Int)
    (W : Work V → α → Work V) (hW : ∀ s a, W s a = cell_step (f a) s (key a))
    (present : Int → Bool) (n : Nat)
    (cells : List α) (s : Work V) (hnd : (cells.map key).Nodup)
    (hstep : ∀ a, a ∈ cells →
      (f a (s.Cb (key a)) (s.Cx (key a))).2.2
        = (if present (f a (s.Cb (key a)) (s.Cx (key a))).1 then 1 else 0)
            - (if present (s.Cb (key a)) then 1 else 0))
    (hlt : ∀ a, a ∈ cells → key a < n) :
    (cells.foldl W s).cnvals - count_cells present n (cells.foldl W s).Cb
      = s.cnvals - count_cells present n s.Cb := by
  have hWeq : W = fun s a => cell_step (f a) s (key a) :=
    funext fun s => funext fun a => hW s a
  subst hWeq
  exact foldl_cell_count_nodup key f present n cells s hnd hstep hlt

theorem pass_absorb {V α : Type} (key : α → Nat) (f : α → Int → V → Int × V × Int)
    (W : Work V → α → Work V) (hW : ∀ s a, W s a = cell_step (f a) s (key a))
    (D D2 : Int → Prop) (act : α → Prop) (cells : List α) (s : Work V)
    (hact : ∀ a, a ∈ cells → act a → ∀ cb cx, D cb → D2 (f a cb cx).1)
    (hD2 : ∀ a, a ∈ cells → ∀ cb cx, D2 cb → D2 (f a cb cx).1)
    (hDD : ∀ a, a ∈ cells → ∀ cb cx, D cb → D (f a cb cx).1)
    (hD : ∀ p, D (s.Cb p)) (p : Nat)
    (hp : (∃ a, a ∈ cells ∧ act a ∧ key a = p) ∨ D2 (s.Cb p)) :
    D2 ((cells.foldl W s).Cb p) := by
  have hWeq : W = fun s a => cell_step (f a) s (key a) :=
    funext fun s => funext fun a => hW s a
  subst hWeq
  exact foldl_cell_absorb key f D D2 act cells s hact hD2 hDD hD p hp

/-! ### GB_bitmap_assign_M_accum: the passes -/

/-- The scalar-subassignment pass over the mask with `keep = 1`: bytes stay 0 or
1 and `cnvals` follows the number of bytes 1. -/
theorem M_accum_scalar_keep1 {V : Type} (n : Nat) (scalar : V) (accum : V → V → V)
    (Mentries : List Nat) (s : Work V)
    (hb : ∀ p, s.Cb p = 0 ∨ s.Cb p = 1) (hMn : ∀ p, p ∈ Mentries → p < n) :
    (∀ p, (GB_bitmap_assign_M_template (M_accum_MASK_WORK_scalar 1 scalar accum)
        Mentries s).Cb p = 0
      ∨ (GB_bitmap_assign_M_template (M_accum_MASK_WORK_scalar 1 scalar accum)
        Mentries s).Cb p = 1)
      ∧ (GB_bitmap_assign_M_template (M_accum_MASK_WORK_scalar 1 scalar accum)
          Mentries s).cnvals
          - count_cells present1 n (GB_bitmap_assign_M_template
              (M_accum_MASK_WORK_scalar 1 scalar accum) Mentries s).Cb
        = s.cnvals - count_cells present1 n s.Cb := by
  unfold GB_bitmap_assign_M_template
  refine pass_invariant id (fun _ => f_scalar_keep 1 scalar accum) _
    (fun s a => M_accum_MASK_WORK_scalar_eq 1 scalar accum s a)
    (fun _ cb => cb = 0 ∨ cb = 1) present1 n Mentries s ?_ hMn hb
  intro a _ cb cx hcb
  rcases hcb with h | h <;> subst h <;> simp [f_scalar_keep, present1, int8_wrap]

/-- On bytes 0 and 1 the three ways of counting present cells agree. -/
theorem present13_eq_present1 (Cb : Nat → Int) (hb : ∀ p, Cb p = 0 ∨ Cb p = 1) (n : Nat) :
    count_cells present13 n Cb = count_cells present1 n Cb := by
  apply count_cells_congr
  intro p
  rcases hb p with h | h <;> rw [h] <;> rfl

theorem present14_eq_present1 (Cb : Nat → Int) (hb : ∀ p, Cb p = 0 ∨ Cb p = 1) (n : Nat) :
    count_cells present14 n Cb = count_cells present1 n Cb := by
  apply count_cells_congr
  intro p
  rcases hb p with h | h <;> rw [h] <;> rfl

/-- The scalar-subassignment pass over the mask with `keep = 3`. -/
theorem M_accum_scalar_keep3 {V : Type} (n : Nat) (scalar : V) (accum : V → V → V)
    (Mentries : List Nat) (s : Work V)
    (hb : ∀ p, s.Cb p = 0 ∨ s.Cb p = 1) (hMn : ∀ p, p ∈ Mentries → p < n) :
    (∀ p, ((GB_bitmap_assign_M_template (M_accum_MASK_WORK_scalar 3 scalar accum)
          Mentries s).Cb p = 0
        ∨ (GB_bitmap_assign_M_template (M_accum_MASK_WORK_scalar 3 scalar accum)
          Mentries s).Cb p = 1)
        ∨ (p ∈ Mentries
          ∧ (GB_bitmap_assign_M_template (M_accum_MASK_WORK_scalar 3 scalar accum)
              Mentries s).Cb p = 3))
      ∧ (GB_bitmap_assign_M_template (M_accum_MASK_WORK_scalar 3 scalar accum)
          Mentries s).cnvals
          - count_cells present13 n (GB_bitmap_assign_M_template
              (M_accum_MASK_WORK_scalar 3 scalar accum) Mentries s).Cb
        = s.cnvals - count_cells present13 n s.Cb := by
  unfold GB_bitmap_assign_M_template
  refine pass_invariant id (fun _ => f_scalar_keep 3 scalar accum) _
    (fun s a => M_accum_MASK_WORK_scalar_eq 3 scalar accum s a)
    (fun p cb => (cb = 0 ∨ cb = 1) ∨ (p ∈ Mentries ∧ cb = 3)) present13 n Mentries s
    ?_ hMn (fun p => Or.inl (hb p))
  intro a ha cb cx hcb
  rcases hcb with (h | h) | ⟨-, h⟩ <;> subst h <;>
    simp [f_scalar_keep, present13, int8_wrap, ha]

/-- The `C_replace` pass of the scalar subassignment, lines 115-134. -/
theorem M_accum_ixj_replace {V : Type} (n : Nat) (IxJ : List Visit) (s : Work V)
    (hD : ∀ p, s.Cb p = 0 ∨ s.Cb p = 1 ∨ s.Cb p = 3)
    (hIn : ∀ v, v ∈ IxJ → v.pC < n) :
    (∀ p, ((∃ v, v ∈ IxJ ∧ v.pC = p) ∨ s.Cb p = 0 ∨ s.Cb p = 1) →
        (GB_bitmap_assign_IxJ_template M_accum_IXJ_WORK_replace IxJ s).Cb p = 0
          ∨ (GB_bitmap_assign_IxJ_template M_accum_IXJ_WORK_replace IxJ s).Cb p = 1)
      ∧ (GB_bitmap_assign_IxJ_template M_accum_IXJ_WORK_replace IxJ s).cnvals
          - count_cells present13 n
              (GB_bitmap_assign_IxJ_template M_accum_IXJ_WORK_replace IxJ s).Cb
        = s.cnvals - count_cells present13 n s.Cb := by
  unfold GB_bitmap_assign_IxJ_template
  have hstepD : ∀ (cb : Int) (cx : V), (cb = 0 ∨ cb = 1 ∨ cb = 3) →
      ((f_ixj_replace cb cx).1 = 0 ∨ (f_ixj_replace cb cx).1 = 1)
        ∧ (f_ixj_replace cb cx).2.2 = (if present13 (f_ixj_replace cb cx).1 then 1 else 0)
            - (if present13 cb then 1 else 0) := by
    intro cb cx hcb
    rcases hcb with h | h | h <;> subst h <;> simp [f_ixj_replace, present13]
  constructor
  · intro p hp
    refine pass_absorb (fun v : Visit => v.pC) (fun _ => f_ixj_replace) _
      (fun s v => M_accum_IXJ_WORK_replace_eq s v)
      (fun cb => cb = 0 ∨ cb = 1 ∨ cb = 3) (fun cb => cb = 0 ∨ cb = 1) (fun _ => True)
      IxJ s ?_ ?_ ?_ hD p ?_
    · intro a _ _ cb cx hcb
      exact (hstepD cb cx hcb).1
    · intro a _ cb cx hcb
      exact (hstepD cb cx (by tauto)).1
    · intro a _ cb cx hcb
      have := (hstepD cb cx hcb).1
      tauto
    · rcases hp with ⟨v, hv, hvp⟩ | h
      · exact Or.inl ⟨v, hv, trivial, hvp⟩
      · exact Or.inr h
  · refine (pass_invariant (fun v : Visit => v.pC) (fun _ => f_ixj_replace) _
      (fun s v => M_accum_IXJ_WORK_replace_eq s v)
      (fun _ cb => cb = 0 ∨ cb = 1 ∨ cb = 3) present13 n IxJ s ?_ hIn hD).2
    intro a _ cb cx hcb
    have := hstepD cb cx hcb
    exact ⟨by tauto, this.2⟩

/-- The scatter of the mask, line 146, over distinct mask entries. -/
theorem M_accum_scatter {V : Type} (n : Nat) (Mentries : List Nat) (s : Work V)
    (hb : ∀ p, s.Cb p = 0 ∨ s.Cb p = 1) (hM : Mentries.Nodup)
    (hMn : ∀ p, p ∈ Mentries → p < n) :
    (∀ p, (p ∈ Mentries →
          (GB_bitmap_assign_M_template M_accum_MASK_WORK_scatter Mentries s).Cb p
            = s.Cb p + 2)
        ∧ (p ∉ Mentries →
          (GB_bitmap_assign_M_template M_accum_MASK_WORK_scatter Mentries s).Cb p = s.Cb p)
        ∧ (GB_bitmap_assign_M_template M_accum_MASK_WORK_scatter Mentries s).Cx p = s.Cx p)
      ∧ (GB_bitmap_assign_M_template M_accum_MASK_WORK_scatter Mentries s).cnvals
          - count_cells present13 n
              (GB_bitmap_assign_M_template M_accum_MASK_WORK_scatter Mentries s).Cb
        = s.cnvals - count_cells present13 n s.Cb := by
  unfold GB_bitmap_assign_M_template
  have hnd : (Mentries.map id).Nodup := by rwa [List.map_id]
  have hw : ∀ cb : Int, (cb = 0 ∨ cb = 1) → int8_wrap (cb + 2) = cb + 2 := by
    intro cb hcb
    unfold int8_wrap
    omega
  constructor
  · intro p
    by_cases hp : p ∈ Mentries
    · obtain ⟨h1, h2⟩ := pass_exact id (fun _ => f_scatter) _
        (fun s a => M_accum_MASK_WORK_scatter_eq s a) Mentries s hnd p hp
      exact ⟨fun _ => h1.trans (hw _ (hb p)), fun hn => absurd hp hn, h2⟩
    · obtain ⟨h1, h2⟩ := pass_frame id (fun _ => f_scatter) _
        (fun s a => M_accum_MASK_WORK_scatter_eq s a) Mentries s p
        (by rwa [List.map_id])
      exact ⟨fun h => absurd h hp, fun _ => h1, h2⟩
  · refine pass_count_nodup id (fun _ => f_scatter) _
      (fun s a => M_accum_MASK_WORK_scatter_eq s a) present13 n Mentries s hnd ?_ hMn
    intro a _
    show (0 : Int) = (if present13 (int8_wrap (s.Cb a + 2)) then 1 else 0)
      - (if present13 (s.Cb a) then 1 else 0)
    rcases hb a with h | h <;> rw [h] <;> rfl

/-- The combine pass, lines 163-219, for the scalar or for the entries of `A`:
selected cells keep a byte 2 or 3 and the others a byte 0 or 1. -/
theorem M_accum_combine {V : Type} (n : Nat) (sel : Nat → Prop) (sv : Visit → V)
    (accum : V → V → V) (W : Work V → Visit → Work V)
    (hW : ∀ s v, W s v = cell_step (f_combine (sv v) accum) s v.pC)
    (cells : List Visit) (s : Work V)
    (hQ : ∀ p, (sel p ∧ (s.Cb p = 2 ∨ s.Cb p = 3)) ∨ (¬ sel p ∧ (s.Cb p = 0 ∨ s.Cb p = 1)))
    (hlt : ∀ v, v ∈ cells → v.pC < n) :
    (∀ p, (sel p ∧ ((cells.foldl W s).Cb p = 2 ∨ (cells.foldl W s).Cb p = 3))
        ∨ (¬ sel p ∧ ((cells.foldl W s).Cb p = 0 ∨ (cells.foldl W s).Cb p = 1)))
      ∧ (cells.foldl W s).cnvals - count_cells present13 n (cells.foldl W s).Cb
        = s.cnvals - count_cells present13 n s.Cb := by
  refine pass_invariant (fun v : Visit => v.pC) (fun v => f_combine (sv v) accum) W hW
    (fun p cb => (sel p ∧ (cb = 2 ∨ cb = 3)) ∨ (¬ sel p ∧ (cb = 0 ∨ cb = 1)))
    present13 n cells s ?_ hlt hQ
  intro a _ cb cx hcb
  rcases hcb with ⟨hs, h | h⟩ | ⟨hs, h | h⟩ <;> subst h <;>
    simp [f_combine, present13, hs]

/-- The `C_replace` pass of the general path, lines 225-243. -/
theorem M_accum_replace {V : Type} (n : Nat) (Centries : List Visit) (s : Work V)
    (hD : ∀ p, s.Cb p = 0 ∨ s.Cb p = 1 ∨ s.Cb p = 2 ∨ s.Cb p = 3)
    (hCn : ∀ v, v ∈ Centries → v.pC < n) :
    (∀ p, ((∃ v, v ∈ Centries ∧ v.pC = p) ∨ s.Cb p = 0 ∨ s.Cb p = 1) →
        (GB_bitmap_assign_C_template (fun _ => false) M_accum_CIJ_WORK Centries s).Cb p = 0
          ∨ (GB_bitmap_assign_C_template (fun _ => false) M_accum_CIJ_WORK Centries s).Cb p
              = 1)
      ∧ (GB_bitmap_assign_C_template (fun _ => false) M_accum_CIJ_WORK Centries s).cnvals
          - count_cells present13 n
              (GB_bitmap_assign_C_template (fun _ => false) M_accum_CIJ_WORK Centries s).Cb
        = s.cnvals - count_cells present13 n s.Cb := by
  unfold GB_bitmap_assign_C_template
  have hstepD : ∀ (cb : Int) (cx : V), (cb = 0 ∨ cb = 1 ∨ cb = 2 ∨ cb = 3) →
      ((f_cij_replace cb cx).1 = 0 ∨ (f_cij_replace cb cx).1 = 1)
        ∧ (f_cij_replace cb cx).2.2 = (if present13 (f_cij_replace cb cx).1 then 1 else 0)
            - (if present13 cb then 1 else 0) := by
    intro cb cx hcb
    rcases hcb with h | h | h | h <;> subst h <;> simp [f_cij_replace, present13]
  constructor
  · intro p hp
    refine pass_absorb (fun v : Visit => v.pC) (fun _ => f_cij_replace) _
      (fun s v => M_accum_CIJ_WORK_eq s false v.pC)
      (fun cb => cb = 0 ∨ cb = 1 ∨ cb = 2 ∨ cb = 3) (fun cb => cb = 0 ∨ cb = 1)
      (fun _ => True) Centries s ?_ ?_ ?_ hD p ?_
    · intro a _ _ cb cx hcb
      exact (hstepD cb cx hcb).1
    · intro a _ cb cx hcb
      exact (hstepD cb cx (by tauto)).1
    · intro a _ cb cx hcb
      have := (hstepD cb cx hcb).1
      tauto
    · rcases hp with ⟨v, hv, hvp⟩ | h
      · exact Or.inl ⟨v, hv, trivial, hvp⟩
      · exact Or.inr h
  · refine (pass_invariant (fun v : Visit => v.pC) (fun _ => f_cij_replace) _
      (fun s v => M_accum_CIJ_WORK_eq s false v.pC)
      (fun _ cb => cb = 0 ∨ cb = 1 ∨ cb = 2 ∨ cb = 3) present13 n Centries s ?_ hCn hD).2
    intro a _ cb cx hcb
    have := hstepD cb cx hcb
    exact ⟨by tauto, this.2⟩

/-- The pass that clears the mask, line 248, over distinct mask entries. -/
theorem M_accum_clear {V : Type} (n : Nat) (Mentries : List Nat) (s : Work V)
    (hQ : ∀ p, (p ∈ Mentries ∧ (s.Cb p = 2 ∨ s.Cb p = 3))
      ∨ (p ∉ Mentries ∧ (s.Cb p = 0 ∨ s.Cb p = 1)))
    (hM : Mentries.Nodup) (hMn : ∀ p, p ∈ Mentries → p < n) :
    (∀ p, (p ∈ Mentries →
          (GB_bitmap_assign_M_template M_accum_MASK_WORK_clear Mentries s).Cb p = s.Cb p - 2)
        ∧ (p ∉ Mentries →
          (GB_bitmap_assign_M_template M_accum_MASK_WORK_clear Mentries s).Cb p = s.Cb p)
        ∧ (GB_bitmap_assign_M_template M_accum_MASK_WORK_clear Mentries s).Cx p = s.Cx p)
      ∧ (GB_bitmap_assign_M_template M_accum_MASK_WORK_clear Mentries s).cnvals
          - count_cells present13 n
              (GB_bitmap_assign_M_template M_accum_MASK_WORK_clear Mentries s).Cb
        = s.cnvals - count_cells present13 n s.Cb := by
  unfold GB_bitmap_assign_M_template
  have hnd : (Mentries.map id).Nodup := by rwa [List.map_id]
  have hsel : ∀ p, p ∈ Mentries → (s.Cb p = 2 ∨ s.Cb p = 3) := by
    intro p hp
    rcases hQ p with ⟨-, h⟩ | ⟨hn, -⟩
    · exact h
    · exact absurd hp hn
  have hw : ∀ cb : Int, (cb = 2 ∨ cb = 3) → int8_wrap (cb - 2) = cb - 2 := by
    intro cb hcb
    unfold int8_wrap
    omega
  constructor
  · intro p
    by_cases hp : p ∈ Mentries
    · obtain ⟨h1, h2⟩ := pass_exact id (fun _ => f_clear) _
        (fun s a => M_accum_MASK_WORK_clear_eq s a) Mentries s hnd p hp
      exact ⟨fun _ => h1.trans (hw _ (hsel p hp)), fun hn => absurd hp hn, h2⟩
    · obtain ⟨h1, h2⟩ := pass_frame id (fun _ => f_clear) _
        (fun s a => M_accum_MASK_WORK_clear_eq s a) Mentries s p
        (by rwa [List.map_id])
      exact ⟨fun h => absurd h hp, fun _ => h1, h2⟩
  · refine pass_count_nodup id (fun _ => f_clear) _
      (fun s a => M_accum_MASK_WORK_clear_eq s a) present13 n Mentries s hnd ?_ hMn
    intro a ha
    show (0 : Int) = (if present13 (int8_wrap (s.Cb a - 2)) then 1 else 0)
      - (if present13 (s.Cb a) then 1 else 0)
    rcases hsel a ha with h | h <;> rw [h] <;> rfl

/-- The whole of `GB_bitmap_assign_M_accum`: with bytes 0 or 1 on entry, distinct
mask entries, and the mask inside the region scanned for `C_replace` (the
cells of `IxJ` on the path of the scalar subassignment, the region of the C
template on the general path), the bytes are 0 or 1 on return and `nvals`
has moved with the number of bytes 1. -/
theorem M_accum_core_path {V : Type} (n : Nat) (C : GB_Matrix_bitmap V) (C_replace : Bool)
    (IxJ : List Visit) (Mentries : List Nat) (accum : V → V → V)
    (A : Option (Nat → V)) (Aentries : List Visit) (scalar : V) (assign_kind : Int)
    (Centries : List Visit)
    (hb : ∀ p, C.b p = 0 ∨ C.b p = 1)
    (hM : Mentries.Nodup)
    (hMn : ∀ p, p ∈ Mentries → p < n) (hIn : ∀ v, v ∈ IxJ → v.pC < n)
    (hAn : ∀ v, v ∈ Aentries → v.pC < n) (hCn : ∀ v, v ∈ Centries → v.pC < n)
    (hcovI : C_replace = true → A.isNone ∧ assign_kind = GB_SUBASSIGN →
      ∀ p, p ∈ Mentries → ∃ v, v ∈ IxJ ∧ v.pC = p)
    (hcovC : C_replace = true → ¬ (A.isNone ∧ assign_kind = GB_SUBASSIGN) →
      ∀ p, p ∈ Mentries → ∃ v, v ∈ Centries ∧ v.pC = p) :
    (∀ p, (GB_bitmap_assign_M_accum C C_replace IxJ Mentries accum A Aentries scalar
          assign_kind Centries).b p = 0
        ∨ (GB_bitmap_assign_M_accum C C_replace IxJ Mentries accum A Aentries scalar
          assign_kind Centries).b p = 1)
      ∧ (GB_bitmap_assign_M_accum C C_replace IxJ Mentries accum A Aentries scalar
            assign_kind Centries).nvals
          - count_cells present1 n (GB_bitmap_assign_M_accum C C_replace IxJ Mentries accum
              A Aentries scalar assign_kind Centries).b
        = C.nvals - count_cells present1 n C.b := by
  revert hcovI hcovC
  have hb0 : ∀ p, (GB_GET_C C).Cb p = 0 ∨ (GB_GET_C C).Cb p = 1 := hb
  have hfin : ∀ s : Work V, (∀ p, s.Cb p = 0 ∨ s.Cb p = 1) →
      s.cnvals - count_cells present13 n s.Cb
        = (GB_GET_C C).cnvals - count_cells present13 n (GB_GET_C C).Cb →
      (∀ p, (finish s).b p = 0 ∨ (finish s).b p = 1)
        ∧ (finish s).nvals - count_cells present1 n (finish s).b
          = C.nvals - count_cells present1 n C.b := by
    intro s h1 h2
    refine ⟨h1, ?_⟩
    rw [present13_eq_present1 s.Cb h1 n, present13_eq_present1 (GB_GET_C C).Cb hb0 n] at h2
    exact h2
  obtain ⟨hs1, hs2⟩ := M_accum_scatter n Mentries (GB_GET_C C) hb0 hM hMn
  have hQ1 : ∀ p, (p ∈ Mentries
        ∧ ((GB_bitmap_assign_M_template M_accum_MASK_WORK_scatter Mentries
              (GB_GET_C C)).Cb p = 2
          ∨ (GB_bitmap_assign_M_template M_accum_MASK_WORK_scatter Mentries
              (GB_GET_C C)).Cb p = 3))
      ∨ (p ∉ Mentries
        ∧ ((GB_bitmap_assign_M_template M_accum_MASK_WORK_scatter Mentries
              (GB_GET_C C)).Cb p = 0
          ∨ (GB_bitmap_assign_M_template M_accum_MASK_WORK_scatter Mentries
              (GB_GET_C C)).Cb p = 1)) := by
    intro p
    by_cases hp : p ∈ Mentries
    · left
      refine ⟨hp, ?_⟩
      rw [(hs1 p).1 hp]
      rcases hb0 p with h | h <;> rw [h]
      · exact Or.inl rfl
      · exact Or.inr rfl
    · right
      refine ⟨hp, ?_⟩
      rw [(hs1 p).2.1 hp]
      exact hb0 p
  -- the combine pass, for the scalar or for A
  have hcomb : ∃ s2 : Work V,
      (match A with
        | none => GB_bitmap_assign_IxJ_template (M_accum_IXJ_WORK scalar accum) IxJ
            (GB_bitmap_assign_M_template M_accum_MASK_WORK_scatter Mentries (GB_GET_C C))
        | some Ax => GB_bitmap_assign_A_template (M_accum_AIJ_WORK Ax accum) Aentries
            (GB_bitmap_assign_M_template M_accum_MASK_WORK_scatter Mentries (GB_GET_C C)))
        = s2
      ∧ (∀ p, (p ∈ Mentries ∧ (s2.Cb p = 2 ∨ s2.Cb p = 3))
          ∨ (p ∉ Mentries ∧ (s2.Cb p = 0 ∨ s2.Cb p = 1)))
      ∧ s2.cnvals - count_cells present13 n s2.Cb
          = (GB_GET_C C).cnvals - count_cells present13 n (GB_GET_C C).Cb := by
    cases A with
    | none =>
      obtain ⟨h1, h2⟩ := M_accum_combine n (fun p => p ∈ Mentries) (fun _ => scalar) accum
        (M_accum_IXJ_WORK scalar accum) (fun s v => M_accum_IXJ_WORK_eq scalar accum s v)
        IxJ _ hQ1 hIn
      exact ⟨_, rfl, h1, by rw [← hs2]; exact h2⟩
    | some Ax =>
      obtain ⟨h1, h2⟩ := M_accum_combine n (fun p => p ∈ Mentries) (fun v => Ax v.pA) accum
        (M_accum_AIJ_WORK Ax accum) (fun s v => M_accum_AIJ_WORK_eq Ax accum s v)
        Aentries _ hQ1 hAn
      exact ⟨_, rfl, h1, by rw [← hs2]; exact h2⟩
  obtain ⟨s2, hs2eq, hQ2, hoff2⟩ := hcomb
  intro hcovI hcovC
  by_cases hpath : A.isNone ∧ assign_kind = GB_SUBASSIGN
  · cases C_replace
    · -- scalar subassignment, keep = 1
      have hR : GB_bitmap_assign_M_accum C false IxJ Mentries accum A Aentries scalar
          assign_kind Centries
          = finish (GB_bitmap_assign_M_template (M_accum_MASK_WORK_scalar 1 scalar accum)
              Mentries (GB_GET_C C)) := by
        simp only [GB_bitmap_assign_M_accum, if_pos hpath, Bool.false_eq_true, if_false]
      rw [hR]
      obtain ⟨h1, h2⟩ := M_accum_scalar_keep1 n scalar accum Mentries (GB_GET_C C) hb0 hMn
      exact ⟨h1, h2⟩
    · -- scalar subassignment with C_replace, keep = 3
      have hR : GB_bitmap_assign_M_accum C true IxJ Mentries accum A Aentries scalar
          assign_kind Centries
          = finish (GB_bitmap_assign_IxJ_template M_accum_IXJ_WORK_replace IxJ
              (GB_bitmap_assign_M_template (M_accum_MASK_WORK_scalar 3 scalar accum)
                Mentries (GB_GET_C C))) := by
        simp only [GB_bitmap_assign_M_accum, if_pos hpath, if_true]
      rw [hR]
      obtain ⟨h1, h2⟩ := M_accum_scalar_keep3 n scalar accum Mentries (GB_GET_C C) hb0 hMn
      obtain ⟨h3, h4⟩ := M_accum_ixj_replace n IxJ _ (fun p => by
        rcases h1 p with (h | h) | ⟨-, h⟩
        · exact Or.inl h
        · exact Or.inr (Or.inl h)
        · exact Or.inr (Or.inr h)) hIn
      apply hfin
      · intro p
        apply h3
        rcases h1 p with h | ⟨hm, -⟩
        · exact Or.inr h
        · exact Or.inl (hcovI rfl hpath p hm)
      · rw [h4, h2]
  · -- the general path
    cases C_replace
    · have hR : GB_bitmap_assign_M_accum C false IxJ Mentries accum A Aentries scalar
          assign_kind Centries
          = finish (GB_bitmap_assign_M_template M_accum_MASK_WORK_clear Mentries s2) := by
        rw [← hs2eq]
        simp only [GB_bitmap_assign_M_accum, if_neg hpath, Bool.false_eq_true, if_false]
      rw [hR]
      obtain ⟨h1, h2⟩ := M_accum_clear n Mentries s2 hQ2 hM hMn
      apply hfin
      · intro p
        rcases hQ2 p with ⟨hp, h⟩ | ⟨hp, h⟩
        · rw [(h1 p).1 hp]
          rcases h with h | h <;> rw [h]
          · exact Or.inl rfl
          · exact Or.inr rfl
        · rw [(h1 p).2.1 hp]
          exact h
      · rw [h2, hoff2]
    · have hR : GB_bitmap_assign_M_accum C true IxJ Mentries accum A Aentries scalar
          assign_kind Centries
          = finish (GB_bitmap_assign_C_template (fun _ => false) M_accum_CIJ_WORK
              Centries s2) := by
        rw [← hs2eq]
        simp only [GB_bitmap_assign_M_accum, if_neg hpath, if_true]
      rw [hR]
      obtain ⟨h1, h2⟩ := M_accum_replace n Centries s2 (fun p => by
        rcases hQ2 p with ⟨-, h | h⟩ | ⟨-, h | h⟩
        · exact Or.inr (Or.inr (Or.inl h))
        · exact Or.inr (Or.inr (Or.inr h))
        · exact Or.inl h
        · exact Or.inr (Or.inl h)) hCn
      apply hfin
      · intro p
        apply h1
        rcases hQ2 p with ⟨hp, -⟩ | ⟨-, h⟩
        · exact Or.inl (hcovC rfl hpath p hp)
        · exact Or.inr h
      · rw [h2, hoff2]

/-- The whole of `GB_bitmap_assign_M_accum`: with bytes 0 or 1 on entry, distinct
mask entries, and the mask inside the region scanned for `C_replace`, the
bytes are 0 or 1 on return and `nvals` has moved with the number of bytes
1. -/
theorem M_accum_core {V : Type} (n : Nat) (C : GB_Matrix_bitmap V) (C_replace : Bool)
    (IxJ : List Visit) (Mentries : List Nat) (accum : V → V → V)
    (A : Option (Nat → V)) (Aentries : List Visit) (scalar : V) (assign_kind : Int)
    (Centries : List Visit)
    (hb : ∀ p, C.b p = 0 ∨ C.b p = 1)
    (hM : Mentries.Nodup)
    (hMn : ∀ p, p ∈ Mentries → p < n) (hIn : ∀ v, v ∈ IxJ → v.pC < n)
    (hAn : ∀ v, v ∈ Aentries → v.pC < n) (hCn : ∀ v, v ∈ Centries → v.pC < n)
    (hcovI : C_replace = true → ∀ p, p ∈ Mentries → ∃ v, v ∈ IxJ ∧ v.pC = p)
    (hcovC : C_replace = true → ∀ p, p ∈ Mentries → ∃ v, v ∈ Centries ∧ v.pC = p) :
    (∀ p, (GB_bitmap_assign_M_accum C C_replace IxJ Mentries accum A Aentries scalar
          assign_kind Centries).b p = 0
        ∨ (GB_bitmap_assign_M_accum C C_replace IxJ Mentries accum A Aentries scalar
          assign_kind Centries).b p = 1)
      ∧ (GB_bitmap_assign_M_accum C C_replace IxJ Mentries accum A Aentries scalar
            assign_kind Centries).nvals
          - count_cells present1 n (GB_bitmap_assign_M_accum C C_replace IxJ Mentries accum
              A Aentries scalar assign_kind Centries).b
        = C.nvals - count_cells present1 n C.b :=
  M_accum_core_path n C C_replace IxJ Mentries accum A Aentries scalar assign_kind Centries
    hb hM hMn hIn hAn hCn (fun hr _ => hcovI hr) (fun hr _ => hcovC hr)

/-! ### The fullM methods: the passes -/

/-- A pass whose steps keep the bytes in 0, 1 and move `cnvals` with the byte
keeps the canonical encoding and the distance between `cnvals` and the number
of bytes 1. -/
theorem pass_canonical {V α : Type} (key : α → Nat) (f : α → Int → V → Int × V × Int)
    (W : Work V → α → Work V) (hW : ∀ s a, W s a = cell_step (f a) s (key a))
    (n : Nat) (K : Int) (cells : List α) (s : Work V)
    (hstep : ∀ a, a ∈ cells → ∀ (cb : Int) (cx : V), (cb = 0 ∨ cb = 1) →
      ((f a cb cx).1 = 0 ∨ (f a cb cx).1 = 1)
        ∧ (f a cb cx).2.2 = (if present1 (f a cb cx).1 then 1 else 0)
            - (if present1 cb then 1 else 0))
    (hlt : ∀ a, a ∈ cells → key a < n)
    (hs : (∀ p, s.Cb p = 0 ∨ s.Cb p = 1) ∧ s.cnvals - count_cells present1 n s.Cb = K) :
    (∀ p, (cells.foldl W s).Cb p = 0 ∨ (cells.foldl W s).Cb p = 1)
      ∧ (cells.foldl W s).cnvals - count_cells present1 n (cells.foldl W s).Cb = K := by
  obtain ⟨h1, h2⟩ := pass_invariant key f W hW (fun _ cb => cb = 0 ∨ cb = 1) present1 n
    cells s hstep hlt hs.1
  exact ⟨h1, by rw [h2]; exact hs.2⟩

theorem f_fullM_accum_step {V : Type} (mij : Bool) (sv : V) (accum : V → V → V)
    (cb : Int) (cx : V) (hcb : cb = 0 ∨ cb = 1) :
    ((f_fullM_accum mij sv accum cb cx).1 = 0 ∨ (f_fullM_accum mij sv accum cb cx).1 = 1)
      ∧ (f_fullM_accum mij sv accum cb cx).2.2
        = (if present1 (f_fullM_accum mij sv accum cb cx).1 then 1 else 0)
            - (if present1 cb then 1 else 0) := by
  cases mij <;> rcases hcb with h | h <;> subst h <;> simp [f_fullM_accum, present1]

theorem f_fullM_accum_cij_step {V : Type} (mij : Bool) (cb : Int) (cx : V)
    (hcb : cb = 0 ∨ cb = 1) :
    ((f_fullM_accum_cij mij cb cx).1 = 0 ∨ (f_fullM_accum_cij mij cb cx).1 = 1)
      ∧ (f_fullM_accum_cij mij cb cx).2.2
        = (if present1 (f_fullM_accum_cij mij cb cx).1 then 1 else 0)
            - (if present1 cb then 1 else 0) := by
  cases mij <;> rcases hcb with h | h <;> subst h <;> simp [f_fullM_accum_cij, present1]

/-- The scalar pass of `GB_bitmap_assign_fullM_accum`, for any `GB_GET_pM`. -/
theorem fullM_accum_ixj_pass {V : Type} (n : Nat) (K : Int) (Mb : Option (Nat → Int))
    (mcast : Nat → Bool) (Mask_comp : Bool) (pM_of : Visit → Nat) (scalar : V)
    (accum : V → V → V) (IxJ : List Visit) (s : Work V)
    (hIn : ∀ v, v ∈ IxJ → v.pC < n)
    (hs : (∀ p, s.Cb p = 0 ∨ s.Cb p = 1) ∧ s.cnvals - count_cells present1 n s.Cb = K) :
    (∀ p, (GB_bitmap_assign_IxJ_template
          (fullM_accum_IXJ_WORK Mb mcast Mask_comp pM_of scalar accum) IxJ s).Cb p = 0
        ∨ (GB_bitmap_assign_IxJ_template
          (fullM_accum_IXJ_WORK Mb mcast Mask_comp pM_of scalar accum) IxJ s).Cb p = 1)
      ∧ (GB_bitmap_assign_IxJ_template
          (fullM_accum_IXJ_WORK Mb mcast Mask_comp pM_of scalar accum) IxJ s).cnvals
        - count_cells present1 n (GB_bitmap_assign_IxJ_template
          (fullM_accum_IXJ_WORK Mb mcast Mask_comp pM_of scalar accum) IxJ s).Cb = K :=
  pass_canonical (fun v : Visit => v.pC)
    (fun v => f_fullM_accum (GB_GET_MIJ Mb mcast Mask_comp (pM_of v)) scalar accum) _
    (fun s v => fullM_accum_IXJ_WORK_eq Mb mcast Mask_comp pM_of scalar accum s v)
    n K IxJ s (fun _ _ cb cx h => f_fullM_accum_step _ _ _ cb cx h) hIn hs

/-- The matrix pass of `GB_bitmap_assign_fullM_accum`, for any `GB_GET_pM`. -/
theorem fullM_accum_aij_pass {V : Type} (n : Nat) (K : Int) (Mb : Option (Nat → Int))
    (mcast : Nat → Bool) (Mask_comp : Bool) (pM_of : Visit → Nat) (Ax : Nat → V)
    (accum : V → V → V) (Aentries : List Visit) (s : Work V)
    (hAn : ∀ v, v ∈ Aentries → v.pC < n)
    (hs : (∀ p, s.Cb p = 0 ∨ s.Cb p = 1) ∧ s.cnvals - count_cells present1 n s.Cb = K) :
    (∀ p, (GB_bitmap_assign_A_template
          (fullM_accum_AIJ_WORK Mb mcast Mask_comp pM_of Ax accum) Aentries s).Cb p = 0
        ∨ (GB_bitmap_assign_A_template
          (fullM_accum_AIJ_WORK Mb mcast Mask_comp pM_of Ax accum) Aentries s).Cb p = 1)
      ∧ (GB_bitmap_assign_A_template
          (fullM_accum_AIJ_WORK Mb mcast Mask_comp pM_of Ax accum) Aentries s).cnvals
        - count_cells present1 n (GB_bitmap_assign_A_template
          (fullM_accum_AIJ_WORK Mb mcast Mask_comp pM_of Ax accum) Aentries s).Cb = K :=
  pass_canonical (fun v : Visit => v.pC)
    (fun v => f_fullM_accum (GB_GET_MIJ Mb mcast Mask_comp (pM_of v)) (Ax v.pA) accum) _
    (fun s v => fullM_accum_AIJ_WORK_eq Mb mcast Mask_comp pM_of Ax accum s v)
    n K Aentries s (fun _ _ cb cx h => f_fullM_accum_step _ _ _ cb cx h) hAn hs

/-- The `C_replace` pass of `GB_bitmap_assign_fullM_accum`. -/
theorem fullM_accum_cij_pass {V : Type} (n : Nat) (K : Int) (mask : Visit → Bool)
    (Centries : List Visit) (s : Work V)
    (hCn : ∀ v, v ∈ Centries → v.pC < n)
    (hs : (∀ p, s.Cb p = 0 ∨ s.Cb p = 1) ∧ s.cnvals - count_cells present1 n s.Cb = K) :
    (∀ p, (GB_bitmap_assign_C_template mask fullM_accum_CIJ_WORK Centries s).Cb p = 0
        ∨ (GB_bitmap_assign_C_template mask fullM_accum_CIJ_WORK Centries s).Cb p = 1)
      ∧ (GB_bitmap_assign_C_template mask fullM_accum_CIJ_WORK Centries s).cnvals
        - count_cells present1 n
            (GB_bitmap_assign_C_template mask fullM_accum_CIJ_WORK Centries s).Cb = K :=
  pass_canonical (fun v : Visit => v.pC) (fun v => f_fullM_accum_cij (mask v)) _
    (fun s v => fullM_accum_CIJ_WORK_eq s (mask v) v.pC)
    n K Centries s (fun _ _ cb cx h => f_fullM_accum_cij_step _ cb cx h) hCn hs

/-- The whole of `GB_bitmap_assign_fullM_accum`: with bytes 0 or 1 on entry, the
bytes are 0 or 1 on return and `nvals` has moved with the number of bytes
1. -/
theorem fullM_accum_core {V : Type} (n : Nat) (C : GB_Matrix_bitmap V) (C_replace : Bool)
    (nI : Nat) (IxJ : List Visit) (Mb : Option (Nat → Int)) (mcast : Nat → Bool)
    (Mask_comp : Bool) (accum : V → V → V) (A : Option (Nat → V))
    (Aentries : List Visit) (scalar : V) (assign_kind : Int) (Centries : List Visit)
    (hb : ∀ p, C.b p = 0 ∨ C.b p = 1)
    (hIn : ∀ v, v ∈ IxJ → v.pC < n) (hAn : ∀ v, v ∈ Aentries → v.pC < n)
    (hCn : ∀ v, v ∈ Centries → v.pC < n) :
    (∀ p, (GB_bitmap_assign_fullM_accum C C_replace nI IxJ Mb mcast Mask_comp accum A
          Aentries scalar assign_kind Centries).b p = 0
        ∨ (GB_bitmap_assign_fullM_accum C C_replace nI IxJ Mb mcast Mask_comp accum A
          Aentries scalar assign_kind Centries).b p = 1)
      ∧ (GB_bitmap_assign_fullM_accum C C_replace nI IxJ Mb mcast Mask_comp accum A
            Aentries scalar assign_kind Centries).nvals
          - count_cells present1 n (GB_bitmap_assign_fullM_accum C C_replace nI IxJ Mb mcast
              Mask_comp accum A Aentries scalar assign_kind Centries).b
        = C.nvals - count_cells present1 n C.b := by
  have h0 : (∀ p, (GB_GET_C C).Cb p = 0 ∨ (GB_GET_C C).Cb p = 1)
      ∧ (GB_GET_C C).cnvals - count_cells present1 n (GB_GET_C C).Cb
        = C.nvals - count_cells present1 n C.b := ⟨hb, rfl⟩
  have key : ∀ s1 : Work V,
      ((∀ p, s1.Cb p = 0 ∨ s1.Cb p = 1)
        ∧ s1.cnvals - count_cells present1 n s1.Cb = C.nvals - count_cells present1 n C.b) →
      (∀ p, (finish (if C_replace = true then GB_bitmap_assign_C_template
            (fun v => GB_GET_MIJ Mb mcast Mask_comp (GB_GET_pM assign_kind nI v))
            fullM_accum_CIJ_WORK Centries s1 else s1)).b p = 0
          ∨ (finish (if C_replace = true then GB_bitmap_assign_C_template
            (fun v => GB_GET_MIJ Mb mcast Mask_comp (GB_GET_pM assign_kind nI v))
            fullM_accum_CIJ_WORK Centries s1 else s1)).b p = 1)
        ∧ (finish (if C_replace = true then GB_bitmap_assign_C_template
            (fun v => GB_GET_MIJ Mb mcast Mask_comp (GB_GET_pM assign_kind nI v))
            fullM_accum_CIJ_WORK Centries s1 else s1)).nvals
          - count_cells present1 n (finish (if C_replace = true then
              GB_bitmap_assign_C_template
                (fun v => GB_GET_MIJ Mb mcast Mask_comp (GB_GET_pM assign_kind nI v))
                fullM_accum_CIJ_WORK Centries s1 else s1)).b
          = C.nvals - count_cells present1 n C.b := by
    intro s1 hs1
    cases C_replace
    · simp only [Bool.false_eq_true, if_false]
      exact hs1
    · simp only [if_true]
      exact fullM_accum_cij_pass n _ _ Centries s1 hCn hs1
  unfold GB_bitmap_assign_fullM_accum
  refine key _ ?_
  cases A with
  | none =>
    dsimp only
    split_ifs
    · exact fullM_accum_ixj_pass n _ Mb mcast Mask_comp _ scalar accum IxJ _ hIn h0
    · exact fullM_accum_ixj_pass n _ Mb mcast Mask_comp _ scalar accum IxJ _ hIn h0
    · exact h0
  | some Ax =>
    dsimp only
    split_ifs
    · exact fullM_accum_aij_pass n _ Mb mcast Mask_comp _ Ax accum Aentries _ hAn h0
    · exact fullM_accum_aij_pass n _ Mb mcast Mask_comp _ Ax accum Aentries _ hAn h0
    · exact fullM_accum_aij_pass n _ Mb mcast Mask_comp _ Ax accum Aentries _ hAn h0
    · exact fullM_accum_aij_pass n _ Mb mcast Mask_comp _ Ax accum Aentries _ hAn h0
    · exact h0

theorem f_fullM_noaccum_replace_step {V : Type} (cb : Int) (cx : V)
    (hcb : cb = 0 ∨ cb = 1) :
    ((f_fullM_noaccum_replace cb cx).1 = 0 ∨ (f_fullM_noaccum_replace cb cx).1 = 1)
      ∧ (f_fullM_noaccum_replace cb cx).2.2
        = (if present1 (f_fullM_noaccum_replace cb cx).1 then 1 else 0)
            - (if present1 cb then 1 else 0) := by
  rcases hcb with h | h <;> subst h <;> simp [f_fullM_noaccum_replace, present1]

theorem f_fullM_noaccum_step1 {V : Type} (mij : Bool) (sv : V) (cb : Int) (cx : V)
    (hcb : cb = 0 ∨ cb = 1) :
    ((f_fullM_noaccum mij 1 sv cb cx).1 = 0 ∨ (f_fullM_noaccum mij 1 sv cb cx).1 = 1)
      ∧ (f_fullM_noaccum mij 1 sv cb cx).2.2
        = (if present1 (f_fullM_noaccum mij 1 sv cb cx).1 then 1 else 0)
            - (if present1 cb then 1 else 0) := by
  cases mij <;> rcases hcb with h | h <;> subst h <;> simp [f_fullM_noaccum, present1]

/-- The `C_replace` phase of `GB_bitmap_assign_fullM_noaccum`. -/
theorem fullM_noaccum_replace_pass {V : Type} (n : Nat) (K : Int) (mask : Visit → Bool)
    (Centries : List Visit) (s : Work V)
    (hCn : ∀ v, v ∈ Centries → v.pC < n)
    (hs : (∀ p, s.Cb p = 0 ∨ s.Cb p = 1) ∧ s.cnvals - count_cells present1 n s.Cb = K) :
    (∀ p, (GB_bitmap_assign_C_template mask fullM_noaccum_CIJ_WORK_replace Centries s).Cb p
          = 0
        ∨ (GB_bitmap_assign_C_template mask fullM_noaccum_CIJ_WORK_replace Centries s).Cb p
          = 1)
      ∧ (GB_bitmap_assign_C_template mask fullM_noaccum_CIJ_WORK_replace Centries s).cnvals
        - count_cells present1 n
            (GB_bitmap_assign_C_template mask fullM_noaccum_CIJ_WORK_replace Centries s).Cb
          = K :=
  pass_canonical (fun v : Visit => v.pC) (fun _ => f_fullM_noaccum_replace) _
    (fun s v => fullM_noaccum_CIJ_WORK_replace_eq s (mask v) v.pC)
    n K Centries s (fun _ _ cb cx h => f_fullM_noaccum_replace_step cb cx h) hCn hs

/-- The scalar pass of `GB_bitmap_assign_fullM_noaccum`, for any `GB_GET_pM`. -/
theorem fullM_noaccum_ixj_pass {V : Type} (n : Nat) (K : Int) (Mb : Option (Nat → Int))
    (mcast : Nat → Bool) (Mask_comp : Bool) (pM_of : Visit → Nat) (scalar : V)
    (IxJ : List Visit) (s : Work V)
    (hIn : ∀ v, v ∈ IxJ → v.pC < n)
    (hs : (∀ p, s.Cb p = 0 ∨ s.Cb p = 1) ∧ s.cnvals - count_cells present1 n s.Cb = K) :
    (∀ p, (GB_bitmap_assign_IxJ_template
          (fullM_noaccum_IXJ_WORK Mb mcast Mask_comp pM_of scalar) IxJ s).Cb p = 0
        ∨ (GB_bitmap_assign_IxJ_template
          (fullM_noaccum_IXJ_WORK Mb mcast Mask_comp pM_of scalar) IxJ s).Cb p = 1)
      ∧ (GB_bitmap_assign_IxJ_template
          (fullM_noaccum_IXJ_WORK Mb mcast Mask_comp pM_of scalar) IxJ s).cnvals
        - count_cells present1 n (GB_bitmap_assign_IxJ_template
          (fullM_noaccum_IXJ_WORK Mb mcast Mask_comp pM_of scalar) IxJ s).Cb = K :=
  pass_canonical (fun v : Visit => v.pC)
    (fun v => f_fullM_noaccum (GB_GET_MIJ Mb mcast Mask_comp (pM_of v)) 1 scalar) _
    (fun s v => fullM_noaccum_IXJ_WORK_eq Mb mcast Mask_comp pM_of scalar s v)
    n K IxJ s (fun _ _ cb cx h => f_fullM_noaccum_step1 _ _ cb cx h) hIn hs

/-- The matrix pass of `GB_bitmap_assign_fullM_noaccum` with `keep = 1`. -/
theorem fullM_noaccum_aij_pass1 {V : Type} (n : Nat) (K : Int) (Mb : Option (Nat → Int))
    (mcast : Nat → Bool) (Mask_comp : Bool) (pM_of : Visit → Nat) (Ax : Nat → V)
    (Aentries : List Visit) (s : Work V)
    (hAn : ∀ v, v ∈ Aentries → v.pC < n)
    (hs : (∀ p, s.Cb p = 0 ∨ s.Cb p = 1) ∧ s.cnvals - count_cells present1 n s.Cb = K) :
    (∀ p, (GB_bitmap_assign_A_template
          (fullM_noaccum_AIJ_WORK Mb mcast Mask_comp pM_of 1 Ax) Aentries s).Cb p = 0
        ∨ (GB_bitmap_assign_A_template
          (fullM_noaccum_AIJ_WORK Mb mcast Mask_comp pM_of 1 Ax) Aentries s).Cb p = 1)
      ∧ (GB_bitmap_assign_A_template
          (fullM_noaccum_AIJ_WORK Mb mcast Mask_comp pM_of 1 Ax) Aentries s).cnvals
        - count_cells present1 n (GB_bitmap_assign_A_template
          (fullM_noaccum_AIJ_WORK Mb mcast Mask_comp pM_of 1 Ax) Aentries s).Cb = K :=
  pass_canonical (fun v : Visit => v.pC)
    (fun v => f_fullM_noaccum (GB_GET_MIJ Mb mcast Mask_comp (pM_of v)) 1 (Ax v.pA)) _
    (fun s v => fullM_noaccum_AIJ_WORK_eq Mb mcast Mask_comp pM_of 1 Ax s v)
    n K Aentries s (fun _ _ cb cx h => f_fullM_noaccum_step1 _ _ cb cx h) hAn hs

/-- The matrix pass of `GB_bitmap_assign_fullM_noaccum` with `keep = 4`, followed
by the pass that clears the entries of `C` that were not in `A`: when every
cell written by the first pass is visited with a true mask by the second, the
bytes are 0 or 1 again and `cnvals` has moved with the number of bytes 1. -/
theorem fullM_noaccum_aij_pass4 {V : Type} (n : Nat) (K : Int) (Mb : Option (Nat → Int))
    (mcast : Nat → Bool) (Mask_comp : Bool) (pM_of : Visit → Nat) (mask : Visit → Bool)
    (Ax : Nat → V) (Aentries Centries : List Visit) (s : Work V)
    (hAn : ∀ v, v ∈ Aentries → v.pC < n) (hCn : ∀ v, v ∈ Centries → v.pC < n)
    (hcov : ∀ v, v ∈ Aentries → GB_GET_MIJ Mb mcast Mask_comp (pM_of v) = true →
      ∃ c, c ∈ Centries ∧ mask c = true ∧ c.pC = v.pC)
    (hs : (∀ p, s.Cb p = 0 ∨ s.Cb p = 1) ∧ s.cnvals - count_cells present1 n s.Cb = K) :
    (∀ p, (GB_bitmap_assign_C_template mask fullM_noaccum_CIJ_WORK Centries
          (GB_bitmap_assign_A_template
            (fullM_noaccum_AIJ_WORK Mb mcast Mask_comp pM_of 4 Ax) Aentries s)).Cb p = 0
        ∨ (GB_bitmap_assign_C_template mask fullM_noaccum_CIJ_WORK Centries
          (GB_bitmap_assign_A_template
            (fullM_noaccum_AIJ_WORK Mb mcast Mask_comp pM_of 4 Ax) Aentries s)).Cb p = 1)
      ∧ (GB_bitmap_assign_C_template mask fullM_noaccum_CIJ_WORK Centries
          (GB_bitmap_assign_A_template
            (fullM_noaccum_AIJ_WORK Mb mcast Mask_comp pM_of 4 Ax) Aentries s)).cnvals
        - count_cells present1 n (GB_bitmap_assign_C_template mask fullM_noaccum_CIJ_WORK
            Centries (GB_bitmap_assign_A_template
              (fullM_noaccum_AIJ_WORK Mb mcast Mask_comp pM_of 4 Ax) Aentries s)).Cb = K := by
  obtain ⟨hb, hK⟩ := hs
  -- the pass over the entries of A
  obtain ⟨hA1, hA2⟩ := pass_invariant (fun v : Visit => v.pC)
    (fun v => f_fullM_noaccum (GB_GET_MIJ Mb mcast Mask_comp (pM_of v)) 4 (Ax v.pA))
    (fullM_noaccum_AIJ_WORK Mb mcast Mask_comp pM_of 4 Ax)
    (fun s v => fullM_noaccum_AIJ_WORK_eq Mb mcast Mask_comp pM_of 4 Ax s v)
    (fun p cb => (cb = 0 ∨ cb = 1)
      ∨ (cb = 4 ∧ ∃ v, v ∈ Aentries ∧ GB_GET_MIJ Mb mcast Mask_comp (pM_of v) = true
          ∧ v.pC = p))
    present14 n Aentries s
    (by
      intro a ha cb cx hcb
      by_cases hm : GB_GET_MIJ Mb mcast Mask_comp (pM_of a) = true
      · have h4 : (f_fullM_noaccum (GB_GET_MIJ Mb mcast Mask_comp (pM_of a)) 4 (Ax a.pA)
            cb cx) = (4, Ax a.pA, if cb = 0 then 1 else 0) := by
          simp [f_fullM_noaccum, hm]
        dsimp only
        rw [h4]
        refine ⟨Or.inr ⟨rfl, a, ha, hm, rfl⟩, ?_⟩
        rcases hcb with (h | h) | ⟨h, -⟩ <;> subst h <;> simp [present14]
      · have h4 : (f_fullM_noaccum (GB_GET_MIJ Mb mcast Mask_comp (pM_of a)) 4 (Ax a.pA)
            cb cx) = (cb, cx, 0) := by
          simp [f_fullM_noaccum, hm]
        dsimp only
        rw [h4]
        exact ⟨hcb, by simp⟩)
    hAn (fun p => Or.inl (hb p))
  unfold GB_bitmap_assign_A_template at *
  unfold GB_bitmap_assign_C_template
  -- the pass over the region of C
  have hstepC : ∀ (m : Bool) (cb : Int) (cx : V), (cb = 0 ∨ cb = 1 ∨ cb = 4) →
      ((f_fullM_noaccum_cij m cb cx).1 = 0 ∨ (f_fullM_noaccum_cij m cb cx).1 = 1
          ∨ (f_fullM_noaccum_cij m cb cx).1 = 4)
        ∧ (f_fullM_noaccum_cij m cb cx).2.2
          = (if present14 (f_fullM_noaccum_cij m cb cx).1 then 1 else 0)
              - (if present14 cb then 1 else 0) := by
    intro m cb cx hcb
    cases m <;> rcases hcb with h | h | h <;> subst h <;>
      simp [f_fullM_noaccum_cij, present14]
  have hD : ∀ p, (Aentries.foldl (fullM_noaccum_AIJ_WORK Mb mcast Mask_comp pM_of 4 Ax) s).Cb p
        = 0
      ∨ (Aentries.foldl (fullM_noaccum_AIJ_WORK Mb mcast Mask_comp pM_of 4 Ax) s).Cb p = 1
      ∨ (Aentries.foldl (fullM_noaccum_AIJ_WORK Mb mcast Mask_comp pM_of 4 Ax) s).Cb p = 4 := by
    intro p
    rcases hA1 p with (h | h) | ⟨h, -⟩
    · exact Or.inl h
    · exact Or.inr (Or.inl h)
    · exact Or.inr (Or.inr h)
  obtain ⟨-, hC2⟩ := pass_invariant (fun v : Visit => v.pC)
    (fun v => f_fullM_noaccum_cij (V := V) (mask v))
    (fun s v => fullM_noaccum_CIJ_WORK s (mask v) v.pC)
    (fun s v => fullM_noaccum_CIJ_WORK_eq s (mask v) v.pC)
    (fun _ cb => cb = 0 ∨ cb = 1 ∨ cb = 4) present14 n Centries _
    (fun a _ cb cx h => hstepC (mask a) cb cx h) hCn hD
  have hC1 : ∀ p, (Centries.foldl (fun s v => fullM_noaccum_CIJ_WORK s (mask v) v.pC)
        (Aentries.foldl (fullM_noaccum_AIJ_WORK Mb mcast Mask_comp pM_of 4 Ax) s)).Cb p = 0
      ∨ (Centries.foldl (fun s v => fullM_noaccum_CIJ_WORK s (mask v) v.pC)
        (Aentries.foldl (fullM_noaccum_AIJ_WORK Mb mcast Mask_comp pM_of 4 Ax) s)).Cb p
          = 1 := by
    intro p
    refine pass_absorb (fun v : Visit => v.pC)
      (fun v => f_fullM_noaccum_cij (V := V) (mask v))
      (fun s v => fullM_noaccum_CIJ_WORK s (mask v) v.pC)
      (fun s v => fullM_noaccum_CIJ_WORK_eq s (mask v) v.pC)
      (fun cb => cb = 0 ∨ cb = 1 ∨ cb = 4) (fun cb => cb = 0 ∨ cb = 1)
      (fun v => mask v = true) Centries _ ?_ ?_ ?_ hD p ?_
    · intro a _ hact cb cx hcb
      rcases hcb with h | h | h <;> subst h <;> simp [f_fullM_noaccum_cij, hact]
    · intro a _ cb cx hcb
      dsimp only
      cases hm : mask a <;> rcases hcb with h | h <;> subst h <;>
        simp [f_fullM_noaccum_cij]
    · intro a _ cb cx hcb
      exact (hstepC (mask a) cb cx hcb).1
    · rcases hA1 p with h | ⟨-, v, hv, hm, hp⟩
      · exact Or.inr h
      · obtain ⟨c, hc, hmc, hpc⟩ := hcov v hv hm
        exact Or.inl ⟨c, hc, hmc, hpc.trans hp⟩
  refine ⟨hC1, ?_⟩
  rw [← present14_eq_present1 _ hC1 n, hC2, hA2, present14_eq_present1 _ hb n]
  exact hK

theorem GB_GET_pM_row (nI : Nat) (v : Visit) : GB_GET_pM GB_ROW_ASSIGN nI v = v.jC := by
  simp [GB_GET_pM]

theorem GB_GET_pM_col (nI : Nat) (v : Visit) : GB_GET_pM GB_COL_ASSIGN nI v = v.iC := by
  simp [GB_GET_pM, GB_COL_ASSIGN, GB_ROW_ASSIGN]

theorem GB_GET_pM_assign (nI : Nat) (v : Visit) : GB_GET_pM GB_ASSIGN nI v = v.pC := by
  simp [GB_GET_pM, GB_COL_ASSIGN, GB_ROW_ASSIGN, GB_ASSIGN]

theorem GB_GET_pM_subassign (nI : Nat) (v : Visit) :
    GB_GET_pM GB_SUBASSIGN nI v = v.iA + v.jA * nI := by
  simp [GB_GET_pM, GB_COL_ASSIGN, GB_ROW_ASSIGN, GB_ASSIGN, GB_SUBASSIGN]

/-- The whole of `GB_bitmap_assign_fullM_noaccum`: with bytes 0 or 1 on entry,
and, on the matrix path without `C_replace`, every entry of `A` under a true
mask lying in the region that the last pass scans, the bytes are 0 or 1 on
return and `nvals` has moved with the number of bytes 1. -/
theorem fullM_noaccum_core {V : Type} (n : Nat) (C : GB_Matrix_bitmap V) (C_replace : Bool)
    (nI : Nat) (IxJ : List Visit) (Mb : Option (Nat → Int)) (mcast : Nat → Bool)
    (Mask_comp : Bool) (A : Option (Nat → V)) (Aentries : List Visit) (scalar : V)
    (assign_kind : Int) (Centries : List Visit)
    (hb : ∀ p, C.b p = 0 ∨ C.b p = 1)
    (hIn : ∀ v, v ∈ IxJ → v.pC < n) (hAn : ∀ v, v ∈ Aentries → v.pC < n)
    (hCn : ∀ v, v ∈ Centries → v.pC < n)
    (hcov : C_replace = false → A.isSome → ∀ v, v ∈ Aentries →
      GB_GET_MIJ Mb mcast Mask_comp (GB_GET_pM assign_kind nI v) = true →
      ∃ c, c ∈ Centries
        ∧ GB_GET_MIJ Mb mcast Mask_comp (GB_GET_pM assign_kind nI c) = true
        ∧ c.pC = v.pC) :
    (∀ p, (GB_bitmap_assign_fullM_noaccum C C_replace nI IxJ Mb mcast Mask_comp A
          Aentries scalar assign_kind Centries).b p = 0
        ∨ (GB_bitmap_assign_fullM_noaccum C C_replace nI IxJ Mb mcast Mask_comp A
          Aentries scalar assign_kind Centries).b p = 1)
      ∧ (GB_bitmap_assign_fullM_noaccum C C_replace nI IxJ Mb mcast Mask_comp A
            Aentries scalar assign_kind Centries).nvals
          - count_cells present1 n (GB_bitmap_assign_fullM_noaccum C C_replace nI IxJ Mb
              mcast Mask_comp A Aentries scalar assign_kind Centries).b
        = C.nvals - count_cells present1 n C.b := by
  have h0 : (∀ p, (GB_GET_C C).Cb p = 0 ∨ (GB_GET_C C).Cb p = 1)
      ∧ (GB_GET_C C).cnvals - count_cells present1 n (GB_GET_C C).Cb
        = C.nvals - count_cells present1 n C.b := ⟨hb, rfl⟩
  have h1 := fullM_noaccum_replace_pass n _
    (fun v => GB_GET_MIJ Mb mcast Mask_comp (GB_GET_pM assign_kind nI v)) Centries
    (GB_GET_C C) hCn h0
  have hfin : ∀ s : Work V, ((∀ p, s.Cb p = 0 ∨ s.Cb p = 1)
        ∧ s.cnvals - count_cells present1 n s.Cb = C.nvals - count_cells present1 n C.b) →
      (∀ p, (finish s).b p = 0 ∨ (finish s).b p = 1)
        ∧ (finish s).nvals - count_cells present1 n (finish s).b
          = C.nvals - count_cells present1 n C.b := fun s h => h
  unfold GB_bitmap_assign_fullM_noaccum
  apply hfin
  cases C_replace
  · -- without C_replace
    cases A with
    | none =>
      simp only [Bool.false_eq_true, if_false]
      split_ifs
      · exact fullM_noaccum_ixj_pass n _ Mb mcast Mask_comp _ scalar IxJ _ hIn h0
      · exact fullM_noaccum_ixj_pass n _ Mb mcast Mask_comp _ scalar IxJ _ hIn h0
      · exact h0
    | some Ax =>
      simp only [Bool.false_eq_true, if_false, Bool.not_false, if_true]
      split_ifs with hr hc ha hsub
      · exact fullM_noaccum_aij_pass4 n _ Mb mcast Mask_comp _ _ Ax Aentries Centries _
          hAn hCn (fun v hv hm => hcov rfl rfl v hv (by rw [hr, GB_GET_pM_row]; exact hm)) h0
      · exact fullM_noaccum_aij_pass4 n _ Mb mcast Mask_comp _ _ Ax Aentries Centries _
          hAn hCn (fun v hv hm => hcov rfl rfl v hv (by rw [hc, GB_GET_pM_col]; exact hm)) h0
      · exact fullM_noaccum_aij_pass4 n _ Mb mcast Mask_comp _ _ Ax Aentries Centries _
          hAn hCn (fun v hv hm => hcov rfl rfl v hv (by rw [ha, GB_GET_pM_assign]; exact hm)) h0
      · exact fullM_noaccum_aij_pass4 n _ Mb mcast Mask_comp _ _ Ax Aentries Centries _
          hAn hCn
          (fun v hv hm => hcov rfl rfl v hv (by rw [hsub, GB_GET_pM_subassign]; exact hm)) h0
      · -- no pass over A: the last pass alone
        have hD : ∀ p, (GB_GET_C C).Cb p = 0 ∨ (GB_GET_C C).Cb p = 1
            ∨ (GB_GET_C C).Cb p = 4 := fun p => (hb p).elim Or.inl (fun h => Or.inr (Or.inl h))
        exact fullM_noaccum_aij_pass4 n _ Mb mcast Mask_comp (fun v => v.pC) _ Ax []
          Centries _ (fun _ h => absurd h (List.not_mem_nil _)) hCn
          (fun _ h => absurd h (List.not_mem_nil _)) h0
  · -- with C_replace
    cases A with
    | none =>
      simp only [if_true]
      split_ifs
      · exact fullM_noaccum_ixj_pass n _ Mb mcast Mask_comp _ scalar IxJ _ hIn h1
      · exact fullM_noaccum_ixj_pass n _ Mb mcast Mask_comp _ scalar IxJ _ hIn h1
      · exact h1
    | some Ax =>
      simp only [if_true, Bool.not_true, Bool.false_eq_true, if_false]
      split_ifs
      · exact fullM_noaccum_aij_pass1 n _ Mb mcast Mask_comp _ Ax Aentries _ hAn h1
      · exact fullM_noaccum_aij_pass1 n _ Mb mcast Mask_comp _ Ax Aentries _ hAn h1
      · exact fullM_noaccum_aij_pass1 n _ Mb mcast Mask_comp _ Ax Aentries _ hAn h1
      · exact fullM_noaccum_aij_pass1 n _ Mb mcast Mask_comp _ Ax Aentries _ hAn h1
      · exact h1

/-! ### GB_bitmap_assign_M_accum: the cells on the general path -/

/-- The general path of `GB_bitmap_assign_M_accum` as three passes. -/
theorem GB_bitmap_assign_M_accum_general {V : Type} (C : GB_Matrix_bitmap V)
    (C_replace : Bool) (IxJ : List Visit) (Mentries : List Nat) (accum : V → V → V)
    (A : Option (Nat → V)) (Aentries : List Visit) (scalar : V) (assign_kind : Int)
    (Centries : List Visit) (hpath : ¬ (A.isNone ∧ assign_kind = GB_SUBASSIGN)) :
    GB_bitmap_assign_M_accum C C_replace IxJ Mentries accum A Aentries scalar assign_kind
        Centries
      = finish (if C_replace = true then
          Centries.foldl (fun s v => cell_step f_cij_replace s v.pC)
            ((M_accum_source A IxJ Aentries).foldl
              (fun s v => cell_step (f_combine (M_accum_source_value A scalar v) accum) s v.pC)
              (Mentries.foldl (fun s p => cell_step f_scatter s p) (GB_GET_C C)))
        else
          Mentries.foldl (fun s p => cell_step f_clear s p)
            ((M_accum_source A IxJ Aentries).foldl
              (fun s v => cell_step (f_combine (M_accum_source_value A scalar v) accum) s v.pC)
              (Mentries.foldl (fun s p => cell_step f_scatter s p) (GB_GET_C C)))) := by
  have h1 : (M_accum_MASK_WORK_scatter : Work V → Nat → Work V)
      = fun s p => cell_step f_scatter s p :=
    funext fun s => funext fun p => M_accum_MASK_WORK_scatter_eq s p
  have h2 : (M_accum_MASK_WORK_clear : Work V → Nat → Work V)
      = fun s p => cell_step f_clear s p :=
    funext fun s => funext fun p => M_accum_MASK_WORK_clear_eq s p
  have h3 : (fun (s : Work V) (v : Visit) => M_accum_CIJ_WORK s false v.pC)
      = fun s v => cell_step f_cij_replace s v.pC :=
    funext fun s => funext fun v => M_accum_CIJ_WORK_eq s false v.pC
  have h4 : M_accum_IXJ_WORK scalar accum
      = fun s v => cell_step (f_combine scalar accum) s v.pC :=
    funext fun s => funext fun v => M_accum_IXJ_WORK_eq scalar accum s v
  have h5 : ∀ Ax : Nat → V, M_accum_AIJ_WORK Ax accum
      = fun s v => cell_step (f_combine (Ax v.pA) accum) s v.pC :=
    fun Ax => funext fun s => funext fun v => M_accum_AIJ_WORK_eq Ax accum s v
  unfold GB_bitmap_assign_M_accum
  simp only [if_neg hpath, GB_bitmap_assign_M_template, GB_bitmap_assign_IxJ_template,
    GB_bitmap_assign_A_template, GB_bitmap_assign_C_template, h1, h2, h3]
  cases A with
  | none => simp only [h4, M_accum_source, M_accum_source_value]
  | some Ax => simp only [h5, M_accum_source, M_accum_source_value]

/-- A pass over cells with distinct offsets: a visited cell has received the step
of its visit, the others are as before. -/
theorem foldl_cell_at {V α : Type} (key : α → Nat) (f : α → Int → V → Int × V × Int)
    (cells : List α) (s : Work V) (hnd : (cells.map key).Nodup) (p : Nat) :
    (∀ a, a ∈ cells → key a = p →
        (cells.foldl (fun s a => cell_step (f a) s (key a)) s).Cb p = (f a (s.Cb p) (s.Cx p)).1
          ∧ (cells.foldl (fun s a => cell_step (f a) s (key a)) s).Cx p
            = (f a (s.Cb p) (s.Cx p)).2.1)
      ∧ ((∀ a, a ∈ cells → key a ≠ p) →
        (cells.foldl (fun s a => cell_step (f a) s (key a)) s).Cb p = s.Cb p
          ∧ (cells.foldl (fun s a => cell_step (f a) s (key a)) s).Cx p = s.Cx p) := by
  constructor
  · intro a ha hk
    have h := foldl_cell_exact key f cells s hnd a ha
    rw [hk] at h
    exact h
  · intro hno
    apply foldl_cell_frame key f cells s p
    intro hp
    obtain ⟨a, ha, hk⟩ := List.mem_map.mp hp
    exact hno a ha hk

/-- The cells after the general path of `GB_bitmap_assign_M_accum`, with every byte
of `C` 0 or 1 on entry, distinct mask entries, at most one source value per
cell and, under `C_replace`, a region scanned once per cell that holds the
mask entries. -/
theorem M_accum_cells {V : Type} (C : GB_Matrix_bitmap V) (C_replace : Bool)
    (IxJ : List Visit) (Mentries : List Nat) (accum : V → V → V)
    (A : Option (Nat → V)) (Aentries : List Visit) (scalar : V) (assign_kind : Int)
    (Centries : List Visit)
    (hpath : ¬ (A.isNone ∧ assign_kind = GB_SUBASSIGN))
    (hb : ∀ p, C.b p = 0 ∨ C.b p = 1)
    (hM : Mentries.Nodup)
    (hS : ((M_accum_source A IxJ Aentries).map fun v => v.pC).Nodup)
    (hC : C_replace = true → (Centries.map fun v => v.pC).Nodup)
    (hcov : C_replace = true → ∀ p, p ∈ Mentries → ∃ c, c ∈ Centries ∧ c.pC = p)
    (p : Nat) :
    (p ∈ Mentries → ∀ v, v ∈ M_accum_source A IxJ Aentries → v.pC = p →
        (GB_bitmap_assign_M_accum C C_replace IxJ Mentries accum A Aentries scalar
            assign_kind Centries).b p = 1
          ∧ (GB_bitmap_assign_M_accum C C_replace IxJ Mentries accum A Aentries scalar
              assign_kind Centries).x p
            = (if C.b p = 0 then M_accum_source_value A scalar v
                else accum (C.x p) (M_accum_source_value A scalar v)))
      ∧ (p ∈ Mentries → (∀ v, v ∈ M_accum_source A IxJ Aentries → v.pC ≠ p) →
        (GB_bitmap_assign_M_accum C C_replace IxJ Mentries accum A Aentries scalar
            assign_kind Centries).b p = C.b p
          ∧ (GB_bitmap_assign_M_accum C C_replace IxJ Mentries accum A Aentries scalar
              assign_kind Centries).x p = C.x p)
      ∧ (p ∉ Mentries → C_replace = false →
        (GB_bitmap_assign_M_accum C C_replace IxJ Mentries accum A Aentries scalar
            assign_kind Centries).b p = C.b p
          ∧ (GB_bitmap_assign_M_accum C C_replace IxJ Mentries accum A Aentries scalar
              assign_kind Centries).x p = C.x p)
      ∧ (p ∉ Mentries → C_replace = true → (∃ c, c ∈ Centries ∧ c.pC = p) →
        (GB_bitmap_assign_M_accum C C_replace IxJ Mentries accum A Aentries scalar
            assign_kind Centries).b p = 0
          ∧ (GB_bitmap_assign_M_accum C C_replace IxJ Mentries accum A Aentries scalar
              assign_kind Centries).x p = C.x p)
      ∧ (p ∉ Mentries → C_replace = true → (∀ c, c ∈ Centries → c.pC ≠ p) →
        (GB_bitmap_assign_M_accum C C_replace IxJ Mentries accum A Aentries scalar
            assign_kind Centries).b p = C.b p
          ∧ (GB_bitmap_assign_M_accum C C_replace IxJ Mentries accum A Aentries scalar
              assign_kind Centries).x p = C.x p) := by
  rw [GB_bitmap_assign_M_accum_general C C_replace IxJ Mentries accum A Aentries scalar
    assign_kind Centries hpath]
  have hM1 : (Mentries.map fun q : Nat => q).Nodup := by simpa using hM
  obtain ⟨e1a, e1b⟩ := foldl_cell_at (fun q : Nat => q) (fun _ => f_scatter (V := V))
    Mentries (GB_GET_C C) hM1 p
  obtain ⟨e2a, e2b⟩ := foldl_cell_at (fun v : Visit => v.pC)
    (fun v => f_combine (M_accum_source_value A scalar v) accum)
    (M_accum_source A IxJ Aentries)
    (Mentries.foldl (fun s p => cell_step f_scatter s p) (GB_GET_C C)) hS p
  have hb0 : (GB_GET_C C).Cb p = C.b p := rfl
  have hx0 : (GB_GET_C C).Cx p = C.x p := rfl
  have e1in : p ∈ Mentries →
      (Mentries.foldl (fun s p => cell_step f_scatter s p) (GB_GET_C C)).Cb p = C.b p + 2
        ∧ (Mentries.foldl (fun s p => cell_step f_scatter s p) (GB_GET_C C)).Cx p = C.x p := by
    intro hp
    obtain ⟨h1, h2⟩ := e1a p hp rfl
    rw [h1, h2, hb0, hx0]
    rcases hb p with h | h <;> rw [h] <;> exact ⟨rfl, rfl⟩
  have e1out : p ∉ Mentries →
      (Mentries.foldl (fun s p => cell_step f_scatter s p) (GB_GET_C C)).Cb p = C.b p
        ∧ (Mentries.foldl (fun s p => cell_step f_scatter s p) (GB_GET_C C)).Cx p = C.x p := by
    intro hp
    exact e1b (fun a ha hk => hp (hk ▸ ha))
  cases C_replace
  · -- the mask is cleared from C
    obtain ⟨e3a, e3b⟩ := foldl_cell_at (fun q : Nat => q) (fun _ => f_clear (V := V))
      Mentries
      ((M_accum_source A IxJ Aentries).foldl
        (fun s v => cell_step (f_combine (M_accum_source_value A scalar v) accum) s v.pC)
        (Mentries.foldl (fun s p => cell_step f_scatter s p) (GB_GET_C C))) hM1 p
    simp only [Bool.false_eq_true, if_false, finish]
    refine ⟨?_, ?_, ?_, ?_, ?_⟩
    · intro hp v hv hk
      obtain ⟨h3, h4⟩ := e3a p hp rfl
      obtain ⟨h5, h6⟩ := e2a v hv hk
      obtain ⟨h7, h8⟩ := e1in hp
      rw [h3, h4, h5, h6, h7, h8]
      rcases hb p with h | h <;> rw [h] <;> simp [f_clear, f_combine, int8_wrap]
    · intro hp hno
      obtain ⟨h3, h4⟩ := e3a p hp rfl
      obtain ⟨h5, h6⟩ := e2b hno
      obtain ⟨h7, h8⟩ := e1in hp
      rw [h3, h4, h5, h6, h7, h8]
      rcases hb p with h | h <;> rw [h] <;> simp [f_clear, int8_wrap]
    · intro hp _
      obtain ⟨h3, h4⟩ := e3b (fun a ha hk => hp (hk ▸ ha))
      obtain ⟨h7, h8⟩ := e1out hp
      rw [h3, h4]
      by_cases hsrc : ∃ v, v ∈ M_accum_source A IxJ Aentries ∧ v.pC = p
      · obtain ⟨v, hv, hk⟩ := hsrc
        obtain ⟨h5, h6⟩ := e2a v hv hk
        rw [h5, h6, h7, h8]
        rcases hb p with h | h <;> rw [h] <;> simp [f_combine]
      · obtain ⟨h5, h6⟩ := e2b (fun v hv hk => hsrc ⟨v, hv, hk⟩)
        rw [h5, h6, h7, h8]
        exact ⟨rfl, rfl⟩
    · intro _ h
      exact absurd h (by decide)
    · intro _ h
      exact absurd h (by decide)
  · -- the pass for C_replace
    obtain ⟨e3a, e3b⟩ := foldl_cell_at (fun v : Visit => v.pC)
      (fun _ => f_cij_replace (V := V)) Centries
      ((M_accum_source A IxJ Aentries).foldl
        (fun s v => cell_step (f_combine (M_accum_source_value A scalar v) accum) s v.pC)
        (Mentries.foldl (fun s p => cell_step f_scatter s p) (GB_GET_C C))) (hC rfl) p
    simp only [if_true, finish]
    refine ⟨?_, ?_, ?_, ?_, ?_⟩
    · intro hp v hv hk
      obtain ⟨c, hc, hck⟩ := hcov rfl p hp
      obtain ⟨h3, h4⟩ := e3a c hc hck
      obtain ⟨h5, h6⟩ := e2a v hv hk
      obtain ⟨h7, h8⟩ := e1in hp
      rw [h3, h4, h5, h6, h7, h8]
      rcases hb p with h | h <;> rw [h] <;> simp [f_cij_replace, f_combine]
    · intro hp hno
      obtain ⟨c, hc, hck⟩ := hcov rfl p hp
      obtain ⟨h3, h4⟩ := e3a c hc hck
      obtain ⟨h5, h6⟩ := e2b hno
      obtain ⟨h7, h8⟩ := e1in hp
      rw [h3, h4, h5, h6, h7, h8]
      rcases hb p with h | h <;> rw [h] <;> simp [f_cij_replace]
    · intro _ h
      exact absurd h (by decide)
    · intro hp _ hin
      obtain ⟨c, hc, hck⟩ := hin
      obtain ⟨h3, h4⟩ := e3a c hc hck
      obtain ⟨h7, h8⟩ := e1out hp
      rw [h3, h4]
      by_cases hsrc : ∃ v, v ∈ M_accum_source A IxJ Aentries ∧ v.pC = p
      · obtain ⟨v, hv, hk⟩ := hsrc
        obtain ⟨h5, h6⟩ := e2a v hv hk
        rw [h5, h6, h7, h8]
        rcases hb p with h | h <;> rw [h] <;> simp [f_cij_replace, f_combine]
      · obtain ⟨h5, h6⟩ := e2b (fun v hv hk => hsrc ⟨v, hv, hk⟩)
        rw [h5, h6, h7, h8]
        rcases hb p with h | h <;> rw [h] <;> simp [f_cij_replace]
    · intro hp _ hout
      obtain ⟨h3, h4⟩ := e3b hout
      obtain ⟨h7, h8⟩ := e1out hp
      rw [h3, h4]
      by_cases hsrc : ∃ v, v ∈ M_accum_source A IxJ Aentries ∧ v.pC = p
      · obtain ⟨v, hv, hk⟩ := hsrc
        obtain ⟨h5, h6⟩ := e2a v hv hk
        rw [h5, h6, h7, h8]
        rcases hb p with h | h <;> rw [h] <;> simp [f_combine]
      · obtain ⟨h5, h6⟩ := e2b (fun v hv hk => hsrc ⟨v, hv, hk⟩)
        rw [h5, h6, h7, h8]
        exact ⟨rfl, rfl⟩

/-- C18, amended: on the general path of `GB_bitmap_assign_M_accum`, with every byte
of `C` 0 or 1 on entry, distinct mask entries, at most one source value per
cell and, under `C_replace`, a region scanned once per cell that holds the
mask entries, the final state of a cell `p` is: selected and given the source
value `s`: present, with `s` if it was absent and `accum (old, s)` if it was
present; selected without a source value: unchanged; not selected: unchanged
without `C_replace`, and under `C_replace` absent when `p` is in the scanned
region, unchanged when it is outside. -/
theorem GB_bitmap_assign_M_accum_final_cells {V : Type} (C : GB_Matrix_bitmap V) (C_replace : Bool)
    (IxJ : List Visit) (Mentries : List Nat) (accum : V → V → V)
    (A : Option (Nat → V)) (Aentries : List Visit) (scalar : V) (assign_kind : Int)
    (Centries : List Visit)
    (hpath : ¬ (A.isNone ∧ assign_kind = GB_SUBASSIGN))
    (hb : ∀ p, C.b p = 0 ∨ C.b p = 1)
    (hM : Mentries.Nodup)
    (hS : ((M_accum_source A IxJ Aentries).map fun v => v.pC).Nodup)
    (hC : C_replace = true → (Centries.map fun v => v.pC).Nodup)
    (hcov : C_replace = true → ∀ p, p ∈ Mentries → ∃ c, c ∈ Centries ∧ c.pC = p)
    (p : Nat) :
    (p ∈ Mentries → ∀ v, v ∈ M_accum_source A IxJ Aentries → v.pC = p →
        (GB_bitmap_assign_M_accum C C_replace IxJ Mentries accum A Aentries scalar
            assign_kind Centries).b p = 1
          ∧ (GB_bitmap_assign_M_accum C C_replace IxJ Mentries accum A Aentries scalar
              assign_kind Centries).x p
            = (if C.b p = 0 then M_accum_source_value A scalar v
                else accum (C.x p) (M_accum_source_value A scalar v)))
      ∧ (p ∈ Mentries → (∀ v, v ∈ M_accum_source A IxJ Aentries → v.pC ≠ p) →
        (GB_bitmap_assign_M_accum C C_replace IxJ Mentries accum A Aentries scalar
            assign_kind Centries).b p = C.b p
          ∧ (GB_bitmap_assign_M_accum C C_replace IxJ Mentries accum A Aentries scalar
              assign_kind Centries).x p = C.x p)
      ∧ (p ∉ Mentries → C_replace = false →
        (GB_bitmap_assign_M_accum C C_replace IxJ Mentries accum A Aentries scalar
            assign_kind Centries).b p = C.b p
          ∧ (GB_bitmap_assign_M_accum C C_replace IxJ Mentries accum A Aentries scalar
              assign_kind Centries).x p = C.x p)
      ∧ (p ∉ Mentries → C_replace = true → (∃ c, c ∈ Centries ∧ c.pC = p) →
        (GB_bitmap_assign_M_accum C C_replace IxJ Mentries accum A Aentries scalar
            assign_kind Centries).b p = 0
          ∧ (GB_bitmap_assign_M_accum C C_replace IxJ Mentries accum A Aentries scalar
              assign_kind Centries).x p = C.x p)
      ∧ (p ∉ Mentries → C_replace = true → (∀ c, c ∈ Centries → c.pC ≠ p) →
        (GB_bitmap_assign_M_accum C C_replace IxJ Mentries accum A Aentries scalar
            assign_kind Centries).b p = C.b p
          ∧ (GB_bitmap_assign_M_accum C C_replace IxJ Mentries accum A Aentries scalar
              assign_kind Centries).x p = C.x p) :=
  M_accum_cells C C_replace IxJ Mentries accum A Aentries scalar assign_kind Centries
    hpath hb hM hS hC hcov p

/-- C18, the claim as worded: under `C_replace` a cell that the mask does not select
stays present when it is outside the region that the last pass scans.  Here
`C` has cells 0 and 1 present, the subassignment `C(I,J)<M,replace> += A`
has `C(I,J)` = cell 0, and `M` and `A` have no entry: cell 0 is deleted, cell
1 is still present. -/
theorem GB_bitmap_assign_M_accum_replace_outside_region :
    ¬ ((some fun _ => (0 : Int) : Option (Nat → Int)).isNone ∧ GB_SUBASSIGN = GB_SUBASSIGN)
      ∧ (1 : Nat) ∉ ([] : List Nat)
      ∧ (GB_bitmap_assign_M_accum
          ({ b := fun _ => 1, x := fun _ => 0, nvals := 2 } : GB_Matrix_bitmap Int) true
          [⟨0, 0, 0, 0, 0, 0⟩] [] (fun a b => a + b) (some fun _ => 0) [] 0 GB_SUBASSIGN
          [⟨0, 0, 0, 0, 0, 0⟩]).b 0 = 0
      ∧ (GB_bitmap_assign_M_accum
          ({ b := fun _ => 1, x := fun _ => 0, nvals := 2 } : GB_Matrix_bitmap Int) true
          [⟨0, 0, 0, 0, 0, 0⟩] [] (fun a b => a + b) (some fun _ => 0) [] 0 GB_SUBASSIGN
          [⟨0, 0, 0, 0, 0, 0⟩]).b 1 = 1 := by
  refine ⟨by simp, by simp, ?_, ?_⟩ <;>
    simp [GB_bitmap_assign_M_accum, GB_bitmap_assign_M_template, GB_bitmap_assign_A_template,
      GB_bitmap_assign_C_template, M_accum_CIJ_WORK, GB_GET_C, finish, Function.update]

theorem GB_bitmap_assign_M_accum_final_cells_witness :
    (GB_bitmap_assign_M_accum
        ({ b := fun p => if p = 1 then 1 else 0, x := fun _ => 10, nvals := 1 } :
          GB_Matrix_bitmap Int) true
        (IxJ_all 2 2) [0, 1] (fun a b => a + b) none [] 7 GB_ASSIGN (IxJ_all 2 2)).b 1 = 1
      ∧ (GB_bitmap_assign_M_accum
          ({ b := fun p => if p = 1 then 1 else 0, x := fun _ => 10, nvals := 1 } :
            GB_Matrix_bitmap Int) true
          (IxJ_all 2 2) [0, 1] (fun a b => a + b) none [] 7 GB_ASSIGN (IxJ_all 2 2)).x 1
        = 17 := by
  have h := (GB_bitmap_assign_M_accum_final_cells
    ({ b := fun p => if p = 1 then 1 else 0, x := fun _ => 10, nvals := 1 } :
      GB_Matrix_bitmap Int) true
    (IxJ_all 2 2) [0, 1] (fun a b => a + b) none [] 7 GB_ASSIGN (IxJ_all 2 2)
    (by decide) (fun p => by by_cases h : p = 1 <;> simp [h]) (by decide) (by decide)
    (fun _ => by decide) (fun _ => by decide) 1).1 (by decide) ⟨1, 0, 1, 0, 1, 0⟩
    (by decide) rfl
  exact h

/-- C19: in each of `GB_bitmap_assign_M_accum`, `GB_bitmap_assign_fullM_accum` and
`GB_bitmap_assign_fullM_noaccum`, for a bitmap `C` of `n` cells with bytes 0
or 1, if `C->nvals` is the number of cells with byte 1 before the call then
it is the number of cells with byte 1 after the call, whatever the mask, the
source, `C_replace`, `Mask_comp` and the kind of assignment.  The lists are
what the templates visit: cells of `C`; the entries of the sparse mask are
distinct and, under `C_replace`, inside the region that the path taken scans
last (the cells of `IxJ` on the path of the scalar subassignment only, the
region of the C template on the general path only); and for the method
without accumulator and without `C_replace`, the entries of a matrix `A`
under a true mask are inside the region of its last pass. -/
theorem GB_bitmap_assign_nvals_counts_present {V : Type} (n : Nat) (C : GB_Matrix_bitmap V)
    (C_replace : Bool) (nI : Nat) (IxJ : List Visit) (Mentries : List Nat)
    (Mb : Option (Nat → Int)) (mcast : Nat → Bool) (Mask_comp : Bool) (accum : V → V → V)
    (A : Option (Nat → V)) (Aentries : List Visit) (scalar : V) (assign_kind : Int)
    (Centries : List Visit)
    (hb : ∀ p, C.b p = 0 ∨ C.b p = 1)
    (hM : Mentries.Nodup)
    (hMn : ∀ p, p ∈ Mentries → p < n) (hIn : ∀ v, v ∈ IxJ → v.pC < n)
    (hAn : ∀ v, v ∈ Aentries → v.pC < n) (hCn : ∀ v, v ∈ Centries → v.pC < n)
    (hcovI : C_replace = true → A.isNone ∧ assign_kind = GB_SUBASSIGN →
      ∀ p, p ∈ Mentries → ∃ v, v ∈ IxJ ∧ v.pC = p)
    (hcovC : C_replace = true → ¬ (A.isNone ∧ assign_kind = GB_SUBASSIGN) →
      ∀ p, p ∈ Mentries → ∃ v, v ∈ Centries ∧ v.pC = p)
    (hcovA : C_replace = false → A.isSome → ∀ v, v ∈ Aentries →
      GB_GET_MIJ Mb mcast Mask_comp (GB_GET_pM assign_kind nI v) = true →
      ∃ c, c ∈ Centries
        ∧ GB_GET_MIJ Mb mcast Mask_comp (GB_GET_pM assign_kind nI c) = true
        ∧ c.pC = v.pC)
    (hnvals : C.nvals = ((List.range n).countP fun p => decide (C.b p = 1))) :
    (GB_bitmap_assign_M_accum C C_replace IxJ Mentries accum A Aentries scalar assign_kind
          Centries).nvals
        = ((List.range n).countP fun p => decide
            ((GB_bitmap_assign_M_accum C C_replace IxJ Mentries accum A Aentries scalar
              assign_kind Centries).b p = 1))
      ∧ (GB_bitmap_assign_fullM_accum C C_replace nI IxJ Mb mcast Mask_comp accum A
            Aentries scalar assign_kind Centries).nvals
        = ((List.range n).countP fun p => decide
            ((GB_bitmap_assign_fullM_accum C C_replace nI IxJ Mb mcast Mask_comp accum A
              Aentries scalar assign_kind Centries).b p = 1))
      ∧ (GB_bitmap_assign_fullM_noaccum C C_replace nI IxJ Mb mcast Mask_comp A
            Aentries scalar assign_kind Centries).nvals
        = ((List.range n).countP fun p => decide
            ((GB_bitmap_assign_fullM_noaccum C C_replace nI IxJ Mb mcast Mask_comp A
              Aentries scalar assign_kind Centries).b p = 1)) := by
  have h0 : C.nvals - count_cells present1 n C.b = 0 := by
    rw [hnvals]
    exact sub_self _
  obtain ⟨-, h1⟩ := M_accum_core_path n C C_replace IxJ Mentries accum A Aentries scalar
    assign_kind Centries hb hM hMn hIn hAn hCn hcovI hcovC
  obtain ⟨-, h2⟩ := fullM_accum_core n C C_replace nI IxJ Mb mcast Mask_comp accum A
    Aentries scalar assign_kind Centries hb hIn hAn hCn
  obtain ⟨-, h3⟩ := fullM_noaccum_core n C C_replace nI IxJ Mb mcast Mask_comp A
    Aentries scalar assign_kind Centries hb hIn hAn hCn hcovA
  rw [h0] at h1 h2 h3
  exact ⟨sub_eq_zero.mp h1, sub_eq_zero.mp h2, sub_eq_zero.mp h3⟩

theorem GB_bitmap_assign_nvals_counts_present_witness :
    (GB_bitmap_assign_M_accum
          ({ b := fun p => if p = 1 then 1 else 0, x := fun _ => 10, nvals := 1 } :
            GB_Matrix_bitmap Int) true
          (IxJ_all 2 2) [0, 3] (fun a b => a + b) none [] 7 GB_ASSIGN (IxJ_all 2 2)).nvals
        = ((List.range 4).countP fun p => decide
            ((GB_bitmap_assign_M_accum
              ({ b := fun p => if p = 1 then 1 else 0, x := fun _ => 10, nvals := 1 } :
                GB_Matrix_bitmap Int) true
              (IxJ_all 2 2) [0, 3] (fun a b => a + b) none [] 7 GB_ASSIGN
              (IxJ_all 2 2)).b p = 1))
      ∧ (GB_bitmap_assign_fullM_accum
            ({ b := fun p => if p = 1 then 1 else 0, x := fun _ => 10, nvals := 1 } :
              GB_Matrix_bitmap Int) true 2
            (IxJ_all 2 2) none (GB_mcast_valued identity_2x2) false (fun a b => a + b) none
            [] 7 GB_ASSIGN (IxJ_all 2 2)).nvals
        = ((List.range 4).countP fun p => decide
            ((GB_bitmap_assign_fullM_accum
              ({ b := fun p => if p = 1 then 1 else 0, x := fun _ => 10, nvals := 1 } :
                GB_Matrix_bitmap Int) true 2
              (IxJ_all 2 2) none (GB_mcast_valued identity_2x2) false (fun a b => a + b)
              none [] 7 GB_ASSIGN (IxJ_all 2 2)).b p = 1))
      ∧ (GB_bitmap_assign_fullM_noaccum
            ({ b := fun p => if p = 1 then 1 else 0, x := fun _ => 10, nvals := 1 } :
              GB_Matrix_bitmap Int) true 2
            (IxJ_all 2 2) none (GB_mcast_valued identity_2x2) false none
            [] 7 GB_ASSIGN (IxJ_all 2 2)).nvals
        = ((List.range 4).countP fun p => decide
            ((GB_bitmap_assign_fullM_noaccum
              ({ b := fun p => if p = 1 then 1 else 0, x := fun _ => 10, nvals := 1 } :
                GB_Matrix_bitmap Int) true 2
              (IxJ_all 2 2) none (GB_mcast_valued identity_2x2) false
              none [] 7 GB_ASSIGN (IxJ_all 2 2)).b p = 1)) :=
  GB_bitmap_assign_nvals_counts_present 4
    ({ b := fun p => if p = 1 then 1 else 0, x := fun _ => 10, nvals := 1 } :
      GB_Matrix_bitmap Int) true 2
    (IxJ_all 2 2) [0, 3] none (GB_mcast_valued identity_2x2) false (fun a b => a + b) none
    [] 7 GB_ASSIGN (IxJ_all 2 2)
    (fun p => by by_cases h : p = 1 <;> simp [h]) (by decide) (by decide) (by decide)
    (by decide) (by decide) (fun _ h => absurd h.2 (by decide)) (fun _ _ => by decide)
    (fun h => absurd h (by decide)) (by decide)

/-- C20: each of `GB_bitmap_assign_M_accum`, `GB_bitmap_assign_fullM_accum` and
`GB_bitmap_assign_fullM_noaccum` restores the canonical encoding: if every
byte of `C` is 0 or 1 before the call and the mask entries are distinct, then
every byte of `C` is 0 or 1 after the call (no 2, 3 or 4 is left).  The lists
are what the templates visit: under `C_replace` the mask entries are inside
the region that the path taken scans last (the cells of `IxJ` on the path of
the scalar subassignment only, the region of the C template on the general
path only), and for the method without accumulator and without `C_replace`
the entries of a matrix `A` under a true mask are inside the region of its
last pass. -/
theorem GB_bitmap_assign_bytes_canonical {V : Type} (n : Nat) (C : GB_Matrix_bitmap V)
    (C_replace : Bool) (nI : Nat) (IxJ : List Visit) (Mentries : List Nat)
    (Mb : Option (Nat → Int)) (mcast : Nat → Bool) (Mask_comp : Bool) (accum : V → V → V)
    (A : Option (Nat → V)) (Aentries : List Visit) (scalar : V) (assign_kind : Int)
    (Centries : List Visit)
    (hb : ∀ p, C.b p = 0 ∨ C.b p = 1)
    (hM : Mentries.Nodup)
    (hMn : ∀ p, p ∈ Mentries → p < n) (hIn : ∀ v, v ∈ IxJ → v.pC < n)
    (hAn : ∀ v, v ∈ Aentries → v.pC < n) (hCn : ∀ v, v ∈ Centries → v.pC < n)
    (hcovI : C_replace = true → A.isNone ∧ assign_kind = GB_SUBASSIGN →
      ∀ p, p ∈ Mentries → ∃ v, v ∈ IxJ ∧ v.pC = p)
    (hcovC : C_replace = true → ¬ (A.isNone ∧ assign_kind = GB_SUBASSIGN) →
      ∀ p, p ∈ Mentries → ∃ v, v ∈ Centries ∧ v.pC = p)
    (hcovA : C_replace = false → A.isSome → ∀ v, v ∈ Aentries →
      GB_GET_MIJ Mb mcast Mask_comp (GB_GET_pM assign_kind nI v) = true →
      ∃ c, c ∈ Centries
        ∧ GB_GET_MIJ Mb mcast Mask_comp (GB_GET_pM assign_kind nI c) = true
        ∧ c.pC = v.pC) :
    ∀ p,
      ((GB_bitmap_assign_M_accum C C_replace IxJ Mentries accum A Aentries scalar assign_kind
            Centries).b p = 0
        ∨ (GB_bitmap_assign_M_accum C C_replace IxJ Mentries accum A Aentries scalar
            assign_kind Centries).b p = 1)
      ∧ ((GB_bitmap_assign_fullM_accum C C_replace nI IxJ Mb mcast Mask_comp accum A
            Aentries scalar assign_kind Centries).b p = 0
        ∨ (GB_bitmap_assign_fullM_accum C C_replace nI IxJ Mb mcast Mask_comp accum A
            Aentries scalar assign_kind Centries).b p = 1)
      ∧ ((GB_bitmap_assign_fullM_noaccum C C_replace nI IxJ Mb mcast Mask_comp A
            Aentries scalar assign_kind Centries).b p = 0
        ∨ (GB_bitmap_assign_fullM_noaccum C C_replace nI IxJ Mb mcast Mask_comp A
            Aentries scalar assign_kind Centries).b p = 1) := by
  intro p
  exact ⟨(M_accum_core_path n C C_replace IxJ Mentries accum A Aentries scalar
      assign_kind Centries hb hM hMn hIn hAn hCn hcovI hcovC).1 p,
    (fullM_accum_core n C C_replace nI IxJ Mb mcast Mask_comp accum A
      Aentries scalar assign_kind Centries hb hIn hAn hCn).1 p,
    (fullM_noaccum_core n C C_replace nI IxJ Mb mcast Mask_comp A
      Aentries scalar assign_kind Centries hb hIn hAn hCn hcovA).1 p⟩

theorem GB_bitmap_assign_bytes_canonical_witness :
    ((GB_bitmap_assign_M_accum (empty_bitmap fun _ => (0 : Int)) false (IxJ_all 2 2) [0, 3]
          (fun a b => a + b) (some fun _ => 7) [⟨0, 0, 0, 0, 0, 0⟩] 7 GB_ASSIGN
          (IxJ_all 2 2)).b 0 = 0
        ∨ (GB_bitmap_assign_M_accum (empty_bitmap fun _ => (0 : Int)) false (IxJ_all 2 2)
          [0, 3] (fun a b => a + b) (some fun _ => 7) [⟨0, 0, 0, 0, 0, 0⟩] 7 GB_ASSIGN
          (IxJ_all 2 2)).b 0 = 1)
      ∧ ((GB_bitmap_assign_fullM_accum (empty_bitmap fun _ => (0 : Int)) false 2
            (IxJ_all 2 2) none GB_mcast_structural false (fun a b => a + b)
            (some fun _ => 7) [⟨0, 0, 0, 0, 0, 0⟩] 7 GB_ASSIGN (IxJ_all 2 2)).b 0 = 0
        ∨ (GB_bitmap_assign_fullM_accum (empty_bitmap fun _ => (0 : Int)) false 2
            (IxJ_all 2 2) none GB_mcast_structural false (fun a b => a + b)
            (some fun _ => 7) [⟨0, 0, 0, 0, 0, 0⟩] 7 GB_ASSIGN (IxJ_all 2 2)).b 0 = 1)
      ∧ ((GB_bitmap_assign_fullM_noaccum (empty_bitmap fun _ => (0 : Int)) false 2
            (IxJ_all 2 2) none GB_mcast_structural false
            (some fun _ => 7) [⟨0, 0, 0, 0, 0, 0⟩] 7 GB_ASSIGN (IxJ_all 2 2)).b 0 = 0
        ∨ (GB_bitmap_assign_fullM_noaccum (empty_bitmap fun _ => (0 : Int)) false 2
            (IxJ_all 2 2) none GB_mcast_structural false
            (some fun _ => 7) [⟨0, 0, 0, 0, 0, 0⟩] 7 GB_ASSIGN (IxJ_all 2 2)).b 0 = 1) :=
  GB_bitmap_assign_bytes_canonical 4 (empty_bitmap fun _ => (0 : Int)) false 2
    (IxJ_all 2 2) [0, 3] none GB_mcast_structural false (fun a b => a + b)
    (some fun _ => 7) [⟨0, 0, 0, 0, 0, 0⟩] 7 GB_ASSIGN (IxJ_all 2 2)
    (fun _ => Or.inl rfl) (by decide) (by decide) (by decide)
    (by decide) (by decide) (fun h => absurd h (by decide)) (fun h => absurd h (by decide))
    (fun _ _ => by decide) 0

theorem IxJ_all_3_3 : IxJ_all 3 3 =
    [⟨0, 0, 0, 0, 0, 0⟩, ⟨1, 0, 1, 0, 1, 0⟩, ⟨2, 0, 2, 0, 2, 0⟩,
     ⟨0, 1, 0, 1, 3, 0⟩, ⟨1, 1, 1, 1, 4, 0⟩, ⟨2, 1, 2, 1, 5, 0⟩,
     ⟨0, 2, 0, 2, 6, 0⟩, ⟨1, 2, 1, 2, 7, 0⟩, ⟨2, 2, 2, 2, 8, 0⟩] := by
  rfl

theorem IxJ_all_2_2 : IxJ_all 2 2 =
    [⟨0, 0, 0, 0, 0, 0⟩, ⟨1, 0, 1, 0, 1, 0⟩, ⟨0, 1, 0, 1, 2, 0⟩, ⟨1, 1, 1, 1, 3, 0⟩] := by
  rfl

/-- C21: from an empty 3-by-3 bitmap `C`, `GB_bitmap_assign_fullM_accum` with a full
mask that is true everywhere, no complement, no `C_replace`, the accumulator
`+` and the scalar 5 leaves `nvals = 9` and every one of the 9 cells present
with the value 5. -/
theorem GB_bitmap_assign_fullM_accum_scenario_3x3 (x : Nat → Int) :
    (GB_bitmap_assign_fullM_accum (empty_bitmap x) false 3 (IxJ_all 3 3) none
        GB_mcast_structural false (fun a b => a + b) none [] 5 GB_ASSIGN []).nvals = 9
      ∧ ∀ p, p < 9 →
        (GB_bitmap_assign_fullM_accum (empty_bitmap x) false 3 (IxJ_all 3 3) none
            GB_mcast_structural false (fun a b => a + b) none [] 5 GB_ASSIGN []).b p = 1
          ∧ (GB_bitmap_assign_fullM_accum (empty_bitmap x) false 3 (IxJ_all 3 3) none
              GB_mcast_structural false (fun a b => a + b) none [] 5 GB_ASSIGN []).x p = 5 := by
  rw [IxJ_all_3_3]
  refine ⟨?_, ?_⟩
  · simp [GB_bitmap_assign_fullM_accum, GB_bitmap_assign_IxJ_template, fullM_accum_IXJ_WORK,
      GB_GET_MIJ, GBB, GB_mcast_structural, GB_ASSIGN_SCALAR, GB_ACCUM_SCALAR, GB_GET_C,
      finish, empty_bitmap, GB_ASSIGN, GB_SUBASSIGN, Function.update]
  · intro p hp
    interval_cases p <;>
      simp [GB_bitmap_assign_fullM_accum, GB_bitmap_assign_IxJ_template,
        fullM_accum_IXJ_WORK, GB_GET_MIJ, GBB, GB_mcast_structural, GB_ASSIGN_SCALAR,
        GB_ACCUM_SCALAR, GB_GET_C, finish, empty_bitmap, GB_ASSIGN, GB_SUBASSIGN,
        Function.update]

/-- C22, the scenario as worded: with a full mask taken structurally, every cell of
the empty 2-by-2 bitmap `C` is selected, whatever the values `[[1,0],[0,1]]`
of the mask: the scalar 7 is written to all four cells and `nvals = 4`, so
that `C(1,0)` is present. -/
theorem GB_bitmap_assign_fullM_accum_structural_full_mask_selects_all :
    (GB_bitmap_assign_fullM_accum (empty_bitmap fun _ => (0 : Int)) false 2 (IxJ_all 2 2) none
        GB_mcast_structural false (fun a b => a + b) none [] 7 GB_ASSIGN []).nvals = 4
      ∧ (GB_bitmap_assign_fullM_accum (empty_bitmap fun _ => (0 : Int)) false 2 (IxJ_all 2 2) none
          GB_mcast_structural false (fun a b => a + b) none [] 7 GB_ASSIGN []).b 1 = 1
      ∧ (GB_bitmap_assign_fullM_accum (empty_bitmap fun _ => (0 : Int)) false 2 (IxJ_all 2 2) none
          GB_mcast_structural false (fun a b => a + b) none [] 7 GB_ASSIGN []).x 1 = 7 := by
  rw [IxJ_all_2_2]
  simp [GB_bitmap_assign_fullM_accum, GB_bitmap_assign_IxJ_template, fullM_accum_IXJ_WORK,
    GB_GET_MIJ, GBB, GB_mcast_structural, GB_ASSIGN_SCALAR, GB_ACCUM_SCALAR, GB_GET_C,
    finish, empty_bitmap, GB_ASSIGN, GB_SUBASSIGN, Function.update]

/-- C22, amended: from an empty 2-by-2 bitmap `C`, with the scalar 7, the accumulator
`+` and no `C_replace`, the result is `C(0,0) = 7`, `C(1,1) = 7`, the cells
`C(1,0)` and `C(0,1)` absent and `nvals = 2`, when the mask selects by its
values `[[1,0],[0,1]]` (full mask, valued), when it selects by its entries
`(0,0)` and `(1,1)` (bitmap mask, structural), and when it is the sparse mask
with these two entries (`GB_bitmap_assign_M_accum`). -/
theorem GB_bitmap_assign_accum_scenario_2x2 (x : Nat → Int) :
    ((GB_bitmap_assign_fullM_accum (empty_bitmap x) false 2 (IxJ_all 2 2) none
          (GB_mcast_valued identity_2x2) false (fun a b => a + b) none [] 7 GB_ASSIGN
          []).nvals = 2
      ∧ (∀ p, p < 4 →
        (GB_bitmap_assign_fullM_accum (empty_bitmap x) false 2 (IxJ_all 2 2) none
            (GB_mcast_valued identity_2x2) false (fun a b => a + b) none [] 7 GB_ASSIGN
            []).b p = (if p = 0 ∨ p = 3 then 1 else 0))
      ∧ (∀ p, p = 0 ∨ p = 3 →
        (GB_bitmap_assign_fullM_accum (empty_bitmap x) false 2 (IxJ_all 2 2) none
            (GB_mcast_valued identity_2x2) false (fun a b => a + b) none [] 7 GB_ASSIGN
            []).x p = 7))
    ∧ ((GB_bitmap_assign_fullM_accum (empty_bitmap x) false 2 (IxJ_all 2 2)
          (some identity_2x2) GB_mcast_structural false (fun a b => a + b) none [] 7
          GB_ASSIGN []).nvals = 2
      ∧ (∀ p, p < 4 →
        (GB_bitmap_assign_fullM_accum (empty_bitmap x) false 2 (IxJ_all 2 2)
            (some identity_2x2) GB_mcast_structural false (fun a b => a + b) none [] 7
            GB_ASSIGN []).b p = (if p = 0 ∨ p = 3 then 1 else 0))
      ∧ (∀ p, p = 0 ∨ p = 3 →
        (GB_bitmap_assign_fullM_accum (empty_bitmap x) false 2 (IxJ_all 2 2)
            (some identity_2x2) GB_mcast_structural false (fun a b => a + b) none [] 7
            GB_ASSIGN []).x p = 7))
    ∧ ((GB_bitmap_assign_M_accum (empty_bitmap x) false (IxJ_all 2 2) [0, 3]
          (fun a b => a + b) none [] 7 GB_ASSIGN []).nvals = 2
      ∧ (∀ p, p < 4 →
        (GB_bitmap_assign_M_accum (empty_bitmap x) false (IxJ_all 2 2) [0, 3]
            (fun a b => a + b) none [] 7 GB_ASSIGN []).b p = (if p = 0 ∨ p = 3 then 1 else 0))
      ∧ (∀ p, p = 0 ∨ p = 3 →
        (GB_bitmap_assign_M_accum (empty_bitmap x) false (IxJ_all 2 2) [0, 3]
            (fun a b => a + b) none [] 7 GB_ASSIGN []).x p = 7)) := by
  rw [IxJ_all_2_2]
  refine ⟨⟨?_, ?_, ?_⟩, ⟨?_, ?_, ?_⟩, ⟨?_, ?_, ?_⟩⟩
  · simp [GB_bitmap_assign_fullM_accum, GB_bitmap_assign_IxJ_template, fullM_accum_IXJ_WORK,
      GB_GET_MIJ, GBB, GB_mcast_valued, identity_2x2, GB_ASSIGN_SCALAR, GB_ACCUM_SCALAR,
      GB_GET_C, finish, empty_bitmap, GB_ASSIGN, GB_SUBASSIGN, Function.update]
  · intro p hp
    interval_cases p <;>
      simp [GB_bitmap_assign_fullM_accum, GB_bitmap_assign_IxJ_template,
        fullM_accum_IXJ_WORK, GB_GET_MIJ, GBB, GB_mcast_valued, identity_2x2,
        GB_ASSIGN_SCALAR, GB_ACCUM_SCALAR, GB_GET_C, finish, empty_bitmap, GB_ASSIGN,
        GB_SUBASSIGN, Function.update]
  · intro p hp
    rcases hp with h | h <;> subst h <;>
      simp [GB_bitmap_assign_fullM_accum, GB_bitmap_assign_IxJ_template,
        fullM_accum_IXJ_WORK, GB_GET_MIJ, GBB, GB_mcast_valued, identity_2x2,
        GB_ASSIGN_SCALAR, GB_ACCUM_SCALAR, GB_GET_C, finish, empty_bitmap, GB_ASSIGN,
        GB_SUBASSIGN, Function.update]
  · simp [GB_bitmap_assign_fullM_accum, GB_bitmap_assign_IxJ_template, fullM_accum_IXJ_WORK,
      GB_GET_MIJ, GBB, GB_mcast_structural, identity_2x2, GB_ASSIGN_SCALAR, GB_ACCUM_SCALAR,
      GB_GET_C, finish, empty_bitmap, GB_ASSIGN, GB_SUBASSIGN, Function.update]
  · intro p hp
    interval_cases p <;>
      simp [GB_bitmap_assign_fullM_accum, GB_bitmap_assign_IxJ_template,
        fullM_accum_IXJ_WORK, GB_GET_MIJ, GBB, GB_mcast_structural, identity_2x2,
        GB_ASSIGN_SCALAR, GB_ACCUM_SCALAR, GB_GET_C, finish, empty_bitmap, GB_ASSIGN,
        GB_SUBASSIGN, Function.update]
  · intro p hp
    rcases hp with h | h <;> subst h <;>
      simp [GB_bitmap_assign_fullM_accum, GB_bitmap_assign_IxJ_template,
        fullM_accum_IXJ_WORK, GB_GET_MIJ, GBB, GB_mcast_structural, identity_2x2,
        GB_ASSIGN_SCALAR, GB_ACCUM_SCALAR, GB_GET_C, finish, empty_bitmap, GB_ASSIGN,
        GB_SUBASSIGN, Function.update]
  · simp [GB_bitmap_assign_M_accum, GB_bitmap_assign_IxJ_template,
      GB_bitmap_assign_M_template, M_accum_MASK_WORK_scatter, M_accum_IXJ_WORK,
      M_accum_MASK_WORK_clear, int8_wrap, GB_ASSIGN_SCALAR, GB_ACCUM_SCALAR,
      GB_GET_C, finish, empty_bitmap, GB_ASSIGN, GB_SUBASSIGN, Function.update]
  · intro p hp
    interval_cases p <;>
      simp [GB_bitmap_assign_M_accum, GB_bitmap_assign_IxJ_template,
        GB_bitmap_assign_M_template, M_accum_MASK_WORK_scatter, M_accum_IXJ_WORK,
        M_accum_MASK_WORK_clear, int8_wrap, GB_ASSIGN_SCALAR, GB_ACCUM_SCALAR,
        GB_GET_C, finish, empty_bitmap, GB_ASSIGN, GB_SUBASSIGN, Function.update]
  · intro p hp
    rcases hp with h | h <;> subst h <;>
      simp [GB_bitmap_assign_M_accum, GB_bitmap_assign_IxJ_template,
        GB_bitmap_assign_M_template, M_accum_MASK_WORK_scatter, M_accum_IXJ_WORK,
        M_accum_MASK_WORK_clear, int8_wrap, GB_ASSIGN_SCALAR, GB_ACCUM_SCALAR,
        GB_GET_C, finish, empty_bitmap, GB_ASSIGN, GB_SUBASSIGN, Function.update]

/-! ### The two paths of GB_bitmap_assign_M_accum for a scalar -/

/-- A bound above the offsets of a list. -/
theorem exists_bound (l : List Nat) : ∃ n, ∀ p, p ∈ l → p < n := by
  induction l with
  | nil => exact ⟨0, fun p hp => absurd hp (List.not_mem_nil _)⟩
  | cons a l ih =>
    obtain ⟨n, hn⟩ := ih
    refine ⟨max n (a + 1), fun p hp => ?_⟩
    rcases List.mem_cons.mp hp with h | h
    · subst h
      exact lt_of_lt_of_le (Nat.lt_succ_self _) (le_max_right _ _)
    · exact lt_of_lt_of_le (hn p h) (le_max_left _ _)

/-- Two results with the same bytes whose `nvals` moved with the number of bytes 1
from the same start have the same `nvals`. -/
theorem nvals_eq_of_bytes_eq {V : Type} (n : Nat) (K : Int) (R S : GB_Matrix_bitmap V)
    (hR : R.nvals - count_cells present1 n R.b = K)
    (hS : S.nvals - count_cells present1 n S.b = K)
    (hb : ∀ p, R.b p = S.b p) : R.nvals = S.nvals := by
  have e : R.b = S.b := funext hb
  rw [e] at hR
  omega

/-- The scalar-subassignment path of `GB_bitmap_assign_M_accum` as passes over
cells. -/
theorem GB_bitmap_assign_M_accum_scalar {V : Type} (C : GB_Matrix_bitmap V)
    (C_replace : Bool) (IxJ : List Visit) (Mentries : List Nat) (accum : V → V → V)
    (Aentries : List Visit) (scalar : V) (Centries : List Visit) :
    GB_bitmap_assign_M_accum C C_replace IxJ Mentries accum none Aentries scalar GB_SUBASSIGN
        Centries
      = finish (if C_replace = true then
          IxJ.foldl (fun s v => cell_step f_ixj_replace s v.pC)
            (Mentries.foldl (fun s p => cell_step (f_scalar_keep 3 scalar accum) s p)
              (GB_GET_C C))
        else
          Mentries.foldl (fun s p => cell_step (f_scalar_keep 1 scalar accum) s p)
            (GB_GET_C C)) := by
  have h1 : ∀ keep : Int, (M_accum_MASK_WORK_scalar keep scalar accum : Work V → Nat → Work V)
      = fun s p => cell_step (f_scalar_keep keep scalar accum) s p :=
    fun keep => funext fun s => funext fun p => M_accum_MASK_WORK_scalar_eq keep scalar accum s p
  have h2 : (M_accum_IXJ_WORK_replace : Work V → Visit → Work V)
      = fun s v => cell_step f_ixj_replace s v.pC :=
    funext fun s => funext fun v => M_accum_IXJ_WORK_replace_eq s v
  have hpath : (none : Option (Nat → V)).isNone ∧ GB_SUBASSIGN = GB_SUBASSIGN := ⟨rfl, rfl⟩
  unfold GB_bitmap_assign_M_accum
  cases C_replace
  · simp only [GB_bitmap_assign_M_template, h1, Bool.false_eq_true, if_false,
      Option.isNone_none, and_self, if_true]
  · simp only [GB_bitmap_assign_M_template, GB_bitmap_assign_IxJ_template,
      h1, h2, Option.isNone_none, and_self, if_true]

/-- The cells after the scalar-subassignment path of `GB_bitmap_assign_M_accum`,
with every byte of `C` 0 or 1 on entry, distinct mask entries and, under
`C_replace`, cells of `IxJ` visited once. -/
theorem M_accum_scalar_cells {V : Type} (C : GB_Matrix_bitmap V) (C_replace : Bool)
    (IxJ : List Visit) (Mentries : List Nat) (accum : V → V → V)
    (Aentries : List Visit) (scalar : V) (Centries : List Visit)
    (hb : ∀ p, C.b p = 0 ∨ C.b p = 1)
    (hM : Mentries.Nodup)
    (hI : C_replace = true → (IxJ.map fun v => v.pC).Nodup)
    (p : Nat) :
    (p ∈ Mentries → (C_replace = true → ∃ v, v ∈ IxJ ∧ v.pC = p) →
        (GB_bitmap_assign_M_accum C C_replace IxJ Mentries accum none Aentries scalar
            GB_SUBASSIGN Centries).b p = 1
          ∧ (GB_bitmap_assign_M_accum C C_replace IxJ Mentries accum none Aentries scalar
              GB_SUBASSIGN Centries).x p
            = (if C.b p = 0 then scalar else accum (C.x p) scalar))
      ∧ (p ∉ Mentries → C_replace = false →
        (GB_bitmap_assign_M_accum C C_replace IxJ Mentries accum none Aentries scalar
            GB_SUBASSIGN Centries).b p = C.b p
          ∧ (GB_bitmap_assign_M_accum C C_replace IxJ Mentries accum none Aentries scalar
              GB_SUBASSIGN Centries).x p = C.x p)
      ∧ (p ∉ Mentries → C_replace = true → (∃ v, v ∈ IxJ ∧ v.pC = p) →
        (GB_bitmap_assign_M_accum C C_replace IxJ Mentries accum none Aentries scalar
            GB_SUBASSIGN Centries).b p = 0
          ∧ (GB_bitmap_assign_M_accum C C_replace IxJ Mentries accum none Aentries scalar
              GB_SUBASSIGN Centries).x p = C.x p)
      ∧ (p ∉ Mentries → C_replace = true → (∀ v, v ∈ IxJ → v.pC ≠ p) →
        (GB_bitmap_assign_M_accum C C_replace IxJ Mentries accum none Aentries scalar
            GB_SUBASSIGN Centries).b p = C.b p
          ∧ (GB_bitmap_assign_M_accum C C_replace IxJ Mentries accum none Aentries scalar
              GB_SUBASSIGN Centries).x p = C.x p) := by
  rw [GB_bitmap_assign_M_accum_scalar]
  have hM1 : (Mentries.map fun q : Nat => q).Nodup := by simpa using hM
  have hb0 : (GB_GET_C C).Cb p = C.b p := rfl
  have hx0 : (GB_GET_C C).Cx p = C.x p := rfl
  cases C_replace
  · obtain ⟨e1a, e1b⟩ := foldl_cell_at (fun q : Nat => q)
      (fun _ => f_scalar_keep 1 scalar accum) Mentries (GB_GET_C C) hM1 p
    simp only [Bool.false_eq_true, if_false, finish]
    refine ⟨?_, ?_, ?_, ?_⟩
    · intro hp _
      obtain ⟨h1, h2⟩ := e1a p hp rfl
      rw [h1, h2, hb0, hx0]
      rcases hb p with h | h <;> rw [h] <;> simp [f_scalar_keep, int8_wrap]
    · intro hp _
      exact e1b (fun a ha hk => hp (hk ▸ ha))
    · intro _ h
      exact absurd h (by decide)
    · intro _ h
      exact absurd h (by decide)
  · obtain ⟨e1a, e1b⟩ := foldl_cell_at (fun q : Nat => q)
      (fun _ => f_scalar_keep 3 scalar accum) Mentries (GB_GET_C C) hM1 p
    obtain ⟨e2a, e2b⟩ := foldl_cell_at (fun v : Visit => v.pC)
      (fun _ => f_ixj_replace (V := V)) IxJ
      (Mentries.foldl (fun s p => cell_step (f_scalar_keep 3 scalar accum) s p) (GB_GET_C C))
      (hI rfl) p
    simp only [if_true, finish]
    refine ⟨?_, ?_, ?_, ?_⟩
    · intro hp hin
      obtain ⟨v, hv, hk⟩ := hin trivial
      obtain ⟨h3, h4⟩ := e2a v hv hk
      obtain ⟨h1, h2⟩ := e1a p hp rfl
      rw [h3, h4, h1, h2, hb0, hx0]
      rcases hb p with h | h <;> rw [h] <;> simp [f_scalar_keep, f_ixj_replace, int8_wrap]
    · intro _ h
      exact absurd h (by decide)
    · intro hp _ hin
      obtain ⟨v, hv, hk⟩ := hin
      obtain ⟨h3, h4⟩ := e2a v hv hk
      obtain ⟨h1, h2⟩ := e1b (fun a ha hk => hp (hk ▸ ha))
      rw [h3, h4, h1, h2, hb0, hx0]
      rcases hb p with h | h <;> rw [h] <;> simp [f_ixj_replace]
    · intro hp _ hout
      obtain ⟨h3, h4⟩ := e2b hout
      obtain ⟨h1, h2⟩ := e1b (fun a ha hk => hp (hk ▸ ha))
      rw [h3, h4, h1, h2]
      exact ⟨rfl, rfl⟩

/-- C37: in `GB_bitmap_assign_M_accum` with a scalar source, the path of the scalar
subassignment (one pass over the mask writing `keep`, then one pass over
`IxJ` for `C_replace`) and the general path (scatter, combine over `IxJ`,
then the `C_replace` pass or the pass that clears the mask) leave the same
presence bytes, the same values and the same `nvals`, for the same `C`,
mask, scalar, accumulator and `C_replace`.  The general path is the call
with a kind of assignment other than `GB_SUBASSIGN`; every byte of `C` is 0
or 1 on entry, the mask entries are distinct and inside `IxJ`, each cell of
`IxJ` is visited once, and under `C_replace` the region that the general
path scans is made of the cells of `IxJ`, each once. -/
theorem GB_bitmap_assign_M_accum_scalar_path_agrees {V : Type} (C : GB_Matrix_bitmap V)
    (C_replace : Bool) (IxJ : List Visit) (Mentries : List Nat) (accum : V → V → V)
    (Aentries : List Visit) (scalar : V) (assign_kind : Int) (Centries : List Visit)
    (hkind : assign_kind ≠ GB_SUBASSIGN)
    (hb : ∀ p, C.b p = 0 ∨ C.b p = 1)
    (hM : Mentries.Nodup)
    (hI : (IxJ.map fun v => v.pC).Nodup)
    (hMI : ∀ p, p ∈ Mentries → ∃ v, v ∈ IxJ ∧ v.pC = p)
    (hC : C_replace = true → (Centries.map fun v => v.pC).Nodup)
    (hCI : C_replace = true →
      ∀ p, (∃ c, c ∈ Centries ∧ c.pC = p) ↔ (∃ v, v ∈ IxJ ∧ v.pC = p)) :
    (∀ p,
        (GB_bitmap_assign_M_accum C C_replace IxJ Mentries accum none Aentries scalar
            GB_SUBASSIGN Centries).b p
          = (GB_bitmap_assign_M_accum C C_replace IxJ Mentries accum none Aentries scalar
              assign_kind Centries).b p
        ∧ (GB_bitmap_assign_M_accum C C_replace IxJ Mentries accum none Aentries scalar
            GB_SUBASSIGN Centries).x p
          = (GB_bitmap_assign_M_accum C C_replace IxJ Mentries accum none Aentries scalar
              assign_kind Centries).x p)
      ∧ (GB_bitmap_assign_M_accum C C_replace IxJ Mentries accum none Aentries scalar
          GB_SUBASSIGN Centries).nvals
        = (GB_bitmap_assign_M_accum C C_replace IxJ Mentries accum none Aentries scalar
            assign_kind Centries).nvals := by
  have hpath : ¬ ((none : Option (Nat → V)).isNone ∧ assign_kind = GB_SUBASSIGN) :=
    fun h => hkind h.2
  have hcovC : C_replace = true → ∀ p, p ∈ Mentries → ∃ c, c ∈ Centries ∧ c.pC = p :=
    fun hr p hp => (hCI hr p).mpr (hMI p hp)
  have hcells : ∀ p,
      (GB_bitmap_assign_M_accum C C_replace IxJ Mentries accum none Aentries scalar
          GB_SUBASSIGN Centries).b p
        = (GB_bitmap_assign_M_accum C C_replace IxJ Mentries accum none Aentries scalar
            assign_kind Centries).b p
      ∧ (GB_bitmap_assign_M_accum C C_replace IxJ Mentries accum none Aentries scalar
          GB_SUBASSIGN Centries).x p
        = (GB_bitmap_assign_M_accum C C_replace IxJ Mentries accum none Aentries scalar
            assign_kind Centries).x p := by
    intro p
    obtain ⟨s1, s2, s3, s4⟩ := M_accum_scalar_cells C C_replace IxJ Mentries accum Aentries
      scalar Centries hb hM (fun _ => hI) p
    obtain ⟨g1, -, g3, g4, g5⟩ := M_accum_cells C C_replace IxJ Mentries accum none Aentries
      scalar assign_kind Centries hpath hb hM hI hC hcovC p
    by_cases hp : p ∈ Mentries
    · obtain ⟨v, hv, hk⟩ := hMI p hp
      obtain ⟨a1, a2⟩ := s1 hp (fun _ => ⟨v, hv, hk⟩)
      obtain ⟨b1, b2⟩ := g1 hp v hv hk
      rw [a1, a2, b1, b2]
      exact ⟨rfl, rfl⟩
    · cases hr : C_replace
      · obtain ⟨a1, a2⟩ := s2 hp hr
        obtain ⟨b1, b2⟩ := g3 hp hr
        rw [hr] at a1 a2 b1 b2
        rw [a1, a2, b1, b2]
        exact ⟨rfl, rfl⟩
      · by_cases hin : ∃ v, v ∈ IxJ ∧ v.pC = p
        · obtain ⟨a1, a2⟩ := s3 hp hr hin
          obtain ⟨b1, b2⟩ := g4 hp hr ((hCI hr p).mpr hin)
          rw [hr] at a1 a2 b1 b2
          rw [a1, a2, b1, b2]
          exact ⟨rfl, rfl⟩
        · obtain ⟨a1, a2⟩ := s4 hp hr (fun v hv hk => hin ⟨v, hv, hk⟩)
          obtain ⟨b1, b2⟩ := g5 hp hr
            (fun c hc hk => hin ((hCI hr p).mp ⟨c, hc, hk⟩))
          rw [hr] at a1 a2 b1 b2
          rw [a1, a2, b1, b2]
          exact ⟨rfl, rfl⟩
  refine ⟨hcells, ?_⟩
  obtain ⟨n, hn⟩ := exists_bound
    (Mentries ++ IxJ.map (fun v => v.pC) ++ Aentries.map (fun v => v.pC)
      ++ Centries.map (fun v => v.pC))
  have hMn : ∀ p, p ∈ Mentries → p < n := fun p hp => hn p (by simp [hp])
  have hIn : ∀ v, v ∈ IxJ → v.pC < n := fun v hv =>
    hn v.pC (by simp only [List.mem_append, List.mem_map]; exact Or.inl (Or.inl (Or.inr ⟨v, hv, rfl⟩)))
  have hAn : ∀ v, v ∈ Aentries → v.pC < n := fun v hv =>
    hn v.pC (by simp only [List.mem_append, List.mem_map]; exact Or.inl (Or.inr ⟨v, hv, rfl⟩))
  have hCn : ∀ v, v ∈ Centries → v.pC < n := fun v hv =>
    hn v.pC (by simp only [List.mem_append, List.mem_map]; exact Or.inr ⟨v, hv, rfl⟩)
  obtain ⟨-, k1⟩ := M_accum_core n C C_replace IxJ Mentries accum none Aentries scalar
    GB_SUBASSIGN Centries hb hM hMn hIn hAn hCn (fun _ => hMI) hcovC
  obtain ⟨-, k2⟩ := M_accum_core n C C_replace IxJ Mentries accum none Aentries scalar
    assign_kind Centries hb hM hMn hIn hAn hCn (fun _ => hMI) hcovC
  exact nvals_eq_of_bytes_eq n _ _ _ k1 k2 (fun p => (hcells p).1)

theorem GB_bitmap_assign_M_accum_scalar_path_agrees_witness :
    (GB_bitmap_assign_M_accum
        ({ b := fun p => if p = 1 then 1 else 0, x := fun _ => 10, nvals := 1 } :
          GB_Matrix_bitmap Int) true
        (IxJ_all 2 2) [0, 1] (fun a b => a + b) none [] 7 GB_SUBASSIGN (IxJ_all 2 2)).nvals
      = (GB_bitmap_assign_M_accum
          ({ b := fun p => if p = 1 then 1 else 0, x := fun _ => 10, nvals := 1 } :
            GB_Matrix_bitmap Int) true
          (IxJ_all 2 2) [0, 1] (fun a b => a + b) none [] 7 GB_ASSIGN (IxJ_all 2 2)).nvals
      ∧ (GB_bitmap_assign_M_accum
          ({ b := fun p => if p = 1 then 1 else 0, x := fun _ => 10, nvals := 1 } :
            GB_Matrix_bitmap Int) true
          (IxJ_all 2 2) [0, 1] (fun a b => a + b) none [] 7 GB_SUBASSIGN (IxJ_all 2 2)).nvals
        = 2 := by
  have h := (GB_bitmap_assign_M_accum_scalar_path_agrees
    ({ b := fun p => if p = 1 then 1 else 0, x := fun _ => 10, nvals := 1 } :
      GB_Matrix_bitmap Int) true
    (IxJ_all 2 2) [0, 1] (fun a b => a + b) [] 7 GB_ASSIGN (IxJ_all 2 2)
    (by decide) (fun p => by by_cases h : p = 1 <;> simp [h]) (by decide) (by decide)
    (by decide) (fun _ => by decide) (fun _ _ => Iff.rfl)).2
  refine ⟨h, ?_⟩
  simp [GB_bitmap_assign_M_accum, GB_bitmap_assign_M_template, GB_bitmap_assign_IxJ_template,
    IxJ_all_2_2, M_accum_MASK_WORK_scalar, M_accum_IXJ_WORK_replace, GB_ASSIGN_SCALAR,
    GB_ACCUM_SCALAR, GB_GET_C, finish, GB_SUBASSIGN, int8_wrap, Function.update]

/-! ### GB_bitmap_assign_M_accum and GB_bitmap_assign_fullM_accum, cell by cell -/

/-- The four kinds of assignment have different codes. -/
theorem assign_kinds_ne :
    GB_COL_ASSIGN ≠ GB_ROW_ASSIGN ∧ GB_ASSIGN ≠ GB_ROW_ASSIGN ∧ GB_ASSIGN ≠ GB_COL_ASSIGN
      ∧ GB_SUBASSIGN ≠ GB_ROW_ASSIGN ∧ GB_SUBASSIGN ≠ GB_COL_ASSIGN
      ∧ GB_SUBASSIGN ≠ GB_ASSIGN := by
  decide

/-- The function `GB_bitmap_assign_fullM_accum` as passes over cells, for the kinds
of assignment that its switches handle. -/
theorem GB_bitmap_assign_fullM_accum_general {V : Type} (C : GB_Matrix_bitmap V)
    (C_replace : Bool) (nI : Nat) (IxJ : List Visit) (Mb : Option (Nat → Int))
    (mcast : Nat → Bool) (Mask_comp : Bool) (accum : V → V → V) (A : Option (Nat → V))
    (Aentries : List Visit) (scalar : V) (assign_kind : Int) (Centries : List Visit)
    (hkS : A = none → assign_kind = GB_ASSIGN ∨ assign_kind = GB_SUBASSIGN)
    (hkA : assign_kind = GB_ROW_ASSIGN ∨ assign_kind = GB_COL_ASSIGN
      ∨ assign_kind = GB_ASSIGN ∨ assign_kind = GB_SUBASSIGN) :
    GB_bitmap_assign_fullM_accum C C_replace nI IxJ Mb mcast Mask_comp accum A Aentries scalar
        assign_kind Centries
      = finish (if C_replace = true then
          Centries.foldl (fun s v => cell_step (f_fullM_accum_cij
              (GB_GET_MIJ Mb mcast Mask_comp (GB_GET_pM assign_kind nI v))) s v.pC)
            ((M_accum_source A IxJ Aentries).foldl
              (fun s v => cell_step (f_fullM_accum
                (GB_GET_MIJ Mb mcast Mask_comp (GB_GET_pM assign_kind nI v))
                (M_accum_source_value A scalar v) accum) s v.pC) (GB_GET_C C))
        else
          (M_accum_source A IxJ Aentries).foldl
            (fun s v => cell_step (f_fullM_accum
              (GB_GET_MIJ Mb mcast Mask_comp (GB_GET_pM assign_kind nI v))
              (M_accum_source_value A scalar v) accum) s v.pC) (GB_GET_C C)) := by
  have hI : ∀ pM_of : Visit → Nat, fullM_accum_IXJ_WORK Mb mcast Mask_comp pM_of scalar accum
      = fun s v => cell_step (f_fullM_accum (GB_GET_MIJ Mb mcast Mask_comp (pM_of v))
          scalar accum) s v.pC :=
    fun pM_of => funext fun s => funext fun v =>
      fullM_accum_IXJ_WORK_eq Mb mcast Mask_comp pM_of scalar accum s v
  have hA : ∀ (pM_of : Visit → Nat) (Ax : Nat → V),
      fullM_accum_AIJ_WORK Mb mcast Mask_comp pM_of Ax accum
        = fun s v => cell_step (f_fullM_accum (GB_GET_MIJ Mb mcast Mask_comp (pM_of v))
            (Ax v.pA) accum) s v.pC :=
    fun pM_of Ax => funext fun s => funext fun v =>
      fullM_accum_AIJ_WORK_eq Mb mcast Mask_comp pM_of Ax accum s v
  have hCc : ∀ mask : Visit → Bool,
      (fun (s : Work V) (v : Visit) => fullM_accum_CIJ_WORK s (mask v) v.pC)
        = fun s v => cell_step (f_fullM_accum_cij (mask v)) s v.pC :=
    fun mask => funext fun s => funext fun v => fullM_accum_CIJ_WORK_eq s (mask v) v.pC
  obtain ⟨n1, n2, n3, n4, n5, n6⟩ := assign_kinds_ne
  unfold GB_bitmap_assign_fullM_accum
  simp only [GB_bitmap_assign_IxJ_template, GB_bitmap_assign_A_template,
    GB_bitmap_assign_C_template, hI, hA, hCc]
  cases A with
  | none =>
    rcases hkS rfl with h | h <;> subst h
    · simp only [M_accum_source, M_accum_source_value, GB_GET_pM_assign, if_true]
    · simp only [M_accum_source, M_accum_source_value, GB_GET_pM_subassign, if_neg n6, if_true]
  | some Ax =>
    rcases hkA with h | h | h | h <;> subst h
    · simp only [M_accum_source, M_accum_source_value, GB_GET_pM_row, if_true]
    · simp only [M_accum_source, M_accum_source_value, GB_GET_pM_col, if_neg n1, if_true]
    · simp only [M_accum_source, M_accum_source_value, GB_GET_pM_assign, if_neg n2, if_neg n3,
        if_true]
    · simp only [M_accum_source, M_accum_source_value, GB_GET_pM_subassign, if_neg n4,
        if_neg n5, if_neg n6, if_true]

/-- The cells after `GB_bitmap_assign_fullM_accum`, with every byte of `C` 0 or 1 on
entry, at most one source value per cell and, under `C_replace`, a region
scanned once per cell. -/
theorem fullM_accum_cells {V : Type} (C : GB_Matrix_bitmap V)
    (C_replace : Bool) (nI : Nat) (IxJ : List Visit) (Mb : Option (Nat → Int))
    (mcast : Nat → Bool) (Mask_comp : Bool) (accum : V → V → V) (A : Option (Nat → V))
    (Aentries : List Visit) (scalar : V) (assign_kind : Int) (Centries : List Visit)
    (hkS : A = none → assign_kind = GB_ASSIGN ∨ assign_kind = GB_SUBASSIGN)
    (hkA : assign_kind = GB_ROW_ASSIGN ∨ assign_kind = GB_COL_ASSIGN
      ∨ assign_kind = GB_ASSIGN ∨ assign_kind = GB_SUBASSIGN)
    (hb : ∀ p, C.b p = 0 ∨ C.b p = 1)
    (hS : ((M_accum_source A IxJ Aentries).map fun v => v.pC).Nodup)
    (hC : C_replace = true → (Centries.map fun v => v.pC).Nodup)
    (p : Nat) :
    ((C_replace = true → ∀ c, c ∈ Centries → c.pC = p →
          GB_GET_MIJ Mb mcast Mask_comp (GB_GET_pM assign_kind nI c) = true) →
        (∀ v, v ∈ M_accum_source A IxJ Aentries → v.pC = p →
          GB_GET_MIJ Mb mcast Mask_comp (GB_GET_pM assign_kind nI v) = true →
          (GB_bitmap_assign_fullM_accum C C_replace nI IxJ Mb mcast Mask_comp accum A Aentries
              scalar assign_kind Centries).b p = 1
            ∧ (GB_bitmap_assign_fullM_accum C C_replace nI IxJ Mb mcast Mask_comp accum A
                Aentries scalar assign_kind Centries).x p
              = (if C.b p = 0 then M_accum_source_value A scalar v
                  else accum (C.x p) (M_accum_source_value A scalar v)))
          ∧ ((∀ v, v ∈ M_accum_source A IxJ Aentries → v.pC = p →
              GB_GET_MIJ Mb mcast Mask_comp (GB_GET_pM assign_kind nI v) = false) →
            (GB_bitmap_assign_fullM_accum C C_replace nI IxJ Mb mcast Mask_comp accum A
                Aentries scalar assign_kind Centries).b p = C.b p
              ∧ (GB_bitmap_assign_fullM_accum C C_replace nI IxJ Mb mcast Mask_comp accum A
                  Aentries scalar assign_kind Centries).x p = C.x p))
      ∧ (C_replace = true → ∀ c, c ∈ Centries → c.pC = p →
          GB_GET_MIJ Mb mcast Mask_comp (GB_GET_pM assign_kind nI c) = false →
          (∀ v, v ∈ M_accum_source A IxJ Aentries → v.pC = p →
            GB_GET_MIJ Mb mcast Mask_comp (GB_GET_pM assign_kind nI v) = false) →
          (GB_bitmap_assign_fullM_accum C C_replace nI IxJ Mb mcast Mask_comp accum A Aentries
              scalar assign_kind Centries).b p = 0
            ∧ (GB_bitmap_assign_fullM_accum C C_replace nI IxJ Mb mcast Mask_comp accum A
                Aentries scalar assign_kind Centries).x p = C.x p) := by
  rw [GB_bitmap_assign_fullM_accum_general C C_replace nI IxJ Mb mcast Mask_comp accum A
    Aentries scalar assign_kind Centries hkS hkA]
  obtain ⟨e1a, e1b⟩ := foldl_cell_at (fun v : Visit => v.pC)
    (fun v => f_fullM_accum (GB_GET_MIJ Mb mcast Mask_comp (GB_GET_pM assign_kind nI v))
      (M_accum_source_value A scalar v) accum)
    (M_accum_source A IxJ Aentries) (GB_GET_C C) hS p
  have hb0 : (GB_GET_C C).Cb p = C.b p := rfl
  have hx0 : (GB_GET_C C).Cx p = C.x p := rfl
  -- the cell after the pass over the source
  have hw : ∀ v, v ∈ M_accum_source A IxJ Aentries → v.pC = p →
      GB_GET_MIJ Mb mcast Mask_comp (GB_GET_pM assign_kind nI v) = true →
      ((M_accum_source A IxJ Aentries).foldl
          (fun s v => cell_step (f_fullM_accum
            (GB_GET_MIJ Mb mcast Mask_comp (GB_GET_pM assign_kind nI v))
            (M_accum_source_value A scalar v) accum) s v.pC) (GB_GET_C C)).Cb p = 1
        ∧ ((M_accum_source A IxJ Aentries).foldl
          (fun s v => cell_step (f_fullM_accum
            (GB_GET_MIJ Mb mcast Mask_comp (GB_GET_pM assign_kind nI v))
            (M_accum_source_value A scalar v) accum) s v.pC) (GB_GET_C C)).Cx p
          = (if C.b p = 0 then M_accum_source_value A scalar v
              else accum (C.x p) (M_accum_source_value A scalar v)) := by
    intro v hv hk hm
    obtain ⟨h1, h2⟩ := e1a v hv hk
    rw [h1, h2, hb0, hx0, hm]
    rcases hb p with h | h <;> rw [h] <;> simp [f_fullM_accum]
  have hn : (∀ v, v ∈ M_accum_source A IxJ Aentries → v.pC = p →
        GB_GET_MIJ Mb mcast Mask_comp (GB_GET_pM assign_kind nI v) = false) →
      ((M_accum_source A IxJ Aentries).foldl
          (fun s v => cell_step (f_fullM_accum
            (GB_GET_MIJ Mb mcast Mask_comp (GB_GET_pM assign_kind nI v))
            (M_accum_source_value A scalar v) accum) s v.pC) (GB_GET_C C)).Cb p = C.b p
        ∧ ((M_accum_source A IxJ Aentries).foldl
          (fun s v => cell_step (f_fullM_accum
            (GB_GET_MIJ Mb mcast Mask_comp (GB_GET_pM assign_kind nI v))
            (M_accum_source_value A scalar v) accum) s v.pC) (GB_GET_C C)).Cx p = C.x p := by
    intro hno
    by_cases hsrc : ∃ v, v ∈ M_accum_source A IxJ Aentries ∧ v.pC = p
    · obtain ⟨v, hv, hk⟩ := hsrc
      obtain ⟨h1, h2⟩ := e1a v hv hk
      rw [h1, h2, hb0, hx0, hno v hv hk]
      simp [f_fullM_accum]
    · exact e1b (fun v hv hk => hsrc ⟨v, hv, hk⟩)
  cases C_replace
  · simp only [Bool.false_eq_true, if_false, finish]
    refine ⟨fun _ => ⟨hw, hn⟩, ?_⟩
    intro h
    exact absurd h (by decide)
  · obtain ⟨e2a, e2b⟩ := foldl_cell_at (fun v : Visit => v.pC)
      (fun v => f_fullM_accum_cij (V := V)
        (GB_GET_MIJ Mb mcast Mask_comp (GB_GET_pM assign_kind nI v)))
      Centries
      ((M_accum_source A IxJ Aentries).foldl
        (fun s v => cell_step (f_fullM_accum
          (GB_GET_MIJ Mb mcast Mask_comp (GB_GET_pM assign_kind nI v))
          (M_accum_source_value A scalar v) accum) s v.pC) (GB_GET_C C)) (hC rfl) p
    simp only [if_true, finish]
    refine ⟨?_, ?_⟩
    · intro hkeep
      have hsame : (Centries.foldl (fun s v => cell_step (f_fullM_accum_cij
              (GB_GET_MIJ Mb mcast Mask_comp (GB_GET_pM assign_kind nI v))) s v.pC)
            ((M_accum_source A IxJ Aentries).foldl
              (fun s v => cell_step (f_fullM_accum
                (GB_GET_MIJ Mb mcast Mask_comp (GB_GET_pM assign_kind nI v))
                (M_accum_source_value A scalar v) accum) s v.pC) (GB_GET_C C))).Cb p
            = ((M_accum_source A IxJ Aentries).foldl
              (fun s v => cell_step (f_fullM_accum
                (GB_GET_MIJ Mb mcast Mask_comp (GB_GET_pM assign_kind nI v))
                (M_accum_source_value A scalar v) accum) s v.pC) (GB_GET_C C)).Cb p
          ∧ (Centries.foldl (fun s v => cell_step (f_fullM_accum_cij
              (GB_GET_MIJ Mb mcast Mask_comp (GB_GET_pM assign_kind nI v))) s v.pC)
            ((M_accum_source A IxJ Aentries).foldl
              (fun s v => cell_step (f_fullM_accum
                (GB_GET_MIJ Mb mcast Mask_comp (GB_GET_pM assign_kind nI v))
                (M_accum_source_value A scalar v) accum) s v.pC) (GB_GET_C C))).Cx p
            = ((M_accum_source A IxJ Aentries).foldl
              (fun s v => cell_step (f_fullM_accum
                (GB_GET_MIJ Mb mcast Mask_comp (GB_GET_pM assign_kind nI v))
                (M_accum_source_value A scalar v) accum) s v.pC) (GB_GET_C C)).Cx p := by
        by_cases hin : ∃ c, c ∈ Centries ∧ c.pC = p
        · obtain ⟨c, hc, hk⟩ := hin
          obtain ⟨h3, h4⟩ := e2a c hc hk
          rw [h3, h4, hkeep trivial c hc hk]
          simp [f_fullM_accum_cij]
        · exact e2b (fun c hc hk => hin ⟨c, hc, hk⟩)
      rw [hsame.1, hsame.2]
      exact ⟨hw, hn⟩
    · intro _ c hc hk hm hno
      obtain ⟨h3, h4⟩ := e2a c hc hk
      obtain ⟨h5, h6⟩ := hn hno
      rw [h3, h4, h5, h6, hm]
      simp [f_fullM_accum_cij]

/-- C38: for a mask that is not complemented and selects the same cells,
`GB_bitmap_assign_M_accum` (general path: the entries of the sparse mask are
scattered into the bitmap as +2) and `GB_bitmap_assign_fullM_accum` (the
bitmap or full mask is tested at each cell) leave the same presence bytes,
the same values and the same `nvals`, for the same `C`, source, accumulator
and `C_replace`.  Every byte of `C` is 0 or 1 on entry; the kind of
assignment is one that both methods handle; the mask entries are distinct;
there is at most one source value per cell; under `C_replace` the region is
scanned once per cell and holds the mask entries; and the mask of the second
method is true at a visit exactly when the offset of the cell is an entry of
the mask of the first. -/
theorem GB_bitmap_assign_M_accum_agrees_with_fullM_accum {V : Type} (C : GB_Matrix_bitmap V)
    (C_replace : Bool) (nI : Nat) (IxJ : List Visit) (Mentries : List Nat)
    (Mb : Option (Nat → Int)) (mcast : Nat → Bool) (accum : V → V → V)
    (A : Option (Nat → V)) (Aentries : List Visit) (scalar : V) (assign_kind : Int)
    (Centries : List Visit)
    (hpath : ¬ (A.isNone ∧ assign_kind = GB_SUBASSIGN))
    (hkS : A = none → assign_kind = GB_ASSIGN ∨ assign_kind = GB_SUBASSIGN)
    (hkA : assign_kind = GB_ROW_ASSIGN ∨ assign_kind = GB_COL_ASSIGN
      ∨ assign_kind = GB_ASSIGN ∨ assign_kind = GB_SUBASSIGN)
    (hb : ∀ p, C.b p = 0 ∨ C.b p = 1)
    (hM : Mentries.Nodup)
    (hS : ((M_accum_source A IxJ Aentries).map fun v => v.pC).Nodup)
    (hC : C_replace = true → (Centries.map fun v => v.pC).Nodup)
    (hcov : C_replace = true → ∀ p, p ∈ Mentries → ∃ c, c ∈ Centries ∧ c.pC = p)
    (hselS : ∀ v, v ∈ M_accum_source A IxJ Aentries →
      (GB_GET_MIJ Mb mcast false (GB_GET_pM assign_kind nI v) = true ↔ v.pC ∈ Mentries))
    (hselC : ∀ c, c ∈ Centries →
      (GB_GET_MIJ Mb mcast false (GB_GET_pM assign_kind nI c) = true ↔ c.pC ∈ Mentries)) :
    (∀ p,
        (GB_bitmap_assign_M_accum C C_replace IxJ Mentries accum A Aentries scalar
            assign_kind Centries).b p
          = (GB_bitmap_assign_fullM_accum C C_replace nI IxJ Mb mcast false accum A Aentries
              scalar assign_kind Centries).b p
        ∧ (GB_bitmap_assign_M_accum C C_replace IxJ Mentries accum A Aentries scalar
            assign_kind Centries).x p
          = (GB_bitmap_assign_fullM_accum C C_replace nI IxJ Mb mcast false accum A Aentries
              scalar assign_kind Centries).x p)
      ∧ (GB_bitmap_assign_M_accum C C_replace IxJ Mentries accum A Aentries scalar
          assign_kind Centries).nvals
        = (GB_bitmap_assign_fullM_accum C C_replace nI IxJ Mb mcast false accum A Aentries
            scalar assign_kind Centries).nvals := by
  have hfalse : ∀ {b : Bool}, ¬ (b = true) → b = false := by
    intro b h
    cases b
    · rfl
    · exact absurd rfl h
  have hcells : ∀ p,
      (GB_bitmap_assign_M_accum C C_replace IxJ Mentries accum A Aentries scalar
          assign_kind Centries).b p
        = (GB_bitmap_assign_fullM_accum C C_replace nI IxJ Mb mcast false accum A Aentries
            scalar assign_kind Centries).b p
      ∧ (GB_bitmap_assign_M_accum C C_replace IxJ Mentries accum A Aentries scalar
          assign_kind Centries).x p
        = (GB_bitmap_assign_fullM_accum C C_replace nI IxJ Mb mcast false accum A Aentries
            scalar assign_kind Centries).x p := by
    intro p
    obtain ⟨g1, g2, g3, g4, g5⟩ := M_accum_cells C C_replace IxJ Mentries accum A Aentries
      scalar assign_kind Centries hpath hb hM hS hC hcov p
    obtain ⟨f1, f2⟩ := fullM_accum_cells C C_replace nI IxJ Mb mcast false accum A Aentries
      scalar assign_kind Centries hkS hkA hb hS hC p
    by_cases hp : p ∈ Mentries
    · -- a selected cell: the pass for C_replace keeps it
      obtain ⟨f1a, f1b⟩ := f1 (fun _ c hc hk => (hselC c hc).mpr (hk ▸ hp))
      by_cases hsrc : ∃ v, v ∈ M_accum_source A IxJ Aentries ∧ v.pC = p
      · obtain ⟨v, hv, hk⟩ := hsrc
        obtain ⟨a1, a2⟩ := g1 hp v hv hk
        obtain ⟨b1, b2⟩ := f1a v hv hk ((hselS v hv).mpr (hk ▸ hp))
        rw [a1, a2, b1, b2]
        exact ⟨rfl, rfl⟩
      · obtain ⟨a1, a2⟩ := g2 hp (fun v hv hk => hsrc ⟨v, hv, hk⟩)
        obtain ⟨b1, b2⟩ := f1b (fun v hv hk => absurd ⟨v, hv, hk⟩ hsrc)
        rw [a1, a2, b1, b2]
        exact ⟨rfl, rfl⟩
    · -- a cell that the mask does not select
      have hnoS : ∀ v, v ∈ M_accum_source A IxJ Aentries → v.pC = p →
          GB_GET_MIJ Mb mcast false (GB_GET_pM assign_kind nI v) = false :=
        fun v hv hk => hfalse (fun hm => hp (hk ▸ (hselS v hv).mp hm))
      have hnoC : ∀ c, c ∈ Centries → c.pC = p →
          GB_GET_MIJ Mb mcast false (GB_GET_pM assign_kind nI c) = false :=
        fun c hc hk => hfalse (fun hm => hp (hk ▸ (hselC c hc).mp hm))
      cases hr : C_replace
      · obtain ⟨a1, a2⟩ := g3 hp hr
        obtain ⟨b1, b2⟩ := (f1 (fun h => absurd (hr ▸ h) (by decide))).2 hnoS
        rw [hr] at a1 a2 b1 b2
        rw [a1, a2, b1, b2]
        exact ⟨rfl, rfl⟩
      · by_cases hin : ∃ c, c ∈ Centries ∧ c.pC = p
        · obtain ⟨c, hc, hk⟩ := hin
          obtain ⟨a1, a2⟩ := g4 hp hr ⟨c, hc, hk⟩
          obtain ⟨b1, b2⟩ := f2 hr c hc hk (hnoC c hc hk) hnoS
          rw [hr] at a1 a2 b1 b2
          rw [a1, a2, b1, b2]
          exact ⟨rfl, rfl⟩
        · obtain ⟨a1, a2⟩ := g5 hp hr (fun c hc hk => hin ⟨c, hc, hk⟩)
          obtain ⟨b1, b2⟩ := (f1 (fun _ c hc hk => absurd ⟨c, hc, hk⟩ hin)).2 hnoS
          rw [hr] at a1 a2 b1 b2
          rw [a1, a2, b1, b2]
          exact ⟨rfl, rfl⟩
  refine ⟨hcells, ?_⟩
  obtain ⟨n, hn⟩ := exists_bound
    (Mentries ++ IxJ.map (fun v => v.pC) ++ Aentries.map (fun v => v.pC)
      ++ Centries.map (fun v => v.pC))
  have hMn : ∀ p, p ∈ Mentries → p < n := fun p hp => hn p (by simp [hp])
  have hIn : ∀ v, v ∈ IxJ → v.pC < n := fun v hv =>
    hn v.pC (by simp only [List.mem_append, List.mem_map]; exact Or.inl (Or.inl (Or.inr ⟨v, hv, rfl⟩)))
  have hAn : ∀ v, v ∈ Aentries → v.pC < n := fun v hv =>
    hn v.pC (by simp only [List.mem_append, List.mem_map]; exact Or.inl (Or.inr ⟨v, hv, rfl⟩))
  have hCn : ∀ v, v ∈ Centries → v.pC < n := fun v hv =>
    hn v.pC (by simp only [List.mem_append, List.mem_map]; exact Or.inr ⟨v, hv, rfl⟩)
  obtain ⟨-, k1⟩ := M_accum_core_path n C C_replace IxJ Mentries accum A Aentries scalar
    assign_kind Centries hb hM hMn hIn hAn hCn (fun _ h => absurd h hpath)
    (fun hr _ => hcov hr)
  obtain ⟨-, k2⟩ := fullM_accum_core n C C_replace nI IxJ Mb mcast false accum A Aentries
    scalar assign_kind Centries hb hIn hAn hCn
  exact nvals_eq_of_bytes_eq n _ _ _ k1 k2 (fun p => (hcells p).1)

theorem GB_bitmap_assign_M_accum_agrees_with_fullM_accum_witness :
    (GB_bitmap_assign_M_accum
        ({ b := fun p => if p = 1 then 1 else 0, x := fun _ => 10, nvals := 1 } :
          GB_Matrix_bitmap Int) true
        (IxJ_all 2 2) [0, 1] (fun a b => a + b) none [] 7 GB_ASSIGN (IxJ_all 2 2)).nvals
      = (GB_bitmap_assign_fullM_accum
          ({ b := fun p => if p = 1 then 1 else 0, x := fun _ => 10, nvals := 1 } :
            GB_Matrix_bitmap Int) true 2
          (IxJ_all 2 2) (some fun p => if p < 2 then 1 else 0) GB_mcast_structural false
          (fun a b => a + b) none [] 7 GB_ASSIGN (IxJ_all 2 2)).nvals
      ∧ (GB_bitmap_assign_fullM_accum
          ({ b := fun p => if p = 1 then 1 else 0, x := fun _ => 10, nvals := 1 } :
            GB_Matrix_bitmap Int) true 2
          (IxJ_all 2 2) (some fun p => if p < 2 then 1 else 0) GB_mcast_structural false
          (fun a b => a + b) none [] 7 GB_ASSIGN (IxJ_all 2 2)).x 1 = 17 := by
  have h := GB_bitmap_assign_M_accum_agrees_with_fullM_accum
    ({ b := fun p => if p = 1 then 1 else 0, x := fun _ => 10, nvals := 1 } :
      GB_Matrix_bitmap Int) true 2
    (IxJ_all 2 2) [0, 1] (some fun p => if p < 2 then 1 else 0) GB_mcast_structural
    (fun a b => a + b) none [] 7 GB_ASSIGN (IxJ_all 2 2)
    (by decide) (fun _ => Or.inl rfl) (Or.inr (Or.inr (Or.inl rfl)))
    (fun p => by by_cases h : p = 1 <;> simp [h]) (by decide) (by decide)
    (fun _ => by decide) (fun _ => by decide) (by decide) (by decide)
  refine ⟨h.2, ?_⟩
  rw [← (h.1 1).2]
  exact ((M_accum_cells
    ({ b := fun p => if p = 1 then 1 else 0, x := fun _ => 10, nvals := 1 } :
      GB_Matrix_bitmap Int) true
    (IxJ_all 2 2) [0, 1] (fun a b => a + b) none [] 7 GB_ASSIGN (IxJ_all 2 2)
    (by decide) (fun p => by by_cases h : p = 1 <;> simp [h]) (by decide) (by decide)
    (fun _ => by decide) (fun _ => by decide) 1).1 (by decide) ⟨1, 0, 1, 0, 1, 0⟩
    (by decide) rfl).2

/-! ### GB_bitmap_assign_fullM_noaccum with a matrix source, cell by cell -/

/-- The function `GB_bitmap_assign_fullM_noaccum` with a matrix source as passes
over cells. -/
theorem GB_bitmap_assign_fullM_noaccum_matrix {V : Type} (C : GB_Matrix_bitmap V)
    (C_replace : Bool) (nI : Nat) (IxJ : List Visit) (Mb : Option (Nat → Int))
    (mcast : Nat → Bool) (Mask_comp : Bool) (Ax : Nat → V) (Aentries : List Visit)
    (scalar : V) (assign_kind : Int) (Centries : List Visit)
    (hkA : assign_kind = GB_ROW_ASSIGN ∨ assign_kind = GB_COL_ASSIGN
      ∨ assign_kind = GB_ASSIGN ∨ assign_kind = GB_SUBASSIGN) :
    GB_bitmap_assign_fullM_noaccum C C_replace nI IxJ Mb mcast Mask_comp (some Ax) Aentries
        scalar assign_kind Centries
      = finish (if C_replace = true then
          Aentries.foldl (fun s v => cell_step (f_fullM_noaccum
              (GB_GET_MIJ Mb mcast Mask_comp (GB_GET_pM assign_kind nI v)) 1 (Ax v.pA)) s v.pC)
            (Centries.foldl (fun s v => cell_step f_fullM_noaccum_replace s v.pC) (GB_GET_C C))
        else
          Centries.foldl (fun s v => cell_step (f_fullM_noaccum_cij
              (GB_GET_MIJ Mb mcast Mask_comp (GB_GET_pM assign_kind nI v))) s v.pC)
            (Aentries.foldl (fun s v => cell_step (f_fullM_noaccum
              (GB_GET_MIJ Mb mcast Mask_comp (GB_GET_pM assign_kind nI v)) 4 (Ax v.pA)) s v.pC)
              (GB_GET_C C))) := by
  have hA : ∀ (pM_of : Visit → Nat) (keep : Int),
      fullM_noaccum_AIJ_WORK Mb mcast Mask_comp pM_of keep Ax
        = fun s v => cell_step (f_fullM_noaccum (GB_GET_MIJ Mb mcast Mask_comp (pM_of v))
            keep (Ax v.pA)) s v.pC :=
    fun pM_of keep => funext fun s => funext fun v =>
      fullM_noaccum_AIJ_WORK_eq Mb mcast Mask_comp pM_of keep Ax s v
  have hR : ∀ mask : Visit → Bool,
      (fun (s : Work V) (v : Visit) => fullM_noaccum_CIJ_WORK_replace s (mask v) v.pC)
        = fun s v => cell_step f_fullM_noaccum_replace s v.pC :=
    fun mask => funext fun s => funext fun v =>
      fullM_noaccum_CIJ_WORK_replace_eq s (mask v) v.pC
  have hCc : ∀ mask : Visit → Bool,
      (fun (s : Work V) (v : Visit) => fullM_noaccum_CIJ_WORK s (mask v) v.pC)
        = fun s v => cell_step (f_fullM_noaccum_cij (mask v)) s v.pC :=
    fun mask => funext fun s => funext fun v => fullM_noaccum_CIJ_WORK_eq s (mask v) v.pC
  obtain ⟨n1, n2, n3, n4, n5, n6⟩ := assign_kinds_ne
  unfold GB_bitmap_assign_fullM_noaccum
  simp only [GB_bitmap_assign_A_template, GB_bitmap_assign_C_template, hA, hR, hCc]
  cases C_replace
  · simp only [Bool.false_eq_true, if_false, Bool.not_false, if_true]
    rcases hkA with h | h | h | h <;> subst h
    · simp only [GB_GET_pM_row, if_true]
    · simp only [GB_GET_pM_col, if_neg n1, if_true]
    · simp only [GB_GET_pM_assign, if_neg n2, if_neg n3, if_true]
    · simp only [GB_GET_pM_subassign, if_neg n4, if_neg n5, if_neg n6, if_true]
  · simp only [Bool.not_true, Bool.false_eq_true, if_false, if_true]
    rcases hkA with h | h | h | h <;> subst h
    · simp only [GB_GET_pM_row, if_true]
    · simp only [GB_GET_pM_col, if_neg n1, if_true]
    · simp only [GB_GET_pM_assign, if_neg n2, if_neg n3, if_true]
    · simp only [GB_GET_pM_subassign, if_neg n4, if_neg n5, if_neg n6, if_true]

/-- C31: `GB_bitmap_assign_fullM_noaccum` with a matrix source `A`, every byte of `C`
being 0 or 1 on entry.  For a cell `c` of the assigned region: if the
effective value of the mask at `c` is true, the cell ends present with the
value of `A` when `A` has an entry mapped to it, and absent when `A` has
none; if it is false, the cell ends absent under `C_replace` and is left as
it was (byte and value) otherwise.  The kind of assignment is one of the
four; `A` has at most one entry per cell, the region is scanned once per
cell, and an entry of `A` sees the same mask value as the cell of the region
it is mapped to. -/
theorem GB_bitmap_assign_fullM_noaccum_matrix_cells {V : Type} (C : GB_Matrix_bitmap V)
    (C_replace : Bool) (nI : Nat) (IxJ : List Visit) (Mb : Option (Nat → Int))
    (mcast : Nat → Bool) (Mask_comp : Bool) (Ax : Nat → V) (Aentries : List Visit)
    (scalar : V) (assign_kind : Int) (Centries : List Visit)
    (hkA : assign_kind = GB_ROW_ASSIGN ∨ assign_kind = GB_COL_ASSIGN
      ∨ assign_kind = GB_ASSIGN ∨ assign_kind = GB_SUBASSIGN)
    (hb : ∀ p, C.b p = 0 ∨ C.b p = 1)
    (hA : (Aentries.map fun v => v.pC).Nodup)
    (hC : (Centries.map fun v => v.pC).Nodup)
    (hcons : ∀ v, v ∈ Aentries → ∀ c, c ∈ Centries → v.pC = c.pC →
      GB_GET_MIJ Mb mcast Mask_comp (GB_GET_pM assign_kind nI v)
        = GB_GET_MIJ Mb mcast Mask_comp (GB_GET_pM assign_kind nI c))
    (c : Visit) (hc : c ∈ Centries) :
    (GB_GET_MIJ Mb mcast Mask_comp (GB_GET_pM assign_kind nI c) = true →
        ∀ v, v ∈ Aentries → v.pC = c.pC →
        (GB_bitmap_assign_fullM_noaccum C C_replace nI IxJ Mb mcast Mask_comp (some Ax)
            Aentries scalar assign_kind Centries).b c.pC = 1
          ∧ (GB_bitmap_assign_fullM_noaccum C C_replace nI IxJ Mb mcast Mask_comp (some Ax)
              Aentries scalar assign_kind Centries).x c.pC = Ax v.pA)
      ∧ (GB_GET_MIJ Mb mcast Mask_comp (GB_GET_pM assign_kind nI c) = true →
        (∀ v, v ∈ Aentries → v.pC ≠ c.pC) →
        (GB_bitmap_assign_fullM_noaccum C C_replace nI IxJ Mb mcast Mask_comp (some Ax)
            Aentries scalar assign_kind Centries).b c.pC = 0
          ∧ (GB_bitmap_assign_fullM_noaccum C C_replace nI IxJ Mb mcast Mask_comp (some Ax)
              Aentries scalar assign_kind Centries).x c.pC = C.x c.pC)
      ∧ (GB_GET_MIJ Mb mcast Mask_comp (GB_GET_pM assign_kind nI c) = false →
        C_replace = true →
        (GB_bitmap_assign_fullM_noaccum C C_replace nI IxJ Mb mcast Mask_comp (some Ax)
            Aentries scalar assign_kind Centries).b c.pC = 0
          ∧ (GB_bitmap_assign_fullM_noaccum C C_replace nI IxJ Mb mcast Mask_comp (some Ax)
              Aentries scalar assign_kind Centries).x c.pC = C.x c.pC)
      ∧ (GB_GET_MIJ Mb mcast Mask_comp (GB_GET_pM assign_kind nI c) = false →
        C_replace = false →
        (GB_bitmap_assign_fullM_noaccum C C_replace nI IxJ Mb mcast Mask_comp (some Ax)
            Aentries scalar assign_kind Centries).b c.pC = C.b c.pC
          ∧ (GB_bitmap_assign_fullM_noaccum C C_replace nI IxJ Mb mcast Mask_comp (some Ax)
              Aentries scalar assign_kind Centries).x c.pC = C.x c.pC) := by
  rw [GB_bitmap_assign_fullM_noaccum_matrix C C_replace nI IxJ Mb mcast Mask_comp Ax Aentries
    scalar assign_kind Centries hkA]
  have hb0 : (GB_GET_C C).Cb c.pC = C.b c.pC := rfl
  have hx0 : (GB_GET_C C).Cx c.pC = C.x c.pC := rfl
  cases C_replace
  · -- the entries of A are marked with 4, then the region is scanned
    obtain ⟨e1a, e1b⟩ := foldl_cell_at (fun v : Visit => v.pC)
      (fun v => f_fullM_noaccum (GB_GET_MIJ Mb mcast Mask_comp (GB_GET_pM assign_kind nI v))
        4 (Ax v.pA)) Aentries (GB_GET_C C) hA c.pC
    obtain ⟨e2a, -⟩ := foldl_cell_at (fun v : Visit => v.pC)
      (fun v => f_fullM_noaccum_cij (V := V)
        (GB_GET_MIJ Mb mcast Mask_comp (GB_GET_pM assign_kind nI v))) Centries
      (Aentries.foldl (fun s v => cell_step (f_fullM_noaccum
        (GB_GET_MIJ Mb mcast Mask_comp (GB_GET_pM assign_kind nI v)) 4 (Ax v.pA)) s v.pC)
        (GB_GET_C C)) hC c.pC
    obtain ⟨h3, h4⟩ := e2a c hc rfl
    simp only [Bool.false_eq_true, if_false, finish]
    rw [h3, h4]
    refine ⟨?_, ?_, ?_, ?_⟩
    · intro hm v hv hk
      obtain ⟨h1, h2⟩ := e1a v hv hk
      rw [h1, h2, hcons v hv c hc hk, hm]
      simp [f_fullM_noaccum_cij, f_fullM_noaccum]
    · intro hm hno
      obtain ⟨h1, h2⟩ := e1b hno
      rw [h1, h2, hb0, hx0, hm]
      rcases hb c.pC with h | h <;> rw [h] <;> simp [f_fullM_noaccum_cij]
    · intro _ h
      exact absurd h (by decide)
    · intro hm _
      rw [hm]
      by_cases hsrc : ∃ v, v ∈ Aentries ∧ v.pC = c.pC
      · obtain ⟨v, hv, hk⟩ := hsrc
        obtain ⟨h1, h2⟩ := e1a v hv hk
        rw [h1, h2, hcons v hv c hc hk, hm, hb0, hx0]
        simp [f_fullM_noaccum_cij, f_fullM_noaccum]
      · obtain ⟨h1, h2⟩ := e1b (fun v hv hk => hsrc ⟨v, hv, hk⟩)
        rw [h1, h2, hb0, hx0]
        simp [f_fullM_noaccum_cij]
  · -- the region is cleared, then the entries of A are written
    obtain ⟨e1a, -⟩ := foldl_cell_at (fun v : Visit => v.pC)
      (fun _ => f_fullM_noaccum_replace (V := V)) Centries (GB_GET_C C) hC c.pC
    obtain ⟨e2a, e2b⟩ := foldl_cell_at (fun v : Visit => v.pC)
      (fun v => f_fullM_noaccum (GB_GET_MIJ Mb mcast Mask_comp (GB_GET_pM assign_kind nI v))
        1 (Ax v.pA)) Aentries
      (Centries.foldl (fun s v => cell_step f_fullM_noaccum_replace s v.pC) (GB_GET_C C))
      hA c.pC
    obtain ⟨h1, h2⟩ := e1a c hc rfl
    simp only [if_true, finish]
    refine ⟨?_, ?_, ?_, ?_⟩
    · intro hm v hv hk
      obtain ⟨h3, h4⟩ := e2a v hv hk
      rw [h3, h4, hcons v hv c hc hk, hm]
      simp [f_fullM_noaccum]
    · intro _ hno
      obtain ⟨h3, h4⟩ := e2b hno
      rw [h3, h4, h1, h2, hx0]
      simp [f_fullM_noaccum_replace]
    · intro hm _
      by_cases hsrc : ∃ v, v ∈ Aentries ∧ v.pC = c.pC
      · obtain ⟨v, hv, hk⟩ := hsrc
        obtain ⟨h3, h4⟩ := e2a v hv hk
        rw [h3, h4, hcons v hv c hc hk, hm, h1, h2, hx0]
        simp [f_fullM_noaccum, f_fullM_noaccum_replace]
      · obtain ⟨h3, h4⟩ := e2b (fun v hv hk => hsrc ⟨v, hv, hk⟩)
        rw [h3, h4, h1, h2, hx0]
        simp [f_fullM_noaccum_replace]
    · intro _ h
      exact absurd h (by decide)

theorem GB_bitmap_assign_fullM_noaccum_matrix_cells_witness :
    (GB_bitmap_assign_fullM_noaccum
        ({ b := fun p => if p = 1 then 1 else 0, x := fun _ => 10, nvals := 1 } :
          GB_Matrix_bitmap Int) false 2
        (IxJ_all 2 2) (some fun p => if p < 2 then 1 else 0) GB_mcast_structural false
        (some fun _ => 5) [⟨0, 0, 0, 0, 0, 0⟩] 0 GB_ASSIGN (IxJ_all 2 2)).b 0 = 1
      ∧ (GB_bitmap_assign_fullM_noaccum
          ({ b := fun p => if p = 1 then 1 else 0, x := fun _ => 10, nvals := 1 } :
            GB_Matrix_bitmap Int) false 2
          (IxJ_all 2 2) (some fun p => if p < 2 then 1 else 0) GB_mcast_structural false
          (some fun _ => 5) [⟨0, 0, 0, 0, 0, 0⟩] 0 GB_ASSIGN (IxJ_all 2 2)).x 0 = 5 := by
  exact (GB_bitmap_assign_fullM_noaccum_matrix_cells
    ({ b := fun p => if p = 1 then 1 else 0, x := fun _ => 10, nvals := 1 } :
      GB_Matrix_bitmap Int) false 2
    (IxJ_all 2 2) (some fun p => if p < 2 then 1 else 0) GB_mcast_structural false
    (fun _ => 5) [⟨0, 0, 0, 0, 0, 0⟩] 0 GB_ASSIGN (IxJ_all 2 2)
    (Or.inr (Or.inr (Or.inl rfl)))
    (fun p => by by_cases h : p = 1 <;> simp [h]) (by decide) (by decide) (by decide)
    ⟨0, 0, 0, 0, 0, 0⟩ (by decide)).1 (by decide) ⟨0, 0, 0, 0, 0, 0⟩ (by decide) rfl

end Bitmap

namespace Semiring

/-- Bitwise or of a multiple of `2 ^ i` with a value below `2 ^ i` is their sum. -/
theorem lor_add (a b i : Nat) (ha : a % 2 ^ i = 0) (hb : b < 2 ^ i) : a ||| b = a + b := by
  have h : a = 2 ^ i * (a / 2 ^ i) := by
    have := Nat.div_add_mod a (2 ^ i)
    omega
  rw [h]
  exact (Nat.mul_add_lt_is_or hb _).symm

/-- A field in range is shifted without loss. -/
theorem LSHIFT_eq (x : Int) (k : Nat) (n : Nat) (hx : x = n) (hn : n < 256) (hk : k ≤ 55) :
    LSHIFT x k = n * 2 ^ k := by
  subst hx
  unfold LSHIFT uint64_cast
  have h1 : ((n : Int) % 18446744073709551616).toNat = n := by omega
  rw [h1, Nat.shiftLeft_eq]
  apply Nat.mod_eq_of_lt
  calc n * 2 ^ k < 256 * 2 ^ k := Nat.mul_lt_mul_of_pos_right hn (Nat.two_pow_pos k)
    _ ≤ 256 * 2 ^ 55 := Nat.mul_le_mul_left 256 (Nat.pow_le_pow_right (by decide) hk)
    _ ≤ 18446744073709551616 := by norm_num

/-- The bitwise combination of sixteen fields in range is the sum of the shifted
fields. -/
theorem lor_fields (a0 a1 a2 a3 a4 a5 a6 a7 a8 a9 a10 a11 a12 a13 a14 a15 : Nat)
    (h1 : a1 ≤ 31) (h2 : a2 ≤ 31) (h3 : a3 ≤ 139) (h4 : a4 ≤ 1) (h5 : a5 ≤ 14) (h6 : a6 ≤ 14) (h7 : a7 ≤ 14)
    (h8 : a8 ≤ 13) (h9 : a9 ≤ 14) (h10 : a10 ≤ 14) (h11 : a11 ≤ 14) (h12 : a12 ≤ 3) (h13 : a13 ≤ 3) (h14 : a14 ≤ 3) (h15 : a15 ≤ 3) :
    a0 * 2 ^ 55 |||
    a1 * 2 ^ 50 |||
    a2 * 2 ^ 45 |||
    a3 * 2 ^ 37 |||
    a4 * 2 ^ 36 |||
    a5 * 2 ^ 32 |||
    a6 * 2 ^ 28 |||
    a7 * 2 ^ 24 |||
    a8 * 2 ^ 20 |||
    a9 * 2 ^ 16 |||
    a10 * 2 ^ 12 |||
    a11 * 2 ^ 8 |||
    a12 * 2 ^ 6 |||
    a13 * 2 ^ 4 |||
    a14 * 2 ^ 2 |||
    a15 * 2 ^ 0
    = a0 * 2 ^ 55 +
    a1 * 2 ^ 50 +
    a2 * 2 ^ 45 +
    a3 * 2 ^ 37 +
    a4 * 2 ^ 36 +
    a5 * 2 ^ 32 +
    a6 * 2 ^ 28 +
    a7 * 2 ^ 24 +
    a8 * 2 ^ 20 +
    a9 * 2 ^ 16 +
    a10 * 2 ^ 12 +
    a11 * 2 ^ 8 +
    a12 * 2 ^ 6 +
    a13 * 2 ^ 4 +
    a14 * 2 ^ 2 +
    a15 * 2 ^ 0 := by
  have e1 : (a0 * 2 ^ 55) ||| a1 * 2 ^ 50 = a0 * 2 ^ 55 + a1 * 2 ^ 50 :=
    lor_add _ _ 55 (by omega) (by omega)
  have e2 : (a0 * 2 ^ 55 + a1 * 2 ^ 50) ||| a2 * 2 ^ 45 = a0 * 2 ^ 55 + a1 * 2 ^ 50 + a2 * 2 ^ 45 :=
    lor_add _ _ 50 (by omega) (by omega)
  have e3 : (a0 * 2 ^ 55 + a1 * 2 ^ 50 + a2 * 2 ^ 45) ||| a3 * 2 ^ 37 = a0 * 2 ^ 55 + a1 * 2 ^ 50 + a2 * 2 ^ 45 + a3 * 2 ^ 37 :=
    lor_add _ _ 45 (by omega) (by omega)
  have e4 : (a0 * 2 ^ 55 + a1 * 2 ^ 50 + a2 * 2 ^ 45 + a3 * 2 ^ 37) ||| a4 * 2 ^ 36 = a0 * 2 ^ 55 + a1 * 2 ^ 50 + a2 * 2 ^ 45 + a3 * 2 ^ 37 + a4 * 2 ^ 36 :=
    lor_add _ _ 37 (by omega) (by omega)
  have e5 : (a0 * 2 ^ 55 + a1 * 2 ^ 50 + a2 * 2 ^ 45 + a3 * 2 ^ 37 + a4 * 2 ^ 36) ||| a5 * 2 ^ 32 = a0 * 2 ^ 55 + a1 * 2 ^ 50 + a2 * 2 ^ 45 + a3 * 2 ^ 37 + a4 * 2 ^ 36 + a5 * 2 ^ 32 :=
    lor_add _ _ 36 (by omega) (by omega)
  have e6 : (a0 * 2 ^ 55 + a1 * 2 ^ 50 + a2 * 2 ^ 45 + a3 * 2 ^ 37 + a4 * 2 ^ 36 + a5 * 2 ^ 32) ||| a6 * 2 ^ 28 = a0 * 2 ^ 55 + a1 * 2 ^ 50 + a2 * 2 ^ 45 + a3 * 2 ^ 37 + a4 * 2 ^ 36 + a5 * 2 ^ 32 + a6 * 2 ^ 28 :=
    lor_add _ _ 32 (by omega) (by omega)
  have e7 : (a0 * 2 ^ 55 + a1 * 2 ^ 50 + a2 * 2 ^ 45 + a3 * 2 ^ 37 + a4 * 2 ^ 36 + a5 * 2 ^ 32 + a6 * 2 ^ 28) ||| a7 * 2 ^ 24 = a0 * 2 ^ 55 + a1 * 2 ^ 50 + a2 * 2 ^ 45 + a3 * 2 ^ 37 + a4 * 2 ^ 36 + a5 * 2 ^ 32 + a6 * 2 ^ 28 + a7 * 2 ^ 24 :=
    lor_add _ _ 28 (by omega) (by omega)
  have e8 : (a0 * 2 ^ 55 + a1 * 2 ^ 50 + a2 * 2 ^ 45 + a3 * 2 ^ 37 + a4 * 2 ^ 36 + a5 * 2 ^ 32 + a6 * 2 ^ 28 + a7 * 2 ^ 24) ||| a8 * 2 ^ 20 = a0 * 2 ^ 55 + a1 * 2 ^ 50 + a2 * 2 ^ 45 + a3 * 2 ^ 37 + a4 * 2 ^ 36 + a5 * 2 ^ 32 + a6 * 2 ^ 28 + a7 * 2 ^ 24 + a8 * 2 ^ 20 :=
    lor_add _ _ 24 (by omega) (by omega)
  have e9 : (a0 * 2 ^ 55 + a1 * 2 ^ 50 + a2 * 2 ^ 45 + a3 * 2 ^ 37 + a4 * 2 ^ 36 + a5 * 2 ^ 32 + a6 * 2 ^ 28 + a7 * 2 ^ 24 + a8 * 2 ^ 20) ||| a9 * 2 ^ 16 = a0 * 2 ^ 55 + a1 * 2 ^ 50 + a2 * 2 ^ 45 + a3 * 2 ^ 37 + a4 * 2 ^ 36 + a5 * 2 ^ 32 + a6 * 2 ^ 28 + a7 * 2 ^ 24 + a8 * 2 ^ 20 + a9 * 2 ^ 16 :=
    lor_add _ _ 20 (by omega) (by omega)
  have e10 : (a0 * 2 ^ 55 + a1 * 2 ^ 50 + a2 * 2 ^ 45 + a3 * 2 ^ 37 + a4 * 2 ^ 36 + a5 * 2 ^ 32 + a6 * 2 ^ 28 + a7 * 2 ^ 24 + a8 * 2 ^ 20 + a9 * 2 ^ 16) ||| a10 * 2 ^ 12 = a0 * 2 ^ 55 + a1 * 2 ^ 50 + a2 * 2 ^ 45 + a3 * 2 ^ 37 + a4 * 2 ^ 36 + a5 * 2 ^ 32 + a6 * 2 ^ 28 + a7 * 2 ^ 24 + a8 * 2 ^ 20 + a9 * 2 ^ 16 + a10 * 2 ^ 12 :=
    lor_add _ _ 16 (by omega) (by omega)
  have e11 : (a0 * 2 ^ 55 + a1 * 2 ^ 50 + a2 * 2 ^ 45 + a3 * 2 ^ 37 + a4 * 2 ^ 36 + a5 * 2 ^ 32 + a6 * 2 ^ 28 + a7 * 2 ^ 24 + a8 * 2 ^ 20 + a9 * 2 ^ 16 + a10 * 2 ^ 12) ||| a11 * 2 ^ 8 = a0 * 2 ^ 55 + a1 * 2 ^ 50 + a2 * 2 ^ 45 + a3 * 2 ^ 37 + a4 * 2 ^ 36 + a5 * 2 ^ 32 + a6 * 2 ^ 28 + a7 * 2 ^ 24 + a8 * 2 ^ 20 + a9 * 2 ^ 16 + a10 * 2 ^ 12 + a11 * 2 ^ 8 :=
    lor_add _ _ 12 (by omega) (by omega)
  have e12 : (a0 * 2 ^ 55 + a1 * 2 ^ 50 + a2 * 2 ^ 45 + a3 * 2 ^ 37 + a4 * 2 ^ 36 + a5 * 2 ^ 32 + a6 * 2 ^ 28 + a7 * 2 ^ 24 + a8 * 2 ^ 20 + a9 * 2 ^ 16 + a10 * 2 ^ 12 + a11 * 2 ^ 8) ||| a12 * 2 ^ 6 = a0 * 2 ^ 55 + a1 * 2 ^ 50 + a2 * 2 ^ 45 + a3 * 2 ^ 37 + a4 * 2 ^ 36 + a5 * 2 ^ 32 + a6 * 2 ^ 28 + a7 * 2 ^ 24 + a8 * 2 ^ 20 + a9 * 2 ^ 16 + a10 * 2 ^ 12 + a11 * 2 ^ 8 + a12 * 2 ^ 6 :=
    lor_add _ _ 8 (by omega) (by omega)
  have e13 : (a0 * 2 ^ 55 + a1 * 2 ^ 50 + a2 * 2 ^ 45 + a3 * 2 ^ 37 + a4 * 2 ^ 36 + a5 * 2 ^ 32 + a6 * 2 ^ 28 + a7 * 2 ^ 24 + a8 * 2 ^ 20 + a9 * 2 ^ 16 + a10 * 2 ^ 12 + a11 * 2 ^ 8 + a12 * 2 ^ 6) ||| a13 * 2 ^ 4 = a0 * 2 ^ 55 + a1 * 2 ^ 50 + a2 * 2 ^ 45 + a3 * 2 ^ 37 + a4 * 2 ^ 36 + a5 * 2 ^ 32 + a6 * 2 ^ 28 + a7 * 2 ^ 24 + a8 * 2 ^ 20 + a9 * 2 ^ 16 + a10 * 2 ^ 12 + a11 * 2 ^ 8 + a12 * 2 ^ 6 + a13 * 2 ^ 4 :=
    lor_add _ _ 6 (by omega) (by omega)
  have e14 : (a0 * 2 ^ 55 + a1 * 2 ^ 50 + a2 * 2 ^ 45 + a3 * 2 ^ 37 + a4 * 2 ^ 36 + a5 * 2 ^ 32 + a6 * 2 ^ 28 + a7 * 2 ^ 24 + a8 * 2 ^ 20 + a9 * 2 ^ 16 + a10 * 2 ^ 12 + a11 * 2 ^ 8 + a12 * 2 ^ 6 + a13 * 2 ^ 4) ||| a14 * 2 ^ 2 = a0 * 2 ^ 55 + a1 * 2 ^ 50 + a2 * 2 ^ 45 + a3 * 2 ^ 37 + a4 * 2 ^ 36 + a5 * 2 ^ 32 + a6 * 2 ^ 28 + a7 * 2 ^ 24 + a8 * 2 ^ 20 + a9 * 2 ^ 16 + a10 * 2 ^ 12 + a11 * 2 ^ 8 + a12 * 2 ^ 6 + a13 * 2 ^ 4 + a14 * 2 ^ 2 :=
    lor_add _ _ 4 (by omega) (by omega)
  have e15 : (a0 * 2 ^ 55 + a1 * 2 ^ 50 + a2 * 2 ^ 45 + a3 * 2 ^ 37 + a4 * 2 ^ 36 + a5 * 2 ^ 32 + a6 * 2 ^ 28 + a7 * 2 ^ 24 + a8 * 2 ^ 20 + a9 * 2 ^ 16 + a10 * 2 ^ 12 + a11 * 2 ^ 8 + a12 * 2 ^ 6 + a13 * 2 ^ 4 + a14 * 2 ^ 2) ||| a15 * 2 ^ 0 = a0 * 2 ^ 55 + a1 * 2 ^ 50 + a2 * 2 ^ 45 + a3 * 2 ^ 37 + a4 * 2 ^ 36 + a5 * 2 ^ 32 + a6 * 2 ^ 28 + a7 * 2 ^ 24 + a8 * 2 ^ 20 + a9 * 2 ^ 16 + a10 * 2 ^ 12 + a11 * 2 ^ 8 + a12 * 2 ^ 6 + a13 * 2 ^ 4 + a14 * 2 ^ 2 + a15 * 2 ^ 0 :=
    lor_add _ _ 2 (by omega) (by omega)
  rw [e1, e2, e3, e4, e5, e6, e7, e8, e9, e10, e11, e12, e13, e14, e15]

/-- A value of a field in range, as a natural number. -/
theorem nat_of_range (x : Int) (m : Nat) (l : 0 ≤ x) (u : x ≤ m) :
    ∃ n : Nat, x = n ∧ n ≤ m :=
  ⟨x.toNat, by omega, by omega⟩

/-- The `scode` of fields in range is the sum of the fields, each at its
position. -/
theorem scode_of_eq_sum (f : Fields) (a0 a1 a2 a3 a4 a5 a6 a7 a8 a9 a10 a11 a12 a13 a14 a15 : Nat)
    (e0 : f.add_ecode = a0)
    (e1 : f.id_ecode = a1)
    (e2 : f.term_ecode = a2)
    (e3 : f.mult_ecode = a3)
    (e4 : f.flipxy = a4)
    (e5 : f.zcode = a5)
    (e6 : f.xcode = a6)
    (e7 : f.ycode = a7)
    (e8 : f.mask_ecode = a8)
    (e9 : f.ccode = a9)
    (e10 : f.acode = a10)
    (e11 : f.bcode = a11)
    (e12 : f.csparsity = a12)
    (e13 : f.msparsity = a13)
    (e14 : f.asparsity = a14)
    (e15 : f.bsparsity = a15)
    (h0 : a0 ≤ 22) (h1 : a1 ≤ 31) (h2 : a2 ≤ 31) (h3 : a3 ≤ 139) (h4 : a4 ≤ 1) (h5 : a5 ≤ 14) (h6 : a6 ≤ 14) (h7 : a7 ≤ 14)
    (h8 : a8 ≤ 13) (h9 : a9 ≤ 14) (h10 : a10 ≤ 14) (h11 : a11 ≤ 14) (h12 : a12 ≤ 3) (h13 : a13 ≤ 3) (h14 : a14 ≤ 3) (h15 : a15 ≤ 3) :
    scode_of f =
    a0 * 2 ^ 55 +
    a1 * 2 ^ 50 +
    a2 * 2 ^ 45 +
    a3 * 2 ^ 37 +
    a4 * 2 ^ 36 +
    a5 * 2 ^ 32 +
    a6 * 2 ^ 28 +
    a7 * 2 ^ 24 +
    a8 * 2 ^ 20 +
    a9 * 2 ^ 16 +
    a10 * 2 ^ 12 +
    a11 * 2 ^ 8 +
    a12 * 2 ^ 6 +
    a13 * 2 ^ 4 +
    a14 * 2 ^ 2 +
    a15 * 2 ^ 0 := by
  unfold scode_of
  rw [LSHIFT_eq f.add_ecode 55 a0 e0 (by omega) (by norm_num),
    LSHIFT_eq f.id_ecode 50 a1 e1 (by omega) (by norm_num),
    LSHIFT_eq f.term_ecode 45 a2 e2 (by omega) (by norm_num),
    LSHIFT_eq f.mult_ecode 37 a3 e3 (by omega) (by norm_num),
    LSHIFT_eq f.flipxy 36 a4 e4 (by omega) (by norm_num),
    LSHIFT_eq f.zcode 32 a5 e5 (by omega) (by norm_num),
    LSHIFT_eq f.xcode 28 a6 e6 (by omega) (by norm_num),
    LSHIFT_eq f.ycode 24 a7 e7 (by omega) (by norm_num),
    LSHIFT_eq f.mask_ecode 20 a8 e8 (by omega) (by norm_num),
    LSHIFT_eq f.ccode 16 a9 e9 (by omega) (by norm_num),
    LSHIFT_eq f.acode 12 a10 e10 (by omega) (by norm_num),
    LSHIFT_eq f.bcode 8 a11 e11 (by omega) (by norm_num),
    LSHIFT_eq f.csparsity 6 a12 e12 (by omega) (by norm_num),
    LSHIFT_eq f.msparsity 4 a13 e13 (by omega) (by norm_num),
    LSHIFT_eq f.asparsity 2 a14 e14 (by omega) (by norm_num),
    LSHIFT_eq f.bsparsity 0 a15 e15 (by omega) (by norm_num)]
  exact lor_fields a0 a1 a2 a3 a4 a5 a6 a7 a8 a9 a10 a11 a12 a13 a14 a15 h1 h2 h3 h4 h5 h6 h7 h8 h9 h10 h11 h12 h13 h14 h15

/-- The sum of sixteen fields in range is below `2 ^ 60`. -/
theorem sum_lt (a0 a1 a2 a3 a4 a5 a6 a7 a8 a9 a10 a11 a12 a13 a14 a15 : Nat)
    (h0 : a0 ≤ 22) (h1 : a1 ≤ 31) (h2 : a2 ≤ 31) (h3 : a3 ≤ 139) (h4 : a4 ≤ 1) (h5 : a5 ≤ 14) (h6 : a6 ≤ 14) (h7 : a7 ≤ 14)
    (h8 : a8 ≤ 13) (h9 : a9 ≤ 14) (h10 : a10 ≤ 14) (h11 : a11 ≤ 14) (h12 : a12 ≤ 3) (h13 : a13 ≤ 3) (h14 : a14 ≤ 3) (h15 : a15 ≤ 3) :
    a0 * 2 ^ 55 +
    a1 * 2 ^ 50 +
    a2 * 2 ^ 45 +
    a3 * 2 ^ 37 +
    a4 * 2 ^ 36 +
    a5 * 2 ^ 32 +
    a6 * 2 ^ 28 +
    a7 * 2 ^ 24 +
    a8 * 2 ^ 20 +
    a9 * 2 ^ 16 +
    a10 * 2 ^ 12 +
    a11 * 2 ^ 8 +
    a12 * 2 ^ 6 +
    a13 * 2 ^ 4 +
    a14 * 2 ^ 2 +
    a15 * 2 ^ 0 < 2 ^ 60 := by
  omega

/-- Each field is read back from the sum by a division and a remainder. -/
theorem sum_decode (a0 a1 a2 a3 a4 a5 a6 a7 a8 a9 a10 a11 a12 a13 a14 a15 S : Nat)
    (h0 : a0 ≤ 22) (h1 : a1 ≤ 31) (h2 : a2 ≤ 31) (h3 : a3 ≤ 139) (h4 : a4 ≤ 1) (h5 : a5 ≤ 14) (h6 : a6 ≤ 14) (h7 : a7 ≤ 14)
    (h8 : a8 ≤ 13) (h9 : a9 ≤ 14) (h10 : a10 ≤ 14) (h11 : a11 ≤ 14) (h12 : a12 ≤ 3) (h13 : a13 ≤ 3) (h14 : a14 ≤ 3) (h15 : a15 ≤ 3)
    (hS : S = a0 * 2 ^ 55 +
    a1 * 2 ^ 50 +
    a2 * 2 ^ 45 +
    a3 * 2 ^ 37 +
    a4 * 2 ^ 36 +
    a5 * 2 ^ 32 +
    a6 * 2 ^ 28 +
    a7 * 2 ^ 24 +
    a8 * 2 ^ 20 +
    a9 * 2 ^ 16 +
    a10 * 2 ^ 12 +
    a11 * 2 ^ 8 +
    a12 * 2 ^ 6 +
    a13 * 2 ^ 4 +
    a14 * 2 ^ 2 +
    a15 * 2 ^ 0) :
    a0 = S / 2 ^ 55 % 2 ^ 5 ∧
    a1 = S / 2 ^ 50 % 2 ^ 5 ∧
    a2 = S / 2 ^ 45 % 2 ^ 5 ∧
    a3 = S / 2 ^ 37 % 2 ^ 8 ∧
    a4 = S / 2 ^ 36 % 2 ^ 1 ∧
    a5 = S / 2 ^ 32 % 2 ^ 4 ∧
    a6 = S / 2 ^ 28 % 2 ^ 4 ∧
    a7 = S / 2 ^ 24 % 2 ^ 4 ∧
    a8 = S / 2 ^ 20 % 2 ^ 4 ∧
    a9 = S / 2 ^ 16 % 2 ^ 4 ∧
    a10 = S / 2 ^ 12 % 2 ^ 4 ∧
    a11 = S / 2 ^ 8 % 2 ^ 4 ∧
    a12 = S / 2 ^ 6 % 2 ^ 2 ∧
    a13 = S / 2 ^ 4 % 2 ^ 2 ∧
    a14 = S / 2 ^ 2 % 2 ^ 2 ∧
    a15 = S / 2 ^ 0 % 2 ^ 2 := by
  refine ⟨?_, ?_, ?_, ?_, ?_, ?_, ?_, ?_, ?_, ?_, ?_, ?_, ?_, ?_, ?_, ?_⟩ <;> omega

/-- Each field of a tuple in range is read back from its `scode`, which is below
`2 ^ 60`. -/
theorem scode_of_decode (f : Fields) (h : in_range f) :
    scode_of f < 2 ^ 60 ∧
    f.add_ecode = ((scode_of f / 2 ^ 55 % 2 ^ 5 : Nat) : Int) ∧
    f.id_ecode = ((scode_of f / 2 ^ 50 % 2 ^ 5 : Nat) : Int) ∧
    f.term_ecode = ((scode_of f / 2 ^ 45 % 2 ^ 5 : Nat) : Int) ∧
    f.mult_ecode = ((scode_of f / 2 ^ 37 % 2 ^ 8 : Nat) : Int) ∧
    f.flipxy = ((scode_of f / 2 ^ 36 % 2 ^ 1 : Nat) : Int) ∧
    f.zcode = ((scode_of f / 2 ^ 32 % 2 ^ 4 : Nat) : Int) ∧
    f.xcode = ((scode_of f / 2 ^ 28 % 2 ^ 4 : Nat) : Int) ∧
    f.ycode = ((scode_of f / 2 ^ 24 % 2 ^ 4 : Nat) : Int) ∧
    f.mask_ecode = ((scode_of f / 2 ^ 20 % 2 ^ 4 : Nat) : Int) ∧
    f.ccode = ((scode_of f / 2 ^ 16 % 2 ^ 4 : Nat) : Int) ∧
    f.acode = ((scode_of f / 2 ^ 12 % 2 ^ 4 : Nat) : Int) ∧
    f.bcode = ((scode_of f / 2 ^ 8 % 2 ^ 4 : Nat) : Int) ∧
    f.csparsity = ((scode_of f / 2 ^ 6 % 2 ^ 2 : Nat) : Int) ∧
    f.msparsity = ((scode_of f / 2 ^ 4 % 2 ^ 2 : Nat) : Int) ∧
    f.asparsity = ((scode_of f / 2 ^ 2 % 2 ^ 2 : Nat) : Int) ∧
    f.bsparsity = ((scode_of f / 2 ^ 0 % 2 ^ 2 : Nat) : Int) := by
  obtain ⟨⟨l0, u0⟩, ⟨l1, u1⟩, ⟨l2, u2⟩, ⟨l3, u3⟩, ⟨l4, u4⟩, ⟨l5, u5⟩, ⟨l6, u6⟩, ⟨l7, u7⟩, ⟨l8, u8⟩, ⟨l9, u9⟩, ⟨l10, u10⟩, ⟨l11, u11⟩, ⟨l12, u12⟩, ⟨l13, u13⟩, ⟨l14, u14⟩, ⟨l15, u15⟩⟩ := h
  obtain ⟨a0, e0, h0⟩ := nat_of_range f.add_ecode 22 l0 u0
  obtain ⟨a1, e1, h1⟩ := nat_of_range f.id_ecode 31 l1 u1
  obtain ⟨a2, e2, h2⟩ := nat_of_range f.term_ecode 31 l2 u2
  obtain ⟨a3, e3, h3⟩ := nat_of_range f.mult_ecode 139 l3 u3
  obtain ⟨a4, e4, h4⟩ := nat_of_range f.flipxy 1 l4 u4
  obtain ⟨a5, e5, h5⟩ := nat_of_range f.zcode 14 l5 u5
  obtain ⟨a6, e6, h6⟩ := nat_of_range f.xcode 14 l6 u6
  obtain ⟨a7, e7, h7⟩ := nat_of_range f.ycode 14 l7 u7
  obtain ⟨a8, e8, h8⟩ := nat_of_range f.mask_ecode 13 l8 u8
  obtain ⟨a9, e9, h9⟩ := nat_of_range f.ccode 14 l9 u9
  obtain ⟨a10, e10, h10⟩ := nat_of_range f.acode 14 l10 u10
  obtain ⟨a11, e11, h11⟩ := nat_of_range f.bcode 14 l11 u11
  obtain ⟨a12, e12, h12⟩ := nat_of_range f.csparsity 3 l12 u12
  obtain ⟨a13, e13, h13⟩ := nat_of_range f.msparsity 3 l13 u13
  obtain ⟨a14, e14, h14⟩ := nat_of_range f.asparsity 3 l14 u14
  obtain ⟨a15, e15, h15⟩ := nat_of_range f.bsparsity 3 l15 u15
  have e := scode_of_eq_sum f a0 a1 a2 a3 a4 a5 a6 a7 a8 a9 a10 a11 a12 a13 a14 a15
    e0 e1 e2 e3 e4 e5 e6 e7 e8 e9 e10 e11 e12 e13 e14 e15
    h0 h1 h2 h3 h4 h5 h6 h7 h8 h9 h10 h11 h12 h13 h14 h15
  obtain ⟨d0, d1, d2, d3, d4, d5, d6, d7, d8, d9, d10, d11, d12, d13, d14, d15⟩ := sum_decode a0 a1 a2 a3 a4 a5 a6 a7 a8 a9 a10 a11 a12 a13 a14 a15
    (scode_of f) h0 h1 h2 h3 h4 h5 h6 h7 h8 h9 h10 h11 h12 h13 h14 h15 e
  refine ⟨?_, e0.trans (congrArg Nat.cast d0), e1.trans (congrArg Nat.cast d1), e2.trans (congrArg Nat.cast d2), e3.trans (congrArg Nat.cast d3), e4.trans (congrArg Nat.cast d4), e5.trans (congrArg Nat.cast d5), e6.trans (congrArg Nat.cast d6), e7.trans (congrArg Nat.cast d7), e8.trans (congrArg Nat.cast d8), e9.trans (congrArg Nat.cast d9), e10.trans (congrArg Nat.cast d10), e11.trans (congrArg Nat.cast d11), e12.trans (congrArg Nat.cast d12), e13.trans (congrArg Nat.cast d13), e14.trans (congrArg Nat.cast d14), e15.trans (congrArg Nat.cast d15)⟩
  rw [e]
  exact sum_lt a0 a1 a2 a3 a4 a5 a6 a7 a8 a9 a10 a11 a12 a13 a14 a15 h0 h1 h2 h3 h4 h5 h6 h7 h8 h9 h10 h11 h12 h13 h14 h15

/-- Two tuples with the same sixteen fields are equal. -/
theorem Fields_eq (f g : Fields)
    (c0 : f.add_ecode = g.add_ecode)
    (c1 : f.id_ecode = g.id_ecode)
    (c2 : f.term_ecode = g.term_ecode)
    (c3 : f.mult_ecode = g.mult_ecode)
    (c4 : f.flipxy = g.flipxy)
    (c5 : f.zcode = g.zcode)
    (c6 : f.xcode = g.xcode)
    (c7 : f.ycode = g.ycode)
    (c8 : f.mask_ecode = g.mask_ecode)
    (c9 : f.ccode = g.ccode)
    (c10 : f.acode = g.acode)
    (c11 : f.bcode = g.bcode)
    (c12 : f.csparsity = g.csparsity)
    (c13 : f.msparsity = g.msparsity)
    (c14 : f.asparsity = g.asparsity)
    (c15 : f.bsparsity = g.bsparsity) : f = g := by
  cases f
  cases g
  simp only [Fields.mk.injEq]
  exact ⟨c0, c1, c2, c3, c4, c5, c6, c7, c8, c9, c10, c11, c12, c13, c14, c15⟩

/-- C28: the `scode` packed by `GB_cuda_enumify_semiring` (lines 201-227) is a
unique encoding: two tuples of fields within the documented ranges that
differ in a component have different `scode` values, and every such `scode`
is below `2 ^ 60`. -/
theorem GB_cuda_enumify_semiring_scode_unique (f g : Fields) (hf : in_range f)
    (hg : in_range g) :
    (f ≠ g → scode_of f ≠ scode_of g) ∧ scode_of f < 2 ^ 60 := by
  obtain ⟨hlt, a0, a1, a2, a3, a4, a5, a6, a7, a8, a9, a10, a11, a12, a13, a14, a15⟩ := scode_of_decode f hf
  obtain ⟨-, b0, b1, b2, b3, b4, b5, b6, b7, b8, b9, b10, b11, b12, b13, b14, b15⟩ := scode_of_decode g hg
  refine ⟨?_, hlt⟩
  intro hne heq
  apply hne
  rw [heq] at a0 a1 a2 a3 a4 a5 a6 a7 a8 a9 a10 a11 a12 a13 a14 a15
  exact Fields_eq f g (a0.trans b0.symm) (a1.trans b1.symm) (a2.trans b2.symm) (a3.trans b3.symm) (a4.trans b4.symm) (a5.trans b5.symm) (a6.trans b6.symm) (a7.trans b7.symm) (a8.trans b8.symm) (a9.trans b9.symm) (a10.trans b10.symm) (a11.trans b11.symm) (a12.trans b12.symm) (a13.trans b13.symm) (a14.trans b14.symm) (a15.trans b15.symm)

theorem GB_cuda_enumify_semiring_scode_unique_witness :
    (fields_add2 ≠ fields_cab → scode_of fields_add2 ≠ scode_of fields_cab)
      ∧ scode_of fields_add2 < 2 ^ 60 :=
  GB_cuda_enumify_semiring_scode_unique fields_add2 fields_cab
    (by simp [in_range, fields_add2]) (by simp [in_range, fields_cab])

/-- C29: the extraction at the top of `GB_cuda_macrofy_semiring` does not recover the
fields.  `RSHIFT` combines with `&&`, so each extracted value is 0 or 1, and
is 1 as soon as a bit at or above the position is set: from the `scode` of the
tuple with `add_ecode = 2` and zeros elsewhere it gives `add_ecode = 1` and
`bsparsity = 1`. -/
theorem GB_cuda_macrofy_semiring_extract_loses_fields :
    in_range fields_add2
      ∧ fields_add2.add_ecode = 2
      ∧ (GB_cuda_macrofy_semiring_extract (scode_of fields_add2)).add_ecode = 1
      ∧ fields_add2.bsparsity = 0
      ∧ (GB_cuda_macrofy_semiring_extract (scode_of fields_add2)).bsparsity = 1
      ∧ ∀ s, (GB_cuda_macrofy_semiring_extract s).add_ecode = 0
          ∨ (GB_cuda_macrofy_semiring_extract s).add_ecode = 1 := by
  refine ⟨by simp [in_range, fields_add2], rfl, by decide, rfl, by decide, ?_⟩
  intro s
  unfold GB_cuda_macrofy_semiring_extract RSHIFT
  dsimp only
  split_ifs
  · exact Or.inr rfl
  · exact Or.inl rfl

end Semiring

/-! ## Reduction to a vector: the checks -/

namespace Reduce

theorem GB_FAULTY_magic : GB_FAULTY GB_MAGIC = none := by
  simp [GB_FAULTY]

/-- The function from line 57 on, once the five tests of lines 41-45 have
passed. -/
theorem GB_reduce_to_vector_valid (c : GB_Matrix_opaque) (M : Option GB_Matrix_opaque)
    (accum : Option GB_BinaryOp_opaque) (reduce : GB_BinaryOp_opaque)
    (a : GB_Matrix_opaque) (desc : Option GB_Descriptor_opaque)
    (GB_Descriptor_get : Option GB_Descriptor_opaque → GrB_Info × Descriptor_values)
    (GB_compatible : GrB_Type → GB_Matrix_opaque → Option GB_Matrix_opaque →
      Option GB_BinaryOp_opaque → GrB_Type → GrB_Info)
    (GB_Type_compatible : GrB_Type → GrB_Type → Bool)
    (compute : GB_Matrix_opaque → Option GB_Matrix_opaque → Option GB_BinaryOp_opaque →
      GB_BinaryOp_opaque → GB_Matrix_opaque → Descriptor_values →
      GrB_Info × GB_Matrix_opaque)
    (hc : c.magic = GB_MAGIC) (hM : ∀ m, M = some m → m.magic = GB_MAGIC)
    (hacc : ∀ o, accum = some o → o.magic = GB_MAGIC) (ha : a.magic = GB_MAGIC)
    (hd : ∀ d, desc = some d → d.magic = GB_MAGIC)
    (hget : (GB_Descriptor_get desc).1 = GrB_Info.GrB_SUCCESS)
    (hcomp : GB_compatible c.type c M accum reduce.ztype = GrB_Info.GrB_SUCCESS) :
    GB_reduce_to_vector (some c) M accum reduce (some a) desc GB_Descriptor_get
        GB_compatible GB_Type_compatible compute
      = if reduce.xtype ≠ reduce.ztype ∨ reduce.ytype ≠ reduce.ztype then
          (GrB_Info.GrB_DOMAIN_MISMATCH, some c)
        else if !GB_Type_compatible a.type reduce.ztype then
          (GrB_Info.GrB_DOMAIN_MISMATCH, some c)
        else if GB_NROWS c ≠
            (if (GB_Descriptor_get desc).2.A_transpose then GB_NCOLS a else GB_NROWS a) then
          (GrB_Info.GrB_DIMENSION_MISMATCH, some c)
        else
          ((compute c M accum reduce a (GB_Descriptor_get desc).2).1,
            some (compute c M accum reduce a (GB_Descriptor_get desc).2).2) := by
  have h1 : GB_RETURN_IF_NULL_OR_FAULTY ((some c).map fun c => c.magic) = none := by
    simp [GB_RETURN_IF_NULL_OR_FAULTY, hc, GB_FAULTY_magic]
  have h2 : GB_RETURN_IF_FAULTY (M.map fun m => m.magic) = none := by
    cases M with
    | none => rfl
    | some m => simp [GB_RETURN_IF_FAULTY, hM m rfl, GB_FAULTY_magic]
  have h3 : GB_RETURN_IF_FAULTY (accum.map fun o => o.magic) = none := by
    cases accum with
    | none => rfl
    | some o => simp [GB_RETURN_IF_FAULTY, hacc o rfl, GB_FAULTY_magic]
  have h4 : GB_RETURN_IF_NULL_OR_FAULTY ((some a).map fun a => a.magic) = none := by
    simp [GB_RETURN_IF_NULL_OR_FAULTY, ha, GB_FAULTY_magic]
  have h5 : GB_RETURN_IF_FAULTY (desc.map fun d => d.magic) = none := by
    cases desc with
    | none => rfl
    | some d => simp [GB_RETURN_IF_FAULTY, hd d rfl, GB_FAULTY_magic]
  unfold GB_reduce_to_vector
  simp only [h1, h2, h3, h4, h5, hget, hcomp, ne_eq, not_true_eq_false, if_false]
  by_cases ht : reduce.xtype ≠ reduce.ztype ∨ reduce.ytype ≠ reduce.ztype
  · simp only [ne_eq] at ht
    simp only [if_pos ht]
  · simp only [ne_eq] at ht
    simp only [if_neg ht]
    by_cases hty : (!GB_Type_compatible a.type reduce.ztype) = true
    · simp only [if_pos hty]
    · simp only [if_neg hty]
      by_cases htr : (GB_Descriptor_get desc).2.A_transpose = true
      · simp only [htr, if_true]
      · simp only [htr, Bool.false_eq_true, if_false]

/-- C23, the claim as worded: the `x` type of the reduction operator differs from
its `z` type, and `GB_reduce_to_vector` does not return
`GrB_DOMAIN_MISMATCH`: the mask has 4 rows and `C` has 3, `GB_compatible`
comes first (line 65), checks the dimensions of the mask and the function
returns its `GrB_DIMENSION_MISMATCH`. -/
theorem GB_reduce_to_vector_mask_dimension_first :
    (mixed_op.xtype ≠ mixed_op.ztype ∨ mixed_op.ytype ≠ mixed_op.ztype)
      ∧ GB_reduce_to_vector (some vector3) (some mask4) none mixed_op (some matrix_4x3) none
          (descriptor_default false) GB_compatible_dimensions (fun s t => decide (s = t))
          compute_clear
        = (GrB_Info.GrB_DIMENSION_MISMATCH, some vector3)
      ∧ GrB_Info.GrB_DIMENSION_MISMATCH ≠ GrB_Info.GrB_DOMAIN_MISMATCH := by
  decide

/-- C23, amended: when the call reaches the checks of the reduction operator
(valid objects, descriptor read, and `GB_compatible`, which checks the
domains and the dimensions of `C`, `M` and `accum`, satisfied), and the
`x`, `y` and `z` types of `reduce` are not all the same type or the type of
`A` is not compatible with the `z` type, `GB_reduce_to_vector` returns
`GrB_DOMAIN_MISMATCH` and `C` is as before: whatever the dimensions of `C`
and `A`, which are checked after (lines 88-109), and whatever the rest of
the function computes. -/
theorem GB_reduce_to_vector_domain_mismatch (C : Option GB_Matrix_opaque)
    (M : Option GB_Matrix_opaque)
    (accum : Option GB_BinaryOp_opaque) (reduce : GB_BinaryOp_opaque)
    (A : Option GB_Matrix_opaque) (desc : Option GB_Descriptor_opaque)
    (GB_Descriptor_get : Option GB_Descriptor_opaque → GrB_Info × Descriptor_values)
    (GB_compatible : GrB_Type → GB_Matrix_opaque → Option GB_Matrix_opaque →
      Option GB_BinaryOp_opaque → GrB_Type → GrB_Info)
    (GB_Type_compatible : GrB_Type → GrB_Type → Bool)
    (compute : GB_Matrix_opaque → Option GB_Matrix_opaque → Option GB_BinaryOp_opaque →
      GB_BinaryOp_opaque → GB_Matrix_opaque → Descriptor_values →
      GrB_Info × GB_Matrix_opaque)
    (hreach : reaches_domain_checks C M accum reduce A desc GB_Descriptor_get GB_compatible)
    (hdom : (reduce.xtype ≠ reduce.ztype ∨ reduce.ytype ≠ reduce.ztype)
      ∨ ∀ a, A = some a → GB_Type_compatible a.type reduce.ztype = false) :
    GB_reduce_to_vector C M accum reduce A desc GB_Descriptor_get GB_compatible
        GB_Type_compatible compute
      = (GrB_Info.GrB_DOMAIN_MISMATCH, C) := by
  obtain ⟨⟨c, hC, hc, hcomp⟩, hM, hacc, ⟨a, hA, ha⟩, hd, hget⟩ := hreach
  subst hC
  subst hA
  rw [GB_reduce_to_vector_valid c M accum reduce a desc GB_Descriptor_get GB_compatible
    GB_Type_compatible compute hc hM hacc ha hd hget hcomp]
  rcases hdom with h | h
  · rw [if_pos h]
  · by_cases ht : reduce.xtype ≠ reduce.ztype ∨ reduce.ytype ≠ reduce.ztype
    · rw [if_pos ht]
    · rw [if_neg ht, h a rfl]
      rfl

theorem GB_reduce_to_vector_domain_mismatch_witness :
    GB_reduce_to_vector (some vector3) none none mixed_op (some matrix_4x3) none
        (descriptor_default false) (fun _ _ _ _ _ => GrB_Info.GrB_SUCCESS)
        (fun s t => decide (s = t)) compute_clear
      = (GrB_Info.GrB_DOMAIN_MISMATCH, some vector3) :=
  GB_reduce_to_vector_domain_mismatch (some vector3) none none mixed_op (some matrix_4x3)
    none (descriptor_default false) (fun _ _ _ _ _ => GrB_Info.GrB_SUCCESS)
    (fun s t => decide (s = t)) compute_clear
    ⟨⟨vector3, rfl, rfl, rfl⟩, fun _ h => Option.noConfusion h,
      fun _ h => Option.noConfusion h, ⟨matrix_4x3, rfl, rfl⟩,
      fun _ h => Option.noConfusion h, rfl⟩
    (Or.inl (Or.inl (by decide)))

/-- C24: for arguments that pass the domain checks (the three types of `reduce` are
the same type and the type of `A` is compatible with it), when the length
`n` of `C` differs from the number of columns of `A` if the descriptor
transposes `A`, from its number of rows otherwise, `GB_reduce_to_vector`
returns `GrB_DIMENSION_MISMATCH` and `C` is as before, whatever the rest of
the function computes. -/
theorem GB_reduce_to_vector_dimension_mismatch (c : GB_Matrix_opaque)
    (M : Option GB_Matrix_opaque)
    (accum : Option GB_BinaryOp_opaque) (reduce : GB_BinaryOp_opaque)
    (a : GB_Matrix_opaque) (desc : Option GB_Descriptor_opaque)
    (GB_Descriptor_get : Option GB_Descriptor_opaque → GrB_Info × Descriptor_values)
    (GB_compatible : GrB_Type → GB_Matrix_opaque → Option GB_Matrix_opaque →
      Option GB_BinaryOp_opaque → GrB_Type → GrB_Info)
    (GB_Type_compatible : GrB_Type → GrB_Type → Bool)
    (compute : GB_Matrix_opaque → Option GB_Matrix_opaque → Option GB_BinaryOp_opaque →
      GB_BinaryOp_opaque → GB_Matrix_opaque → Descriptor_values →
      GrB_Info × GB_Matrix_opaque)
    (hreach : reaches_domain_checks (some c) M accum reduce (some a) desc GB_Descriptor_get
      GB_compatible)
    (hx : reduce.xtype = reduce.ztype) (hy : reduce.ytype = reduce.ztype)
    (hty : GB_Type_compatible a.type reduce.ztype = true)
    (hdim : GB_NROWS c ≠
      (if (GB_Descriptor_get desc).2.A_transpose then GB_NCOLS a else GB_NROWS a)) :
    GB_reduce_to_vector (some c) M accum reduce (some a) desc GB_Descriptor_get
        GB_compatible GB_Type_compatible compute
      = (GrB_Info.GrB_DIMENSION_MISMATCH, some c) := by
  obtain ⟨⟨c2, hC, hc, hcomp⟩, hM, hacc, ⟨a2, hA, ha⟩, hd, hget⟩ := hreach
  cases hC
  cases hA
  rw [GB_reduce_to_vector_valid c M accum reduce a desc GB_Descriptor_get GB_compatible
    GB_Type_compatible compute hc hM hacc ha hd hget hcomp]
  rw [if_neg (by rw [hx, hy]; simp), hty]
  simp only [Bool.not_true, Bool.false_eq_true, if_false]
  rw [if_pos hdim]

theorem GB_reduce_to_vector_dimension_mismatch_witness :
    GB_reduce_to_vector (some vector3) none none plus_7 (some matrix_4x3) none
        (descriptor_default false) (fun _ _ _ _ _ => GrB_Info.GrB_SUCCESS)
        (fun s t => decide (s = t)) compute_clear
      = (GrB_Info.GrB_DIMENSION_MISMATCH, some vector3) :=
  GB_reduce_to_vector_dimension_mismatch vector3 none none plus_7 matrix_4x3
    none (descriptor_default false) (fun _ _ _ _ _ => GrB_Info.GrB_SUCCESS)
    (fun s t => decide (s = t)) compute_clear
    ⟨⟨vector3, rfl, rfl, rfl⟩, fun _ h => Option.noConfusion h,
      fun _ h => Option.noConfusion h, ⟨matrix_4x3, rfl, rfl⟩,
      fun _ h => Option.noConfusion h, rfl⟩
    rfl rfl (by decide) (by decide)

end Reduce

/-! ## Export in CSC form: the claims -/

namespace Export

/-- The export once `GB_EXPORT_CHECK` has passed, the output pointers are not NULL
and the three conversions have succeeded, leaving the matrix `a3`. -/
theorem GxB_Matrix_export_CSC_converted (A : Option GB_Matrix_opaque)
    (GB_EXPORT_CHECK : Option GB_Matrix_opaque →
      Except (GrB_Info × Option GB_Matrix_opaque) ( GB_Matrix_opaque × Nat))
    (GB_transpose GB_ENSURE_SPARSE GB_convert_hyper_to_sparse :
      GB_Matrix_opaque → GrB_Info × GB_Matrix_opaque)
    (GB_nvec_nonempty : GB_Matrix_opaque → Int)
    (a : GB_Matrix_opaque) (nvals : Nat) (t s c : GrB_Info × GB_Matrix_opaque)
    (hcheck : GB_EXPORT_CHECK A = Except.ok (a, nvals))
    (ht : t = if !a.is_csc then GB_transpose { a with hyper_switch := GB_NEVER_HYPER }
      else (GrB_Info.GrB_SUCCESS, { a with hyper_switch := GB_NEVER_HYPER }))
    (ht1 : t.1 = GrB_Info.GrB_SUCCESS)
    (hs : s = GB_ENSURE_SPARSE t.2) (hs1 : s.1 = GrB_Info.GrB_SUCCESS)
    (hc : c = if s.2.h ≠ none then GB_convert_hyper_to_sparse s.2
      else (GrB_Info.GrB_SUCCESS, s.2))
    (hc1 : c.1 = GrB_Info.GrB_SUCCESS) :
    GxB_Matrix_export_CSC A true true true GB_EXPORT_CHECK GB_transpose GB_ENSURE_SPARSE
        GB_convert_hyper_to_sparse GB_nvec_nonempty
      = { info := GrB_Info.GrB_SUCCESS
          A := none
          out :=
            { nonempty := some (if c.2.nvec_nonempty < 0 then GB_nvec_nonempty c.2
                else c.2.nvec_nonempty)
              Ap := some c.2.p
              Ai := some (if nvals > 0 then c.2.i else none)
              Ax := some (if nvals > 0 then c.2.x else none) }
          freed := some
            { c.2 with
              nvec_nonempty := (if c.2.nvec_nonempty < 0 then GB_nvec_nonempty c.2
                else c.2.nvec_nonempty)
              p := none
              i := (if nvals > 0 then none else c.2.i)
              x := (if nvals > 0 then none else c.2.x) } } := by
  unfold GxB_Matrix_export_CSC
  simp only [hcheck, Bool.not_true, Bool.false_eq_true, if_false]
  rw [← ht]
  simp only [ht1, ne_eq, not_true_eq_false, if_false]
  rw [← hs]
  simp only [hs1, ne_eq, not_true_eq_false, if_false]
  simp only [ne_eq] at hc
  rw [← hc]
  simp only [hc1, ne_eq, not_true_eq_false, if_false]
  by_cases hn : c.2.nvec_nonempty < 0 <;> by_cases hv : nvals > 0 <;>
    simp only [hn, hv, if_true, if_false]

/-- The export when an output pointer is NULL: nothing is converted. -/
theorem GxB_Matrix_export_CSC_null_output (A : Option GB_Matrix_opaque) (Ap Ai Ax : Bool)
    (GB_EXPORT_CHECK : Option GB_Matrix_opaque →
      Except (GrB_Info × Option GB_Matrix_opaque) ( GB_Matrix_opaque × Nat))
    (GB_transpose GB_ENSURE_SPARSE GB_convert_hyper_to_sparse :
      GB_Matrix_opaque → GrB_Info × GB_Matrix_opaque)
    (GB_nvec_nonempty : GB_Matrix_opaque → Int)
    (a : GB_Matrix_opaque) (nvals : Nat)
    (hcheck : GB_EXPORT_CHECK A = Except.ok (a, nvals))
    (hnull : Ap = false ∨ Ai = false ∨ Ax = false) :
    GxB_Matrix_export_CSC A Ap Ai Ax GB_EXPORT_CHECK GB_transpose GB_ENSURE_SPARSE
        GB_convert_hyper_to_sparse GB_nvec_nonempty
      = { info := GrB_Info.GrB_NULL_POINTER, A := some a, out := no_outputs,
          freed := none } := by
  unfold GxB_Matrix_export_CSC
  simp only [hcheck]
  cases Ap <;> cases Ai <;> cases Ax <;> simp at hnull <;> rfl

/-- The export when the transposition fails. -/
theorem GxB_Matrix_export_CSC_transpose_fails (A : Option GB_Matrix_opaque)
    (GB_EXPORT_CHECK : Option GB_Matrix_opaque →
      Except (GrB_Info × Option GB_Matrix_opaque) ( GB_Matrix_opaque × Nat))
    (GB_transpose GB_ENSURE_SPARSE GB_convert_hyper_to_sparse :
      GB_Matrix_opaque → GrB_Info × GB_Matrix_opaque)
    (GB_nvec_nonempty : GB_Matrix_opaque → Int)
    (a : GB_Matrix_opaque) (nvals : Nat)
    (t : GrB_Info × GB_Matrix_opaque)
    (hcheck : GB_EXPORT_CHECK A = Except.ok (a, nvals))
    (ht : t = if !a.is_csc then GB_transpose { a with hyper_switch := GB_NEVER_HYPER }
      else (GrB_Info.GrB_SUCCESS, { a with hyper_switch := GB_NEVER_HYPER }))
    (ht1 : t.1 ≠ GrB_Info.GrB_SUCCESS) :
    GxB_Matrix_export_CSC A true true true GB_EXPORT_CHECK GB_transpose GB_ENSURE_SPARSE
        GB_convert_hyper_to_sparse GB_nvec_nonempty
      = { info := t.1, A := some t.2, out := no_outputs, freed := none } := by
  unfold GxB_Matrix_export_CSC
  simp only [hcheck, Bool.not_true, Bool.false_eq_true, if_false]
  rw [← ht]
  simp only [ne_eq, ht1, not_false_eq_true, if_true]

/-- The export when the conversion to sparse fails. -/
theorem GxB_Matrix_export_CSC_sparse_fails (A : Option GB_Matrix_opaque)
    (GB_EXPORT_CHECK : Option GB_Matrix_opaque →
      Except (GrB_Info × Option GB_Matrix_opaque) ( GB_Matrix_opaque × Nat))
    (GB_transpose GB_ENSURE_SPARSE GB_convert_hyper_to_sparse :
      GB_Matrix_opaque → GrB_Info × GB_Matrix_opaque)
    (GB_nvec_nonempty : GB_Matrix_opaque → Int)
    (a : GB_Matrix_opaque) (nvals : Nat)
    (t s : GrB_Info × GB_Matrix_opaque)
    (hcheck : GB_EXPORT_CHECK A = Except.ok (a, nvals))
    (ht : t = if !a.is_csc then GB_transpose { a with hyper_switch := GB_NEVER_HYPER }
      else (GrB_Info.GrB_SUCCESS, { a with hyper_switch := GB_NEVER_HYPER }))
    (ht1 : t.1 = GrB_Info.GrB_SUCCESS)
    (hs : s = GB_ENSURE_SPARSE t.2) (hs1 : s.1 ≠ GrB_Info.GrB_SUCCESS) :
    GxB_Matrix_export_CSC A true true true GB_EXPORT_CHECK GB_transpose GB_ENSURE_SPARSE
        GB_convert_hyper_to_sparse GB_nvec_nonempty
      = { info := s.1, A := some s.2, out := no_outputs, freed := none } := by
  unfold GxB_Matrix_export_CSC
  simp only [hcheck, Bool.not_true, Bool.false_eq_true, if_false]
  rw [← ht]
  simp only [ht1, ne_eq, not_true_eq_false, if_false]
  rw [← hs]
  simp only [hs1, not_false_eq_true, if_true]

/-- The export when the conversion from hypersparse fails. -/
theorem GxB_Matrix_export_CSC_convert_fails (A : Option GB_Matrix_opaque)
    (GB_EXPORT_CHECK : Option GB_Matrix_opaque →
      Except (GrB_Info × Option GB_Matrix_opaque) ( GB_Matrix_opaque × Nat))
    (GB_transpose GB_ENSURE_SPARSE GB_convert_hyper_to_sparse :
      GB_Matrix_opaque → GrB_Info × GB_Matrix_opaque)
    (GB_nvec_nonempty : GB_Matrix_opaque → Int)
    (a : GB_Matrix_opaque) (nvals : Nat)
    (t s c : GrB_Info × GB_Matrix_opaque)
    (hcheck : GB_EXPORT_CHECK A = Except.ok (a, nvals))
    (ht : t = if !a.is_csc then GB_transpose { a with hyper_switch := GB_NEVER_HYPER }
      else (GrB_Info.GrB_SUCCESS, { a with hyper_switch := GB_NEVER_HYPER }))
    (ht1 : t.1 = GrB_Info.GrB_SUCCESS)
    (hs : s = GB_ENSURE_SPARSE t.2) (hs1 : s.1 = GrB_Info.GrB_SUCCESS)
    (hc : c = if s.2.h ≠ none then GB_convert_hyper_to_sparse s.2
      else (GrB_Info.GrB_SUCCESS, s.2))
    (hc1 : c.1 ≠ GrB_Info.GrB_SUCCESS) :
    GxB_Matrix_export_CSC A true true true GB_EXPORT_CHECK GB_transpose GB_ENSURE_SPARSE
        GB_convert_hyper_to_sparse GB_nvec_nonempty
      = { info := c.1, A := some c.2, out := no_outputs, freed := none } := by
  unfold GxB_Matrix_export_CSC
  simp only [hcheck, Bool.not_true, Bool.false_eq_true, if_false]
  rw [← ht]
  simp only [ht1, ne_eq, not_true_eq_false, if_false]
  rw [← hs]
  simp only [hs1, ne_eq, not_true_eq_false, if_false]
  simp only [ne_eq] at hc
  rw [← hc]
  simp only [hc1, not_false_eq_true, if_true]

/-- C25: when `GxB_Matrix_export_CSC` returns `GrB_SUCCESS`, with `c.2` the
container as the conversions of lines 47-67 left it: `*Ap` is the buffer
`p` of the container, `*Ai` and `*Ax` are its buffers `i` and `x` when
`*nvals > 0` and NULL otherwise, the header that is freed no longer holds the
buffers handed over, `*nonempty` is not negative, and `*A` is NULL.  When the
matrix is already held by column, sparse and not hypersparse, the buffers are
those that `*A` had on entry. -/
theorem GxB_Matrix_export_CSC_hands_over_buffers (Ap Ai Ax : Bool)
    (A : Option GB_Matrix_opaque)
    (GB_EXPORT_CHECK : Option GB_Matrix_opaque →
      Except (GrB_Info × Option GB_Matrix_opaque) ( GB_Matrix_opaque × Nat))
    (GB_transpose GB_ENSURE_SPARSE GB_convert_hyper_to_sparse :
      GB_Matrix_opaque → GrB_Info × GB_Matrix_opaque)
    (GB_nvec_nonempty : GB_Matrix_opaque → Int)
    (a : GB_Matrix_opaque) (nvals : Nat) (t s c : GrB_Info × GB_Matrix_opaque)
    (hcheck : GB_EXPORT_CHECK A = Except.ok (a, nvals))
    (ht : t = if !a.is_csc then GB_transpose { a with hyper_switch := GB_NEVER_HYPER }
      else (GrB_Info.GrB_SUCCESS, { a with hyper_switch := GB_NEVER_HYPER }))
    (hs : s = GB_ENSURE_SPARSE t.2)
    (hc : c = if s.2.h ≠ none then GB_convert_hyper_to_sparse s.2
      else (GrB_Info.GrB_SUCCESS, s.2))
    (hnn : ∀ X, 0 ≤ GB_nvec_nonempty X)
    (hok : (GxB_Matrix_export_CSC A Ap Ai Ax GB_EXPORT_CHECK GB_transpose GB_ENSURE_SPARSE
          GB_convert_hyper_to_sparse GB_nvec_nonempty).info = GrB_Info.GrB_SUCCESS) :
    (GxB_Matrix_export_CSC A Ap Ai Ax GB_EXPORT_CHECK GB_transpose GB_ENSURE_SPARSE
          GB_convert_hyper_to_sparse GB_nvec_nonempty).out.Ap = some c.2.p
      ∧ (GxB_Matrix_export_CSC A Ap Ai Ax GB_EXPORT_CHECK GB_transpose GB_ENSURE_SPARSE
          GB_convert_hyper_to_sparse GB_nvec_nonempty).out.Ai
        = some (if nvals > 0 then c.2.i else none)
      ∧ (GxB_Matrix_export_CSC A Ap Ai Ax GB_EXPORT_CHECK GB_transpose GB_ENSURE_SPARSE
          GB_convert_hyper_to_sparse GB_nvec_nonempty).out.Ax
        = some (if nvals > 0 then c.2.x else none)
      ∧ (∃ hdr, (GxB_Matrix_export_CSC A Ap Ai Ax GB_EXPORT_CHECK GB_transpose GB_ENSURE_SPARSE
          GB_convert_hyper_to_sparse GB_nvec_nonempty).freed = some hdr
        ∧ hdr.p = none ∧ (nvals > 0 → hdr.i = none ∧ hdr.x = none))
      ∧ (∃ n, (GxB_Matrix_export_CSC A Ap Ai Ax GB_EXPORT_CHECK GB_transpose GB_ENSURE_SPARSE
          GB_convert_hyper_to_sparse GB_nvec_nonempty).out.nonempty = some n
        ∧ 0 ≤ n)
      ∧ (GxB_Matrix_export_CSC A Ap Ai Ax GB_EXPORT_CHECK GB_transpose GB_ENSURE_SPARSE
          GB_convert_hyper_to_sparse GB_nvec_nonempty).A = none
      ∧ (a.is_csc = true → a.h = none →
        GB_ENSURE_SPARSE { a with hyper_switch := GB_NEVER_HYPER }
          = (GrB_Info.GrB_SUCCESS, { a with hyper_switch := GB_NEVER_HYPER }) →
        c.2.p = a.p ∧ c.2.i = a.i ∧ c.2.x = a.x) := by
  have hlast : a.is_csc = true → a.h = none →
      GB_ENSURE_SPARSE { a with hyper_switch := GB_NEVER_HYPER }
        = (GrB_Info.GrB_SUCCESS, { a with hyper_switch := GB_NEVER_HYPER }) →
      c.2.p = a.p ∧ c.2.i = a.i ∧ c.2.x = a.x := by
    intro h1 h2 h3
    have e1 : t = (GrB_Info.GrB_SUCCESS, { a with hyper_switch := GB_NEVER_HYPER }) := by
      rw [ht, h1]
      rfl
    have e2 : s = (GrB_Info.GrB_SUCCESS, { a with hyper_switch := GB_NEVER_HYPER }) := by
      rw [hs, e1]
      exact h3
    have e3 : c = (GrB_Info.GrB_SUCCESS, { a with hyper_switch := GB_NEVER_HYPER }) := by
      rw [hc, e2]
      simp only [h2, ne_eq, not_true_eq_false, if_false]
    rw [e3]
    exact ⟨rfl, rfl, rfl⟩
  by_cases hnull : Ap = false ∨ Ai = false ∨ Ax = false
  · rw [GxB_Matrix_export_CSC_null_output A Ap Ai Ax GB_EXPORT_CHECK GB_transpose
      GB_ENSURE_SPARSE GB_convert_hyper_to_sparse GB_nvec_nonempty a nvals hcheck hnull] at hok
    exact absurd (show GrB_Info.GrB_NULL_POINTER = GrB_Info.GrB_SUCCESS from hok) (by decide)
  · have hAp : Ap = true := by
      cases Ap
      · exact absurd (Or.inl rfl) hnull
      · rfl
    have hAi : Ai = true := by
      cases Ai
      · exact absurd (Or.inr (Or.inl rfl)) hnull
      · rfl
    have hAx : Ax = true := by
      cases Ax
      · exact absurd (Or.inr (Or.inr rfl)) hnull
      · rfl
    subst hAp
    subst hAi
    subst hAx
    by_cases ht1 : t.1 = GrB_Info.GrB_SUCCESS
    · by_cases hs1 : s.1 = GrB_Info.GrB_SUCCESS
      · by_cases hc1 : c.1 = GrB_Info.GrB_SUCCESS
        · rw [GxB_Matrix_export_CSC_converted A GB_EXPORT_CHECK GB_transpose
            GB_ENSURE_SPARSE GB_convert_hyper_to_sparse GB_nvec_nonempty a nvals t s c
            hcheck ht ht1 hs hs1 hc hc1]
          refine ⟨rfl, rfl, rfl, ⟨_, rfl, rfl, ?_⟩, ⟨_, rfl, ?_⟩, rfl, hlast⟩
          · intro hv
            simp only [hv, if_true, and_self]
          · by_cases hn : c.2.nvec_nonempty < 0
            · rw [if_pos hn]
              exact hnn _
            · rw [if_neg hn]
              exact not_lt.mp hn
        · rw [GxB_Matrix_export_CSC_convert_fails A GB_EXPORT_CHECK GB_transpose
            GB_ENSURE_SPARSE GB_convert_hyper_to_sparse GB_nvec_nonempty a nvals t s c
            hcheck ht ht1 hs hs1 hc hc1] at hok
          exact absurd hok hc1
      · rw [GxB_Matrix_export_CSC_sparse_fails A GB_EXPORT_CHECK GB_transpose
          GB_ENSURE_SPARSE GB_convert_hyper_to_sparse GB_nvec_nonempty a nvals t s
          hcheck ht ht1 hs hs1] at hok
        exact absurd hok hs1
    · rw [GxB_Matrix_export_CSC_transpose_fails A GB_EXPORT_CHECK GB_transpose
        GB_ENSURE_SPARSE GB_convert_hyper_to_sparse GB_nvec_nonempty a nvals t
        hcheck ht ht1] at hok
      exact absurd hok ht1

theorem GxB_Matrix_export_CSC_hands_over_buffers_witness :
    (GxB_Matrix_export_CSC (some csc_matrix) true true true (check_ok 2) nothing_to_do
          nothing_to_do nothing_to_do (fun _ => 2)).out.Ap = some (some 1000)
      ∧ (GxB_Matrix_export_CSC (some csc_matrix) true true true (check_ok 2) nothing_to_do
          nothing_to_do nothing_to_do (fun _ => 2)).out.Ai = some (some 2000)
      ∧ (GxB_Matrix_export_CSC (some csc_matrix) true true true (check_ok 2) nothing_to_do
          nothing_to_do nothing_to_do (fun _ => 2)).out.Ax = some (some 3000)
      ∧ (GxB_Matrix_export_CSC (some csc_matrix) true true true (check_ok 2) nothing_to_do
          nothing_to_do nothing_to_do (fun _ => 2)).A = none := by
  obtain ⟨h1, h2, h3, -, -, h6, -⟩ := GxB_Matrix_export_CSC_hands_over_buffers true true true
    (some csc_matrix) (check_ok 2) nothing_to_do nothing_to_do nothing_to_do (fun _ => 2)
    csc_matrix 2
    (GrB_Info.GrB_SUCCESS, { csc_matrix with hyper_switch := GB_NEVER_HYPER })
    (GrB_Info.GrB_SUCCESS, { csc_matrix with hyper_switch := GB_NEVER_HYPER })
    (GrB_Info.GrB_SUCCESS, { csc_matrix with hyper_switch := GB_NEVER_HYPER })
    rfl rfl rfl rfl (fun _ => (by decide : (0 : Int) ≤ 2)) rfl
  exact ⟨h1, h2, h3, h6⟩

/-- C26, the claim as worded: the transposition in place fails without touching the
matrix, the export returns its error, and `*A` is the container with
`hyper_switch` set to `GB_NEVER_HYPER` by line 47, not the 0.0625 it had
before the call. -/
theorem GxB_Matrix_export_CSC_failure_changes_hyper_switch :
    (GxB_Matrix_export_CSC (some csr_matrix) true true true (check_ok 2) out_of_memory
          nothing_to_do nothing_to_do (fun _ => 2)).info = GrB_Info.GrB_OUT_OF_MEMORY
      ∧ (GxB_Matrix_export_CSC (some csr_matrix) true true true (check_ok 2) out_of_memory
          nothing_to_do nothing_to_do (fun _ => 2)).A
        = some { csr_matrix with hyper_switch := GB_NEVER_HYPER }
      ∧ (GxB_Matrix_export_CSC (some csr_matrix) true true true (check_ok 2) out_of_memory
          nothing_to_do nothing_to_do (fun _ => 2)).A ≠ some csr_matrix
      ∧ csr_matrix.hyper_switch = 1 / 16 := by
  have hA : (GxB_Matrix_export_CSC (some csr_matrix) true true true (check_ok 2)
      out_of_memory nothing_to_do nothing_to_do (fun _ => 2)).A
      = some { csr_matrix with hyper_switch := GB_NEVER_HYPER } := rfl
  refine ⟨rfl, hA, ?_, rfl⟩
  rw [hA]
  intro h
  have h2 := congrArg GB_Matrix_opaque.hyper_switch (Option.some.inj h)
  revert h2
  norm_num [csr_matrix, GB_NEVER_HYPER]

/-- C26, amended: when `GxB_Matrix_export_CSC` fails in one of its conversions, each
of which leaves its argument as it was when it fails: none of `*nonempty`,
`*Ap`, `*Ai`, `*Ax` is written, nothing is freed, and `*A` is the container
`a` that `GB_EXPORT_CHECK` left, with `hyper_switch` set by line 47, after
the conversions that succeeded.  When `GB_EXPORT_CHECK` left the container
as it was before the call (`*A` was `a`) and the failing conversion is the
first to change anything (the transposition, or the conversion to sparse of
a matrix held by column), `*A` is the container of before the call with
`hyper_switch` replaced by `GB_NEVER_HYPER`, and nothing else changed. -/
theorem GxB_Matrix_export_CSC_failure_state
    (A : Option GB_Matrix_opaque)
    (GB_EXPORT_CHECK : Option GB_Matrix_opaque →
      Except (GrB_Info × Option GB_Matrix_opaque) ( GB_Matrix_opaque × Nat))
    (GB_transpose GB_ENSURE_SPARSE GB_convert_hyper_to_sparse :
      GB_Matrix_opaque → GrB_Info × GB_Matrix_opaque)
    (GB_nvec_nonempty : GB_Matrix_opaque → Int)
    (a : GB_Matrix_opaque) (nvals : Nat) (t s c : GrB_Info × GB_Matrix_opaque)
    (hcheck : GB_EXPORT_CHECK A = Except.ok (a, nvals))
    (ht : t = if !a.is_csc then GB_transpose { a with hyper_switch := GB_NEVER_HYPER }
      else (GrB_Info.GrB_SUCCESS, { a with hyper_switch := GB_NEVER_HYPER }))
    (hs : s = GB_ENSURE_SPARSE t.2)
    (hc : c = if s.2.h ≠ none then GB_convert_hyper_to_sparse s.2
      else (GrB_Info.GrB_SUCCESS, s.2))
    (hta : t.1 ≠ GrB_Info.GrB_SUCCESS → t.2 = { a with hyper_switch := GB_NEVER_HYPER })
    (hsa : s.1 ≠ GrB_Info.GrB_SUCCESS → s.2 = t.2)
    (hca : c.1 ≠ GrB_Info.GrB_SUCCESS → c.2 = s.2)
    (hfail : (GxB_Matrix_export_CSC A true true true GB_EXPORT_CHECK GB_transpose GB_ENSURE_SPARSE
          GB_convert_hyper_to_sparse GB_nvec_nonempty).info ≠ GrB_Info.GrB_SUCCESS) :
    (GxB_Matrix_export_CSC A true true true GB_EXPORT_CHECK GB_transpose GB_ENSURE_SPARSE
          GB_convert_hyper_to_sparse GB_nvec_nonempty).out = no_outputs
      ∧ (GxB_Matrix_export_CSC A true true true GB_EXPORT_CHECK GB_transpose GB_ENSURE_SPARSE
          GB_convert_hyper_to_sparse GB_nvec_nonempty).freed = none
      ∧ (t.1 ≠ GrB_Info.GrB_SUCCESS →
        (GxB_Matrix_export_CSC A true true true GB_EXPORT_CHECK GB_transpose GB_ENSURE_SPARSE
          GB_convert_hyper_to_sparse GB_nvec_nonempty).A
          = some { a with hyper_switch := GB_NEVER_HYPER })
      ∧ (t.1 = GrB_Info.GrB_SUCCESS → s.1 ≠ GrB_Info.GrB_SUCCESS →
        (GxB_Matrix_export_CSC A true true true GB_EXPORT_CHECK GB_transpose GB_ENSURE_SPARSE
          GB_convert_hyper_to_sparse GB_nvec_nonempty).A = some t.2)
      ∧ (t.1 = GrB_Info.GrB_SUCCESS → s.1 = GrB_Info.GrB_SUCCESS →
        (GxB_Matrix_export_CSC A true true true GB_EXPORT_CHECK GB_transpose GB_ENSURE_SPARSE
          GB_convert_hyper_to_sparse GB_nvec_nonempty).A = some s.2)
      ∧ (a.is_csc = true → t.2 = { a with hyper_switch := GB_NEVER_HYPER })
      ∧ (A = some a →
        (t.1 ≠ GrB_Info.GrB_SUCCESS ∨ (a.is_csc = true ∧ s.1 ≠ GrB_Info.GrB_SUCCESS)) →
        (GxB_Matrix_export_CSC A true true true GB_EXPORT_CHECK GB_transpose GB_ENSURE_SPARSE
          GB_convert_hyper_to_sparse GB_nvec_nonempty).A
          = A.map fun a0 => { a0 with hyper_switch := GB_NEVER_HYPER }) := by
  have hcsc : a.is_csc = true → t.2 = { a with hyper_switch := GB_NEVER_HYPER } := by
    intro h
    rw [ht, h]
    rfl
  have hcsc1 : a.is_csc = true → t.1 = GrB_Info.GrB_SUCCESS := by
    intro h
    rw [ht, h]
    rfl
  by_cases ht1 : t.1 = GrB_Info.GrB_SUCCESS
  · by_cases hs1 : s.1 = GrB_Info.GrB_SUCCESS
    · by_cases hc1 : c.1 = GrB_Info.GrB_SUCCESS
      · rw [GxB_Matrix_export_CSC_converted A GB_EXPORT_CHECK GB_transpose
          GB_ENSURE_SPARSE GB_convert_hyper_to_sparse GB_nvec_nonempty a nvals t s c
          hcheck ht ht1 hs hs1 hc hc1] at hfail
        exact absurd rfl hfail
      · rw [GxB_Matrix_export_CSC_convert_fails A GB_EXPORT_CHECK GB_transpose
          GB_ENSURE_SPARSE GB_convert_hyper_to_sparse GB_nvec_nonempty a nvals t s c
          hcheck ht ht1 hs hs1 hc hc1]
        refine ⟨rfl, rfl, fun h => absurd ht1 h, fun _ h => absurd hs1 h,
          fun _ _ => congrArg some (hca hc1), hcsc, ?_⟩
        intro _ hfirst
        rcases hfirst with h | ⟨_, h⟩
        · exact absurd ht1 h
        · exact absurd hs1 h
    · rw [GxB_Matrix_export_CSC_sparse_fails A GB_EXPORT_CHECK GB_transpose
        GB_ENSURE_SPARSE GB_convert_hyper_to_sparse GB_nvec_nonempty a nvals t s
        hcheck ht ht1 hs hs1]
      refine ⟨rfl, rfl, fun h => absurd ht1 h, fun _ _ => congrArg some (hsa hs1),
        fun _ h => absurd h hs1, hcsc, ?_⟩
      intro hA hfirst
      rcases hfirst with h | ⟨hcol, _⟩
      · exact absurd ht1 h
      · rw [hA]
        exact congrArg some ((hsa hs1).trans (hcsc hcol))
  · rw [GxB_Matrix_export_CSC_transpose_fails A GB_EXPORT_CHECK GB_transpose
      GB_ENSURE_SPARSE GB_convert_hyper_to_sparse GB_nvec_nonempty a nvals t
      hcheck ht ht1]
    refine ⟨rfl, rfl, fun _ => congrArg some (hta ht1), fun h => absurd h ht1,
      fun h => absurd h ht1, hcsc, ?_⟩
    intro hA _
    rw [hA]
    exact congrArg some (hta ht1)

theorem GxB_Matrix_export_CSC_failure_state_witness :
    (GxB_Matrix_export_CSC (some csr_matrix) true true true (check_ok 2) out_of_memory
          nothing_to_do nothing_to_do (fun _ => 2)).out = no_outputs
      ∧ (GxB_Matrix_export_CSC (some csr_matrix) true true true (check_ok 2) out_of_memory
          nothing_to_do nothing_to_do (fun _ => 2)).A
        = some { csr_matrix with hyper_switch := GB_NEVER_HYPER } := by
  obtain ⟨h1, -, -, -, -, -, h7⟩ := GxB_Matrix_export_CSC_failure_state
    (some csr_matrix) (check_ok 2) out_of_memory nothing_to_do nothing_to_do (fun _ => 2)
    csr_matrix 2
    (GrB_Info.GrB_OUT_OF_MEMORY, { csr_matrix with hyper_switch := GB_NEVER_HYPER })
    (GrB_Info.GrB_SUCCESS, { csr_matrix with hyper_switch := GB_NEVER_HYPER })
    (GrB_Info.GrB_SUCCESS, { csr_matrix with hyper_switch := GB_NEVER_HYPER })
    rfl rfl rfl rfl (fun _ => rfl) (fun _ => rfl) (fun _ => rfl) (by decide)
  exact ⟨h1, h7 rfl (Or.inl (by decide))⟩

end Export

/-! ## Index-unary operators: the claim -/

namespace IndexUnaryOp

/-- C27: `GxB_IndexUnaryOp_ttype_name` does not return the thunk type given to
`GxB_IndexUnaryOp_new`.  The operator is created with `ttype = GrB_INT32`:
line 66 stores it in `op->ttype`, and `op->ytype`, which line 33 of
`GxB_IndexUnaryOp_ttype_name` reads, keeps what the allocated block held.
With a fresh block the read does not reach a type; with a block whose bytes
still point to `GrB_FP64` the call succeeds and writes "double". -/
theorem GxB_IndexUnaryOp_ttype_name_reads_ytype :
    (∃ o, GxB_IndexUnaryOp_new true (some 1) (some GrB_BOOL) (some GrB_INT32)
          (some GrB_INT32) (some "f") none (some fresh_block) 200 name_and_defn 1
          = (GrB_Info.GrB_SUCCESS, some o)
        ∧ o.ttype = some GrB_INT32 ∧ o.ytype = none
        ∧ GxB_IndexUnaryOp_ttype_name true (some o)
          = Except.error Fault.invalid_dereference)
      ∧ (∃ o, GxB_IndexUnaryOp_new true (some 1) (some GrB_BOOL) (some GrB_INT32)
          (some GrB_INT32) (some "f") none (some reused_block) 200 name_and_defn 1
          = (GrB_Info.GrB_SUCCESS, some o)
        ∧ o.ttype = some GrB_INT32
        ∧ GxB_IndexUnaryOp_ttype_name true (some o)
          = Except.ok (GrB_Info.GrB_SUCCESS, some "double")
        ∧ GrB_INT32.name = "int32_t") := by
  refine ⟨⟨_, rfl, rfl, rfl, rfl⟩, ⟨_, rfl, rfl, rfl, rfl⟩⟩

end IndexUnaryOp

namespace Add

/-- A position listed by `surviving` is below `k` and is the position of a
non-empty vector. -/
theorem surviving_mem (Cp : List Int) (k i : Nat) (hi : i < (surviving Cp k).length) :
    (surviving Cp k).getD i 0 < k
      ∧ Cp.getD ((surviving Cp k).getD i 0) 0 < Cp.getD ((surviving Cp k).getD i 0 + 1) 0 := by
  have hm : (surviving Cp k).getD i 0 ∈ surviving Cp k := by
    rw [List.getD_eq_getElem _ _ hi]
    exact List.getElem_mem hi
  generalize (surviving Cp k).getD i 0 = q at hm ⊢
  unfold surviving at hm
  rw [List.mem_filter, List.mem_range] at hm
  exact ⟨hm.1, of_decide_eq_true hm.2⟩

/-- The positions listed by `surviving` are in ascending order. -/
theorem surviving_lt (Cp : List Int) (k i j : Nat) (hij : i < j)
    (hj : j < (surviving Cp k).length) :
    (surviving Cp k).getD i 0 < (surviving Cp k).getD j 0 := by
  have hs : (surviving Cp k).Pairwise (fun a b => a < b) :=
    List.Pairwise.filter _ (List.pairwise_lt_range k)
  rw [List.getD_eq_getElem _ _ (by omega), List.getD_eq_getElem _ _ hj]
  exact (List.pairwise_iff_getElem.mp hs) i j (by omega) hj hij

/-- With non-decreasing offsets, the first non-empty vector below `k` starts at
`Cp [0]`, and so does position `k` when there is none. -/
theorem surviving_head (Cp : List Int) (Cnvec : Nat)
    (hmono : ∀ j, j < Cnvec → Cp.getD j 0 ≤ Cp.getD (j + 1) 0) :
    ∀ k, k ≤ Cnvec →
      Cp.getD (if (surviving Cp k).length = 0 then k else (surviving Cp k).getD 0 0) 0
        = Cp.getD 0 0 := by
  intro k
  induction k with
  | zero =>
    intro _
    rfl
  | succ k ih =>
    intro hk
    have ih2 := ih (by omega)
    have hs := surviving_succ Cp k
    by_cases hc : Cp.getD k 0 < Cp.getD (k + 1) 0
    · rw [if_pos hc] at hs
      rw [hs]
      rw [if_neg (by rw [List.length_append, List.length_singleton]; omega)]
      by_cases h0 : (surviving Cp k).length = 0
      · rw [if_pos h0] at ih2
        have hnil : surviving Cp k = [] := List.length_eq_zero.mp h0
        rw [hnil]
        exact ih2
      · rw [if_neg h0] at ih2
        rw [List.getD_append _ _ _ _ (by omega)]
        exact ih2
    · rw [if_neg hc, List.append_nil] at hs
      rw [hs]
      by_cases h0 : (surviving Cp k).length = 0
      · rw [if_pos h0] at ih2 ⊢
        have := hmono k (by omega)
        omega
      · rw [if_neg h0] at ih2 ⊢
        exact ih2

/-- The arrays as the pruning pass of lines 273-291 leaves them, before the
reallocation: with `Cp [0] = 0`, non-decreasing offsets and strictly
increasing vector ids on entry, `Cp [0] = 0`, `Cp [0..cnvec_new]` is strictly
increasing and `Ch [0..cnvec_new-1]` is strictly increasing. -/
theorem prune_pass_order (Cp Ch : List Int) (Cnvec : Nat)
    (hlenp : Cnvec + 1 ≤ Cp.length) (hlenh : Cnvec ≤ Ch.length)
    (hrange : ∀ j, j ≤ Cnvec → 0 ≤ Cp.getD j 0 ∧ Cp.getD j 0 < 9223372036854775808)
    (hmono : ∀ j, j < Cnvec → Cp.getD j 0 ≤ Cp.getD (j + 1) 0)
    (h0 : Cp.getD 0 0 = 0)
    (hCh : ∀ i j, i < j → j < Cnvec → Ch.getD i 0 < Ch.getD j 0) :
    (prune_pass Cp Ch Cnvec).Cp.getD 0 0 = 0
      ∧ (∀ i, i < (prune_pass Cp Ch Cnvec).cnvec_new →
        (prune_pass Cp Ch Cnvec).Cp.getD i 0 < (prune_pass Cp Ch Cnvec).Cp.getD (i + 1) 0)
      ∧ (∀ i j, i < j → j < (prune_pass Cp Ch Cnvec).cnvec_new →
        (prune_pass Cp Ch Cnvec).Ch.getD i 0 < (prune_pass Cp Ch Cnvec).Ch.getD j 0) := by
  obtain ⟨hc, -, -, hh, hp, hlast⟩ := prune_pass_spec Cp Ch Cnvec hlenp hlenh hrange
  have hnext := surviving_next Cp Cnvec hmono Cnvec (le_refl _)
  have hhead := surviving_head Cp Cnvec hmono Cnvec (le_refl _)
  rw [hc]
  refine ⟨?_, ?_, ?_⟩
  · by_cases hz : (surviving Cp Cnvec).length = 0
    · rw [if_pos hz] at hhead
      have := hlast
      rw [hz] at this
      rw [this, hhead, h0]
    · rw [if_neg hz] at hhead
      rw [hp 0 (by omega), hhead, h0]
  · intro i hi
    have hnew : (prune_pass Cp Ch Cnvec).Cp.getD (i + 1) 0
        = Cp.getD ((surviving Cp Cnvec).getD i 0 + 1) 0 := by
      rw [hnext i hi]
      by_cases h : i + 1 < (surviving Cp Cnvec).length
      · rw [if_pos h]
        exact hp (i + 1) h
      · rw [if_neg h]
        have : i + 1 = (surviving Cp Cnvec).length := by omega
        rw [this]
        exact hlast
    rw [hp i hi, hnew]
    exact (surviving_mem Cp Cnvec i hi).2
  · intro i j hij hj
    rw [hh i (by omega), hh j hj]
    exact hCh _ _ (surviving_lt Cp Cnvec i j hij hj) (surviving_mem Cp Cnvec j hj).1

/-- C30: the container after the pruning of lines 271-302 does not keep the offsets
`Cp [0..nvec]`.  With `Cp = [0, 2, 2, 5]` and `Ch = [1, 4, 6]` (three
vectors, the second empty) the pass leaves `Cp = [0, 2, 5, 5]` and
`Ch = [1, 6, 6]`, in order, and `nvec = plen = 2`, `C->h = [1, 6]`; the
reallocation of line 296 then leaves `C->p = [0, 2]`, two items, so `Cp [nvec]`
is not in the buffer. -/
theorem GB_add_phase2_prune_drops_offset_nvec :
    ∃ C, (GB_add_phase2 int32_type true [0, 2, 2, 5] 2 3 3 (some [1, 4, 6]) none
          empty_operand empty_operand create_ok
          (fun _ => ([0, 1, 0, 2, 3], [7, 0, 0, 0]))).Chandle = some C
      ∧ (prune_pass [0, 2, 2, 5] [1, 4, 6] 3).Cp = [0, 2, 5, 5]
      ∧ (prune_pass [0, 2, 2, 5] [1, 4, 6] 3).Ch = [1, 6, 6]
      ∧ C.nvec = 2 ∧ C.plen = 2 ∧ C.h = some [1, 6] ∧ C.p = some [0, 2] := by
  refine ⟨_, rfl, ?_, ?_, ?_, ?_, ?_, ?_⟩ <;> decide

end Add

/-! ## The hash functions of the saxpy3 method: range and probing -/

namespace Saxpy3

/-- The bitwise and of an `int64_t` value with the mask `N - 1`, `N` a power of 2,
is the remainder of its bits modulo `N`. -/
theorem int64_and_mask (x : Int) (k : Nat) (hk : k ≤ 62) :
    int64_and x ((2 ^ k : Nat) - 1) = ((int64_bits x % 2 ^ k : Nat) : Int) := by
  have hN : (2 : Nat) ^ k ≤ 2 ^ 62 := Nat.pow_le_pow_right (by decide) hk
  have hpos : 0 < (2 : Nat) ^ k := Nat.two_pow_pos k
  have hlt : int64_bits x % 2 ^ k < 2 ^ k := Nat.mod_lt _ hpos
  have hmask : int64_bits (((2 ^ k : Nat) : Int) - 1) = 2 ^ k - 1 := by
    unfold int64_bits
    generalize (2 : Nat) ^ k = N at hN hpos
    norm_num at hN
    omega
  unfold int64_and
  rw [hmask]
  have hand : Nat.land (int64_bits x) (2 ^ k - 1) = int64_bits x % 2 ^ k :=
    Nat.and_pow_two_sub_one_eq_mod _ _
  rw [hand]
  unfold int64_wrap
  generalize int64_bits x % 2 ^ k = m at hlt
  generalize (2 : Nat) ^ k = N at hN hpos hlt
  norm_num at hN
  omega

/-- One application of `GB_REHASH` on a slot of the table moves to the next slot,
modulo the size of the table. -/
theorem GB_REHASH_eq (k : Nat) (hk : k ≤ 62) (n : Nat) (hn : n < 2 ^ k) :
    GB_REHASH ((2 ^ k : Nat) - 1) (n : Int) = (((n + 1) % 2 ^ k : Nat) : Int) := by
  have hN : (2 : Nat) ^ k ≤ 2 ^ 62 := Nat.pow_le_pow_right (by decide) hk
  unfold GB_REHASH
  rw [int64_and_mask _ k hk]
  have hb : int64_bits (int64_wrap ((n : Int) + 1)) = n + 1 := by
    unfold int64_bits int64_wrap
    generalize (2 : Nat) ^ k = N at hN hn
    norm_num at hN
    omega
  rw [hb]

/-- After `t` applications of `GB_REHASH` from the slot `n`, the slot is
`(n + t) mod 2 ^ k`. -/
theorem GB_REHASH_iterate (k : Nat) (hk : k ≤ 62) (n : Nat) (hn : n < 2 ^ k) (t : Nat) :
    Nat.iterate (GB_REHASH ((2 ^ k : Nat) - 1)) t (n : Int) = (((n + t) % 2 ^ k : Nat) : Int) := by
  induction t with
  | zero =>
    show (n : Int) = _
    rw [Nat.add_zero, Nat.mod_eq_of_lt hn]
  | succ t ih =>
    rw [Function.iterate_succ_apply', ih,
      GB_REHASH_eq k hk _ (Nat.mod_lt _ (Nat.two_pow_pos k))]
    congr 1
    rw [Nat.add_mod, Nat.mod_mod, ← Nat.add_mod]
    rfl

/-- C36: with `hash_bits = hsize - 1` for a table size `hsize = 2 ^ k`,
`GB_HASH_FUNCTION (i)` is in `[0, hsize)` for every index `i >= 0`, and from
any slot `h` of the table `hsize` applications of `GB_REHASH` return to `h`,
every slot being reached by exactly one of the applications 1 to `hsize`. -/
theorem GB_HASH_FUNCTION_range_GB_REHASH_cycle (k : Nat) (hk : k ≤ 62) :
    (∀ i : Int, 0 ≤ i →
        0 ≤ GB_HASH_FUNCTION ((2 ^ k : Nat) - 1) i
          ∧ GB_HASH_FUNCTION ((2 ^ k : Nat) - 1) i < (2 ^ k : Nat))
      ∧ ∀ h : Int, 0 ≤ h → h < (2 ^ k : Nat) →
        Nat.iterate (GB_REHASH ((2 ^ k : Nat) - 1)) (2 ^ k) h = h
          ∧ ∀ s : Int, 0 ≤ s → s < (2 ^ k : Nat) →
            ∃ t, (1 ≤ t ∧ t ≤ 2 ^ k
                ∧ Nat.iterate (GB_REHASH ((2 ^ k : Nat) - 1)) t h = s)
              ∧ ∀ u, 1 ≤ u → u ≤ 2 ^ k →
                Nat.iterate (GB_REHASH ((2 ^ k : Nat) - 1)) u h = s → u = t := by
  have hpos : 0 < (2 : Nat) ^ k := Nat.two_pow_pos k
  refine ⟨?_, ?_⟩
  · intro i _
    unfold GB_HASH_FUNCTION
    rw [int64_and_mask _ k hk]
    have hlt : int64_bits (int64_wrap (i * GB_HASH_FACTOR)) % 2 ^ k < 2 ^ k :=
      Nat.mod_lt _ hpos
    exact ⟨Int.ofNat_nonneg _, Int.ofNat_lt.mpr hlt⟩
  · intro h h0 hlt
    obtain ⟨n, rfl⟩ := Int.eq_ofNat_of_zero_le h0
    have hn : n < 2 ^ k := Int.ofNat_lt.mp hlt
    refine ⟨?_, ?_⟩
    · rw [GB_REHASH_iterate k hk n hn, Nat.add_mod_right, Nat.mod_eq_of_lt hn]
    · intro s s0 slt
      obtain ⟨m, rfl⟩ := Int.eq_ofNat_of_zero_le s0
      have hm : m < 2 ^ k := Int.ofNat_lt.mp slt
      -- the application that reaches the slot m
      have hreach : ∀ u, Nat.iterate (GB_REHASH ((2 ^ k : Nat) - 1)) u (n : Int) = (m : Int)
          ↔ (n + u) % 2 ^ k = m := by
        intro u
        rw [GB_REHASH_iterate k hk n hn u]
        exact Int.ofNat_inj
      by_cases hle : n < m
      · refine ⟨m - n, ⟨by omega, by omega, ?_⟩, ?_⟩
        · rw [hreach]
          have : n + (m - n) = m := by omega
          rw [this, Nat.mod_eq_of_lt hm]
        · intro u hu1 hu2 hu
          rw [hreach] at hu
          by_cases hcase : n + u < 2 ^ k
          · rw [Nat.mod_eq_of_lt hcase] at hu
            omega
          · have h2 : (n + u) % 2 ^ k = n + u - 2 ^ k := by
              rw [Nat.mod_eq_sub_mod (by omega)]
              exact Nat.mod_eq_of_lt (by omega)
            rw [h2] at hu
            omega
      · refine ⟨2 ^ k + m - n, ⟨by omega, by omega, ?_⟩, ?_⟩
        · rw [hreach]
          have : n + (2 ^ k + m - n) = m + 2 ^ k := by omega
          rw [this, Nat.add_mod_right, Nat.mod_eq_of_lt hm]
        · intro u hu1 hu2 hu
          rw [hreach] at hu
          by_cases hcase : n + u < 2 ^ k
          · rw [Nat.mod_eq_of_lt hcase] at hu
            omega
          · have h2 : (n + u) % 2 ^ k = n + u - 2 ^ k := by
              rw [Nat.mod_eq_sub_mod (by omega)]
              exact Nat.mod_eq_of_lt (by omega)
            rw [h2] at hu
            omega

theorem GB_HASH_FUNCTION_range_GB_REHASH_cycle_witness :
    GB_HASH_FUNCTION 7 1000 = 0
      ∧ Nat.iterate (GB_REHASH 7) 8 5 = 5
      ∧ Nat.iterate (GB_REHASH 7) 3 5 = 0 := by
  obtain ⟨-, h2⟩ := GB_HASH_FUNCTION_range_GB_REHASH_cycle 3 (by decide)
  obtain ⟨h3, -⟩ := h2 5 (by decide) (by decide)
  exact ⟨by decide, h3, by decide⟩

end Saxpy3

/-! ## Reduction to a vector: the symbolic phase and the choice of the method -/

namespace Reduce

/-- The entry that the symbolic phase stores for the vector `k`. -/
theorem symbolic_step_eq (Ah : Option (List Int)) (Ap : List Int) (s : Symbolic) (k : Nat)
    (h0 : 0 ≤ Ap.getD k 0 ∧ Ap.getD k 0 < 9223372036854775808)
    (h1 : 0 ≤ Ap.getD (k + 1) 0 ∧ Ap.getD (k + 1) 0 < 9223372036854775808) :
    symbolic_step Ah Ap s k
      = if Ap.getD (k + 1) 0 = Ap.getD k 0 then
          { Ti := s.Ti.set k (GB_FLIP (vector_id Ah k)),
            nzombies := int64_wrap (s.nzombies + 1) }
        else { Ti := s.Ti.set k (vector_id Ah k), nzombies := s.nzombies } := by
  unfold symbolic_step
  have hw : int64_wrap (Ap.getD (k + 1) 0 - Ap.getD k 0) = Ap.getD (k + 1) 0 - Ap.getD k 0 := by
    unfold int64_wrap
    omega
  simp only [hw]
  by_cases h : Ap.getD (k + 1) 0 = Ap.getD k 0
  · rw [if_pos h, if_pos (by omega)]
  · rw [if_neg h, if_neg (by omega)]

/-- The state of the loop of the symbolic phase after `m` iterations. -/
theorem symbolic_loop_spec (Ah : Option (List Int)) (Ap : List Int) (Ti : List Int)
    (m : Nat) (hm : m < 9223372036854775808) (hlen : m ≤ Ti.length)
    (hAp : ∀ k, k ≤ m → 0 ≤ Ap.getD k 0 ∧ Ap.getD k 0 < 9223372036854775808) :
    (symbolic_loop Ah Ap m Ti).Ti.length = Ti.length
      ∧ (∀ k, k < m → (symbolic_loop Ah Ap m Ti).Ti.getD k 0
          = if Ap.getD (k + 1) 0 = Ap.getD k 0 then GB_FLIP (vector_id Ah k)
            else vector_id Ah k)
      ∧ (∀ k, m ≤ k → (symbolic_loop Ah Ap m Ti).Ti.getD k 0 = Ti.getD k 0)
      ∧ (symbolic_loop Ah Ap m Ti).nzombies
          = ((List.range m).countP fun k => decide (Ap.getD (k + 1) 0 = Ap.getD k 0)) := by
  induction m with
  | zero =>
    refine ⟨rfl, ?_, fun _ _ => rfl, rfl⟩
    intro k hk
    exact absurd hk (Nat.not_lt_zero k)
  | succ m ih =>
    obtain ⟨i1, i2, i3, i4⟩ := ih (by omega) (by omega) (fun k hk => hAp k (by omega))
    have hstep : symbolic_loop Ah Ap (m + 1) Ti
        = symbolic_step Ah Ap (symbolic_loop Ah Ap m Ti) m := by
      unfold symbolic_loop
      rw [List.range_succ, List.foldl_append]
      rfl
    have hcount : ((List.range m).countP fun k => decide (Ap.getD (k + 1) 0 = Ap.getD k 0))
        ≤ m := by
      calc _ ≤ (List.range m).length := List.countP_le_length _
        _ = m := List.length_range m
    rw [hstep, symbolic_step_eq Ah Ap _ m (hAp m (by omega)) (hAp (m + 1) (by omega))]
    rw [List.range_succ, List.countP_append, List.countP_singleton]
    by_cases h : Ap.getD (m + 1) 0 = Ap.getD m 0
    · simp only [if_pos h, decide_True, if_true]
      refine ⟨by rw [List.length_set]; exact i1, ?_, ?_, ?_⟩
      · intro k hk
        rw [Add.getD_set]
        by_cases hkm : m = k
        · subst hkm
          rw [if_pos ⟨rfl, by omega⟩, if_pos h]
        · rw [if_neg (fun hh => hkm hh.1)]
          exact i2 k (by omega)
      · intro k hk
        rw [Add.getD_set, if_neg (fun hh => by omega)]
        exact i3 k (by omega)
      · show int64_wrap ((symbolic_loop Ah Ap m Ti).nzombies + 1) = _
        rw [i4]
        simp only [decide_eq_true h, if_true]
        unfold int64_wrap
        push_cast
        omega
    · simp only [if_neg h, decide_False, Bool.false_eq_true, if_false]
      refine ⟨by rw [List.length_set]; exact i1, ?_, ?_, ?_⟩
      · intro k hk
        rw [Add.getD_set]
        by_cases hkm : m = k
        · subst hkm
          rw [if_pos ⟨rfl, by omega⟩, if_neg h]
        · rw [if_neg (fun hh => hkm hh.1)]
          exact i2 k (by omega)
      · intro k hk
        rw [Add.getD_set, if_neg (fun hh => by omega)]
        exact i3 k (by omega)
      · show (symbolic_loop Ah Ap m Ti).nzombies = _
        rw [i4]
        simp only [decide_eq_false h, Bool.false_eq_true, if_false, Nat.add_zero]

/-- The number of empty and of non-empty vectors among the first `m`. -/
theorem count_empty_add_nonempty (Ap : List Int) (m : Nat) :
    ((List.range m).countP fun k => decide (Ap.getD (k + 1) 0 = Ap.getD k 0))
      + ((List.range m).countP fun k => decide (Ap.getD (k + 1) 0 ≠ Ap.getD k 0)) = m := by
  have h := List.length_eq_countP_add_countP
    (fun k => decide (Ap.getD (k + 1) 0 = Ap.getD k 0)) (List.range m)
  rw [List.length_range] at h
  have e : (fun a => decide ¬ decide (Ap.getD (a + 1) 0 = Ap.getD a 0) = true)
      = fun k => decide (Ap.getD (k + 1) 0 ≠ Ap.getD k 0) := by
    funext k
    simp
  rw [e] at h
  exact h.symm

/-- C32: in the symbolic phase of `GB_reduce_to_vector`, for every `k < A->nvec` the
`k`-th index stored in `T` is `j = (Ah == NULL ? k : Ah [k])` when the vector
`k` of `A` is not empty and `GB_FLIP (j)` when it is empty (`Ap [k+1]` equal
to `Ap [k]`); `T->nzombies` is the number of empty vectors; and
`A->nvec_nonempty`, when it was negative, becomes `nvec - nzombies`, the
number of non-empty vectors, between 0 and `nvec`. -/
theorem GB_reduce_to_vector_symbolic_spec (Ah : Option (List Int)) (Ap : List Int)
    (anvec : Nat) (A_nvec_nonempty : Int) (Ti : List Int)
    (hanvec : anvec < 9223372036854775808) (hlen : anvec ≤ Ti.length)
    (hAp : ∀ k, k ≤ anvec → 0 ≤ Ap.getD k 0 ∧ Ap.getD k 0 < 9223372036854775808) :
    (∀ k, k < anvec →
        (GB_reduce_to_vector_symbolic Ah Ap anvec A_nvec_nonempty Ti).Ti.getD k 0
          = if Ap.getD (k + 1) 0 = Ap.getD k 0 then GB_FLIP (vector_id Ah k)
            else vector_id Ah k)
      ∧ (GB_reduce_to_vector_symbolic Ah Ap anvec A_nvec_nonempty Ti).T_nzombies
        = ((List.range anvec).countP fun k => decide (Ap.getD (k + 1) 0 = Ap.getD k 0))
      ∧ (A_nvec_nonempty < 0 →
        (GB_reduce_to_vector_symbolic Ah Ap anvec A_nvec_nonempty Ti).A_nvec_nonempty
            = (anvec : Int)
              - (GB_reduce_to_vector_symbolic Ah Ap anvec A_nvec_nonempty Ti).T_nzombies
          ∧ (GB_reduce_to_vector_symbolic Ah Ap anvec A_nvec_nonempty Ti).A_nvec_nonempty
            = ((List.range anvec).countP
                fun k => decide (Ap.getD (k + 1) 0 ≠ Ap.getD k 0))
          ∧ 0 ≤ (GB_reduce_to_vector_symbolic Ah Ap anvec A_nvec_nonempty Ti).A_nvec_nonempty
          ∧ (GB_reduce_to_vector_symbolic Ah Ap anvec A_nvec_nonempty Ti).A_nvec_nonempty
            ≤ anvec)
      ∧ (0 ≤ A_nvec_nonempty →
        (GB_reduce_to_vector_symbolic Ah Ap anvec A_nvec_nonempty Ti).A_nvec_nonempty
          = A_nvec_nonempty) := by
  obtain ⟨-, h2, -, h4⟩ := symbolic_loop_spec Ah Ap Ti anvec hanvec hlen hAp
  have hsum := count_empty_add_nonempty Ap anvec
  refine ⟨h2, h4, ?_, ?_⟩
  · intro hneg
    have hval : (GB_reduce_to_vector_symbolic Ah Ap anvec A_nvec_nonempty Ti).A_nvec_nonempty
        = int64_wrap ((anvec : Int) - (symbolic_loop Ah Ap anvec Ti).nzombies) := by
      unfold GB_reduce_to_vector_symbolic
      simp only [if_pos hneg]
    have hz : (GB_reduce_to_vector_symbolic Ah Ap anvec A_nvec_nonempty Ti).T_nzombies
        = (symbolic_loop Ah Ap anvec Ti).nzombies := rfl
    rw [hval, hz, h4]
    unfold int64_wrap
    refine ⟨?_, ?_, ?_, ?_⟩ <;> omega
  · intro hpos
    unfold GB_reduce_to_vector_symbolic
    simp only [if_neg (not_lt.mpr hpos)]

theorem GB_reduce_to_vector_symbolic_spec_witness :
    (GB_reduce_to_vector_symbolic (some [2, 5, 7]) [0, 1, 1, 4] 3 (-1) [0, 0, 0]).Ti.getD 1 0
        = GB_FLIP 5
      ∧ (GB_reduce_to_vector_symbolic (some [2, 5, 7]) [0, 1, 1, 4] 3 (-1) [0, 0, 0]).T_nzombies
        = 1
      ∧ (GB_reduce_to_vector_symbolic (some [2, 5, 7]) [0, 1, 1, 4] 3 (-1)
          [0, 0, 0]).A_nvec_nonempty = 2 := by
  obtain ⟨h1, h2, h3, -⟩ := GB_reduce_to_vector_symbolic_spec (some [2, 5, 7]) [0, 1, 1, 4] 3
    (-1) [0, 0, 0] (by decide) (by decide) (by decide)
  exact ⟨h1 1 (by decide), h2, (h3 (by decide)).2.1⟩

/-- C33: after the symbolic phase of `GB_reduce_to_vector`, `GB_UNFLIP` of the
`k`-th index stored in `T` is the vector id `j` of the vector `k` of `A`,
zombie or not, so that the decoded indices are strictly ascending whenever
the vector ids of `A` are. -/
theorem GB_reduce_to_vector_zombies_keep_position (Ah : Option (List Int)) (Ap : List Int)
    (anvec : Nat) (A_nvec_nonempty : Int) (Ti : List Int)
    (hanvec : anvec < 9223372036854775808) (hlen : anvec ≤ Ti.length)
    (hAp : ∀ k, k ≤ anvec → 0 ≤ Ap.getD k 0 ∧ Ap.getD k 0 < 9223372036854775808)
    (hid : ∀ k, k < anvec →
      0 ≤ vector_id Ah k ∧ vector_id Ah k < 9223372036854775808) :
    (∀ k, k < anvec →
        GB_UNFLIP ((GB_reduce_to_vector_symbolic Ah Ap anvec A_nvec_nonempty Ti).Ti.getD k 0)
          = vector_id Ah k)
      ∧ ((∀ k l, k < l → l < anvec → vector_id Ah k < vector_id Ah l) →
        ∀ k l, k < l → l < anvec →
          GB_UNFLIP ((GB_reduce_to_vector_symbolic Ah Ap anvec A_nvec_nonempty Ti).Ti.getD k 0)
            < GB_UNFLIP
              ((GB_reduce_to_vector_symbolic Ah Ap anvec A_nvec_nonempty Ti).Ti.getD l 0)) := by
  obtain ⟨-, h2, -, -⟩ := symbolic_loop_spec Ah Ap Ti anvec hanvec hlen hAp
  have hdec : ∀ k, k < anvec →
      GB_UNFLIP ((GB_reduce_to_vector_symbolic Ah Ap anvec A_nvec_nonempty Ti).Ti.getD k 0)
        = vector_id Ah k := by
    intro k hk
    have hTi : (GB_reduce_to_vector_symbolic Ah Ap anvec A_nvec_nonempty Ti).Ti
        = (symbolic_loop Ah Ap anvec Ti).Ti := rfl
    rw [hTi, h2 k hk]
    obtain ⟨j0, j1⟩ := hid k hk
    generalize vector_id Ah k = j at j0 j1
    by_cases h : Ap.getD (k + 1) 0 = Ap.getD k 0
    · rw [if_pos h]
      unfold GB_UNFLIP GB_FLIP int64_wrap
      split_ifs <;> omega
    · rw [if_neg h]
      unfold GB_UNFLIP
      rw [if_neg (by omega)]
  refine ⟨hdec, ?_⟩
  intro hasc k l hkl hl
  rw [hdec k (by omega), hdec l hl]
  exact hasc k l hkl hl

theorem GB_reduce_to_vector_zombies_keep_position_witness :
    GB_UNFLIP ((GB_reduce_to_vector_symbolic (some [2, 5, 7]) [0, 1, 1, 4] 3 (-1)
        [0, 0, 0]).Ti.getD 1 0) = 5
      ∧ (GB_reduce_to_vector_symbolic (some [2, 5, 7]) [0, 1, 1, 4] 3 (-1) [0, 0, 0]).Ti
        = [2, -7, 7] := by
  obtain ⟨h1, -⟩ := GB_reduce_to_vector_zombies_keep_position (some [2, 5, 7]) [0, 1, 1, 4] 3
    (-1) [0, 0, 0] (by decide) (by decide) (by decide) (by decide)
  exact ⟨h1 1 (by decide), by decide⟩

/-- C34: for arguments that have passed the dimension check of lines 88-109, when
`GB_reduce_to_vector` goes on after line 131 (where `A_transpose` is flipped
for a matrix held by row), the length `n` of `C` is `A->vdim` if
`A_transpose` is true and `A->vlen` if it is false; `GB_wait` is taken to
leave the dimensions and the orientation of a matrix as they are. -/
theorem GB_reduce_to_vector_orient_length (c : GB_Matrix_opaque)
    (M : Option GB_Matrix_opaque) (a : GB_Matrix_opaque) (d : Descriptor_values)
    (GB_RETURN_IF_QUICK_MASK : GB_Matrix_opaque → Bool → Option GB_Matrix_opaque → Bool →
      Option (GrB_Info × GB_Matrix_opaque))
    (GB_wait : GB_Matrix_opaque → GrB_Info × GB_Matrix_opaque) (o : Oriented)
    (hdim : ¬ (GB_NROWS c ≠ (if d.A_transpose then GB_NCOLS a else GB_NROWS a)))
    (hwait : ∀ X, (GB_wait X).1 = GrB_Info.GrB_SUCCESS →
      (GB_wait X).2.vlen = X.vlen ∧ (GB_wait X).2.vdim = X.vdim
        ∧ (GB_wait X).2.is_csc = X.is_csc)
    (ho : GB_reduce_to_vector_orient c M a d GB_RETURN_IF_QUICK_MASK GB_wait = Except.ok o) :
    o.n = (if o.A_transpose then o.A.vdim else o.A.vlen)
      ∧ o.A_transpose = (if !a.is_csc then !d.A_transpose else d.A_transpose) := by
  unfold GB_reduce_to_vector_orient at ho
  cases hq : GB_RETURN_IF_QUICK_MASK c d.C_replace M d.Mask_comp with
  | some r =>
    rw [hq] at ho
    exact Except.noConfusion ho
  | none =>
    rw [hq] at ho
    simp only at ho
    split_ifs at ho with h1 h2 h3 <;>
    · have hA : (GB_wait a).1 = GrB_Info.GrB_SUCCESS := not_not.mp h2
      obtain ⟨w1, w2, w3⟩ := hwait a hA
      have ho2 := Except.ok.inj ho
      subst ho2
      have hd := not_not.mp hdim
      rw [w3] at h3
      simp only [w1, w2]
      rw [hd]
      simp only [GB_NROWS, GB_NCOLS]
      revert h3
      cases a.is_csc <;> cases d.A_transpose <;> simp

theorem GB_reduce_to_vector_orient_length_witness :
    ∃ o, GB_reduce_to_vector_orient vector3 none matrix_3x4_by_row
        { C_replace := false, Mask_comp := false, A_transpose := false }
        no_quick_mask wait_nothing = Except.ok o
      ∧ o.n = 3 ∧ o.A_transpose = true ∧ o.A.vdim = 3 := by
  obtain ⟨h1, -⟩ := GB_reduce_to_vector_orient_length vector3 none matrix_3x4_by_row
    { C_replace := false, Mask_comp := false, A_transpose := false }
    no_quick_mask wait_nothing
    { n := 3, A_transpose := true, M := none, A := matrix_3x4_by_row }
    (by decide) (fun _ _ => ⟨rfl, rfl, rfl⟩) rfl
  exact ⟨_, rfl, h1, rfl, rfl⟩

/-- C35: the division `anz / n` of the bucket method is executed with `n = 0`.  A
vector `C` of length 0 and a 0-by-3 matrix `A` without entries pass the
checks (the dimensions agree), `A_transpose` is false after line 131 and
`8 * anz < n` is false for `anz = 0`, `n = 0`: the bucket branch is reached
and divides by `n = 0`. -/
theorem GB_reduce_to_vector_bucket_divides_by_zero :
    GB_reduce_to_vector (some vector0) none none plus_7 (some matrix_0x3) none
        (descriptor_default false) (fun _ _ _ _ _ => GrB_Info.GrB_SUCCESS)
        (fun s t => decide (s = t)) compute_clear
      = (GrB_Info.GrB_SUCCESS, some (compute_clear vector0 none none plus_7 matrix_0x3
          (descriptor_default false none).2).2)
      ∧ GB_reduce_to_vector_orient vector0 none matrix_0x3
          (descriptor_default false none).2 no_quick_mask wait_nothing
        = Except.ok { n := 0, A_transpose := false, M := none, A := matrix_0x3 }
      ∧ ¬ (int64_wrap (8 * 0) < (0 : Int))
      ∧ GB_reduce_to_vector_method 0 0 4 false = Except.error Fault.division_by_zero := by
  refine ⟨by decide, rfl, by decide, rfl⟩

end Reduce

end GraphBLAS
